import Mathlib

/-!
# Navigation-mesh traverse-link pipeline: embedding and properties

A shallow embedding of the traverse-link generator of the navmesh editor
(`Editor.cpp`), of the polygon-reference codec of `dtNavMesh`
(`DetourNavMesh.h`), of the area and type accessors of `dtPoly`, of `dtDisjointSet`
(`DetourNavMeshBuilder.h`), of the side-code, ledge-offset, segment-intersection,
closest-point and random-point helpers (`SharedCommon.cpp`), of `rdNextPow2` and
`rdIlog2` (`SharedCommon.h`), of the single-tile build and removal of the tile editor
(`Editor_TileMesh.cpp`) and of the navmesh set file (`Editor::loadAll`,
`Editor::saveAll`).

Conventions of the embedding:

* 32-bit unsigned values are natural numbers; every operation that can leave the
  range reduces its result modulo `2 ^ 32`, and a shift by a run-time count takes the
  count modulo 32.
* `float` values are rationals: additions, multiplications and comparisons of the
  source are exact in the definitions that carry the source names, there is no
  rounding. Where a property depends on the rounding, a second definition with the
  suffix `rounded` writes the rounding of every operation, and `f32` is the rounding
  of binary32. The two quotients by `2.0f*a` in
  `rdIntersectSegmentCylinder`, which the source computes without a test of the
  divisor, are an infinity or NaN for a zero divisor; any other quotient with a zero
  divisor is 0.
* A file is the list of its bytes; an `int` or a `float` takes four of them, least
  significant first.
* C arrays are total functions from the index (or lists, where the source
  iterates over a fixed table).
* Functions, constants and tables that the sources under study call but do not
  define are fields of an environment record, or are modelled from the written
  specification where a definition says so.
-/

namespace NavSpec

/-! ## Part I. Definitions -/

/-! ### Machine integers -/

/-- Left shift `x << n` of a 32-bit unsigned value by a run-time count. For a count
below 32 this is the mathematical shift truncated to 32 bits. C++ leaves a count of
32 or more undefined; the shift instruction of the x86 targets of the program takes
the count modulo 32, which is the value here. -/
def shl32 (x n : Nat) : Nat := (x <<< (n % 32)) % 2 ^ 32

/-- Right shift `x >> n` of a 32-bit unsigned value by a run-time count, the count
taken modulo 32 as by `shl32`. -/
def shr32 (x n : Nat) : Nat := x >>> (n % 32)

/-- Subtraction of 32-bit unsigned values, wrapping around modulo `2 ^ 32`. -/
def sub32 (x y : Nat) : Nat := (x + (2 ^ 32 - y % 2 ^ 32)) % 2 ^ 32

/-! ### Vectors and the geometry helpers (`SharedCommon.h`, `SharedCommon.cpp`) -/

/-- A `float[3]` vector `(x, y, z)`; a `float[2]` vector is one with `z = 0`. -/
structure Vec3 where
  x : ℚ
  y : ℚ
  z : ℚ
deriving DecidableEq

/-- Source `rdVdot`. -/
def rdVdot (v1 v2 : Vec3) : ℚ := v1.x * v2.x + v1.y * v2.y + v1.z * v2.z

/-- Source `rdVdot2D`. -/
def rdVdot2D (u v : Vec3) : ℚ := u.x * v.x + u.y * v.y

/-- Source `rdVsub`: `v1 - v2`. -/
def rdVsub (v1 v2 : Vec3) : Vec3 := ⟨v1.x - v2.x, v1.y - v2.y, v1.z - v2.z⟩

/-- Source `rdVsad`: `(v1 + v2) * s`. -/
def rdVsad (v1 v2 : Vec3) (s : ℚ) : Vec3 := ⟨(v1.x + v2.x) * s, (v1.y + v2.y) * s, (v1.z + v2.z) * s⟩

/-- Source `rdClamp`. -/
def rdClamp (v mn mx : ℚ) : ℚ := if v < mn then mn else (if v > mx then mx else v)

/-! ### Tiles, polygons and links (`DetourNavMesh.h`) -/

/-- Source `DT_NULL_LINK`. -/
def DT_NULL_LINK : Nat := 0xffffffff

/-- Source `DT_UNLINKED_POLY_GROUP`. -/
def DT_UNLINKED_POLY_GROUP : Nat := 1

/-- Source `DT_NULL_TRAVERSE_REVERSE_LINK`. -/
def DT_NULL_TRAVERSE_REVERSE_LINK : Nat := 0xffff

/-- Source `dtLink`. -/
structure dtLink where
  ref : Nat
  next : Nat
  edge : Nat
  side : Nat
  bmin : Nat
  bmax : Nat
  traverseType : Nat
  traverseDist : Nat
  reverseLink : Nat
deriving DecidableEq

/-- Source `dtPoly`: the fields that the traverse-link generator reads or writes, and
the byte `areaAndtype` with the bit-packed area id and polygon type. -/
structure dtPoly where
  firstLink : Nat
  verts : Nat → Nat
  neis : Nat → Nat
  vertCount : Nat
  groupId : Nat
  areaAndtype : Nat

/-- Source `dtMeshHeader`: the fields that the traverse-link generator and the tile
builder read. -/
structure dtMeshHeader where
  x : Int
  y : Int
  polyCount : Nat
  maxLinkCount : Nat
  walkableRadius : ℚ
  bmin : Vec3
  bmax : Vec3
  offMeshConCount : Int := 0

/-- Source `dtMeshTile`: the fields that the traverse-link generator reads or writes,
and those that the tile builder and the navmesh set file use; `verts` holds one
vector per vertex, `offMeshCons` the end point `pos[3..5]` of every off-mesh
connection, `data` the bytes of the tile blob. A null `header` is `none`. -/
structure dtMeshTile where
  linksFreeList : Nat
  header : Option dtMeshHeader
  polys : Nat → dtPoly
  verts : Nat → Vec3
  links : Nat → dtLink
  offMeshCons : Nat → Vec3 := fun _ => ⟨0, 0, 0⟩
  data : Nat → Nat := fun _ => 0
  dataSize : Int := 0

/-- Modelled from the spec: `dtMeshTile::allocLink` is declared in `DetourNavMesh.h`
and defined outside the sources under study. The specification gives every tile
"link slots (with a free list)" from which a link is allocated, and `NULL_LINK` as the
terminator of link chains: the call takes the head of the free list, the list
continues at that slot's `next`, and an empty list yields `DT_NULL_LINK`. -/
def dtMeshTile.allocLink (t : dtMeshTile) : Nat × dtMeshTile :=
  if t.linksFreeList = DT_NULL_LINK then (DT_NULL_LINK, t)
  else (t.linksFreeList, { t with linksFreeList := (t.links t.linksFreeList).next })

/-- Walks `count` slots of a free list that starts at `link`. -/
def freeSlotsFrom (links : Nat → dtLink) : Nat → Nat → Bool
  | 0, _ => true
  | count + 1, link =>
    if link = DT_NULL_LINK then false else freeSlotsFrom links count (links link).next

/-- Modelled from the spec: `dtMeshTile::linkCountAvailable` is declared in
`DetourNavMesh.h` and defined outside the sources under study. The specification
uses it to "confirm both tiles have ≥ 2 free link slots (or ≥ 1 each ...)": the call
is true when the free list holds at least `count` slots. -/
def dtMeshTile.linkCountAvailable (t : dtMeshTile) (count : Nat) : Bool :=
  freeSlotsFrom t.links count t.linksFreeList

/-- Source `dtNavMeshParams` for `DT_NAVMESH_SET_VERSION 8`. The `float` members are kept
as their 32-bit patterns, which is what the navmesh set file stores. -/
structure dtNavMeshParams where
  orig : Nat × Nat × Nat
  tileWidth : Nat
  tileHeight : Nat
  maxTiles : Int
  maxPolys : Int
  polyGroupCount : Int
  traverseTableSize : Int
  traverseTableCount : Int
  magicDataCount : Int
deriving DecidableEq

/-- Source `dtNavMesh`: the bit widths of the polygon-reference codec, the tile array,
the initialisation parameters, the traverse tables (`m_traverseTables[i][k]`) and
the tile count. -/
structure dtNavMesh where
  m_saltBits : Nat
  m_tileBits : Nat
  m_polyBits : Nat
  m_maxTiles : Nat
  m_tiles : Nat → dtMeshTile
  m_params : dtNavMeshParams := ⟨(0, 0, 0), 0, 0, 0, 0, 0, 0, 0, 0⟩
  m_traverseTables : Nat → Nat → Int := fun _ _ => 0
  m_tileCount : Int := 0

/-- Modelled from the spec: `dtNavMesh::getMaxTiles` is declared in `DetourNavMesh.h`
("The maximum number of tiles supported by the navigation mesh") and defined outside
the sources under study; initialisation "fixes `maxTiles`", which is what it returns. -/
def dtNavMesh.getMaxTiles (nm : dtNavMesh) : Nat := nm.m_maxTiles

/-! ### Polygon references (`DetourNavMesh.h`, 32-bit `dtPolyRef`) -/

/-- Source `dtNavMesh::encodePolyId`, the branch without `DT_POLYREF64`. -/
def dtNavMesh.encodePolyId (nm : dtNavMesh) (salt it ip : Nat) : Nat :=
  shl32 salt (nm.m_polyBits + nm.m_tileBits) ||| shl32 it nm.m_polyBits ||| ip

/-- Source `dtNavMesh::decodePolyId`; the three output parameters are returned as a triple
`(salt, it, ip)`. -/
def dtNavMesh.decodePolyId (nm : dtNavMesh) (ref : Nat) : Nat × Nat × Nat :=
  let saltMask := sub32 (shl32 1 nm.m_saltBits) 1
  let tileMask := sub32 (shl32 1 nm.m_tileBits) 1
  let polyMask := sub32 (shl32 1 nm.m_polyBits) 1
  (shr32 ref (nm.m_polyBits + nm.m_tileBits) &&& saltMask,
   shr32 ref nm.m_polyBits &&& tileMask,
   ref &&& polyMask)

/-- Source `dtNavMesh::decodePolyIdSalt`. -/
def dtNavMesh.decodePolyIdSalt (nm : dtNavMesh) (ref : Nat) : Nat :=
  let saltMask := sub32 (shl32 1 nm.m_saltBits) 1
  shr32 ref (nm.m_polyBits + nm.m_tileBits) &&& saltMask

/-- Source `dtNavMesh::decodePolyIdTile`. -/
def dtNavMesh.decodePolyIdTile (nm : dtNavMesh) (ref : Nat) : Nat :=
  let tileMask := sub32 (shl32 1 nm.m_tileBits) 1
  shr32 ref nm.m_polyBits &&& tileMask

/-- Source `dtNavMesh::decodePolyIdPoly`. -/
def dtNavMesh.decodePolyIdPoly (nm : dtNavMesh) (ref : Nat) : Nat :=
  let polyMask := sub32 (shl32 1 nm.m_polyBits) 1
  ref &&& polyMask

/-! ### The traverse-type catalogue (`Editor.cpp`) -/

/-- Source `TraverseType_s`: one slot of the catalogue. -/
structure TraverseType_s where
  minElevation : ℚ
  maxElevation : ℚ
  minDist : Nat
  maxDist : Nat
  forceSamePolyGroup : Bool
  forceDifferentPolyGroup : Bool

/-- Source `NUM_TRAVERSE_TYPES`, the enumerator that follows `TRAVERSE_UNUSED_31`. -/
def NUM_TRAVERSE_TYPES : Nat := 32

/-- Source `DT_NULL_TRAVERSE_TYPE`. -/
def DT_NULL_TRAVERSE_TYPE : Nat := 0xff

/-- Source `INVALID_TRAVERSE_TYPE = DT_NULL_TRAVERSE_TYPE`. -/
def INVALID_TRAVERSE_TYPE : Nat := DT_NULL_TRAVERSE_TYPE

/-- Source `TRAVERSE_CLIMB_OBJECT_SMALL`. -/
def TRAVERSE_CLIMB_OBJECT_SMALL : Nat := 2

/-- Source `TRAVERSE_CLIMB_WALL_MEDIUM`. -/
def TRAVERSE_CLIMB_WALL_MEDIUM : Nat := 8

/-- Source `s_traverseTypes`, as the preprocessor leaves it for `DT_NAVMESH_SET_VERSION 8`
(slot 19 is the unused entry of the `> 5` branch, the `== 5` entry is absent). -/
def s_traverseTypes : List TraverseType_s :=
  [ ⟨0, 0, 0, 0, false, false⟩,
    ⟨0, 32, 2, 12, false, false⟩,
    ⟨32, 40, 5, 16, false, false⟩,
    ⟨0, 16, 11, 22, false, false⟩,
    ⟨0, 0, 0, 0, false, false⟩,
    ⟨0, 0, 0, 0, false, false⟩,
    ⟨0, 0, 0, 0, false, false⟩,
    ⟨0, 40, 80, 107, false, true⟩,
    ⟨40, 128, 7, 21, false, false⟩,
    ⟨128, 256, 16, 45, false, false⟩,
    ⟨256, 640, 33, 225, false, false⟩,
    ⟨0, 40, 41, 79, false, false⟩,
    ⟨128, 256, 41, 100, false, false⟩,
    ⟨256, 512, 81, 179, false, false⟩,
    ⟨0, 0, 0, 0, false, false⟩,
    ⟨0, 0, 0, 0, false, false⟩,
    ⟨0, 64, 22, 41, false, false⟩,
    ⟨512, 1024, 21, 58, false, false⟩,
    ⟨0, 0, 0, 0, false, false⟩,
    ⟨0, 0, 0, 0, false, false⟩,
    ⟨256, 640, 16, 40, false, false⟩,
    ⟨640, 1024, 33, 199, false, false⟩,
    ⟨0, 0, 0, 0, false, false⟩,
    ⟨0, 0, 0, 0, false, false⟩,
    ⟨0, 0, 0, 0, false, false⟩,
    ⟨0, 0, 0, 0, false, false⟩,
    ⟨0, 0, 0, 0, false, false⟩,
    ⟨0, 0, 0, 0, false, false⟩,
    ⟨0, 0, 0, 0, false, false⟩,
    ⟨0, 0, 0, 0, false, false⟩,
    ⟨0, 0, 0, 0, false, false⟩,
    ⟨0, 0, 0, 0, false, false⟩ ]

/-- The catalogue slot `s_traverseTypes[i]`. -/
def traverseSlot (i : Nat) : TraverseType_s :=
  s_traverseTypes.getD i ⟨0, 0, 0, 0, false, false⟩

/-- The loop of `GetBestTraverseType`: `scan e d g n` runs the iterations
`i = n - 1, ..., 0` and returns the first index that is not skipped, or
`INVALID_TRAVERSE_TYPE` when the loop runs to its end. -/
def GetBestTraverseType.scan (elevation : ℚ) (traverseDist : Nat) (samePolyGroup : Bool) :
    Nat → Nat
  | 0 => INVALID_TRAVERSE_TYPE
  | i + 1 =>
    let traverseType := traverseSlot i
    if traverseType.minElevation = 0 ∧ traverseType.maxElevation = 0 ∧
        traverseType.minDist = 0 ∧ traverseType.maxDist = 0 then
      GetBestTraverseType.scan elevation traverseDist samePolyGroup i
    else if elevation < traverseType.minElevation ∨ elevation > traverseType.maxElevation then
      GetBestTraverseType.scan elevation traverseDist samePolyGroup i
    else if traverseDist < traverseType.minDist ∨ traverseDist > traverseType.maxDist then
      GetBestTraverseType.scan elevation traverseDist samePolyGroup i
    else if (traverseType.forceSamePolyGroup && !samePolyGroup) ||
        (traverseType.forceDifferentPolyGroup && samePolyGroup) then
      GetBestTraverseType.scan elevation traverseDist samePolyGroup i
    else i

/-- Source `GetBestTraverseType`. -/
def GetBestTraverseType (elevation : ℚ) (traverseDist : Nat) (samePolyGroup : Bool) : Nat :=
  GetBestTraverseType.scan elevation traverseDist samePolyGroup NUM_TRAVERSE_TYPES

/-- A catalogue slot is in use when its four numeric fields are not all zero
(the wording of the specification; the code skips the other slots). -/
def slotInUse (t : TraverseType_s) : Prop :=
  ¬ (t.minElevation = 0 ∧ t.maxElevation = 0 ∧ t.minDist = 0 ∧ t.maxDist = 0)

/-- A slot admits a candidate when the elevation and the quantised distance lie in
the slot's closed ranges and the poly-group constraints of the slot are met
(the wording of the specification). -/
def slotAdmits (t : TraverseType_s) (elevation : ℚ) (traverseDist : Nat)
    (samePolyGroup : Bool) : Prop :=
  t.minElevation ≤ elevation ∧ elevation ≤ t.maxElevation ∧
  t.minDist ≤ traverseDist ∧ traverseDist ≤ t.maxDist ∧
  (t.forceSamePolyGroup = true → samePolyGroup = true) ∧
  (t.forceDifferentPolyGroup = true → samePolyGroup = false)

/-- Slot `i` of the catalogue is in use and admits the candidate. -/
def slotMatches (i : Nat) (elevation : ℚ) (traverseDist : Nat) (samePolyGroup : Bool) : Prop :=
  slotInUse (traverseSlot i) ∧ slotAdmits (traverseSlot i) elevation traverseDist samePolyGroup

/-! ### The environment of the traverse-link generator -/

/-- What the sources under study use without defining it: the input geometry, the
math library, constants of `SharedConst.h`, and the functions of `DetourNavMesh.cpp`
and of the game headers that the traverse-link generator calls. The two `dtNavMesh`
queries depend on the grid positions, salts and indices of the tiles, which
traverse-link generation never writes, so they are functions of their arguments
alone. -/
structure Env where
  /-- Source `InputGeom::raycastMesh(src, dst)`: true when the segment hits the geometry -/
  raycastMesh : Vec3 → Vec3 → Bool
  /-- The three-argument `rdCalcEdgeNormal2D(dir, inner, out)` called by `Editor.cpp` -/
  rdCalcEdgeNormal2D : Vec3 → Bool → Vec3
  /-- Single-precision `sqrtf` -/
  rdMathSqrtf : ℚ → ℚ
  /-- Single-precision `atan2f` -/
  rdMathAtan2f : ℚ → ℚ → ℚ
  /-- The constant `RD_PI` -/
  RD_PI : ℚ
  /-- The constant `RD_EPS` -/
  RD_EPS : ℚ
  /-- The constant `RD_BITS_PER_BIT_CELL` -/
  RD_BITS_PER_BIT_CELL : Nat
  /-- Source `dtCalcLinkDistance` -/
  dtCalcLinkDistance : Vec3 → Vec3 → ℚ
  /-- Source `dtQuantLinkDistance`, an `unsigned char` -/
  dtQuantLinkDistance : ℚ → Nat
  /-- Source `dtNavMesh::getNeighbourTilesAt(x, y, side, ...)`: the indices, in `m_tiles`, of
  the tiles written to the output array, in order -/
  getNeighbourTilesAt : Int → Int → Nat → List Nat
  /-- Source `dtNavMesh::getPolyRefBase` of the tile with the given index in `m_tiles` -/
  getPolyRefBase : Nat → Nat
  /-- Source `NavMesh_GetFirstTraverseAnimTypeForType` -/
  NavMesh_GetFirstTraverseAnimTypeForType : Nat → Nat
  /-- The enumerator `NAVMESH_SMALL` -/
  NAVMESH_SMALL : Nat
  /-- The value of the identifier `l` read at `Editor.cpp:967`, which no source
  under study declares -/
  l : Nat

/-- Source `rdRadToDeg`. -/
def rdRadToDeg (env : Env) (x : ℚ) : ℚ := x * (180 / env.RD_PI)

/-- Source `rdCalcSlopeAngle`. -/
def rdCalcSlopeAngle (env : Env) (v1 v2 : Vec3) : ℚ :=
  let deltaX := v2.x - v1.x
  let deltaY := v2.y - v1.y
  let deltaZ := v2.z - v1.z
  let horizontalDistance := env.rdMathSqrtf ((deltaX * deltaX) + (deltaY * deltaY))
  let slopeAngleRadians := env.rdMathAtan2f deltaZ horizontalDistance
  rdRadToDeg env slopeAngleRadians

/-- Source `rdCalcMaxLOSAngle`. -/
def rdCalcMaxLOSAngle (env : Env) (ledgeSpan objectHeight : ℚ) : ℚ :=
  let angleRad := env.rdMathAtan2f objectHeight ledgeSpan
  rdRadToDeg env angleRad

/-- Source `rdCalcLedgeSpanOffsetAmount`. -/
def rdCalcLedgeSpanOffsetAmount (ledgeSpan slopeAngle maxAngle : ℚ) : ℚ :=
  let clampedAngle := rdClamp slopeAngle slopeAngle maxAngle
  ledgeSpan * (clampedAngle / maxAngle)

/-- Source `rdClassifyPointOutsideBounds`; `XP = 1`, `YP = 2`, `XM = 4`, `YM = 8`. -/
def rdClassifyPointOutsideBounds (pt bmin bmax : Vec3) : Nat :=
  let outcode : Nat :=
    (if pt.x ≥ bmax.x then 4 else 0) ||| (if pt.y ≥ bmax.y then 2 else 0) |||
    (if pt.x < bmin.x then 1 else 0) ||| (if pt.y < bmin.y then 8 else 0)
  if outcode = 1 then 0
  else if outcode = 1 ||| 2 then 1
  else if outcode = 2 then 2
  else if outcode = 4 ||| 2 then 3
  else if outcode = 4 then 4
  else if outcode = 4 ||| 8 then 5
  else if outcode = 8 then 6
  else if outcode = 1 ||| 8 then 7
  else 0xff

/-- Source `rdClassifyPointInsideBounds`, every `float` operation read as the exact
operation on rationals and `rdMathSqrtf` left to the environment;
`rdClassifyPointInsideBounds.rounded` is the same computation with the rounding of
every operation. -/
def rdClassifyPointInsideBounds (env : Env) (pt bmin bmax : Vec3) : Nat :=
  let centerX := (bmin.x + bmax.x) * (1 / 2)
  let centerY := (bmin.y + bmax.y) * (1 / 2)
  let dirX := pt.x - centerX
  let dirY := pt.y - centerY
  let boxSizeX := bmax.x - bmin.x
  let boxSizeY := bmax.y - bmin.y
  let len := env.rdMathSqrtf (dirX * dirX + dirY * dirY)
  let dirX2 := if len > env.RD_EPS then dirX / len else dirX
  let dirY2 := if len > env.RD_EPS then dirY / len else dirY
  let newPt : Vec3 := ⟨centerX + dirX2 * boxSizeX, centerY + dirY2 * boxSizeY, 0⟩
  rdClassifyPointOutsideBounds newPt bmin bmax

/-- Source `rdBitCellBit`, as a 32-bit pattern. -/
def rdBitCellBit (env : Env) (i : Nat) : Nat :=
  shl32 1 (i &&& (env.RD_BITS_PER_BIT_CELL - 1))

/-! ### Line of sight of a traverse link (`Editor.cpp`) -/

/-- Source `polyEdgeFaceAgainst`. -/
def polyEdgeFaceAgainst (v1 v2 n1 n2 : Vec3) : Bool :=
  let delta : Vec3 := ⟨v2.x - v1.x, v2.y - v1.y, 0⟩
  decide (rdVdot2D delta n1 ≥ 0 ∧ rdVdot2D delta n2 < 0)

/-- Source `traverseLinkOffsetIntersectsGeom`. -/
def traverseLinkOffsetIntersectsGeom (env : Env) (basePos offsetPos : Vec3) : Bool :=
  if env.raycastMesh basePos offsetPos || env.raycastMesh offsetPos basePos then true
  else false

/-- The offset position computed by `traverseLinkInLOS` when `offsetAmount > 0`. -/
def offsetRayPos (highPos highNormal : Vec3) (offsetAmount : ℚ) : Vec3 :=
  ⟨highPos.x + highNormal.x * offsetAmount, highPos.y + highNormal.y * offsetAmount, highPos.z⟩

/-- Source `traverseLinkInLOS`. -/
def traverseLinkInLOS (env : Env) (lowPos highPos lowDir highDir : Vec3)
    (offsetAmount : ℚ) : Bool :=
  let lowNormal := env.rdCalcEdgeNormal2D lowDir false
  let highNormal := env.rdCalcEdgeNormal2D highDir false
  if !polyEdgeFaceAgainst lowPos highPos lowNormal highNormal then false
  else
    let hasOffset := decide (offsetAmount > 0)
    if hasOffset && traverseLinkOffsetIntersectsGeom env highPos
        (offsetRayPos highPos highNormal offsetAmount) then false
    else
      let targetRayPos :=
        if hasOffset then offsetRayPos highPos highNormal offsetAmount else highPos
      if env.raycastMesh targetRayPos lowPos || env.raycastMesh lowPos targetRayPos then false
      else true

/-! ### `dtDisjointSet` (`DetourNavMeshBuilder.h`) -/

/-- Source `dtDisjointSet`: the two `rdIntArray` members, each as its size and its contents.
Ids and parents are non-negative `int`s; ranks are `int`s, taken without overflow. -/
structure dtDisjointSet where
  rankSize : Nat
  rank : Nat → Int
  parentSize : Nat
  parent : Nat → Nat

/-- Source `dtDisjointSet::init` on a default-constructed set. `rdIntArray::resize` is not
among the sources under study: what it leaves in the new `rank` entries is the
parameter `fill` (all zero if it clears them). -/
def dtDisjointSet.init (size : Nat) (fill : Nat → Int) : dtDisjointSet :=
  { rankSize := size, rank := fill, parentSize := size, parent := fun i => i }

/-- Source `dtDisjointSet::insertNew`: the new id and the set after the two pushes. -/
def dtDisjointSet.insertNew (s : dtDisjointSet) : Nat × dtDisjointSet :=
  let newId := s.parentSize
  (newId,
   { rankSize := s.rankSize + 1, rank := Function.update s.rank s.rankSize 0,
     parentSize := s.parentSize + 1, parent := Function.update s.parent newId newId })

/-- Source `dtDisjointSet::find`, with its path compression: the returned root and the set
after the writes to the `mutable` parent array. The first argument bounds the depth
of the recursion; `none` means that the bound was reached. -/
def dtDisjointSet.find : Nat → dtDisjointSet → Nat → Option (Nat × dtDisjointSet)
  | 0, _, _ => none
  | fuel + 1, s, id =>
    if s.parent id ≠ id then
      match dtDisjointSet.find fuel s (s.parent id) with
      | none => none
      | some (r, s1) => some (r, { s1 with parent := Function.update s1.parent id r })
    else some (s.parent id, s)

/-- Source `dtDisjointSet::setUnion`; the first argument bounds the recursion of `find`. -/
def dtDisjointSet.setUnion (fuel : Nat) (s : dtDisjointSet) (x y : Nat) :
    Option dtDisjointSet :=
  match dtDisjointSet.find fuel s x with
  | none => none
  | some (sx, s1) =>
    match dtDisjointSet.find fuel s1 y with
    | none => none
    | some (sy, s2) =>
      if sx = sy then some s2
      else if s2.rank sx < s2.rank sy then
        some { s2 with parent := Function.update s2.parent sx sy }
      else if s2.rank sx > s2.rank sy then
        some { s2 with parent := Function.update s2.parent sy sx }
      else
        some { s2 with parent := Function.update s2.parent sy sx,
                       rank := Function.update s2.rank sx (s2.rank sx + 1) }

/-- Source `dtDisjointSet::getSetCount`. -/
def dtDisjointSet.getSetCount (s : dtDisjointSet) : Nat := s.parentSize

/-- The states of a `dtDisjointSet` that `init(n)` followed by calls of `setUnion`,
`insertNew` and `find` on valid ids can produce. -/
inductive dtDisjointSet.Reachable : dtDisjointSet → Prop
  | init (size : Nat) (fill : Nat → Int) : Reachable (dtDisjointSet.init size fill)
  | insertNew (s : dtDisjointSet) : Reachable s → Reachable s.insertNew.2
  | find (fuel : Nat) (s : dtDisjointSet) (id r : Nat) (s1 : dtDisjointSet) :
      Reachable s → id < s.parentSize → dtDisjointSet.find fuel s id = some (r, s1) →
      Reachable s1
  | setUnion (fuel : Nat) (s : dtDisjointSet) (x y : Nat) (s1 : dtDisjointSet) :
      Reachable s → x < s.parentSize → y < s.parentSize →
      dtDisjointSet.setUnion fuel s x y = some s1 → Reachable s1

/-- Two calls `find(a)`, `find(b)` made one after the other on the set return the same
value. -/
def dtDisjointSet.sameSet (fuel : Nat) (s : dtDisjointSet) (a b : Nat) : Prop :=
  ∃ r s1 s2, dtDisjointSet.find fuel s a = some (r, s1) ∧
    dtDisjointSet.find fuel s1 b = some (r, s2)

/-- Follows parent pointers from `i` for at most `k` steps, without writing. -/
def rootN (p : Nat → Nat) : Nat → Nat → Nat
  | 0, i => i
  | k + 1, i => if p i = i then i else rootN p k (p i)

/-- The representative of `i`: the root that the parent pointers lead to. -/
def dtDisjointSet.repr (s : dtDisjointSet) (i : Nat) : Nat := rootN s.parent s.parentSize i

/-- Number of ids whose rank is strictly above the rank of `i`. -/
def dtDisjointSet.above (s : dtDisjointSet) (i : Nat) : Nat :=
  ((Finset.range s.parentSize).filter (fun j => s.rank i < s.rank j)).card

/-- Well-formedness of a disjoint set: both arrays have the same size, parents are
valid ids, and every id that is not its own parent has a parent of strictly greater
rank. -/
def dtDisjointSet.WF (s : dtDisjointSet) : Prop :=
  s.rankSize = s.parentSize ∧
  ∀ i, i < s.parentSize → s.parent i < s.parentSize ∧
    (s.parent i ≠ i → s.rank i < s.rank (s.parent i))

/-- The set `t` is `s` after some path compression: same sizes and ranks, and every
parent pointer is the old one or points to the old representative. -/
def dtDisjointSet.Compresses (s t : dtDisjointSet) : Prop :=
  t.rankSize = s.rankSize ∧ t.parentSize = s.parentSize ∧ t.rank = s.rank ∧
  ∀ j, j < s.parentSize → t.parent j = s.parent j ∨ t.parent j = s.repr j

/-! ### The traverse-link generator (`Editor.cpp`, `Editor.h`) -/

/-- Source `s_traverseAnimTraverseFlags`, as the preprocessor leaves it for
`DT_NAVMESH_SET_VERSION 8`. The last two literals are written `0000003000` in the
source: a leading zero makes them octal, `3 * 8 ^ 3`. -/
def s_traverseAnimTraverseFlags : List Nat :=
  [ 0x0000013F, 0x0000013F, 0x0033DF7F, 0x0033FFFF, 0x0000013F, 0x00033F87, 0x00033F82,
    3 * 8 ^ 3, 3 * 8 ^ 3 ]

/-- Source `TraverseLinkPolyPair`. -/
structure TraverseLinkPolyPair where
  poly1 : Nat
  poly2 : Nat
deriving DecidableEq

/-- The constructor `TraverseLinkPolyPair(p1, p2)`. -/
def TraverseLinkPolyPair.make (p1 p2 : Nat) : TraverseLinkPolyPair :=
  if p1 > p2 then ⟨p2, p1⟩ else ⟨p1, p2⟩

/-- Source `TraverseLinkPolyPair::operator<`. -/
def TraverseLinkPolyPair.lt (a other : TraverseLinkPolyPair) : Bool :=
  if a.poly1 < other.poly1 then true
  else if a.poly1 > other.poly1 then false
  else decide (a.poly2 < other.poly2)

/-- Source `std::map<TraverseLinkPolyPair, unsigned int>::find`: the value stored under a key
equivalent to `key` (neither is less than the other), if there is one. The map is
the list of its entries. -/
def mapFind (m : List (TraverseLinkPolyPair × Nat)) (key : TraverseLinkPolyPair) :
    Option Nat :=
  (m.find? (fun e => !key.lt e.1 && !e.1.lt key)).map (fun e => e.2)

/-- The members of `Editor` that traverse-link generation reads or writes. -/
structure Editor where
  m_navMesh : dtNavMesh
  m_traverseLinkPolyMap : List (TraverseLinkPolyPair × Nat)
  m_selectedNavMeshType : Nat
  m_cellHeight : ℚ

/-- The tile `m_navMesh->m_tiles[t]` of an editor. -/
def Editor.tile (ed : Editor) (t : Nat) : dtMeshTile := ed.m_navMesh.m_tiles t

/-- Writes the tile with index `t`. -/
def Editor.setTile (ed : Editor) (t : Nat) (tile : dtMeshTile) : Editor :=
  { ed with m_navMesh :=
      { ed.m_navMesh with m_tiles := Function.update ed.m_navMesh.m_tiles t tile } }

/-- The header that `tile->header` points to; a tile without header is never passed
to `connectTileTraverseLinks` as base tile, and reading through its null pointer
yields this empty header here. -/
def dtMeshTile.hdr (t : dtMeshTile) : dtMeshHeader :=
  t.header.getD ⟨0, 0, 0, 0, 0, ⟨0, 0, 0⟩, ⟨0, 0, 0⟩, 0⟩

/-- The values that the body of the innermost loop of `connectTileTraverseLinks` has
computed when it reaches the two `allocLink` calls. -/
structure Candidate where
  traverseType : Nat
  quantDist : Nat
  landSide : Nat
  basePolyRef : Nat
  landPolyRef : Nat
deriving DecidableEq

/-- The tests of the innermost loop body of `connectTileTraverseLinks` between the
link-budget test and the `allocLink` calls, for base polygon `i`, base edge `j`, land
tile `lt`, land polygon `m` and land edge `n`: `none` when one of them executes
`continue`, the computed values otherwise. Nothing is written. The base edge values
that the source computes once per base edge are computed here from the same vertex
data, which the function never writes. -/
def qualify (env : Env) (ed : Editor) (linkToNeighbor : Bool) (b i j lt m n : Nat) :
    Option Candidate :=
  let baseTile := ed.tile b
  let landTile := ed.tile lt
  let baseHeader := baseTile.hdr
  let landHeader := landTile.hdr
  let basePoly := baseTile.polys i
  let landPoly := landTile.polys m
  let basePolySpos := baseTile.verts (basePoly.verts j)
  let basePolyEpos := baseTile.verts (basePoly.verts ((j + 1) % basePoly.vertCount))
  let basePolyEdgeMid := rdVsad basePolySpos basePolyEpos (1 / 2)
  let landPolySpos := landTile.verts (landPoly.verts n)
  let landPolyEpos := landTile.verts (landPoly.verts ((n + 1) % landPoly.vertCount))
  let landPolyEdgeMid := rdVsad landPolySpos landPolyEpos (1 / 2)
  let dist := env.dtCalcLinkDistance basePolyEdgeMid landPolyEdgeMid
  let quantDist := env.dtQuantLinkDistance dist % 256
  if quantDist = 0 then none
  else
    let baseEdgeDir := rdVsub basePolyEpos basePolySpos
    let landEdgeDir := rdVsub landPolyEpos landPolySpos
    let dotProduct := rdVdot baseEdgeDir landEdgeDir
    if dotProduct > 0 then none
    else
      let elevation := |basePolyEdgeMid.z - landPolyEdgeMid.z|
      let samePolyGroup := decide (basePoly.groupId = landPoly.groupId)
      let traverseType := GetBestTraverseType elevation quantDist samePolyGroup
      if traverseType = DT_NULL_TRAVERSE_TYPE then none
      else if ed.m_selectedNavMeshType > env.NAVMESH_SMALL ∧
          rdBitCellBit env traverseType &&&
            s_traverseAnimTraverseFlags.getD
              (env.NavMesh_GetFirstTraverseAnimTypeForType ed.m_selectedNavMeshType) 0 = 0 then
        none
      else
        let basePolyRef := (env.getPolyRefBase b ||| i) % 2 ^ 32
        let landPolyRef := (env.getPolyRefBase lt ||| env.l) % 2 ^ 32
        let linkedPolyPair := TraverseLinkPolyPair.make basePolyRef landPolyRef
        let linkedIt := mapFind ed.m_traverseLinkPolyMap linkedPolyPair
        if linkedIt.isSome ∧ rdBitCellBit env traverseType &&& linkedIt.getD 0 ≠ 0 then none
        else
          let basePolyHigher := decide (basePolyEdgeMid.z > landPolyEdgeMid.z)
          let lowerEdgeMid := if basePolyHigher then landPolyEdgeMid else basePolyEdgeMid
          let higherEdgeMid := if basePolyHigher then basePolyEdgeMid else landPolyEdgeMid
          let lowerEdgeDir := if basePolyHigher then landEdgeDir else baseEdgeDir
          let higherEdgeDir := if basePolyHigher then baseEdgeDir else landEdgeDir
          let walkableRadius :=
            if basePolyHigher then baseHeader.walkableRadius else landHeader.walkableRadius
          let slopeAngle := |rdCalcSlopeAngle env basePolyEdgeMid landPolyEdgeMid|
          let maxAngle := rdCalcMaxLOSAngle env walkableRadius ed.m_cellHeight
          let offsetAmount := rdCalcLedgeSpanOffsetAmount walkableRadius slopeAngle maxAngle
          if !traverseLinkInLOS env lowerEdgeMid higherEdgeMid lowerEdgeDir higherEdgeDir
              offsetAmount then none
          else
            let landSide :=
              if linkToNeighbor then
                rdClassifyPointOutsideBounds landPolyEdgeMid landHeader.bmin landHeader.bmax
              else
                rdClassifyPointInsideBounds env landPolyEdgeMid landHeader.bmin landHeader.bmax
            some ⟨traverseType, quantDist, landSide, basePolyRef, landPolyRef⟩

/-- Source `baseSide` of base edge `j` of base polygon `i`: the side code of the edge
mid-point inside the bounds of the base tile. -/
def baseSideOf (env : Env) (ed : Editor) (b i j : Nat) : Nat :=
  let baseTile := ed.tile b
  let basePoly := baseTile.polys i
  let basePolySpos := baseTile.verts (basePoly.verts j)
  let basePolyEpos := baseTile.verts (basePoly.verts ((j + 1) % basePoly.vertCount))
  let basePolyEdgeMid := rdVsad basePolySpos basePolyEpos (1 / 2)
  rdClassifyPointInsideBounds env basePolyEdgeMid baseTile.hdr.bmin baseTile.hdr.bmax

/-- One installed pair of links, recorded in the trace of `connectTileTraverseLinks`
(the trace is not program state): the place in the loops, the two slot indices
returned by `allocLink`, the computed values, and the editor as it was just before
the two `allocLink` calls. -/
structure InstalledPair where
  baseTile : Nat
  landTile : Nat
  basePoly : Nat
  baseEdge : Nat
  landPoly : Nat
  landEdge : Nat
  forwardIdx : Nat
  reverseIdx : Nat
  baseSide : Nat
  cand : Candidate
  before : Editor

/-- The state threaded through the loops of `connectTileTraverseLinks`: the editor,
the two local flags, and the trace of installed pairs. -/
structure ConnectState where
  editor : Editor
  firstBaseTileLinkUsed : Bool
  firstLandTileLinkUsed : Bool
  installed : List InstalledPair

/-- The tail of the innermost loop body of `connectTileTraverseLinks`, from the two
`allocLink` calls to the last write of the reverse link. The casts to
`unsigned char` and `unsigned short` reduce modulo 256 and 65536. -/
def installLinkPair (b i j lt m n baseSide : Nat) (c : Candidate) (s : ConnectState) :
    ConnectState :=
  let ed0 := s.editor
  let forwardIdx := (ed0.tile b).allocLink.1
  let ed1 := ed0.setTile b (ed0.tile b).allocLink.2
  let reverseIdx := (ed1.tile lt).allocLink.1
  let ed2 := ed1.setTile lt (ed1.tile lt).allocLink.2
  let baseTile2 := ed2.tile b
  let basePoly := baseTile2.polys i
  let forwardLink : dtLink :=
    { ref := c.landPolyRef, edge := j % 256, side := c.landSide, bmin := 0, bmax := 255,
      next := basePoly.firstLink, traverseType := c.traverseType % 256,
      traverseDist := c.quantDist, reverseLink := reverseIdx % 65536 }
  let baseTile3 : dtMeshTile :=
    { baseTile2 with
      links := Function.update baseTile2.links forwardIdx forwardLink,
      polys := Function.update baseTile2.polys i { basePoly with firstLink := forwardIdx } }
  let ed3 := ed2.setTile b baseTile3
  let landTile3 := ed3.tile lt
  let landPoly := landTile3.polys m
  let reverseLink : dtLink :=
    { ref := c.basePolyRef, edge := m % 256, side := baseSide, bmin := 0, bmax := 255,
      next := landPoly.firstLink, traverseType := c.traverseType % 256,
      traverseDist := c.quantDist, reverseLink := forwardIdx % 65536 }
  let landTile4 : dtMeshTile :=
    { landTile3 with
      links := Function.update landTile3.links reverseIdx reverseLink,
      polys := Function.update landTile3.polys m { landPoly with firstLink := reverseIdx } }
  let ed4 := ed3.setTile lt landTile4
  { editor := ed4, firstBaseTileLinkUsed := true, firstLandTileLinkUsed := true,
    installed := s.installed ++
      [⟨b, lt, i, j, m, n, forwardIdx, reverseIdx, baseSide, c, ed0⟩] }

/-- Outcome of a loop body: fall through to the next iteration (`continue` or the end
of the body), or leave the function (`return`). -/
inductive Flow (σ : Type) where
  | next : σ → Flow σ
  | exit : σ → Flow σ

/-- The state carried by an outcome. -/
def Flow.state {σ : Type} : Flow σ → σ
  | .next s => s
  | .exit s => s

/-- A `for` loop over the given indices whose body may leave the function. -/
def forLoop {σ : Type} (body : Nat → σ → Flow σ) : List Nat → σ → Flow σ
  | [], s => .next s
  | k :: ks, s =>
    match body k s with
    | .next s1 => forLoop body ks s1
    | .exit s1 => .exit s1

/-- Outcome of the link-budget test at the head of the innermost loop body. -/
inductive Budget where
  | skip
  | stop
  | go
deriving DecidableEq

/-- The link-budget test of the innermost loop body: `skip` is `continue`, `stop` is
`return`. -/
def linkBudget (linkToNeighbor : Bool) (baseTile landTile : dtMeshTile)
    (firstBaseTileLinkUsed firstLandTileLinkUsed : Bool) : Budget :=
  if linkToNeighbor then
    if firstLandTileLinkUsed && !landTile.linkCountAvailable 1 then .skip
    else if firstBaseTileLinkUsed && !baseTile.linkCountAvailable 1 then .stop
    else .go
  else if firstBaseTileLinkUsed && !baseTile.linkCountAvailable 2 then .stop
  else .go

/-- Body of the loop over the edges `n` of land polygon `m`. -/
def landEdgeStep (env : Env) (linkToNeighbor : Bool) (b i j baseSide lt m n : Nat)
    (s : ConnectState) : Flow ConnectState :=
  if ((s.editor.tile lt).polys m).neis n ≠ 0 then .next s
  else
    match linkBudget linkToNeighbor (s.editor.tile b) (s.editor.tile lt)
        s.firstBaseTileLinkUsed s.firstLandTileLinkUsed with
    | .skip => .next s
    | .stop => .exit s
    | .go =>
      match qualify env s.editor linkToNeighbor b i j lt m n with
      | none => .next s
      | some c => .next (installLinkPair b i j lt m n baseSide c s)

/-- Body of the loop over the polygons `m` of the land tile. -/
def landPolyStep (env : Env) (linkToNeighbor : Bool) (b i j baseSide lt m : Nat)
    (s : ConnectState) : Flow ConnectState :=
  if ((s.editor.tile lt).polys m).groupId = DT_UNLINKED_POLY_GROUP then .next s
  else
    forLoop (landEdgeStep env linkToNeighbor b i j baseSide lt m)
      (List.range ((s.editor.tile lt).polys m).vertCount) s

/-- Body of the loop over the neighbour tiles `neis[k]`. -/
def landTileStep (env : Env) (linkToNeighbor : Bool) (b i j baseSide : Nat)
    (neis : List Nat) (k : Nat) (s : ConnectState) : Flow ConnectState :=
  let lt := neis.getD k 0
  let sameTile := decide (b = lt)
  if linkToNeighbor && sameTile then .next s
  else if sameTile && decide (i = k) then .next s
  else if !(s.editor.tile lt).linkCountAvailable 1 then .next s
  else
    forLoop (landPolyStep env linkToNeighbor b i j baseSide lt)
      (List.range (s.editor.tile lt).hdr.polyCount)
      { s with firstLandTileLinkUsed := false }

/-- The local constant `MAX_NEIS` of `connectTileTraverseLinks`. -/
def MAX_NEIS : Nat := 32

/-- Body of the loop over the edges `j` of base polygon `i`. -/
def baseEdgeStep (env : Env) (linkToNeighbor : Bool) (b i j : Nat)
    (s : ConnectState) : Flow ConnectState :=
  if ((s.editor.tile b).polys i).neis j ≠ 0 then .next s
  else
    let baseSide := baseSideOf env s.editor b i j
    let neis :=
      if linkToNeighbor then
        (env.getNeighbourTilesAt (s.editor.tile b).hdr.x (s.editor.tile b).hdr.y
          baseSide).take MAX_NEIS
      else [b]
    forLoop (landTileStep env linkToNeighbor b i j baseSide neis) (List.range neis.length) s

/-- Body of the loop over the polygons `i` of the base tile. -/
def basePolyStep (env : Env) (linkToNeighbor : Bool) (b i : Nat)
    (s : ConnectState) : Flow ConnectState :=
  if ((s.editor.tile b).polys i).groupId = DT_UNLINKED_POLY_GROUP then .next s
  else
    forLoop (baseEdgeStep env linkToNeighbor b i)
      (List.range ((s.editor.tile b).polys i).vertCount) s

/-- Source `Editor::connectTileTraverseLinks` on the tile with index `b`: the editor after
the call, with the trace of the installed pairs. -/
def connectTileTraverseLinks (env : Env) (ed : Editor) (b : Nat) (linkToNeighbor : Bool) :
    ConnectState :=
  let s0 : ConnectState :=
    { editor := ed, firstBaseTileLinkUsed := false, firstLandTileLinkUsed := false,
      installed := [] }
  if !(ed.tile b).linkCountAvailable (if linkToNeighbor then 1 else 2) then s0
  else
    (forLoop (basePolyStep env linkToNeighbor b) (List.range (ed.tile b).hdr.polyCount)
      s0).state

/-- One pass of `Editor::createTraverseLinks` over the tiles with the given indices:
the editor after the pass and the pairs installed by it. -/
def traversePass (env : Env) (linkToNeighbor : Bool) :
    List Nat → Editor × List InstalledPair → Editor × List InstalledPair
  | [], r => r
  | i :: is, (ed, tr) =>
    if (ed.tile i).header.isNone then traversePass env linkToNeighbor is (ed, tr)
    else
      let s := connectTileTraverseLinks env ed i linkToNeighbor
      traversePass env linkToNeighbor is (s.editor, tr ++ s.installed)

/-- Source `Editor::createTraverseLinks`: the editor after the call and the trace of all
installed pairs. `getTile(i)` is never null for `i < maxTiles`. -/
def createTraverseLinks (env : Env) (ed : Editor) : Editor × List InstalledPair :=
  let ed0 := { ed with m_traverseLinkPolyMap := [] }
  let maxTiles := ed0.m_navMesh.getMaxTiles
  let r1 := traversePass env true (List.range maxTiles) (ed0, [])
  traversePass env false (List.range maxTiles) r1


/-- Both `allocLink` calls of an installed pair succeeded: the recorded indices are
what the two calls return on the editor as it was before them, neither is
`DT_NULL_LINK`, and at that point the base tile and the land tile each had a free
slot when they are different tiles, and the tile had two free slots when they are
the same tile. -/
def InstalledPair.allocsSucceeded (e : InstalledPair) : Prop :=
  e.forwardIdx = (e.before.tile e.baseTile).allocLink.1 ∧
  e.reverseIdx =
    ((e.before.setTile e.baseTile (e.before.tile e.baseTile).allocLink.2).tile
      e.landTile).allocLink.1 ∧
  e.forwardIdx ≠ DT_NULL_LINK ∧ e.reverseIdx ≠ DT_NULL_LINK ∧
  (e.baseTile ≠ e.landTile →
    (e.before.tile e.baseTile).linkCountAvailable 1 = true ∧
    (e.before.tile e.landTile).linkCountAvailable 1 = true) ∧
  (e.baseTile = e.landTile → (e.before.tile e.baseTile).linkCountAvailable 2 = true)

/-- What `connectTileTraverseLinks` writes to the forward link of a pair, the `next`
field apart. -/
def InstalledPair.forwardFields (e : InstalledPair) (l : dtLink) : Prop :=
  l.ref = e.cand.landPolyRef ∧ l.edge = e.baseEdge % 256 ∧ l.side = e.cand.landSide ∧
  l.bmin = 0 ∧ l.bmax = 255 ∧ l.traverseType = e.cand.traverseType % 256 ∧
  l.traverseDist = e.cand.quantDist ∧ l.reverseLink = e.reverseIdx % 65536

/-- What `connectTileTraverseLinks` writes to the reverse link of a pair, the `next`
field apart. -/
def InstalledPair.reverseFields (e : InstalledPair) (l : dtLink) : Prop :=
  l.ref = e.cand.basePolyRef ∧ l.edge = e.landPoly % 256 ∧ l.side = e.baseSide ∧
  l.bmin = 0 ∧ l.bmax = 255 ∧ l.traverseType = e.cand.traverseType % 256 ∧
  l.traverseDist = e.cand.quantDist ∧ l.reverseLink = e.forwardIdx % 65536

/-- The free list that starts at `head` runs through exactly the slots of the list
and ends with `DT_NULL_LINK`. -/
def FreeChain (links : Nat → dtLink) : Nat → List Nat → Prop
  | head, [] => head = DT_NULL_LINK
  | head, x :: xs => head = x ∧ x ≠ DT_NULL_LINK ∧ FreeChain links (links x).next xs

/-- The free list of the tile is well formed: it runs through the slots of `c`, no
slot occurs twice, and every slot index satisfies `P`. -/
def dtMeshTile.FreeListIs (t : dtMeshTile) (P : Nat → Prop) (c : List Nat) : Prop :=
  FreeChain t.links t.linksFreeList c ∧ c.Nodup ∧ ∀ x, x ∈ c → P x

/-- The record of an installed pair agrees with the editor: both slots satisfy `P`,
neither is in the free list of its tile, and the two links hold what was written. -/
def InstalledPair.InPlace (e : InstalledPair) (P : Nat → Prop) (chains : Nat → List Nat)
    (ed : Editor) : Prop :=
  P e.forwardIdx ∧ P e.reverseIdx ∧
  e.forwardIdx ∉ chains e.baseTile ∧ e.reverseIdx ∉ chains e.landTile ∧
  e.forwardFields ((ed.tile e.baseTile).links e.forwardIdx) ∧
  e.reverseFields ((ed.tile e.landTile).links e.reverseIdx)

/-- The recorded pair was installed for base tile `b` after the candidate tests
accepted it: on the editor as it was before the installation, the land edge is hard
and `qualify` returns the recorded values. -/
def InstalledPair.Qualified (e : InstalledPair) (env : Env) (linkToNeighbor : Bool)
    (b : Nat) : Prop :=
  e.baseTile = b ∧
  ((e.before.tile e.landTile).polys e.landPoly).neis e.landEdge = 0 ∧
  qualify env e.before linkToNeighbor e.baseTile e.basePoly e.baseEdge e.landTile e.landPoly
    e.landEdge = some e.cand

/-- Decision procedure for `FreeChain`. -/
instance decFreeChain (links : Nat → dtLink) :
    ∀ (c : List Nat) (head : Nat), Decidable (FreeChain links head c)
  | [], head => inferInstanceAs (Decidable (head = DT_NULL_LINK))
  | x :: xs, _ =>
    @instDecidableAnd _ _ _ (@instDecidableAnd _ _ _ (decFreeChain links xs (links x).next))

/-! ### Concrete data used by the witnesses -/

/-- A tile without header, polygons or free link slots. -/
def emptyTile : dtMeshTile :=
  { linksFreeList := DT_NULL_LINK, header := none,
    polys := fun _ => ⟨DT_NULL_LINK, fun _ => 0, fun _ => 0, 0, 0, 0⟩,
    verts := fun _ => ⟨0, 0, 0⟩,
    links := fun _ => ⟨0, DT_NULL_LINK, 0, 0, 0, 0, 0, 0, 0⟩ }

/-- A navmesh with 10 salt bits, 12 tile bits and 10 polygon bits, and no tile. -/
def exampleNavMesh : dtNavMesh :=
  { m_saltBits := 10, m_tileBits := 12, m_polyBits := 10, m_maxTiles := 4096,
    m_tiles := fun _ => emptyTile }

/-- A navmesh with the bit layout 32 + 0 + 0: all 32 bits of a reference are salt. -/
def saltOnlyNavMesh : dtNavMesh :=
  { m_saltBits := 32, m_tileBits := 0, m_polyBits := 0, m_maxTiles := 1,
    m_tiles := fun _ => emptyTile }

/-- Square root by bisection on `[lo, hi]`, to the precision of the step count. -/
def sqrtBisect (x : ℚ) : Nat → ℚ → ℚ → ℚ
  | 0, lo, _ => lo
  | k + 1, lo, hi =>
    if ((lo + hi) / 2) * ((lo + hi) / 2) ≤ x then sqrtBisect x k ((lo + hi) / 2) hi
    else sqrtBisect x k lo ((lo + hi) / 2)

/-- A square root for the example environment: exact on the perfect squares that
occur, within `4096 / 2 ^ 24` of the root otherwise. -/
def exampleSqrt (x : ℚ) : ℚ := sqrtBisect x 24 0 4096

/-- An environment for the examples: geometry that no ray hits, edge normals
`(dir.y, -dir.x)` (negated for inner normals) scaled to unit length, distances
quantised as `round (distance / 10)` with 0 beyond 2550, no neighbour tiles, polygon
reference bases with salt 1 in a 10 + 12 + 10 bit layout, and `atan2f` given on the
arguments that occur (`atan2f(0, x) = 0`, `atan2f(x, x) = RD_PI / 4`). -/
def exampleEnv : Env :=
  { raycastMesh := fun _ _ => false
    rdCalcEdgeNormal2D := fun dir inner =>
      let len := exampleSqrt (dir.x * dir.x + dir.y * dir.y)
      if inner then ⟨-dir.y / len, dir.x / len, 0⟩ else ⟨dir.y / len, -dir.x / len, 0⟩
    rdMathSqrtf := exampleSqrt
    rdMathAtan2f := fun y x => if y = 0 then 0 else if y = x then 355 / 452 else 1
    RD_PI := 355 / 113
    RD_EPS := 1 / 1000000
    RD_BITS_PER_BIT_CELL := 32
    dtCalcLinkDistance := fun a b =>
      exampleSqrt ((a.x - b.x) * (a.x - b.x) + (a.y - b.y) * (a.y - b.y)
        + (a.z - b.z) * (a.z - b.z))
    dtQuantLinkDistance := fun d => if d > 2550 then 0 else (Rat.floor (d / 10 + 1 / 2)).toNat
    getNeighbourTilesAt := fun _ _ _ => []
    getPolyRefBase := fun t => exampleNavMesh.encodePolyId 1 t 0
    NavMesh_GetFirstTraverseAnimTypeForType := fun _ => 0
    NAVMESH_SMALL := 0
    l := 0 }

/-- Vertices of the example tile: the quad `Q = [30, 40] x [0, 10]` (vertices 0..3) and
the pentagon `P = [0, 10] x [0, 10]` with a vertex in the middle of its right side
(vertices 4..8), both at height 0 and counter-clockwise. -/
def gapTileVerts : Nat → Vec3 := fun v =>
  [ (⟨30, 0, 0⟩ : Vec3), ⟨40, 0, 0⟩, ⟨40, 10, 0⟩, ⟨30, 10, 0⟩,
    ⟨0, 0, 0⟩, ⟨10, 0, 0⟩, ⟨10, 5, 0⟩, ⟨10, 10, 0⟩, ⟨0, 10, 0⟩ ].getD v ⟨0, 0, 0⟩

/-- Polygons of the example tile: polygon 0 is `Q`, polygon 1 is `P`; all their edges
are hard, their poly groups are 2 and 3, and they have no links yet. -/
def gapTilePolys : Nat → dtPoly := fun p =>
  if p = 0 then ⟨DT_NULL_LINK, fun k => k, fun _ => 0, 4, 2, 0⟩
  else if p = 1 then ⟨DT_NULL_LINK, fun k => 4 + k, fun _ => 0, 5, 3, 0⟩
  else ⟨DT_NULL_LINK, fun _ => 0, fun _ => 0, 0, 0, 0⟩

/-- The example tile, with a link array whose free list runs through the slots
`first, first + 1, ..., first + count - 1`. -/
def gapTile (first count : Nat) : dtMeshTile :=
  { linksFreeList := if count = 0 then DT_NULL_LINK else first
    header := some ⟨0, 0, 2, first + count, 16, ⟨0, 0, 0⟩, ⟨40, 10, 0⟩, 0⟩
    polys := gapTilePolys
    verts := gapTileVerts
    links := fun k =>
      ⟨0, if k + 1 < first + count then k + 1 else DT_NULL_LINK, 0, 0, 0, 0, 0xff, 0, 0xffff⟩ }

/-- An editor on a small navmesh whose only tile is the example tile, with an empty
traverse-link pair map. -/
def gapEditor (first count : Nat) : Editor :=
  { m_navMesh :=
      { m_saltBits := 10, m_tileBits := 12, m_polyBits := 10, m_maxTiles := 1,
        m_tiles := fun t => if t = 0 then gapTile first count else emptyTile }
    m_traverseLinkPolyMap := []
    m_selectedNavMeshType := 0
    m_cellHeight := 16 }

/-- The free slots of the tiles of `gapEditor first count`. -/
def gapChains (first count : Nat) : Nat → List Nat := fun t =>
  if t = 0 then (List.range count).map (fun k => first + k) else []

/-! ### Point containment and segment intersection (`SharedCommon.h`, `SharedCommon.cpp`) -/

/-- Source `rdMin`. -/
def rdMin (a b : ℚ) : ℚ := if a < b then a else b

/-- Source `rdMax`. -/
def rdMax (a b : ℚ) : ℚ := if a > b then a else b

/-- Source `rdVperp2D`. -/
def rdVperp2D (u v : Vec3) : ℚ := u.x * v.y - u.y * v.x

/-- The component `v[i]` of a `float[3]` vector. -/
def Vec3.get (v : Vec3) (i : Nat) : ℚ := if i = 0 then v.x else if i = 1 then v.y else v.z

/-- Source `rdPointInAABB`. -/
def rdPointInAABB (pt bmin bmax : Vec3) : Bool :=
  if pt.x ≥ bmin.x ∧ pt.x ≤ bmax.x ∧ pt.y ≥ bmin.y ∧ pt.y ≤ bmax.y ∧
      pt.z ≥ bmin.z ∧ pt.z ≤ bmax.z then true
  else false

/-- Source `rdPointInCylinder`. -/
def rdPointInCylinder (pt pos : Vec3) (radius height : ℚ) : Bool :=
  let dx := pt.x - pos.x
  let dy := pt.y - pos.y
  let distSquared := dx * dx + dy * dy
  if distSquared ≤ radius * radius ∧ pt.z ≥ pos.z ∧ pt.z ≤ pos.z + height then true
  else false

/-- The parameters and edge indices that `rdIntersectSegmentPoly2D` reports. -/
structure SegHit where
  tmin : ℚ
  tmax : ℚ
  segMin : Int
  segMax : Int
deriving DecidableEq

/-- Body of the loop of `rdIntersectSegmentPoly2D` for vertex `i`; `j` is the vertex
before `i`, the last one for `i = 0`. Leaving the function (`Flow.exit`) is
`return false`. The local `EPS` is `0.000001f`. -/
def rdIntersectSegmentPoly2D.step (p0 dir : Vec3) (verts : Nat → Vec3) (nverts i : Nat)
    (s : SegHit) : Flow SegHit :=
  let j := if i = 0 then nverts - 1 else i - 1
  let edge := rdVsub (verts i) (verts j)
  let diff := rdVsub p0 (verts j)
  let n := rdVperp2D edge diff
  let d := rdVperp2D dir edge
  if |d| < 1 / 1000000 then
    if n < 0 then .exit s else .next s
  else
    let t := n / d
    if d < 0 then
      if t > s.tmin then
        if t > s.tmax then .exit { s with tmin := t, segMin := j }
        else .next { s with tmin := t, segMin := j }
      else .next s
    else
      if t < s.tmax then
        if t < s.tmin then .exit { s with tmax := t, segMax := j }
        else .next { s with tmax := t, segMax := j }
      else .next s

/-- Source `rdIntersectSegmentPoly2D`: the returned flag and the values left in the
four output parameters. -/
def rdIntersectSegmentPoly2D (p0 p1 : Vec3) (verts : Nat → Vec3) (nverts : Nat) :
    Bool × SegHit :=
  let dir := rdVsub p1 p0
  match forLoop (rdIntersectSegmentPoly2D.step p0 dir verts nverts) (List.range nverts)
      ⟨0, 1, -1, -1⟩ with
  | .next s => (true, s)
  | .exit s => (false, s)

/-- Body of the loop of `rdIntersectSegmentAABB` for slab `i`; the state is
`(tmin, tmax)`. The division by `d[i]` is reached only when `|d[i]| ≥ RD_EPS`. -/
def rdIntersectSegmentAABB.step (env : Env) (sp d amin amax : Vec3) (i : Nat)
    (s : ℚ × ℚ) : Flow (ℚ × ℚ) :=
  if |d.get i| < env.RD_EPS then
    if sp.get i < amin.get i ∨ sp.get i > amax.get i then .exit s else .next s
  else
    let ood := 1 / d.get i
    let t1 := (amin.get i - sp.get i) * ood
    let t2 := (amax.get i - sp.get i) * ood
    let t1s := if t1 > t2 then t2 else t1
    let t2s := if t1 > t2 then t1 else t2
    let tmin := if t1s > s.1 then t1s else s.1
    let tmax := if t2s < s.2 then t2s else s.2
    if tmin > tmax then .exit (tmin, tmax) else .next (tmin, tmax)

/-- Source `rdIntersectSegmentAABB`: the returned flag, `tmin` and `tmax`. -/
def rdIntersectSegmentAABB (env : Env) (sp sq amin amax : Vec3) : Bool × ℚ × ℚ :=
  let d := rdVsub sq sp
  match forLoop (rdIntersectSegmentAABB.step env sp d amin amax) (List.range 3) (0, 1) with
  | .next s => (true, s)
  | .exit s => (false, s)

/-- A `float` that may be the result of a division by zero: a number, an infinity
or NaN. `rdIntersectSegmentCylinder` divides without a test of the divisor. -/
inductive Flt where
  | num : ℚ → Flt
  | pinf : Flt
  | ninf : Flt
  | nan : Flt
deriving DecidableEq

/-- The comparison `a < b` of two `float` values: false when either is NaN. -/
def Flt.lt : Flt → Flt → Bool
  | .nan, _ => false
  | _, .nan => false
  | .num a, .num b => decide (a < b)
  | .num _, .pinf => true
  | .num _, .ninf => false
  | .ninf, .ninf => false
  | .ninf, _ => true
  | .pinf, _ => false

/-- The quotient `x / y` of two numbers where a zero divisor is `+0`, as the
sum of two squares is: a non-zero number over zero is an infinity of its sign, and
zero over zero is NaN. -/
def Flt.div (x y : ℚ) : Flt :=
  if y ≠ 0 then .num (x / y)
  else if x > 0 then .pinf
  else if x < 0 then .ninf
  else .nan

/-- The product `t * q` of a `float` with a number. -/
def Flt.mul : Flt → ℚ → Flt
  | .num a, q => .num (a * q)
  | .pinf, q => if q > 0 then .pinf else if q < 0 then .ninf else .nan
  | .ninf, q => if q > 0 then .ninf else if q < 0 then .pinf else .nan
  | .nan, _ => .nan

/-- The sum `q + t` of a number with a `float`. -/
def Flt.add (q : ℚ) : Flt → Flt
  | .num a => .num (q + a)
  | .pinf => .pinf
  | .ninf => .ninf
  | .nan => .nan

/-- Source `rdMin` on `float` values that may be infinite or NaN. -/
def Flt.rdMin (a b : Flt) : Flt := if a.lt b then a else b

/-- Source `rdMax` on `float` values that may be infinite or NaN. -/
def Flt.rdMax (a b : Flt) : Flt := if b.lt a then a else b

/-- Source `rdIntersectSegmentCylinder`: the returned flag, `tmin` and `tmax`. The
two roots are quotients by `2.0f*a`, which is zero for a vertical segment. -/
def rdIntersectSegmentCylinder (env : Env) (sp sq position : Vec3) (radius height : ℚ) :
    Bool × Flt × Flt :=
  let tmin : Flt := .num 0
  let tmax : Flt := .num 1
  let cx := position.x
  let cy := position.y
  let cz := position.z
  let topZ := cz + height
  let dx := sq.x - sp.x
  let dy := sq.y - sp.y
  let px := sp.x - cx
  let py := sp.y - cy
  let a := dx * dx + dy * dy
  let b := 2 * (px * dx + py * dy)
  let c := px * px + py * py - radius * radius
  let disc := b * b - 4 * a * c
  if disc < 0 then (false, tmin, tmax)
  else
    let disc2 := env.rdMathSqrtf disc
    let t0 := Flt.div (-b - disc2) (2 * a)
    let t1 := Flt.div (-b + disc2) (2 * a)
    let t0s := if t1.lt t0 then t1 else t0
    let t1s := if t1.lt t0 then t0 else t1
    let tmin1 := Flt.rdMax tmin t0s
    let tmax1 := Flt.rdMin tmax t1s
    if tmax1.lt tmin1 then (false, tmin1, tmax1)
    else
      let dz := sq.z - sp.z
      let tCapMin := (cz - sp.z) / dz
      let tCapMax := (topZ - sp.z) / dz
      let tCapMinS := if tCapMin > tCapMax then tCapMax else tCapMin
      let tCapMaxS := if tCapMin > tCapMax then tCapMin else tCapMax
      let tmin2 := if dz ≠ 0 then Flt.rdMax tmin1 (.num tCapMinS) else tmin1
      let tmax2 := if dz ≠ 0 then Flt.rdMin tmax1 (.num tCapMaxS) else tmax1
      if dz ≠ 0 ∧ tmax2.lt tmin2 = true then (false, tmin2, tmax2)
      else
        let z0 := Flt.add sp.z (tmin2.mul dz)
        let z1 := Flt.add sp.z (tmax2.mul dz)
        if (z0.lt (.num cz) && z1.lt (.num cz)) ||
            ((Flt.num topZ).lt z0 && (Flt.num topZ).lt z1) then (false, tmin2, tmax2)
        else (true, tmin2, tmax2)

/-- Source `rdIntersectSegmentConvexHull`: the returned flag, `tmin` and `tmax`. -/
def rdIntersectSegmentConvexHull (sp sq : Vec3) (verts : Nat → Vec3) (nverts : Nat)
    (hmin hmax : ℚ) : Bool × ℚ × ℚ :=
  let r := rdIntersectSegmentPoly2D sp sq verts nverts
  if !r.1 then (false, r.2.tmin, r.2.tmax)
  else
    let tmin1 := rdMax 0 r.2.tmin
    let tmax1 := rdMin 1 r.2.tmax
    if tmin1 > tmax1 then (false, tmin1, tmax1)
    else
      let dz := sq.z - sp.z
      let tCapMin := (hmin - sp.z) / dz
      let tCapMax := (hmax - sp.z) / dz
      let tCapMinS := if tCapMin > tCapMax then tCapMax else tCapMin
      let tCapMaxS := if tCapMin > tCapMax then tCapMin else tCapMax
      let tmin2 := if dz ≠ 0 then rdMax tmin1 tCapMinS else tmin1
      let tmax2 := if dz ≠ 0 then rdMin tmax1 tCapMaxS else tmax1
      if dz ≠ 0 ∧ tmin2 > tmax2 then (false, tmin2, tmax2)
      else
        let z0 := sp.z + tmin2 * dz
        let z1 := sp.z + tmax2 * dz
        if (z0 < hmin ∧ z1 < hmin) ∨ (z0 > hmax ∧ z1 > hmax) then (false, tmin2, tmax2)
        else (true, tmin2, tmax2)

/-- The point `sp + t * (sq - sp)` of the segment from `sp` to `sq`. -/
def segmentPoint (sp sq : Vec3) (t : ℚ) : Vec3 :=
  ⟨sp.x + t * (sq.x - sp.x), sp.y + t * (sq.y - sp.y), sp.z + t * (sq.z - sp.z)⟩

/-- The argument of `rdMathSqrtf` in `rdClassifyPointInsideBounds`: the squared
distance, in the xy-plane, of `pt` from the centre of the box. -/
def centreDistSqr (pt bmin bmax : Vec3) : ℚ :=
  (pt.x - (bmin.x + bmax.x) * (1 / 2)) * (pt.x - (bmin.x + bmax.x) * (1 / 2)) +
  (pt.y - (bmin.y + bmax.y) * (1 / 2)) * (pt.y - (bmin.y + bmax.y) * (1 / 2))

/-- The discriminant `b*b - 4.0f * a*c` that `rdIntersectSegmentCylinder` passes to
`rdMathSqrtf`. -/
def cylinderDisc (sp sq position : Vec3) (radius : ℚ) : ℚ :=
  2 * ((sp.x - position.x) * (sq.x - sp.x) + (sp.y - position.y) * (sq.y - sp.y)) *
      (2 * ((sp.x - position.x) * (sq.x - sp.x) + (sp.y - position.y) * (sq.y - sp.y))) -
    4 * ((sq.x - sp.x) * (sq.x - sp.x) + (sq.y - sp.y) * (sq.y - sp.y)) *
      ((sp.x - position.x) * (sp.x - position.x) + (sp.y - position.y) * (sp.y - position.y) -
        radius * radius)
/-! ### The candidate tests of the traverse-link generator, as the specification words them -/

/-- The conditions under which the specification lets a pair of links with the values
`c` be installed between edge `j` of polygon `i` of tile `b` and edge `n` of polygon
`m` of tile `lt`: both edges are hard, the quantised distance of the edge mid-points
is not zero, the dot product of the edge directions is not positive, the traverse
type is what `GetBestTraverseType` returns for the elevation difference, the
quantised distance and the poly-group flag, it is not `INVALID_TRAVERSE_TYPE`, and
`traverseLinkInLOS` holds for the lower and the higher edge with the ledge offset. -/
def CandidateTests (env : Env) (ed : Editor) (b i j lt m n : Nat) (c : Candidate) : Prop :=
  let baseTile := ed.tile b
  let landTile := ed.tile lt
  let basePoly := baseTile.polys i
  let landPoly := landTile.polys m
  let basePolySpos := baseTile.verts (basePoly.verts j)
  let basePolyEpos := baseTile.verts (basePoly.verts ((j + 1) % basePoly.vertCount))
  let baseMid := rdVsad basePolySpos basePolyEpos (1 / 2)
  let landPolySpos := landTile.verts (landPoly.verts n)
  let landPolyEpos := landTile.verts (landPoly.verts ((n + 1) % landPoly.vertCount))
  let landMid := rdVsad landPolySpos landPolyEpos (1 / 2)
  let quantDist := env.dtQuantLinkDistance (env.dtCalcLinkDistance baseMid landMid) % 256
  let baseEdgeDir := rdVsub basePolyEpos basePolySpos
  let landEdgeDir := rdVsub landPolyEpos landPolySpos
  let samePolyGroup := decide (basePoly.groupId = landPoly.groupId)
  let basePolyHigher := decide (baseMid.z > landMid.z)
  let walkableRadius :=
    if basePolyHigher then baseTile.hdr.walkableRadius else landTile.hdr.walkableRadius
  let offsetAmount := rdCalcLedgeSpanOffsetAmount walkableRadius
    |rdCalcSlopeAngle env baseMid landMid| (rdCalcMaxLOSAngle env walkableRadius ed.m_cellHeight)
  basePoly.neis j = 0 ∧ landPoly.neis n = 0 ∧
  quantDist ≠ 0 ∧ c.quantDist = quantDist ∧
  rdVdot baseEdgeDir landEdgeDir ≤ 0 ∧
  c.traverseType = GetBestTraverseType |baseMid.z - landMid.z| quantDist samePolyGroup ∧
  c.traverseType ≠ INVALID_TRAVERSE_TYPE ∧
  traverseLinkInLOS env (if basePolyHigher then landMid else baseMid)
    (if basePolyHigher then baseMid else landMid)
    (if basePolyHigher then landEdgeDir else baseEdgeDir)
    (if basePolyHigher then baseEdgeDir else landEdgeDir) offsetAmount = true

/-- The candidate tests hold for a recorded pair on the editor as it was just before
the installation, and the recorded traverse type is a catalogue slot all of whose
constraints the pair meets. -/
def InstalledPair.PassedAllTests (e : InstalledPair) (env : Env) : Prop :=
  CandidateTests env e.before e.baseTile e.basePoly e.baseEdge e.landTile e.landPoly
    e.landEdge e.cand ∧
  e.cand.traverseType < NUM_TRAVERSE_TYPES ∧
  slotMatches e.cand.traverseType
    |(rdVsad ((e.before.tile e.baseTile).verts
          (((e.before.tile e.baseTile).polys e.basePoly).verts e.baseEdge))
        ((e.before.tile e.baseTile).verts
          (((e.before.tile e.baseTile).polys e.basePoly).verts
            ((e.baseEdge + 1) % ((e.before.tile e.baseTile).polys e.basePoly).vertCount)))
        (1 / 2)).z -
      (rdVsad ((e.before.tile e.landTile).verts
          (((e.before.tile e.landTile).polys e.landPoly).verts e.landEdge))
        ((e.before.tile e.landTile).verts
          (((e.before.tile e.landTile).polys e.landPoly).verts
            ((e.landEdge + 1) % ((e.before.tile e.landTile).polys e.landPoly).vertCount)))
        (1 / 2)).z|
    e.cand.quantDist
    (decide (((e.before.tile e.baseTile).polys e.basePoly).groupId =
      ((e.before.tile e.landTile).polys e.landPoly).groupId))
/-! ### Building and removing single tiles (`Editor_TileMesh.cpp`, `Editor.cpp`) -/

/-- The tile blob that `buildTileMesh` returns: its bytes, its size, and the header
that the blob starts with. -/
structure BuiltTile where
  data : List Nat
  dataSize : Int
  header : dtMeshHeader

/-- The functions of `DetourNavMesh.cpp`, `DetourNavMeshBuilder.cpp` and the allocator that
the editor calls and that the sources under study do not define. A `dtStatus` or
`bool` result is the first component, true for success; the navmesh after the call
is the last. Tiles are named by their index in `m_tiles`. -/
structure DetourEnv where
  /-- Source `dtAllocNavMesh`: `none` is a null pointer -/
  dtAllocNavMesh : Option dtNavMesh
  /-- Source `dtNavMesh::init(params)` -/
  init : dtNavMesh → dtNavMeshParams → Bool × dtNavMesh
  /-- Source `dtNavMesh::addTile(data, dataSize, flags, lastRef, result)`: the status,
  the tile reference written to `result`, and the navmesh -/
  addTile : dtNavMesh → List Nat → Int → Nat → Nat → Bool × Nat × dtNavMesh
  /-- Source `dtNavMesh::removeTile(ref, 0, 0)` -/
  removeTile : dtNavMesh → Nat → Bool × dtNavMesh
  /-- Source `dtNavMesh::connectTile` -/
  connectTile : dtNavMesh → Nat → Bool × dtNavMesh
  /-- Source `dtNavMesh::baseOffMeshLinks` -/
  baseOffMeshLinks : dtNavMesh → Nat → dtNavMesh
  /-- Source `dtNavMesh::connectExtOffMeshLinks` -/
  connectExtOffMeshLinks : dtNavMesh → Nat → dtNavMesh
  /-- Source `dtNavMesh::connectTraverseLinks(tileRef, params)`, for the parameters that
  `createTraverseLinkParams` fills in and the given value of `linkToNeighbor` -/
  connectTraverseLinks : dtNavMesh → Nat → Bool → dtNavMesh
  /-- Source `dtNavMesh::getTileRefAt(x, y, layer)` -/
  getTileRefAt : dtNavMesh → Int → Int → Int → Nat
  /-- Source `dtNavMesh::getTileRef` of the tile with the given index -/
  getTileRef : dtNavMesh → Nat → Nat
  /-- Source `dtNavMesh::setTraverseTable(index, table)`, the table given by its bytes -/
  setTraverseTable : dtNavMesh → Nat → List Nat → dtNavMesh
  /-- Source `dtCreateDisjointPolyGroups` -/
  dtCreateDisjointPolyGroups : dtNavMesh → Bool × dtNavMesh
  /-- Source `dtUpdateDisjointPolyGroups` -/
  dtUpdateDisjointPolyGroups : dtNavMesh → Bool × dtNavMesh
  /-- Source `dtCreateTraverseTableData` -/
  dtCreateTraverseTableData : dtNavMesh → Bool × dtNavMesh
  /-- Source `rdAlloc(size, RD_ALLOC_PERM)`: true when the result is not null -/
  rdAlloc : Nat → Bool
  /-- Source `Editor_TileMesh::buildTileMesh(tx, ty, bmin, bmax, dataSize)`, which runs the
  Recast pipeline on the input geometry: `none` is a null pointer -/
  buildTileMesh : Int → Int → Vec3 → Vec3 → Option BuiltTile

/-- The navmesh bounds that `InputGeom::getNavMeshBoundsMin` and
`InputGeom::getNavMeshBoundsMax` return. -/
structure InputGeom where
  navMeshBMin : Vec3
  navMeshBMax : Vec3

/-- The members of `Editor_TileMesh`, and of its base class `Editor`, that building
and removing a tile read or write. The pointer `m_navMesh` is not null; a null
`m_geom` is `none`. -/
structure Editor_TileMesh extends Editor where
  m_geom : Option InputGeom
  m_tileSize : Int
  m_cellSize : ℚ
  m_lastBuiltTileBmin : Vec3
  m_lastBuiltTileBmax : Vec3

/-- The conversion `(int)x` of a `float`: the fraction is discarded. -/
def truncToInt (q : ℚ) : Int := if 0 ≤ q then Rat.floor q else -Rat.floor (-q)

/-- Source `Editor_TileMesh::getTileExtents`: the values written to `tmin` and `tmax`.
The callers have tested `m_geom`. Every `float` operation is read as the exact
operation on rationals; `Editor_TileMesh.getTileExtents.rounded` is the same
computation with the rounding of every operation. -/
def Editor_TileMesh.getTileExtents (e : Editor_TileMesh) (tx ty : Int) : Vec3 × Vec3 :=
  let ts : ℚ := (e.m_tileSize : ℚ) * e.m_cellSize
  let bmin := (e.m_geom.getD ⟨⟨0, 0, 0⟩, ⟨0, 0, 0⟩⟩).navMeshBMin
  let bmax := (e.m_geom.getD ⟨⟨0, 0, 0⟩, ⟨0, 0, 0⟩⟩).navMeshBMax
  (⟨bmax.x - ((tx + 1 : Int) : ℚ) * ts, bmin.y + (ty : ℚ) * ts, bmin.z⟩,
   ⟨bmax.x - (tx : ℚ) * ts, bmin.y + ((ty + 1 : Int) : ℚ) * ts, bmax.z⟩)

/-- Source `Editor_TileMesh::getTilePos`: the values of `tx` and `ty` after the call,
which leaves them as they are when `m_geom` is null. Every `float` operation is read
as the exact operation on rationals; `Editor_TileMesh.getTilePos.rounded` is the same
computation with the rounding of every operation. -/
def Editor_TileMesh.getTilePos (e : Editor_TileMesh) (pos : Vec3) (tx ty : Int) : Int × Int :=
  match e.m_geom with
  | none => (tx, ty)
  | some geom =>
    let bmin := geom.navMeshBMin
    let bmax := geom.navMeshBMax
    let ts : ℚ := (e.m_tileSize : ℚ) * e.m_cellSize
    (truncToInt ((bmax.x - pos.x) / ts), truncToInt ((pos.y - bmin.y) / ts))

/-- Source `Editor::createStaticPathingData`: the result and the editor after the call.
`params->nav` is `m_navMesh`, which is not null; the disjoint sets `m_djs` that
`dtCreateDisjointPolyGroups` fills are not part of the model. -/
def Editor.createStaticPathingData (env : Env) (denv : DetourEnv) (ed : Editor) :
    Bool × Editor :=
  let r := denv.dtCreateDisjointPolyGroups ed.m_navMesh
  let ed1 := { ed with m_navMesh := r.2 }
  if !r.1 then (false, ed1)
  else (true, (createTraverseLinks env ed1).1)

/-- Source `Editor::updateStaticPathingData`. -/
def Editor.updateStaticPathingData (denv : DetourEnv) (ed : Editor) : Bool × Editor :=
  let r := denv.dtUpdateDisjointPolyGroups ed.m_navMesh
  let ed1 := { ed with m_navMesh := r.2 }
  if !r.1 then (false, ed1)
  else
    let r2 := denv.dtCreateTraverseTableData ed1.m_navMesh
    let ed2 := { ed1 with m_navMesh := r2.2 }
    if !r2.1 then (false, ed2) else (true, ed2)

/-- Source `Editor::buildStaticPathingData`. -/
def Editor.buildStaticPathingData (env : Env) (denv : DetourEnv) (ed : Editor) : Editor :=
  (Editor.updateStaticPathingData denv (Editor.createStaticPathingData env denv ed).2).2

/-- The loop of `Editor_TileMesh::removeTile` over `m_traverseLinkPolyMap`: the entries that
it does not erase. -/
def prunePairMap (nm : dtNavMesh) (tileId : Nat) (m : List (TraverseLinkPolyPair × Nat)) :
    List (TraverseLinkPolyPair × Nat) :=
  m.filter (fun it =>
    !(nm.decodePolyIdTile it.1.poly1 == tileId || nm.decodePolyIdTile it.1.poly2 == tileId))

/-- Source `Editor_TileMesh::removeTile`. The colour `m_tileCol`, which only drawing reads,
is left out. -/
def Editor_TileMesh.removeTile (env : Env) (denv : DetourEnv) (e : Editor_TileMesh)
    (pos : Vec3) : Editor_TileMesh :=
  if e.m_geom.isNone then e
  else
    let t := e.getTilePos pos 0 0
    let ext := e.getTileExtents t.1 t.2
    let e1 := { e with m_lastBuiltTileBmin := ext.1, m_lastBuiltTileBmax := ext.2 }
    let tileRef := denv.getTileRefAt e1.m_navMesh t.1 t.2 0
    let r := denv.removeTile e1.m_navMesh tileRef
    let e2 := { e1 with m_navMesh := r.2 }
    if r.1 then
      let tileId := e2.m_navMesh.decodePolyIdTile tileRef
      let e3 := { e2 with
        m_traverseLinkPolyMap := prunePairMap e2.m_navMesh tileId e2.m_traverseLinkPolyMap }
      { e3 with toEditor := Editor.buildStaticPathingData env denv e3.toEditor }
    else e2

/-- The inner loop of `Editor_TileMesh::buildTile` over the off-mesh connections `j` of the
target tile with index `i`. -/
def Editor_TileMesh.connectLandingCons (denv : DetourEnv) (e : Editor_TileMesh)
    (tx ty : Int) (i : Nat) (targetRef : Nat) : List Nat → dtNavMesh → dtNavMesh
  | [], nm => nm
  | j :: js, nm =>
    let land := e.getTilePos ((nm.m_tiles i).offMeshCons j) 0 0
    if land.1 = tx ∧ land.2 = ty then
      Editor_TileMesh.connectLandingCons denv e tx ty i targetRef js
        (denv.connectExtOffMeshLinks nm targetRef)
    else Editor_TileMesh.connectLandingCons denv e tx ty i targetRef js nm

/-- The loop of `Editor_TileMesh::buildTile` over the tiles `i` that connects the external
off-mesh links landing on the new tile. The off-mesh connection count of a target
tile is read once, when its loop starts. -/
def Editor_TileMesh.connectLandingTiles (denv : DetourEnv) (e : Editor_TileMesh)
    (tx ty : Int) (tileRef : Nat) : List Nat → dtNavMesh → dtNavMesh
  | [], nm => nm
  | i :: is, nm =>
    let targetRef := denv.getTileRef nm i
    if targetRef = tileRef then
      Editor_TileMesh.connectLandingTiles denv e tx ty tileRef is nm
    else
      match (nm.m_tiles i).header with
      | none => Editor_TileMesh.connectLandingTiles denv e tx ty tileRef is nm
      | some targetHeader =>
        Editor_TileMesh.connectLandingTiles denv e tx ty tileRef is
          (Editor_TileMesh.connectLandingCons denv e tx ty i targetRef
            (List.range targetHeader.offMeshConCount.toNat) nm)

/-- Source `DT_TILE_FREE_DATA`. -/
def DT_TILE_FREE_DATA : Nat := 1

/-- Source `Editor_TileMesh::buildTile`: the editor after the call, and the values of
`params.linkToNeighbor` in the calls of `dtNavMesh::connectTraverseLinks`, in the order
of the calls (the list is not program state). The colour `m_tileCol` and the build
log are left out. -/
def Editor_TileMesh.buildTile (env : Env) (denv : DetourEnv) (e : Editor_TileMesh)
    (pos : Vec3) : Editor_TileMesh × List Bool :=
  if e.m_geom.isNone then (e, [])
  else
    let t := e.getTilePos pos 0 0
    let tx := t.1
    let ty := t.2
    let ext := e.getTileExtents tx ty
    let e1 := { e with m_lastBuiltTileBmin := ext.1, m_lastBuiltTileBmax := ext.2 }
    let built := denv.buildTileMesh tx ty e1.m_lastBuiltTileBmin e1.m_lastBuiltTileBmax
    let nm1 := (denv.removeTile e1.m_navMesh (denv.getTileRefAt e1.m_navMesh tx ty 0)).2
    match built with
    | none => ({ e1 with m_navMesh := nm1 }, [])
    | some bt =>
      let added := denv.addTile nm1 bt.data bt.dataSize DT_TILE_FREE_DATA 0
      let tileRef := added.2.1
      let nm2 := added.2.2
      let connected := denv.connectTile nm2 tileRef
      let failure := !added.1 || !connected.1
      let nm3 :=
        if !added.1 then nm2
        else if !connected.1 then connected.2
        else if bt.header.offMeshConCount ≠ 0 then
          denv.connectExtOffMeshLinks (denv.baseOffMeshLinks connected.2 tileRef) tileRef
        else connected.2
      if failure then ({ e1 with m_navMesh := nm3 }, [])
      else
        let nm4 := Editor_TileMesh.connectLandingTiles denv e1 tx ty tileRef
          (List.range nm3.m_tileCount.toNat) nm3
        let nm5 := denv.connectTraverseLinks nm4 tileRef false
        let nm6 := denv.connectTraverseLinks nm5 tileRef true
        let e2 := { e1 with m_navMesh := nm6 }
        ({ e2 with toEditor := Editor.buildStaticPathingData env denv e2.toEditor },
          [false, true])

/-- The tile reference that `removeTile(pos)` and `buildTile(pos)` pass to
`dtNavMesh::removeTile`: `getTileRefAt(tx, ty, 0)` for the grid position of `pos`. -/
def Editor_TileMesh.tileRefAtPos (denv : DetourEnv) (e : Editor_TileMesh) (pos : Vec3) : Nat :=
  denv.getTileRefAt e.m_navMesh (e.getTilePos pos 0 0).1 (e.getTilePos pos 0 0).2 0

/-- A Detour environment for the examples: every call succeeds; `init` stores the
parameters, `addTile` puts the blob into the slot numbered by the tile count and
returns `lastRef`, or the reference with salt 1 when `lastRef` is 0, `removeTile`
empties the slot that the reference decodes to, `setTraverseTable` stores the
little-endian words of the table, and the other calls leave the navmesh as it is.
`buildTileMesh` returns a blob of 4 bytes. -/
def exampleDetourEnv : DetourEnv :=
  { dtAllocNavMesh := some exampleNavMesh
    init := fun nm params => (true, { nm with m_params := params })
    addTile := fun nm data dataSize _ lastRef =>
      (true, if lastRef = 0 then nm.encodePolyId 1 nm.m_tileCount.toNat 0 else lastRef,
        { nm with
          m_tiles := Function.update nm.m_tiles nm.m_tileCount.toNat
            { emptyTile with
              header := some ⟨0, 0, 0, 0, 0, ⟨0, 0, 0⟩, ⟨0, 0, 0⟩, 0⟩
              data := fun k => data.getD k 0
              dataSize := dataSize }
          m_tileCount := nm.m_tileCount + 1 })
    removeTile := fun nm ref =>
      (true, { nm with m_tiles := Function.update nm.m_tiles (nm.decodePolyIdTile ref) emptyTile })
    connectTile := fun nm _ => (true, nm)
    baseOffMeshLinks := fun nm _ => nm
    connectExtOffMeshLinks := fun nm _ => nm
    connectTraverseLinks := fun nm _ _ => nm
    getTileRefAt := fun nm x y _ => nm.encodePolyId 1 (x + 2 * y).toNat 0
    getTileRef := fun nm i => nm.encodePolyId 1 i 0
    setTraverseTable := fun nm i table =>
      { nm with
        m_traverseTables := Function.update nm.m_traverseTables i
          (fun k => (table.getD (4 * k) 0 + 256 * table.getD (4 * k + 1) 0
            + 65536 * table.getD (4 * k + 2) 0 + 16777216 * table.getD (4 * k + 3) 0 : Nat)) }
    dtCreateDisjointPolyGroups := fun nm => (true, nm)
    dtUpdateDisjointPolyGroups := fun nm => (true, nm)
    dtCreateTraverseTableData := fun nm => (true, nm)
    rdAlloc := fun _ => true
    buildTileMesh := fun _ _ _ _ =>
      some ⟨[1, 2, 3, 4], 4, ⟨0, 0, 0, 0, 0, ⟨0, 0, 0⟩, ⟨0, 0, 0⟩, 0⟩⟩ }

/-- A tile editor for the examples: a 2 x 1 grid of tiles of size 10 over the bounds
`[0, 20] x [0, 10]`, on the example navmesh with two populated tiles, and a
traverse-link pair map with one entry between two polygons of tile 1 and one entry
between a polygon of tile 0 and a polygon of tile 1. -/
def exampleTileMesh : Editor_TileMesh :=
  { m_navMesh :=
      { exampleNavMesh with
        m_tiles := fun t => if t < 2 then gapTile 0 8 else emptyTile
        m_tileCount := 2 }
    m_traverseLinkPolyMap :=
      [ (⟨exampleNavMesh.encodePolyId 1 1 0, exampleNavMesh.encodePolyId 1 1 1⟩, 2),
        (⟨exampleNavMesh.encodePolyId 1 0 0, exampleNavMesh.encodePolyId 1 1 0⟩, 4) ]
    m_selectedNavMeshType := 0
    m_cellHeight := 16
    m_geom := some ⟨⟨0, 0, 0⟩, ⟨20, 10, 0⟩⟩
    m_tileSize := 10
    m_cellSize := 1
    m_lastBuiltTileBmin := ⟨0, 0, 0⟩
    m_lastBuiltTileBmax := ⟨0, 0, 0⟩ }
/-! ### The navmesh set file (`Editor.cpp`: `loadAll`, `saveAll`) -/

/-- The bytes of a 32-bit value in memory and in the file, least significant first. -/
def le32 (w : Nat) : List Nat :=
  [w % 256, w / 256 % 256, w / 65536 % 256, w / 16777216 % 256]

/-- The 32-bit value that four bytes hold. -/
def rd32 (bs : List Nat) : Nat :=
  bs.getD 0 0 + 256 * bs.getD 1 0 + 65536 * bs.getD 2 0 + 16777216 * bs.getD 3 0

/-- The 32-bit pattern of an `int`. -/
def word32 (n : Int) : Nat := (n % 2 ^ 32).toNat

/-- The `int` that a 32-bit pattern holds. -/
def int32 (w : Nat) : Int := if w < 2 ^ 31 then (w : Int) else (w : Int) - 2 ^ 32

/-- The conversion of an `int` to `size_t`, 64 bits wide. -/
def size_t (n : Int) : Nat := (n % 2 ^ 64).toNat

/-- Source `DT_NAVMESH_SET_MAGIC`: `'M'<<24 | 'S'<<16 | 'E'<<8 | 'T'`. -/
def DT_NAVMESH_SET_MAGIC : Int := 0x4D534554

/-- Source `DT_NAVMESH_SET_VERSION`. -/
def DT_NAVMESH_SET_VERSION : Int := 8

/-- Source `DT_MIN_POLY_GROUP_COUNT`. -/
def DT_MIN_POLY_GROUP_COUNT : Int := 3

/-- Source `dtNavMeshSetHeader`. -/
structure dtNavMeshSetHeader where
  magic : Int
  version : Int
  numTiles : Int
  params : dtNavMeshParams
deriving DecidableEq

/-- Source `dtNavMeshTileHeader`. -/
structure dtNavMeshTileHeader where
  tileRef : Nat
  dataSize : Int
deriving DecidableEq

/-- The 44 bytes of a `dtNavMeshParams` in memory. -/
def dtNavMeshParams.bytes (p : dtNavMeshParams) : List Nat :=
  le32 p.orig.1 ++ le32 p.orig.2.1 ++ le32 p.orig.2.2 ++ le32 p.tileWidth ++ le32 p.tileHeight ++
  le32 (word32 p.maxTiles) ++ le32 (word32 p.maxPolys) ++ le32 (word32 p.polyGroupCount) ++
  le32 (word32 p.traverseTableSize) ++ le32 (word32 p.traverseTableCount) ++
  le32 (word32 p.magicDataCount)

/-- The `dtNavMeshParams` that 44 bytes of memory hold. -/
def dtNavMeshParams.ofBytes (bs : List Nat) : dtNavMeshParams :=
  { orig := (rd32 bs, rd32 (bs.drop 4), rd32 (bs.drop 8))
    tileWidth := rd32 (bs.drop 12)
    tileHeight := rd32 (bs.drop 16)
    maxTiles := int32 (rd32 (bs.drop 20))
    maxPolys := int32 (rd32 (bs.drop 24))
    polyGroupCount := int32 (rd32 (bs.drop 28))
    traverseTableSize := int32 (rd32 (bs.drop 32))
    traverseTableCount := int32 (rd32 (bs.drop 36))
    magicDataCount := int32 (rd32 (bs.drop 40)) }

/-- The `sizeof(dtNavMeshSetHeader)` bytes of a set header in memory. -/
def dtNavMeshSetHeader.bytes (h : dtNavMeshSetHeader) : List Nat :=
  le32 (word32 h.magic) ++ le32 (word32 h.version) ++ le32 (word32 h.numTiles) ++ h.params.bytes

/-- The set header that `sizeof(dtNavMeshSetHeader)` bytes of memory hold. -/
def dtNavMeshSetHeader.ofBytes (bs : List Nat) : dtNavMeshSetHeader :=
  { magic := int32 (rd32 bs)
    version := int32 (rd32 (bs.drop 4))
    numTiles := int32 (rd32 (bs.drop 8))
    params := dtNavMeshParams.ofBytes (bs.drop 12) }

/-- The 8 bytes of a tile header in memory. -/
def dtNavMeshTileHeader.bytes (h : dtNavMeshTileHeader) : List Nat :=
  le32 h.tileRef ++ le32 (word32 h.dataSize)

/-- The tile header that 8 bytes of memory hold. -/
def dtNavMeshTileHeader.ofBytes (bs : List Nat) : dtNavMeshTileHeader :=
  { tileRef := rd32 bs, dataSize := int32 (rd32 (bs.drop 4)) }

/-- The value of `sizeof(dtNavMeshSetHeader)`: 14 members of 4 bytes. -/
def sizeofSetHeader : Nat := 56

/-- The value of `sizeof(dtNavMeshTileHeader)`. -/
def sizeofTileHeader : Nat := 8

/-- The call `fread(ptr, size, 1, fp)` on a stream with the bytes `fp` left to read:
when it returns 1, the bytes read and the bytes left; `none` when it returns 0, which
it does for `size = 0` and when fewer than `size` bytes are left. -/
def fread1 (size : Nat) (fp : List Nat) : Option (List Nat × List Nat) :=
  if size = 0 then none
  else if fp.length < size then none
  else some (fp.take size, fp.drop size)

/-- The file system as the editor sees it: which paths are directories, the bytes of
the files that `fopen(path, "rb")` can open, and the paths that `fopen(path, "wb")`
can open. -/
structure FileSystem where
  isDirectory : String → Bool
  contents : String → Option (List Nat)
  writable : String → Bool

/-- The file name that `saveAll` and, without `fullPath`, `loadAll` build from the
model name: the directory `..\maps\navmesh\` is put in front when it exists, and
`_<m_navmeshName>.nm` behind. -/
def navMeshFileName (fs : FileSystem) (m_navmeshName path : String) : String :=
  (if fs.isDirectory "..\\maps\\navmesh\\" then "..\\maps\\navmesh\\" ++ path else path)
    ++ "_" ++ m_navmeshName ++ ".nm"

/-- The tile loop of `Editor::loadAll` with `count` iterations left: `none` is
`return false`, otherwise the navmesh and the unread bytes when the loop ends or
executes `break`. -/
def loadAll.tiles (denv : DetourEnv) : Nat → dtNavMesh → List Nat → Option (dtNavMesh × List Nat)
  | 0, mesh, fp => some (mesh, fp)
  | count + 1, mesh, fp =>
    match fread1 sizeofTileHeader fp with
    | none => none
    | some (hb, fp1) =>
      let tileHeader := dtNavMeshTileHeader.ofBytes hb
      if tileHeader.tileRef = 0 ∨ tileHeader.dataSize = 0 then some (mesh, fp1)
      else if !denv.rdAlloc (size_t tileHeader.dataSize) then some (mesh, fp1)
      else
        match fread1 (size_t tileHeader.dataSize) fp1 with
        | none => none
        | some (data, fp2) =>
          loadAll.tiles denv count
            (denv.addTile mesh data tileHeader.dataSize DT_TILE_FREE_DATA tileHeader.tileRef).2.2
            fp2

/-- The traverse-table loop of `Editor::loadAll` over the table indices that are left:
`none` is `return 0`. -/
def loadAll.tables (denv : DetourEnv) (traverseTableSize : Int) :
    List Nat → dtNavMesh → List Nat → Option (dtNavMesh × List Nat)
  | [], mesh, fp => some (mesh, fp)
  | i :: is, mesh, fp =>
    if !denv.rdAlloc (size_t traverseTableSize) then some (mesh, fp)
    else
      match fread1 (size_t traverseTableSize) fp with
      | none => none
      | some (traverseTable, fp1) =>
        loadAll.tables denv traverseTableSize is (denv.setTraverseTable mesh i traverseTable) fp1

/-- Source `Editor::loadAll`, from the stream that `fopen` returns (`none` when it
fails): the result and the value of `m_navMesh` after the call. The first two
statements free the current navmesh and set `m_navMesh` to null. -/
def loadAll.read (denv : DetourEnv) (file : Option (List Nat)) : Bool × Option dtNavMesh :=
  match file with
  | none => (false, none)
  | some fp =>
    match fread1 sizeofSetHeader fp with
    | none => (false, none)
    | some (hb, fp1) =>
      let header := dtNavMeshSetHeader.ofBytes hb
      if header.magic ≠ DT_NAVMESH_SET_MAGIC then (false, none)
      else if header.version ≠ DT_NAVMESH_SET_VERSION then (false, none)
      else
        match denv.dtAllocNavMesh with
        | none => (false, none)
        | some mesh0 =>
          let r := denv.init mesh0 header.params
          if !r.1 then (false, none)
          else
            match loadAll.tiles denv header.numTiles.toNat r.2 fp1 with
            | none => (false, none)
            | some (mesh1, fp2) =>
              if header.params.polyGroupCount ≥ DT_MIN_POLY_GROUP_COUNT then
                match loadAll.tables denv header.params.traverseTableSize
                    (List.range header.params.traverseTableCount.toNat) mesh1 fp2 with
                | none => (false, none)
                | some (mesh2, _) => (true, some mesh2)
              else (true, some mesh1)

/-- Source `Editor::loadAll`: the result and the value of `m_navMesh` after the call.
The value of `m_navMesh` before the call is freed whatever happens, so the result
does not depend on it. -/
def Editor.loadAll (denv : DetourEnv) (fs : FileSystem) (m_navmeshName : String)
    (_m_navMesh : Option dtNavMesh) (path : String) (fullPath : Bool) :
    Bool × Option dtNavMesh :=
  let navMeshPath := if !fullPath then navMeshFileName fs m_navmeshName path else path
  loadAll.read denv (fs.contents navMeshPath)

/-- The tiles that `saveAll` counts and stores: those with a header and a data size that
is not zero. -/
def saveAll.stored (mesh : dtNavMesh) (i : Nat) : Bool :=
  (mesh.m_tiles i).header.isSome && decide ((mesh.m_tiles i).dataSize ≠ 0)

/-- The first loop of `Editor::saveAll`: the value of `header.numTiles` after the tiles
with the given indices. -/
def saveAll.count (mesh : dtNavMesh) : List Nat → Int → Int
  | [], numTiles => numTiles
  | i :: is, numTiles =>
    if !saveAll.stored mesh i then saveAll.count mesh is numTiles
    else saveAll.count mesh is (numTiles + 1)

/-- The bytes that `fwrite(tile->data, tile->dataSize, 1, fp)` writes. -/
def tileBlob (tile : dtMeshTile) : List Nat :=
  (List.range (size_t tile.dataSize)).map tile.data

/-- The second loop of `Editor::saveAll`: the stream after the tiles with the given
indices, to which every stored tile adds its tile header and its blob. -/
def saveAll.tiles (denv : DetourEnv) (mesh : dtNavMesh) : List Nat → List Nat → List Nat
  | [], fp => fp
  | i :: is, fp =>
    if !saveAll.stored mesh i then saveAll.tiles denv mesh is fp
    else
      let tileHeader : dtNavMeshTileHeader :=
        { tileRef := denv.getTileRef mesh i, dataSize := (mesh.m_tiles i).dataSize }
      saveAll.tiles denv mesh is (fp ++ tileHeader.bytes ++ tileBlob (mesh.m_tiles i))

/-- The bytes that `fwrite(tableData, sizeof(int), traverseTableSize/4, fp)` writes for
table `i`; the division of `int` values rounds towards zero. -/
def tableBytes (mesh : dtNavMesh) (traverseTableSize : Int) (i : Nat) : List Nat :=
  ((List.range (size_t (Int.tdiv traverseTableSize 4))).map
    (fun k => le32 (word32 (mesh.m_traverseTables i k)))).flatten

/-- The last loop of `Editor::saveAll`: the stream after the tables with the given
indices. -/
def saveAll.tables (mesh : dtNavMesh) (traverseTableSize : Int) : List Nat → List Nat → List Nat
  | [], fp => fp
  | i :: is, fp =>
    saveAll.tables mesh traverseTableSize is (fp ++ tableBytes mesh traverseTableSize i)

/-- The bytes that `Editor::saveAll` writes for a navmesh, from `fopen` to `fclose`
(the block for set version 5 is not compiled). -/
def saveAll.stream (denv : DetourEnv) (mesh : dtNavMesh) : List Nat :=
  let numTiles := saveAll.count mesh (List.range mesh.getMaxTiles) 0
  let params := mesh.m_params
  let header : dtNavMeshSetHeader :=
    { magic := DT_NAVMESH_SET_MAGIC, version := DT_NAVMESH_SET_VERSION, numTiles := numTiles,
      params := params }
  let fp1 := header.bytes
  let fp2 := saveAll.tiles denv mesh (List.range mesh.getMaxTiles) fp1
  if params.polyGroupCount ≥ DT_MIN_POLY_GROUP_COUNT then
    saveAll.tables mesh header.params.traverseTableSize
      (List.range header.params.traverseTableCount.toNat) fp2
  else fp2

/-- Source `Editor::saveAll`: the file system after the call. Nothing is written for a
null `mesh` or when the file cannot be opened. -/
def Editor.saveAll (denv : DetourEnv) (fs : FileSystem) (m_navmeshName : String)
    (path : String) (mesh : Option dtNavMesh) : FileSystem :=
  match mesh with
  | none => fs
  | some m =>
    let buffer := navMeshFileName fs m_navmeshName path
    if !fs.writable buffer then fs
    else { fs with contents := Function.update fs.contents buffer (some (saveAll.stream denv m)) }

/-- The records `(tileRef, dataSize, blob)` of the stored tiles of a navmesh, in the
order of the tile array. -/
def storedTiles (denv : DetourEnv) (mesh : dtNavMesh) : List (Nat × Int × List Nat) :=
  ((List.range mesh.getMaxTiles).filter (saveAll.stored mesh)).map
    (fun i => (denv.getTileRef mesh i, (mesh.m_tiles i).dataSize, tileBlob (mesh.m_tiles i)))

/-- The navmesh that results from the calls `addTile(blob, dataSize, DT_TILE_FREE_DATA,
tileRef, NULL)` for the given records, in their order. -/
def addTiles (denv : DetourEnv) (mesh : dtNavMesh) (records : List (Nat × Int × List Nat)) :
    dtNavMesh :=
  records.foldl (fun m r => (denv.addTile m r.2.2 r.2.1 DT_TILE_FREE_DATA r.1).2.2) mesh

/-- The navmesh that results from the calls `setTraverseTable(i, table)` for the given
tables, in their order. -/
def setTables (denv : DetourEnv) (mesh : dtNavMesh) (tables : List (Nat × List Nat)) :
    dtNavMesh :=
  tables.foldl (fun m t => denv.setTraverseTable m t.1 t.2) mesh

/-- The members of a `dtNavMeshParams` are 32 bits wide. -/
def dtNavMeshParams.InRange (p : dtNavMeshParams) : Prop :=
  p.orig.1 < 2 ^ 32 ∧ p.orig.2.1 < 2 ^ 32 ∧ p.orig.2.2 < 2 ^ 32 ∧
  p.tileWidth < 2 ^ 32 ∧ p.tileHeight < 2 ^ 32 ∧
  (-2 ^ 31 ≤ p.maxTiles ∧ p.maxTiles < 2 ^ 31) ∧
  (-2 ^ 31 ≤ p.maxPolys ∧ p.maxPolys < 2 ^ 31) ∧
  (-2 ^ 31 ≤ p.polyGroupCount ∧ p.polyGroupCount < 2 ^ 31) ∧
  (-2 ^ 31 ≤ p.traverseTableSize ∧ p.traverseTableSize < 2 ^ 31) ∧
  (-2 ^ 31 ≤ p.traverseTableCount ∧ p.traverseTableCount < 2 ^ 31) ∧
  (-2 ^ 31 ≤ p.magicDataCount ∧ p.magicDataCount < 2 ^ 31)

/-- What `saveAll` and `loadAll` rely on in a navmesh that is written and read back:
the members are as wide as their types, at most `2 ^ 31 - 1` tiles, every stored tile
has a tile reference that is not zero and a positive data size, and, when traverse
tables are stored, their size in bytes is positive and a multiple of `sizeof(int)`. -/
def dtNavMesh.Storable (denv : DetourEnv) (mesh : dtNavMesh) : Prop :=
  mesh.m_params.InRange ∧ mesh.getMaxTiles < 2 ^ 31 ∧
  (∀ i, i < mesh.getMaxTiles → saveAll.stored mesh i = true →
    denv.getTileRef mesh i ≠ 0 ∧ denv.getTileRef mesh i < 2 ^ 32 ∧
    0 < (mesh.m_tiles i).dataSize ∧ (mesh.m_tiles i).dataSize < 2 ^ 31) ∧
  (mesh.m_params.polyGroupCount ≥ DT_MIN_POLY_GROUP_COUNT →
    0 < mesh.m_params.traverseTableCount →
    0 < mesh.m_params.traverseTableSize ∧ mesh.m_params.traverseTableSize % 4 = 0)

/-- The traverse tables that `saveAll` stores for a navmesh, each with its index and
its bytes: none when the navmesh has fewer than `DT_MIN_POLY_GROUP_COUNT` poly groups. -/
def savedTables (mesh : dtNavMesh) : List (Nat × List Nat) :=
  if mesh.m_params.polyGroupCount ≥ DT_MIN_POLY_GROUP_COUNT then
    (List.range mesh.m_params.traverseTableCount.toNat).map
      (fun i => (i, tableBytes mesh mesh.m_params.traverseTableSize i))
  else []

/-- The navmesh that `loadAll` builds when it reads what `saveAll` wrote for `mesh`:
`init` with the parameters of `mesh` on the allocated navmesh `mesh0`, `addTile` for
every stored tile record, `setTraverseTable` for every stored table. -/
def reloaded (denv : DetourEnv) (mesh0 mesh : dtNavMesh) : dtNavMesh :=
  setTables denv (addTiles denv (denv.init mesh0 mesh.m_params).2 (storedTiles denv mesh))
    (savedTables mesh)

/-- A file system for the examples: no directory and no file, every path writable. -/
def exampleFs : FileSystem :=
  { isDirectory := fun _ => false, contents := fun _ => none, writable := fun _ => true }

/-- A navmesh for the examples of the set file: three tile slots, of which slots 0 and
2 hold tiles with blobs of 5 and 2 bytes, 3 poly groups, and 2 traverse tables of 12
bytes. -/
def exampleStoredMesh : dtNavMesh :=
  { m_saltBits := 10, m_tileBits := 12, m_polyBits := 10, m_maxTiles := 3
    m_tiles := fun t =>
      if t = 0 then
        { emptyTile with
          header := some ⟨0, 0, 0, 0, 0, ⟨0, 0, 0⟩, ⟨0, 0, 0⟩, 0⟩
          data := fun k => k + 1
          dataSize := 5 }
      else if t = 2 then
        { emptyTile with
          header := some ⟨1, 0, 0, 0, 0, ⟨0, 0, 0⟩, ⟨0, 0, 0⟩, 0⟩
          data := fun _ => 7
          dataSize := 2 }
      else emptyTile
    m_params := ⟨(1, 2, 3), 4, 5, 3, 16, 3, 12, 2, 0⟩
    m_traverseTables := fun i k => (i : Int) + 10 * (k : Int) - 5
    m_tileCount := 2 }

/-- The example navmesh with traverse tables of 6 bytes, a size that is not a multiple
of `sizeof(int)`. -/
def exampleOddTableMesh : dtNavMesh :=
  { exampleStoredMesh with m_params := ⟨(1, 2, 3), 4, 5, 3, 16, 3, 6, 2, 0⟩ }

/-! ### Closest point on a triangle and random point in a polygon (`SharedCommon.cpp`) -/

/-- Source `rdVcross`. -/
def rdVcross (v1 v2 : Vec3) : Vec3 :=
  ⟨v1.y * v2.z - v1.z * v2.y, v1.z * v2.x - v1.x * v2.z, v1.x * v2.y - v1.y * v2.x⟩

/-- Source `rdVdistSqr`. -/
def rdVdistSqr (v1 v2 : Vec3) : ℚ :=
  let dx := v2.x - v1.x
  let dy := v2.y - v1.y
  let dz := v2.z - v1.z
  dx * dx + dy * dy + dz * dz

/-- Source `rdTriArea2D`. -/
def rdTriArea2D (a b c : Vec3) : ℚ :=
  let abx := b.x - a.x
  let aby := b.y - a.y
  let acx := c.x - a.x
  let acy := c.y - a.y
  acx * aby - abx * acy

/-- Source `rdClosestPtPointTriangle`: the point written to `closest`. -/
def rdClosestPtPointTriangle (p a b c : Vec3) : Vec3 :=
  let ab := rdVsub b a
  let ac := rdVsub c a
  let ap := rdVsub p a
  let d1 := rdVdot ab ap
  let d2 := rdVdot ac ap
  if d1 ≤ 0 ∧ d2 ≤ 0 then a
  else
    let bp := rdVsub p b
    let d3 := rdVdot ab bp
    let d4 := rdVdot ac bp
    if d3 ≥ 0 ∧ d4 ≤ d3 then b
    else
      let vc := d1 * d4 - d3 * d2
      if vc ≤ 0 ∧ d1 ≥ 0 ∧ d3 ≤ 0 then
        let v := d1 / (d1 - d3)
        ⟨a.x + v * ab.x, a.y + v * ab.y, a.z + v * ab.z⟩
      else
        let cp := rdVsub p c
        let d5 := rdVdot ab cp
        let d6 := rdVdot ac cp
        if d6 ≥ 0 ∧ d5 ≤ d6 then c
        else
          let vb := d5 * d2 - d1 * d6
          if vb ≤ 0 ∧ d2 ≥ 0 ∧ d6 ≤ 0 then
            let w := d2 / (d2 - d6)
            ⟨a.x + w * ac.x, a.y + w * ac.y, a.z + w * ac.z⟩
          else
            let va := d3 * d6 - d5 * d4
            if va ≤ 0 ∧ (d4 - d3) ≥ 0 ∧ (d5 - d6) ≥ 0 then
              let w := (d4 - d3) / ((d4 - d3) + (d5 - d6))
              ⟨b.x + w * (c.x - b.x), b.y + w * (c.y - b.y), b.z + w * (c.z - b.z)⟩
            else
              let denom := 1 / (va + vb + vc)
              let v := vb * denom
              let w := vc * denom
              ⟨a.x + ab.x * v + ac.x * w, a.y + ab.y * v + ac.y * w, a.z + ab.z * v + ac.z * w⟩

/-- The point `a + v * (b - a) + w * (c - a)` of the plane of the triangle `abc`. -/
def trianglePoint (a b c : Vec3) (v w : ℚ) : Vec3 :=
  ⟨a.x + v * (b.x - a.x) + w * (c.x - a.x), a.y + v * (b.y - a.y) + w * (c.y - a.y),
    a.z + v * (b.z - a.z) + w * (c.z - a.z)⟩

/-- The first loop of `rdRandomPointInConvexPoly`: the array `areas` and the sum
`areasum` after the iterations with the given indices. -/
def rdRandomPointInConvexPoly.calcAreas (pts : Nat → Vec3) :
    List Nat → (Nat → ℚ) × ℚ → (Nat → ℚ) × ℚ
  | [], r => r
  | i :: is, (areas, areasum) =>
    let areas1 := Function.update areas i (rdTriArea2D (pts 0) (pts i) (pts (i - 1)))
    rdRandomPointInConvexPoly.calcAreas pts is (areas1, areasum + rdMax (1 / 1000) (areas1 i))

/-- Body of the second loop of `rdRandomPointInConvexPoly` for index `i`; the state is
`(acc, u, tri)`, and leaving the loop (`Flow.exit`) is `break`. -/
def rdRandomPointInConvexPoly.pickStep (areas : Nat → ℚ) (thr : ℚ) (i : Nat)
    (s : ℚ × ℚ × Nat) : Flow (ℚ × ℚ × Nat) :=
  let acc := s.1
  let dacc := areas i
  if thr ≥ acc ∧ thr < acc + dacc then .exit (acc, (thr - acc) / dacc, i)
  else .next (acc + dacc, s.2.1, s.2.2)

/-- The values of `u` and `tri` after the second loop of `rdRandomPointInConvexPoly`. -/
def rdRandomPointInConvexPoly.pick (pts : Nat → Vec3) (npts : Nat) (areas : Nat → ℚ)
    (s : ℚ) : ℚ × Nat :=
  let r := rdRandomPointInConvexPoly.calcAreas pts (List.range' 2 (npts - 2)) (areas, 0)
  let thr := s * r.2
  (forLoop (rdRandomPointInConvexPoly.pickStep r.1 thr) (List.range' 2 (npts - 2))
    (0, 1, npts - 1)).state.2

/-- Source `rdRandomPointInConvexPoly`: the array `areas` after the call and the point
written to `out`. Every `float` operation is read as the exact operation on
rationals; `rdRandomPointInConvexPoly.rounded` is the same computation with the
rounding of every operation. -/
def rdRandomPointInConvexPoly (env : Env) (pts : Nat → Vec3) (npts : Nat)
    (areas : Nat → ℚ) (s t : ℚ) : (Nat → ℚ) × Vec3 :=
  let r := rdRandomPointInConvexPoly.calcAreas pts (List.range' 2 (npts - 2)) (areas, 0)
  let ut := rdRandomPointInConvexPoly.pick pts npts areas s
  let u := ut.1
  let tri := ut.2
  let v := env.rdMathSqrtf t
  let a := 1 - v
  let b := (1 - u) * v
  let c := u * v
  let pa := pts 0
  let pb := pts tri
  let pc := pts (tri - 1)
  (r.1, ⟨a * pa.x + b * pb.x + c * pc.x, a * pa.y + b * pb.y + c * pc.y,
    a * pa.z + b * pb.z + c * pc.z⟩)

/-- A region of space that, with two points, contains the segment between them. -/
def ConvexRegion (S : Vec3 → Prop) : Prop :=
  ∀ x y : Vec3, S x → S y → ∀ k : ℚ, 0 ≤ k → k ≤ 1 →
    S ⟨(1 - k) * x.x + k * y.x, (1 - k) * x.y + k * y.y, (1 - k) * x.z + k * y.z⟩

/-! ### Polygon area and type (`DetourNavMesh.h`) -/

/-- Source `DT_MAX_AREAS`. -/
def DT_MAX_AREAS : Nat := 32

/-- Source `dtPoly::setArea`; the result of the expression is stored in an
`unsigned char`. -/
def dtPoly.setArea (p : dtPoly) (a : Nat) : dtPoly :=
  { p with areaAndtype := ((p.areaAndtype &&& 0xc0) ||| (a &&& 0x3f)) % 256 }

/-- Source `dtPoly::setType`; the result of the expression is stored in an
`unsigned char`. -/
def dtPoly.setType (p : dtPoly) (t : Nat) : dtPoly :=
  { p with areaAndtype := ((p.areaAndtype &&& 0x3f) ||| (t <<< 6)) % 256 }

/-- Source `dtPoly::getArea`. -/
def dtPoly.getArea (p : dtPoly) : Nat := p.areaAndtype &&& 0x3f

/-- Source `dtPoly::getType`. -/
def dtPoly.getType (p : dtPoly) : Nat := p.areaAndtype >>> 6

/-! ### Powers of two (`SharedCommon.h`) -/

/-- Source `rdNextPow2` on a 32-bit unsigned value: the decrement and the increment
wrap around. -/
def rdNextPow2 (v : Nat) : Nat :=
  let v0 := sub32 v 1
  let v1 := v0 ||| (v0 >>> 1)
  let v2 := v1 ||| (v1 >>> 2)
  let v3 := v2 ||| (v2 >>> 4)
  let v4 := v3 ||| (v3 >>> 8)
  let v5 := v4 ||| (v4 >>> 16)
  (v5 + 1) % 2 ^ 32

/-- Source `rdIlog2` on a 32-bit unsigned value; a comparison yields 0 or 1. -/
def rdIlog2 (v : Nat) : Nat :=
  let r := (if v > 0xffff then 1 else 0) <<< 4
  let v1 := v >>> r
  let shift1 := (if v1 > 0xff then 1 else 0) <<< 3
  let v2 := v1 >>> shift1
  let r1 := r ||| shift1
  let shift2 := (if v2 > 0xf then 1 else 0) <<< 2
  let v3 := v2 >>> shift2
  let r2 := r1 ||| shift2
  let shift3 := (if v3 > 0x3 then 1 else 0) <<< 1
  let v4 := v3 >>> shift3
  let r3 := r2 ||| shift3
  r3 ||| (v4 >>> 1)

/-- The bits of `x` are the bits of `m` smeared downwards over `n` positions: bit `i`
of `x` is set exactly when one of the bits `i, ..., i + n - 1` of `m` is set. The
statements `v |= v >> k` of `rdNextPow2` double `n`. -/
def SmearedBy (n x m : Nat) : Prop :=
  ∀ i, x.testBit i = true ↔ ∃ d, d < n ∧ m.testBit (i + d) = true

/-! ### Traverse tables (`Editor.cpp`) -/

/-- The number of entries of `s_traverseAnimTraverseFlags`, `ANIMTYPE_COUNT`. -/
def ANIMTYPE_COUNT : Nat := s_traverseAnimTraverseFlags.length

/-- The position of `ANIMTYPE_TITAN` in `s_traverseAnimTraverseFlags`. -/
def ANIMTYPE_TITAN : Nat := 7

/-- The position of `ANIMTYPE_GOLIATH` in `s_traverseAnimTraverseFlags`. -/
def ANIMTYPE_GOLIATH : Nat := 8

/-- Source `TRAVERSE_CLIMB_WALL_TALL`. -/
def TRAVERSE_CLIMB_WALL_TALL : Nat := 9

/-- Source `TRAVERSE_CLIMB_BUILDING`. -/
def TRAVERSE_CLIMB_BUILDING : Nat := 10

/-- Source `TRAVERSE_JUMP_MEDIUM`. -/
def TRAVERSE_JUMP_MEDIUM : Nat := 12

/-- Source `TRAVERSE_JUMP_LARGE`. -/
def TRAVERSE_JUMP_LARGE : Nat := 13

/-- Source `animTypeSupportsTraverseLink`; `navMeshType` is `params->navMeshType`, and
the `int` result of the last expression is converted to `bool`. -/
def animTypeSupportsTraverseLink (env : Env) (navMeshType : Nat) (link : dtLink)
    (tableIndex : Nat) : Bool :=
  if link.reverseLink = DT_NULL_TRAVERSE_REVERSE_LINK then true
  else
    let traverseAnimType :=
      if navMeshType = env.NAVMESH_SMALL then tableIndex
      else env.NavMesh_GetFirstTraverseAnimTypeForType navMeshType
    decide (rdBitCellBit env link.traverseType &&&
      s_traverseAnimTraverseFlags.getD traverseAnimType 0 ≠ 0)

/-! ### A tile with a polygon that is not convex -/

/-- Vertices of the tile with a notch: the triangle `(100, 0), (110, 0), (110, 10)`
(vertices 0..2) and the L-shaped hexagon `(0, 0), (80, 0), (80, 40), (40, 40), (40, 80),
(0, 80)` (vertices 3..8), both at height 0 and counter-clockwise. -/
def notchTileVerts : Nat → Vec3 := fun v =>
  [ (⟨100, 0, 0⟩ : Vec3), ⟨110, 0, 0⟩, ⟨110, 10, 0⟩,
    ⟨0, 0, 0⟩, ⟨80, 0, 0⟩, ⟨80, 40, 0⟩, ⟨40, 40, 0⟩, ⟨40, 80, 0⟩, ⟨0, 80, 0⟩ ].getD v ⟨0, 0, 0⟩

/-- Polygons of the tile with a notch: polygon 0 is the triangle, in no poly group;
polygon 1 is the hexagon, in poly group 3, with hard edges only. -/
def notchTilePolys : Nat → dtPoly := fun p =>
  if p = 0 then ⟨DT_NULL_LINK, fun k => k, fun _ => 0, 3, DT_UNLINKED_POLY_GROUP, 0⟩
  else if p = 1 then ⟨DT_NULL_LINK, fun k => 3 + k, fun _ => 0, 6, 3, 0⟩
  else ⟨DT_NULL_LINK, fun _ => 0, fun _ => 0, 0, 0, 0⟩

/-- An editor on a small navmesh whose only tile holds the two polygons of
`notchTilePolys` and a link array of 4 free slots. -/
def notchEditor : Editor :=
  { m_navMesh :=
      { m_saltBits := 10, m_tileBits := 12, m_polyBits := 10, m_maxTiles := 1,
        m_tiles := fun t =>
          if t = 0 then
            { gapTile 0 4 with
              header := some ⟨0, 0, 2, 4, 16, ⟨0, 0, 0⟩, ⟨110, 80, 0⟩, 0⟩
              polys := notchTilePolys
              verts := notchTileVerts }
          else emptyTile }
    m_traverseLinkPolyMap := []
    m_selectedNavMeshType := 0
    m_cellHeight := 16 }

/-! ### Convex polygons -/

/-- The polygon `p` of the tile is convex and its edge normals point outwards: for
every edge `j` of the polygon, the normal that `traverseLinkInLOS` computes from the
edge direction is perpendicular to the edge, and no vertex of the polygon lies on the
side of the edge that the normal points to. -/
def dtMeshTile.ConvexOutward (env : Env) (t : dtMeshTile) (p : Nat) : Prop :=
  ∀ j, j < (t.polys p).vertCount →
    rdVdot2D
        (rdVsub (t.verts ((t.polys p).verts ((j + 1) % (t.polys p).vertCount)))
          (t.verts ((t.polys p).verts j)))
        (env.rdCalcEdgeNormal2D
          (rdVsub (t.verts ((t.polys p).verts ((j + 1) % (t.polys p).vertCount)))
            (t.verts ((t.polys p).verts j))) false) = 0 ∧
    ∀ k, k < (t.polys p).vertCount →
      rdVdot2D (rdVsub (t.verts ((t.polys p).verts k)) (t.verts ((t.polys p).verts j)))
        (env.rdCalcEdgeNormal2D
          (rdVsub (t.verts ((t.polys p).verts ((j + 1) % (t.polys p).vertCount)))
            (t.verts ((t.polys p).verts j))) false) ≤ 0

/-- Decision procedure for `dtMeshTile.ConvexOutward`. -/
instance decConvexOutward (env : Env) (t : dtMeshTile) (p : Nat) :
    Decidable (t.ConvexOutward env p) := by
  unfold dtMeshTile.ConvexOutward
  exact inferInstance

/-- The power `2 ^ z` of two with an integer exponent. -/
def pow2 (z : Int) : ℚ :=
  if 0 ≤ z then ((2 ^ z.toNat : Nat) : ℚ) else 1 / ((2 ^ (-z).toNat : Nat) : ℚ)

/-- The loop of `bitLog2`, with a bound on the number of halvings. -/
def bitLog2Aux : Nat → Nat → Nat
  | 0, _ => 0
  | f + 1, n => if 2 ≤ n then bitLog2Aux f (n / 2) + 1 else 0

/-- The position of the highest set bit of `n`: the `k` with `2 ^ k ≤ n < 2 ^ (k + 1)`
for `n > 0`. -/
def bitLog2 (n : Nat) : Nat := bitLog2Aux n n

/-- The binary exponent of a positive rational `q`: the integer `e` with
`2 ^ e ≤ q < 2 ^ (e + 1)`. From the bit lengths of numerator and denominator the
exponent is known up to one. -/
def floorLog2 (q : ℚ) : Int :=
  let e : Int := (bitLog2 q.num.natAbs : Int) - (bitLog2 q.den : Int)
  if pow2 e ≤ q then e else e - 1

/-- Rounding of a rational to the nearest integer, a tie to the even one. -/
def roundEven (q : ℚ) : Int :=
  let f := Rat.floor q
  let r := q - f
  if r < 1 / 2 then f
  else if 1 / 2 < r then f + 1
  else if f % 2 = 0 then f else f + 1

/-- Rounding of a real number to binary32, to nearest with ties to even: a 24-bit
significand, and below `2 ^ (-126)` the fixed spacing `2 ^ (-149)` of the subnormal
numbers. Values beyond the largest finite `float`, which round to an infinity, are
not represented. -/
def f32 (q : ℚ) : ℚ :=
  if q = 0 then 0
  else
    let a := if q < 0 then -q else q
    let e := max (floorLog2 a) (-126)
    let ulp := pow2 (e - 23)
    let m := roundEven (a / ulp)
    if q < 0 then -((m : ℚ) * ulp) else (m : ℚ) * ulp

/-- The loop of `isqrt`: the bits of the root from bit `b - 1` down to bit 0. -/
def isqrtAux (n : Nat) : Nat → Nat → Nat
  | 0, r => r
  | b + 1, r =>
    if (r + 2 ^ b) * (r + 2 ^ b) ≤ n then isqrtAux n b (r + 2 ^ b) else isqrtAux n b r

/-- The integer square root: the largest `r` with `r * r ≤ n`. -/
def isqrt (n : Nat) : Nat := isqrtAux n (bitLog2 n / 2 + 1) 0

/-- The function `sqrtf` on a finite `float` that is not negative: the square root
rounded to binary32, to nearest with ties to even, as IEEE 754 requires of the square
root. With `ulp` the spacing of the `float`s around the root and `x = q / ulp ^ 2`, the
integer `k` is the floor of `2 * sqrt x`; an even `k` rounds down, an odd `k` rounds up
unless `sqrt x` is exactly the mid-point `k / 2`. -/
def f32sqrt (q : ℚ) : ℚ :=
  if q ≤ 0 then 0
  else
    let e := max (Rat.floor ((floorLog2 q : ℚ) / 2)) (-126)
    let ulp := pow2 (e - 23)
    let x := q / (ulp * ulp)
    let k := isqrt (Rat.floor (4 * x)).toNat
    let m : Nat :=
      if k % 2 = 0 then k / 2
      else if ((k * k : Nat) : ℚ) = 4 * x then (if (k / 2) % 2 = 0 then k / 2 else k / 2 + 1)
      else k / 2 + 1
    (m : ℚ) * ulp

/-- Source `rdClassifyPointInsideBounds` with the rounding `fl` of every `float`
operation. -/
def rdClassifyPointInsideBounds.rounded (fl : ℚ → ℚ) (env : Env) (pt bmin bmax : Vec3) :
    Nat :=
  let centerX := fl (fl (bmin.x + bmax.x) * (1 / 2))
  let centerY := fl (fl (bmin.y + bmax.y) * (1 / 2))
  let dirX := fl (pt.x - centerX)
  let dirY := fl (pt.y - centerY)
  let boxSizeX := fl (bmax.x - bmin.x)
  let boxSizeY := fl (bmax.y - bmin.y)
  let len := env.rdMathSqrtf (fl (fl (dirX * dirX) + fl (dirY * dirY)))
  let dirX2 := if len > env.RD_EPS then fl (dirX / len) else dirX
  let dirY2 := if len > env.RD_EPS then fl (dirY / len) else dirY
  let newPt : Vec3 :=
    ⟨fl (centerX + fl (dirX2 * boxSizeX)), fl (centerY + fl (dirY2 * boxSizeY)), 0⟩
  rdClassifyPointOutsideBounds newPt bmin bmax

/-- Source `rdTriArea2D` with the rounding `fl` of every `float` operation. -/
def rdTriArea2D.rounded (fl : ℚ → ℚ) (a b c : Vec3) : ℚ :=
  let abx := fl (b.x - a.x)
  let aby := fl (b.y - a.y)
  let acx := fl (c.x - a.x)
  let acy := fl (c.y - a.y)
  fl (fl (acx * aby) - fl (abx * acy))

/-- The first loop of `rdRandomPointInConvexPoly` with the rounding `fl` of every
`float` operation; the literal `0.001f` is the rounded `1 / 1000`. -/
def rdRandomPointInConvexPoly.calcAreas.rounded (fl : ℚ → ℚ) (pts : Nat → Vec3) :
    List Nat → (Nat → ℚ) × ℚ → (Nat → ℚ) × ℚ
  | [], r => r
  | i :: is, (areas, areasum) =>
    let areas1 := Function.update areas i (rdTriArea2D.rounded fl (pts 0) (pts i) (pts (i - 1)))
    rdRandomPointInConvexPoly.calcAreas.rounded fl pts is
      (areas1, fl (areasum + rdMax (fl (1 / 1000)) (areas1 i)))

/-- Body of the second loop of `rdRandomPointInConvexPoly` with the rounding `fl` of
every `float` operation. -/
def rdRandomPointInConvexPoly.pickStep.rounded (fl : ℚ → ℚ) (areas : Nat → ℚ) (thr : ℚ)
    (i : Nat) (s : ℚ × ℚ × Nat) : Flow (ℚ × ℚ × Nat) :=
  let acc := s.1
  let dacc := areas i
  if thr ≥ acc ∧ thr < fl (acc + dacc) then .exit (acc, fl (fl (thr - acc) / dacc), i)
  else .next (fl (acc + dacc), s.2.1, s.2.2)

/-- The values of `u` and `tri` after the second loop of `rdRandomPointInConvexPoly`,
with the rounding `fl` of every `float` operation. -/
def rdRandomPointInConvexPoly.pick.rounded (fl : ℚ → ℚ) (pts : Nat → Vec3) (npts : Nat)
    (areas : Nat → ℚ) (s : ℚ) : ℚ × Nat :=
  let r := rdRandomPointInConvexPoly.calcAreas.rounded fl pts (List.range' 2 (npts - 2))
    (areas, 0)
  let thr := fl (s * r.2)
  (forLoop (rdRandomPointInConvexPoly.pickStep.rounded fl r.1 thr) (List.range' 2 (npts - 2))
    (0, 1, npts - 1)).state.2

/-- The three weights `a`, `b`, `c` that `rdRandomPointInConvexPoly` computes, with
the rounding `fl` of every `float` operation. -/
def rdRandomPointInConvexPoly.weights.rounded (fl : ℚ → ℚ) (env : Env) (pts : Nat → Vec3)
    (npts : Nat) (areas : Nat → ℚ) (s t : ℚ) : ℚ × ℚ × ℚ :=
  let u := (rdRandomPointInConvexPoly.pick.rounded fl pts npts areas s).1
  let v := env.rdMathSqrtf t
  (fl (1 - v), fl (fl (1 - u) * v), fl (u * v))

/-- Source `rdRandomPointInConvexPoly` with the rounding `fl` of every `float`
operation: the array `areas` after the call and the point written to `out`. The sum
`a*pa[0] + b*pb[0] + c*pc[0]` associates to the left. -/
def rdRandomPointInConvexPoly.rounded (fl : ℚ → ℚ) (env : Env) (pts : Nat → Vec3)
    (npts : Nat) (areas : Nat → ℚ) (s t : ℚ) : (Nat → ℚ) × Vec3 :=
  let r := rdRandomPointInConvexPoly.calcAreas.rounded fl pts (List.range' 2 (npts - 2))
    (areas, 0)
  let ut := rdRandomPointInConvexPoly.pick.rounded fl pts npts areas s
  let u := ut.1
  let tri := ut.2
  let v := env.rdMathSqrtf t
  let a := fl (1 - v)
  let b := fl (fl (1 - u) * v)
  let c := fl (u * v)
  let pa := pts 0
  let pb := pts tri
  let pc := pts (tri - 1)
  (r.1, ⟨fl (fl (fl (a * pa.x) + fl (b * pb.x)) + fl (c * pc.x)),
    fl (fl (fl (a * pa.y) + fl (b * pb.y)) + fl (c * pc.y)),
    fl (fl (fl (a * pa.z) + fl (b * pb.z)) + fl (c * pc.z))⟩)

/-- Source `Editor_TileMesh::getTileExtents` with the rounding `fl` of every `float`
operation, the conversions of the `int` operands to `float` included. -/
def Editor_TileMesh.getTileExtents.rounded (fl : ℚ → ℚ) (e : Editor_TileMesh)
    (tx ty : Int) : Vec3 × Vec3 :=
  let ts : ℚ := fl (fl (e.m_tileSize : ℚ) * e.m_cellSize)
  let bmin := (e.m_geom.getD ⟨⟨0, 0, 0⟩, ⟨0, 0, 0⟩⟩).navMeshBMin
  let bmax := (e.m_geom.getD ⟨⟨0, 0, 0⟩, ⟨0, 0, 0⟩⟩).navMeshBMax
  (⟨fl (bmax.x - fl (fl ((tx + 1 : Int) : ℚ) * ts)), fl (bmin.y + fl (fl (ty : ℚ) * ts)),
      bmin.z⟩,
   ⟨fl (bmax.x - fl (fl (tx : ℚ) * ts)), fl (bmin.y + fl (fl ((ty + 1 : Int) : ℚ) * ts)),
      bmax.z⟩)

/-- Source `Editor_TileMesh::getTilePos` with the rounding `fl` of every `float`
operation. -/
def Editor_TileMesh.getTilePos.rounded (fl : ℚ → ℚ) (e : Editor_TileMesh) (pos : Vec3)
    (tx ty : Int) : Int × Int :=
  match e.m_geom with
  | none => (tx, ty)
  | some geom =>
    let bmin := geom.navMeshBMin
    let bmax := geom.navMeshBMax
    let ts : ℚ := fl (fl (e.m_tileSize : ℚ) * e.m_cellSize)
    (truncToInt (fl (fl (bmax.x - pos.x) / ts)), truncToInt (fl (fl (pos.y - bmin.y) / ts)))

/-- The example environment with the square root of binary32 and its constants
rounded to binary32. -/
def exampleEnv32 : Env :=
  { exampleEnv with rdMathSqrtf := f32sqrt, RD_EPS := f32 (1 / 1000000) }

/-- The triangle `(0.1f, 0)`, `(1, 0.5)`, `(0.1f, 1)` in the plane `z = 0`. -/
def sliverTriangle (i : Nat) : Vec3 :=
  if i = 0 then ⟨f32 (1 / 10), 0, 0⟩ else if i = 1 then ⟨1, 1 / 2, 0⟩ else ⟨f32 (1 / 10), 1, 0⟩
/-! ## Part II. Theorems -/

/-! ### Polygon references -/

theorem shl32_of_lt (x n : Nat) (h : n < 32) : shl32 x n = (x <<< n) % 2 ^ 32 := by
  unfold shl32
  rw [Nat.mod_eq_of_lt h]

theorem shr32_of_lt (x n : Nat) (h : n < 32) : shr32 x n = x >>> n := by
  unfold shr32
  rw [Nat.mod_eq_of_lt h]

theorem mask32 (s : Nat) (hs : s < 32) : sub32 (shl32 1 s) 1 = 2 ^ s - 1 := by
  rw [shl32_of_lt 1 s hs]
  unfold sub32
  have h1 : (2:Nat) ^ s < 2 ^ 32 := Nat.pow_lt_pow_right (by norm_num) hs
  have h0 : 0 < 2 ^ s := Nat.pow_pos (by norm_num)
  rw [Nat.one_shiftLeft, Nat.mod_eq_of_lt h1]
  omega

theorem low_part_lt (t p it ip : Nat) (ht : it < 2 ^ t) (hp : ip < 2 ^ p) :
    2 ^ p * it + ip < 2 ^ (p + t) := by
  rw [Nat.pow_add]
  calc 2 ^ p * it + ip < 2 ^ p * it + 2 ^ p := by omega
    _ = 2 ^ p * (it + 1) := by ring
    _ ≤ 2 ^ p * 2 ^ t := Nat.mul_le_mul_left _ ht

theorem encodePolyId_eq_sum (nm : dtNavMesh) (salt it ip : Nat)
    (h1 : nm.m_tileBits + nm.m_polyBits ≤ 31)
    (h2 : nm.m_saltBits + nm.m_tileBits + nm.m_polyBits ≤ 32)
    (hs : salt < 2 ^ nm.m_saltBits) (ht : it < 2 ^ nm.m_tileBits)
    (hp : ip < 2 ^ nm.m_polyBits) :
    nm.encodePolyId salt it ip
      = 2 ^ (nm.m_polyBits + nm.m_tileBits) * salt + (2 ^ nm.m_polyBits * it + ip) := by
  unfold dtNavMesh.encodePolyId
  generalize nm.m_saltBits = s at *
  generalize nm.m_tileBits = t at *
  generalize nm.m_polyBits = p at *
  have hlow := low_part_lt t p it ip ht hp
  have hall : 2 ^ (p + t) * salt + (2 ^ p * it + ip) < 2 ^ 32 := by
    calc 2 ^ (p + t) * salt + (2 ^ p * it + ip)
        < 2 ^ (p + t) * salt + 2 ^ (p + t) := by omega
      _ = 2 ^ (p + t) * (salt + 1) := by ring
      _ ≤ 2 ^ (p + t) * 2 ^ s := Nat.mul_le_mul_left _ hs
      _ = 2 ^ (p + t + s) := by rw [← Nat.pow_add]
      _ ≤ 2 ^ 32 := Nat.pow_le_pow_right (by norm_num) (by omega)
  have e1 : shl32 salt (p + t) = 2 ^ (p + t) * salt := by
    rw [shl32_of_lt _ _ (by omega), Nat.shiftLeft_eq, Nat.mul_comm,
      Nat.mod_eq_of_lt (by omega)]
  have e3 : shl32 it p = 2 ^ p * it := by
    rw [shl32_of_lt _ _ (by omega), Nat.shiftLeft_eq, Nat.mul_comm,
      Nat.mod_eq_of_lt (by omega)]
  rw [e1, e3, Nat.lor_assoc, ← Nat.mul_add_lt_is_or hp, ← Nat.mul_add_lt_is_or hlow]

theorem decode_sum (nm : dtNavMesh) (salt it ip : Nat)
    (h0 : nm.m_saltBits ≤ 31)
    (h1 : nm.m_tileBits + nm.m_polyBits ≤ 31)
    (hs : salt < 2 ^ nm.m_saltBits) (ht : it < 2 ^ nm.m_tileBits)
    (hp : ip < 2 ^ nm.m_polyBits) :
    nm.decodePolyId (2 ^ (nm.m_polyBits + nm.m_tileBits) * salt + (2 ^ nm.m_polyBits * it + ip))
      = (salt, it, ip) := by
  simp only [dtNavMesh.decodePolyId]
  generalize nm.m_saltBits = s at *
  generalize nm.m_tileBits = t at *
  generalize nm.m_polyBits = p at *
  have hlow := low_part_lt t p it ip ht hp
  rw [mask32 s (by omega), mask32 t (by omega), mask32 p (by omega),
    shr32_of_lt _ (p + t) (by omega), shr32_of_lt _ p (by omega)]
  simp only [Nat.and_pow_two_sub_one_eq_mod, Nat.shiftRight_eq_div_pow]
  have hre : 2 ^ (p + t) * salt + (2 ^ p * it + ip) = ip + 2 ^ p * (2 ^ t * salt + it) := by
    rw [Nat.pow_add]; ring
  have e1 : (2 ^ (p + t) * salt + (2 ^ p * it + ip)) / 2 ^ (p + t) = salt := by
    rw [Nat.add_comm, Nat.add_mul_div_left _ _ (Nat.pow_pos (by norm_num)),
      Nat.div_eq_of_lt hlow, Nat.zero_add]
  have e2 : (2 ^ (p + t) * salt + (2 ^ p * it + ip)) / 2 ^ p = 2 ^ t * salt + it := by
    rw [hre, Nat.add_mul_div_left _ _ (Nat.pow_pos (by norm_num)), Nat.div_eq_of_lt hp,
      Nat.zero_add]
  have e3 : (2 ^ (p + t) * salt + (2 ^ p * it + ip)) % 2 ^ p = ip := by
    rw [hre, Nat.add_mul_mod_self_left, Nat.mod_eq_of_lt hp]
  have e4 : (2 ^ t * salt + it) % 2 ^ t = it := by
    rw [Nat.add_comm, Nat.add_mul_mod_self_left, Nat.mod_eq_of_lt ht]
  rw [e1, e2, e3, Nat.mod_eq_of_lt hs, e4]

/-- The round trip of C1 fails inside the stated range of layouts: with
`saltBits = 32` and `tileBits = polyBits = 0` (so `tileBits + polyBits ≤ 31` and the
sum is 32), the reference of salt 1, tile 0, polygon 0 is 1, and `decodePolyId` and
`decodePolyIdSalt` return the salt 0: the mask `((dtPolyRef)1 << 32) - 1` is computed
with a shift by the full width of the type, and is 0. -/
theorem polyId_salt32_counterexample :
    saltOnlyNavMesh.m_tileBits + saltOnlyNavMesh.m_polyBits ≤ 31 ∧
    saltOnlyNavMesh.m_saltBits + saltOnlyNavMesh.m_tileBits + saltOnlyNavMesh.m_polyBits ≤ 32 ∧
    1 < 2 ^ saltOnlyNavMesh.m_saltBits ∧ 0 < 2 ^ saltOnlyNavMesh.m_tileBits ∧
    0 < 2 ^ saltOnlyNavMesh.m_polyBits ∧
    saltOnlyNavMesh.encodePolyId 1 0 0 = 1 ∧
    saltOnlyNavMesh.decodePolyId (saltOnlyNavMesh.encodePolyId 1 0 0) = (0, 0, 0) ∧
    saltOnlyNavMesh.decodePolyIdSalt (saltOnlyNavMesh.encodePolyId 1 0 0) = 0 := by
  decide

/-- C1 (amended): for every bit layout with `saltBits ≤ 31`, `tileBits + polyBits ≤ 31`
and `saltBits + tileBits + polyBits ≤ 32`, so that every shift count is below the
width of the reference, and all components within their widths,
`decodePolyId (encodePolyId salt it ip)` is `(salt, it, ip)`, and `decodePolyIdSalt`,
`decodePolyIdTile`, `decodePolyIdPoly` return the same three components. -/
theorem polyId_roundtrip (nm : dtNavMesh) (salt it ip : Nat)
    (h0 : nm.m_saltBits ≤ 31)
    (h1 : nm.m_tileBits + nm.m_polyBits ≤ 31)
    (h2 : nm.m_saltBits + nm.m_tileBits + nm.m_polyBits ≤ 32)
    (hs : salt < 2 ^ nm.m_saltBits) (ht : it < 2 ^ nm.m_tileBits)
    (hp : ip < 2 ^ nm.m_polyBits) :
    nm.decodePolyId (nm.encodePolyId salt it ip) = (salt, it, ip) ∧
    nm.decodePolyIdSalt (nm.encodePolyId salt it ip) = salt ∧
    nm.decodePolyIdTile (nm.encodePolyId salt it ip) = it ∧
    nm.decodePolyIdPoly (nm.encodePolyId salt it ip) = ip := by
  have hd := decode_sum nm salt it ip h0 h1 hs ht hp
  rw [encodePolyId_eq_sum nm salt it ip h1 h2 hs ht hp]
  refine ⟨hd, ?_, ?_, ?_⟩
  · exact congrArg (fun r => r.1) hd
  · exact congrArg (fun r => r.2.1) hd
  · exact congrArg (fun r => r.2.2) hd

/-- Witness of C1 (amended) on a navmesh with the layout 10 + 12 + 10 bits. -/
theorem polyId_roundtrip_witness :
    exampleNavMesh.decodePolyId (exampleNavMesh.encodePolyId 1000 4000 1000)
      = (1000, 4000, 1000) ∧
    exampleNavMesh.decodePolyIdSalt (exampleNavMesh.encodePolyId 1000 4000 1000) = 1000 ∧
    exampleNavMesh.decodePolyIdTile (exampleNavMesh.encodePolyId 1000 4000 1000) = 4000 ∧
    exampleNavMesh.decodePolyIdPoly (exampleNavMesh.encodePolyId 1000 4000 1000) = 1000 :=
  polyId_roundtrip exampleNavMesh 1000 4000 1000 (by decide) (by decide) (by decide)
    (by decide) (by decide) (by decide)

/-! ### The traverse-type classifier -/

theorem scan_succ_of_not_matches (e : ℚ) (d : Nat) (g : Bool) (i : Nat)
    (h : ¬ slotMatches i e d g) :
    GetBestTraverseType.scan e d g (i + 1) = GetBestTraverseType.scan e d g i := by
  simp only [GetBestTraverseType.scan]
  split_ifs with h1 h2 h3 h4
  · rfl
  · rfl
  · rfl
  · rfl
  · exfalso
    apply h
    refine ⟨h1, ?_⟩
    simp only [not_or, not_lt, gt_iff_lt] at h2 h3
    refine ⟨h2.1, h2.2, h3.1, h3.2, ?_, ?_⟩
    · intro hf
      cases g <;> simp_all
    · intro hf
      cases g <;> simp_all

theorem scan_succ_of_matches (e : ℚ) (d : Nat) (g : Bool) (i : Nat)
    (h : slotMatches i e d g) :
    GetBestTraverseType.scan e d g (i + 1) = i := by
  obtain ⟨hu, h1, h2, h3, h4, h5, h6⟩ := h
  simp only [GetBestTraverseType.scan]
  rw [if_neg hu, if_neg (by simp only [not_or, not_lt, gt_iff_lt]; exact ⟨h1, h2⟩),
    if_neg (by simp only [not_or, not_lt, gt_iff_lt]; exact ⟨h3, h4⟩), if_neg]
  cases hs : (traverseSlot i).forceSamePolyGroup <;>
    cases hd : (traverseSlot i).forceDifferentPolyGroup <;> cases g <;> simp_all

theorem scan_spec (e : ℚ) (d : Nat) (g : Bool) (n : Nat) :
    (GetBestTraverseType.scan e d g n = INVALID_TRAVERSE_TYPE ∧
        ∀ i, i < n → ¬ slotMatches i e d g) ∨
    (GetBestTraverseType.scan e d g n < n ∧
        slotMatches (GetBestTraverseType.scan e d g n) e d g ∧
        ∀ j, GetBestTraverseType.scan e d g n < j → j < n → ¬ slotMatches j e d g) := by
  induction n with
  | zero => exact Or.inl ⟨rfl, fun i hi => absurd hi (Nat.not_lt_zero i)⟩
  | succ n ih =>
    by_cases hm : slotMatches n e d g
    · right
      rw [scan_succ_of_matches e d g n hm]
      exact ⟨Nat.lt_succ_self n, hm, fun j h1 h2 => absurd h2 (by omega)⟩
    · rw [scan_succ_of_not_matches e d g n hm]
      rcases ih with ⟨h0, hall⟩ | ⟨hlt, hok, hmax⟩
      · left
        refine ⟨h0, fun i hi => ?_⟩
        rcases Nat.lt_succ_iff_lt_or_eq.mp hi with h | h
        · exact hall i h
        · rw [h]; exact hm
      · right
        refine ⟨Nat.lt_succ_of_lt hlt, hok, fun j h1 h2 => ?_⟩
        rcases Nat.lt_succ_iff_lt_or_eq.mp h2 with h | h
        · exact hmax j h1 h
        · rw [h]; exact hm

/-- C2: `GetBestTraverseType` returns the highest-indexed slot in use (0..31) whose
elevation range, distance range and poly-group constraints admit the candidate, and
returns `INVALID_TRAVERSE_TYPE` exactly when no slot in use admits it. -/
theorem GetBestTraverseType_highest_match (e : ℚ) (d : Nat) (g : Bool) :
    ((∃ i, i < NUM_TRAVERSE_TYPES ∧ slotMatches i e d g) →
      GetBestTraverseType e d g < NUM_TRAVERSE_TYPES ∧
      slotMatches (GetBestTraverseType e d g) e d g ∧
      ∀ j, GetBestTraverseType e d g < j → j < NUM_TRAVERSE_TYPES → ¬ slotMatches j e d g) ∧
    (GetBestTraverseType e d g = INVALID_TRAVERSE_TYPE ↔
      ∀ i, i < NUM_TRAVERSE_TYPES → ¬ slotMatches i e d g) := by
  unfold GetBestTraverseType
  rcases scan_spec e d g NUM_TRAVERSE_TYPES with ⟨h0, hall⟩ | ⟨hlt, hok, hmax⟩
  · refine ⟨fun ⟨i, hi, hm⟩ => absurd hm (hall i hi), fun _ => hall, fun _ => h0⟩
  · refine ⟨fun _ => ⟨hlt, hok, hmax⟩, fun h => ?_, fun h => absurd hok (h _ hlt)⟩
    rw [h] at hlt
    exact absurd hlt (by decide)

theorem GetBestTraverseType_eq_of_highest (e : ℚ) (d : Nat) (g : Bool) (i : Nat)
    (hi : i < NUM_TRAVERSE_TYPES) (hm : slotMatches i e d g)
    (hmax : ∀ j, i < j → j < NUM_TRAVERSE_TYPES → ¬ slotMatches j e d g) :
    GetBestTraverseType e d g = i := by
  unfold GetBestTraverseType
  rcases scan_spec e d g NUM_TRAVERSE_TYPES with ⟨-, hall⟩ | ⟨hlt, hok, hmax2⟩
  · exact absurd hm (hall i hi)
  · rcases Nat.lt_trichotomy (GetBestTraverseType.scan e d g NUM_TRAVERSE_TYPES) i with h | h | h
    · exact absurd hm (hmax2 i h hi)
    · exact h
    · exact absurd hok (hmax _ h hlt)

theorem no_match_above_eight (e : ℚ) (d : Nat) (g : Bool) (h2 : e ≤ 40) (h4 : d ≤ 16)
    (j : Nat) (hj : 8 < j) (hj2 : j < NUM_TRAVERSE_TYPES) : ¬ slotMatches j e d g := by
  unfold NUM_TRAVERSE_TYPES at hj2
  rintro ⟨hu, h5, h6, h7, h8, -, -⟩
  interval_cases j <;>
    simp [traverseSlot, s_traverseTypes, slotInUse] at hu h5 h6 h7 h8 <;>
    first
      | omega
      | linarith

theorem no_match_three_to_seven (e : ℚ) (d : Nat) (g : Bool) (h1 : 32 ≤ e) (h4 : d ≤ 16)
    (j : Nat) (hj : 2 < j) (hj2 : j < 8) : ¬ slotMatches j e d g := by
  rintro ⟨hu, h5, h6, h7, h8, -, -⟩
  interval_cases j <;>
    simp [traverseSlot, s_traverseTypes, slotInUse] at hu h5 h6 h7 h8 <;>
    first
      | omega
      | linarith

/-- C3 (counterexample): at elevation 40 and quantised distance 7, both inside the
stated ranges, `GetBestTraverseType` returns slot 8 (`TRAVERSE_CLIMB_WALL_MEDIUM`),
not `TRAVERSE_CLIMB_OBJECT_SMALL`. -/
theorem climb_object_small_counterexample :
    (32 : ℚ) ≤ 40 ∧ (40 : ℚ) ≤ 40 ∧ 5 ≤ 7 ∧ 7 ≤ 16 ∧
    GetBestTraverseType 40 7 false = TRAVERSE_CLIMB_WALL_MEDIUM ∧
    GetBestTraverseType 40 7 false ≠ TRAVERSE_CLIMB_OBJECT_SMALL := by
  decide

/-- C3 (amended): for elevation in `[32, 40]` and quantised distance in `[5, 16]`,
`GetBestTraverseType` returns `TRAVERSE_CLIMB_OBJECT_SMALL` (2), except at elevation
exactly 40 with distance in `[7, 16]`, where the higher slot 8
(`TRAVERSE_CLIMB_WALL_MEDIUM`) also admits the candidate and is returned. -/
theorem climb_object_small_range (e : ℚ) (d : Nat) (g : Bool)
    (h1 : 32 ≤ e) (h2 : e ≤ 40) (h3 : 5 ≤ d) (h4 : d ≤ 16) :
    GetBestTraverseType e d g =
      if e = 40 ∧ 7 ≤ d then TRAVERSE_CLIMB_WALL_MEDIUM else TRAVERSE_CLIMB_OBJECT_SMALL := by
  by_cases hc : e = 40 ∧ 7 ≤ d
  · rw [if_pos hc]
    obtain ⟨he, hd⟩ := hc
    apply GetBestTraverseType_eq_of_highest e d g TRAVERSE_CLIMB_WALL_MEDIUM (by decide)
    · subst he
      refine ⟨?_, ?_⟩
      · simp [traverseSlot, s_traverseTypes, slotInUse, TRAVERSE_CLIMB_WALL_MEDIUM]
      · simp only [slotAdmits, traverseSlot, s_traverseTypes, TRAVERSE_CLIMB_WALL_MEDIUM,
          List.getD_cons_succ, List.getD_cons_zero]
        refine ⟨by norm_num, by norm_num, hd, by omega, by simp, by simp⟩
    · intro j hj hj2
      exact no_match_above_eight e d g h2 h4 j hj hj2
  · rw [if_neg hc]
    apply GetBestTraverseType_eq_of_highest e d g TRAVERSE_CLIMB_OBJECT_SMALL (by decide)
    · refine ⟨?_, ?_⟩
      · simp [traverseSlot, s_traverseTypes, slotInUse, TRAVERSE_CLIMB_OBJECT_SMALL]
      · simp only [slotAdmits, traverseSlot, s_traverseTypes, TRAVERSE_CLIMB_OBJECT_SMALL,
          List.getD_cons_succ, List.getD_cons_zero]
        exact ⟨h1, h2, h3, h4, by simp, by simp⟩
    · intro j hj hj2
      unfold TRAVERSE_CLIMB_OBJECT_SMALL at hj
      rcases Nat.lt_or_ge j 8 with h | h
      · exact no_match_three_to_seven e d g h1 h4 j hj h
      · rcases Nat.eq_or_lt_of_le h with h8 | h8
        · subst h8
          rintro ⟨-, h5, -, h7, -, -, -⟩
          simp [traverseSlot, s_traverseTypes] at h5 h7
          apply hc
          exact ⟨le_antisymm h2 h5, h7⟩
        · exact no_match_above_eight e d g h2 h4 j h8 hj2

/-- Witness of the amended C3 at elevation 36, distance 10. -/
theorem climb_object_small_range_witness :
    (32 : ℚ) ≤ 36 ∧ (36 : ℚ) ≤ 40 ∧ 5 ≤ 10 ∧ 10 ≤ 16 ∧
    GetBestTraverseType 36 10 true =
      if (36 : ℚ) = 40 ∧ 7 ≤ 10 then TRAVERSE_CLIMB_WALL_MEDIUM
      else TRAVERSE_CLIMB_OBJECT_SMALL :=
  ⟨by norm_num, by norm_num, by decide, by decide,
    climb_object_small_range 36 10 true (by norm_num) (by norm_num) (by decide) (by decide)⟩

/-! ### Line of sight -/

/-- C10: `traverseLinkInLOS` returns true exactly when (a) `polyEdgeFaceAgainst` holds
for the low-to-high displacement and the two edge normals, which fails whenever both
normals lie strictly on the same side of the displacement; (b) if `offsetAmount > 0`,
neither raycast between the high mid-point and the offset position hits; (c) neither
raycast between the ray target (offset position, or the high mid-point when
`offsetAmount ≤ 0`) and the low mid-point hits. -/
theorem traverseLinkInLOS_iff (env : Env) (lowPos highPos lowDir highDir : Vec3)
    (offsetAmount : ℚ) :
    (traverseLinkInLOS env lowPos highPos lowDir highDir offsetAmount = true ↔
      (polyEdgeFaceAgainst lowPos highPos (env.rdCalcEdgeNormal2D lowDir false)
          (env.rdCalcEdgeNormal2D highDir false) = true ∧
       (offsetAmount > 0 →
          env.raycastMesh highPos
            (offsetRayPos highPos (env.rdCalcEdgeNormal2D highDir false) offsetAmount) = false ∧
          env.raycastMesh
            (offsetRayPos highPos (env.rdCalcEdgeNormal2D highDir false) offsetAmount)
            highPos = false) ∧
       env.raycastMesh
          (if offsetAmount > 0 then
            offsetRayPos highPos (env.rdCalcEdgeNormal2D highDir false) offsetAmount
           else highPos) lowPos = false ∧
       env.raycastMesh lowPos
          (if offsetAmount > 0 then
            offsetRayPos highPos (env.rdCalcEdgeNormal2D highDir false) offsetAmount
           else highPos) = false)) ∧
    (∀ v1 v2 n1 n2 : Vec3,
      ((0 < rdVdot2D ⟨v2.x - v1.x, v2.y - v1.y, 0⟩ n1 ∧
          0 < rdVdot2D ⟨v2.x - v1.x, v2.y - v1.y, 0⟩ n2) ∨
       (rdVdot2D ⟨v2.x - v1.x, v2.y - v1.y, 0⟩ n1 < 0 ∧
          rdVdot2D ⟨v2.x - v1.x, v2.y - v1.y, 0⟩ n2 < 0)) →
      polyEdgeFaceAgainst v1 v2 n1 n2 = false) := by
  constructor
  · unfold traverseLinkInLOS traverseLinkOffsetIntersectsGeom
    by_cases hf : polyEdgeFaceAgainst lowPos highPos (env.rdCalcEdgeNormal2D lowDir false)
        (env.rdCalcEdgeNormal2D highDir false) = true
    · by_cases ho : offsetAmount > 0
      · simp only [if_pos ho]
        simp only [hf, ho, decide_True, if_true, if_false, Bool.not_true, Bool.true_and,
          Bool.false_eq_true]
        generalize env.raycastMesh highPos
            (offsetRayPos highPos (env.rdCalcEdgeNormal2D highDir false) offsetAmount) = r1
        generalize env.raycastMesh
            (offsetRayPos highPos (env.rdCalcEdgeNormal2D highDir false) offsetAmount)
            highPos = r2
        generalize env.raycastMesh
            (offsetRayPos highPos (env.rdCalcEdgeNormal2D highDir false) offsetAmount)
            lowPos = r3
        generalize env.raycastMesh lowPos
            (offsetRayPos highPos (env.rdCalcEdgeNormal2D highDir false) offsetAmount) = r4
        cases r1 <;> cases r2 <;> cases r3 <;> cases r4 <;> simp
      · simp only [if_neg ho]
        simp only [hf, ho, decide_False, if_false, Bool.not_true, Bool.false_and,
          Bool.false_eq_true]
        generalize env.raycastMesh highPos lowPos = r3
        generalize env.raycastMesh lowPos highPos = r4
        cases r3 <;> cases r4 <;> simp
    · simp [hf]
  · intro v1 v2 n1 n2 h
    unfold polyEdgeFaceAgainst
    rcases h with ⟨-, h2⟩ | ⟨h1, -⟩
    · simp only [decide_eq_false_iff_not, not_and, not_lt]
      intro _
      exact le_of_lt h2
    · simp only [decide_eq_false_iff_not, not_and, not_lt, ge_iff_le]
      intro h
      exact absurd h (not_le.mpr h1)

/-! ### Disjoint set -/

namespace dtDisjointSet

theorem above_lt_size (s : dtDisjointSet) (i : Nat) (hi : i < s.parentSize) :
    s.above i < s.parentSize := by
  unfold above
  have hsub : (Finset.range s.parentSize).filter (fun j => s.rank i < s.rank j)
      ⊆ (Finset.range s.parentSize).erase i := by
    intro j hj
    rw [Finset.mem_filter] at hj
    rw [Finset.mem_erase]
    refine ⟨?_, hj.1⟩
    rintro rfl
    exact lt_irrefl _ hj.2
  have h1 := Finset.card_le_card hsub
  rw [Finset.card_erase_of_mem (Finset.mem_range.mpr hi), Finset.card_range] at h1
  omega

theorem above_lt_of_rank_lt (s : dtDisjointSet) (i j : Nat) (hj : j < s.parentSize)
    (h : s.rank i < s.rank j) : s.above j < s.above i := by
  unfold above
  apply Finset.card_lt_card
  rw [Finset.ssubset_iff_of_subset]
  · refine ⟨j, ?_, ?_⟩
    · rw [Finset.mem_filter]
      exact ⟨Finset.mem_range.mpr hj, h⟩
    · rw [Finset.mem_filter]
      rintro ⟨-, h2⟩
      exact lt_irrefl _ h2
  · intro k hk
    rw [Finset.mem_filter] at hk ⊢
    exact ⟨hk.1, lt_trans h hk.2⟩

theorem above_parent_lt (s : dtDisjointSet) (hw : s.WF) (i : Nat) (hi : i < s.parentSize)
    (hp : s.parent i ≠ i) : s.above (s.parent i) < s.above i :=
  above_lt_of_rank_lt s i (s.parent i) (hw.2 i hi).1 ((hw.2 i hi).2 hp)

theorem rootN_of_root (p : Nat → Nat) (k i : Nat) (h : p i = i) : rootN p k i = i := by
  cases k with
  | zero => rfl
  | succ k => simp [rootN, h]

theorem rootN_stable (s : dtDisjointSet) (hw : s.WF) :
    ∀ k k2 i, i < s.parentSize → s.above i ≤ k → s.above i ≤ k2 →
      rootN s.parent k i = rootN s.parent k2 i := by
  intro k
  induction k with
  | zero =>
    intro k2 i hi h1 _
    have hroot : s.parent i = i := by
      by_contra hne
      have := above_parent_lt s hw i hi hne
      omega
    rw [rootN_of_root _ _ _ hroot, rootN_of_root _ _ _ hroot]
  | succ k ih =>
    intro k2 i hi h1 h2
    by_cases hroot : s.parent i = i
    · rw [rootN_of_root _ _ _ hroot, rootN_of_root _ _ _ hroot]
    · have hlt := above_parent_lt s hw i hi hroot
      cases k2 with
      | zero => omega
      | succ k2 =>
        simp only [rootN, if_neg hroot]
        exact ih k2 (s.parent i) (hw.2 i hi).1 (by omega) (by omega)

theorem repr_of_root (s : dtDisjointSet) (i : Nat) (h : s.parent i = i) : s.repr i = i :=
  rootN_of_root _ _ _ h

theorem repr_parent (s : dtDisjointSet) (hw : s.WF) (i : Nat) (hi : i < s.parentSize) :
    s.repr (s.parent i) = s.repr i := by
  by_cases hroot : s.parent i = i
  · rw [hroot]
  · unfold repr
    have hlt := above_parent_lt s hw i hi hroot
    have hb := above_lt_size s i hi
    obtain ⟨n, hn⟩ : ∃ n, s.parentSize = n + 1 := ⟨s.parentSize - 1, by omega⟩
    rw [hn]
    conv_rhs => rw [rootN, if_neg hroot]
    exact rootN_stable s hw (n + 1) n (s.parent i) (hw.2 i hi).1 (by omega) (by omega)

theorem repr_spec (s : dtDisjointSet) (hw : s.WF) :
    ∀ k i, s.above i ≤ k → i < s.parentSize →
      s.repr i < s.parentSize ∧ s.parent (s.repr i) = s.repr i ∧
      (s.repr i ≠ i → s.rank i < s.rank (s.repr i)) := by
  intro k
  induction k with
  | zero =>
    intro i h hi
    have hroot : s.parent i = i := by
      by_contra hne
      have := above_parent_lt s hw i hi hne
      omega
    rw [repr_of_root s i hroot]
    exact ⟨hi, hroot, fun h => absurd rfl h⟩
  | succ k ih =>
    intro i h hi
    by_cases hroot : s.parent i = i
    · rw [repr_of_root s i hroot]
      exact ⟨hi, hroot, fun h => absurd rfl h⟩
    · have hlt := above_parent_lt s hw i hi hroot
      obtain ⟨h1, h2, h3⟩ := ih (s.parent i) (by omega) (hw.2 i hi).1
      rw [repr_parent s hw i hi] at h1 h2 h3
      refine ⟨h1, h2, fun _ => ?_⟩
      have hr := (hw.2 i hi).2 hroot
      by_cases he : s.repr i = s.parent i
      · rw [he]; exact hr
      · exact lt_trans hr (h3 he)

theorem repr_lt (s : dtDisjointSet) (hw : s.WF) (i : Nat) (hi : i < s.parentSize) :
    s.repr i < s.parentSize := (repr_spec s hw _ i (le_refl _) hi).1

theorem parent_repr (s : dtDisjointSet) (hw : s.WF) (i : Nat) (hi : i < s.parentSize) :
    s.parent (s.repr i) = s.repr i := (repr_spec s hw _ i (le_refl _) hi).2.1

theorem rank_lt_repr (s : dtDisjointSet) (hw : s.WF) (i : Nat) (hi : i < s.parentSize)
    (h : s.repr i ≠ i) : s.rank i < s.rank (s.repr i) :=
  (repr_spec s hw _ i (le_refl _) hi).2.2 h

theorem repr_repr (s : dtDisjointSet) (hw : s.WF) (i : Nat) (hi : i < s.parentSize) :
    s.repr (s.repr i) = s.repr i := repr_of_root s _ (parent_repr s hw i hi)


theorem above_congr (s t : dtDisjointSet) (h1 : t.parentSize = s.parentSize)
    (h2 : t.rank = s.rank) (i : Nat) : t.above i = s.above i := by
  unfold above
  rw [h1, h2]

theorem compresses_refl (s : dtDisjointSet) : s.Compresses s :=
  ⟨rfl, rfl, rfl, fun _ _ => Or.inl rfl⟩

theorem wf_of_compresses (s t : dtDisjointSet) (hw : s.WF) (hc : s.Compresses t) : t.WF := by
  obtain ⟨c1, c2, c3, c4⟩ := hc
  refine ⟨by rw [c1, c2]; exact hw.1, fun i hi => ?_⟩
  rw [c2] at hi ⊢
  rw [c3]
  rcases c4 i hi with h | h
  · rw [h]
    exact hw.2 i hi
  · rw [h]
    exact ⟨repr_lt s hw i hi, fun hne => rank_lt_repr s hw i hi hne⟩

theorem repr_of_compresses (s t : dtDisjointSet) (hw : s.WF) (hc : s.Compresses t) :
    ∀ k i, s.above i ≤ k → i < s.parentSize → t.repr i = s.repr i := by
  have hwt := wf_of_compresses s t hw hc
  obtain ⟨c1, c2, c3, c4⟩ := hc
  intro k
  induction k with
  | zero =>
    intro i h hi
    have hroot : s.parent i = i := by
      by_contra hne
      have := above_parent_lt s hw i hi hne
      omega
    have hroot2 : t.parent i = i := by
      rcases c4 i hi with h | h
      · rw [h, hroot]
      · rw [h, repr_of_root s i hroot]
    rw [repr_of_root s i hroot, repr_of_root t i hroot2]
  | succ k ih =>
    intro i h hi
    by_cases hroot2 : t.parent i = i
    · rw [repr_of_root t i hroot2]
      rcases c4 i hi with h | h
      · rw [hroot2] at h
        rw [repr_of_root s i h.symm]
      · rw [hroot2] at h
        exact h
    · have hit : i < t.parentSize := by rw [c2]; exact hi
      have hlt := above_parent_lt t hwt i hit hroot2
      rw [above_congr s t c2 c3, above_congr s t c2 c3] at hlt
      have hpt : t.parent i < s.parentSize := by rw [← c2]; exact (hwt.2 i hit).1
      rw [← repr_parent t hwt i hit, ih (t.parent i) (by omega) hpt]
      rcases c4 i hi with h | h
      · rw [h, repr_parent s hw i hi]
      · rw [h, repr_repr s hw i hi]

theorem repr_eq_of_compresses (s t : dtDisjointSet) (hw : s.WF) (hc : s.Compresses t)
    (i : Nat) (hi : i < s.parentSize) : t.repr i = s.repr i :=
  repr_of_compresses s t hw hc _ i (le_refl _) hi

theorem compresses_trans (s t u : dtDisjointSet) (hw : s.WF) (h1 : s.Compresses t)
    (h2 : t.Compresses u) : s.Compresses u := by
  have hr := repr_eq_of_compresses s t hw h1
  obtain ⟨a1, a2, a3, a4⟩ := h1
  obtain ⟨b1, b2, b3, b4⟩ := h2
  refine ⟨by rw [b1, a1], by rw [b2, a2], by rw [b3, a3], fun j hj => ?_⟩
  have hjt : j < t.parentSize := by rw [a2]; exact hj
  rcases b4 j hjt with h | h
  · rw [h]; exact a4 j hj
  · rw [h, hr j hj]; exact Or.inr rfl

theorem find_spec (s : dtDisjointSet) (hw : s.WF) :
    ∀ fuel i, i < s.parentSize → s.above i < fuel →
      ∃ t, dtDisjointSet.find fuel s i = some (s.repr i, t) ∧ s.Compresses t := by
  intro fuel
  induction fuel with
  | zero => intro i _ h; omega
  | succ fuel ih =>
    intro i hi hf
    by_cases hroot : s.parent i = i
    · refine ⟨s, ?_, compresses_refl s⟩
      simp only [dtDisjointSet.find, hroot, ne_eq, not_true_eq_false, if_false]
      rw [repr_of_root s i hroot]
    · have hlt := above_parent_lt s hw i hi hroot
      obtain ⟨t, ht, hc⟩ := ih (s.parent i) (hw.2 i hi).1 (by omega)
      rw [repr_parent s hw i hi] at ht
      refine ⟨{ t with parent := Function.update t.parent i (s.repr i) }, ?_, ?_⟩
      · simp only [dtDisjointSet.find, ne_eq, hroot, not_false_eq_true, if_true, ht]
      · obtain ⟨c1, c2, c3, c4⟩ := hc
        refine ⟨c1, c2, c3, fun j hj => ?_⟩
        by_cases hji : j = i
        · subst hji
          right
          simp
        · simp only [Function.update_noteq hji]
          exact c4 j hj

theorem find_enough_fuel (s : dtDisjointSet) (hw : s.WF) (fuel i : Nat)
    (hi : i < s.parentSize) (hf : s.parentSize ≤ fuel) :
    ∃ t, dtDisjointSet.find fuel s i = some (s.repr i, t) ∧ s.Compresses t :=
  find_spec s hw fuel i hi (lt_of_lt_of_le (above_lt_size s i hi) hf)

theorem sameSet_iff_repr (s : dtDisjointSet) (hw : s.WF) (fuel a b : Nat)
    (ha : a < s.parentSize) (hb : b < s.parentSize) (hf : s.parentSize ≤ fuel) :
    s.sameSet fuel a b ↔ s.repr a = s.repr b := by
  obtain ⟨t, ht, hc⟩ := find_enough_fuel s hw fuel a ha hf
  have hwt := wf_of_compresses s t hw hc
  have hbt : b < t.parentSize := by rw [hc.2.1]; exact hb
  obtain ⟨u, hu, -⟩ := find_enough_fuel t hwt fuel b hbt (by rw [hc.2.1]; exact hf)
  rw [repr_eq_of_compresses s t hw hc b hb] at hu
  constructor
  · rintro ⟨r, s1, s2, h1, h2⟩
    rw [ht] at h1
    injection h1 with h1
    injection h1 with h1r h1s
    subst h1s
    rw [hu] at h2
    injection h2 with h2
    injection h2 with h2r _
    rw [h1r, h2r]
  · intro h
    exact ⟨s.repr a, t, u, ht, by rw [h]; exact hu⟩


theorem wf_of_link (s t : dtDisjointSet) (hw : s.WF) (c r : Nat)
    (hr : r < s.parentSize) (hrr : s.parent r = r)
    (h1 : t.rankSize = s.rankSize) (h2 : t.parentSize = s.parentSize)
    (h3 : t.parent = Function.update s.parent c r)
    (h4 : ∀ j, j ≠ r → t.rank j = s.rank j) (h5 : s.rank r ≤ t.rank r)
    (h6 : t.rank c < t.rank r) : t.WF := by
  refine ⟨by rw [h1, h2]; exact hw.1, fun i hi => ?_⟩
  rw [h2] at hi ⊢
  rw [h3]
  by_cases hic : i = c
  · subst hic
    simp only [Function.update_same]
    exact ⟨hr, fun _ => h6⟩
  · simp only [Function.update_noteq hic]
    refine ⟨(hw.2 i hi).1, fun hp => ?_⟩
    have hlt := (hw.2 i hi).2 hp
    have hir : i ≠ r := by
      rintro rfl
      exact hp hrr
    rw [h4 i hir]
    by_cases hpr : s.parent i = r
    · rw [hpr] at hlt ⊢
      exact lt_of_lt_of_le hlt h5
    · rw [h4 _ hpr]
      exact hlt

theorem repr_of_link (s t : dtDisjointSet) (hw : s.WF) (hwt : t.WF) (c r : Nat)
    (hc : c < s.parentSize) (hrc : s.parent c = c) (hrr : s.parent r = r) (hne : c ≠ r)
    (h2 : t.parentSize = s.parentSize) (h3 : t.parent = Function.update s.parent c r) :
    ∀ k j, s.above j ≤ k → j < s.parentSize →
      t.repr j = if s.repr j = c then r else s.repr j := by
  have htr : t.repr r = r := by
    apply repr_of_root
    rw [h3, Function.update_noteq (Ne.symm hne), hrr]
  have htc : t.repr c = r := by
    have hct : c < t.parentSize := by rw [h2]; exact hc
    have hpc : t.parent c = r := by rw [h3, Function.update_same]
    rw [← repr_parent t hwt c hct, hpc, htr]
  intro k
  induction k with
  | zero =>
    intro j h hj
    have hroot : s.parent j = j := by
      by_contra hn
      have := above_parent_lt s hw j hj hn
      omega
    rw [repr_of_root s j hroot]
    by_cases hjc : j = c
    · rw [if_pos hjc, hjc, htc]
    · rw [if_neg hjc]
      apply repr_of_root
      rw [h3, Function.update_noteq hjc, hroot]
  | succ k ih =>
    intro j h hj
    by_cases hroot : s.parent j = j
    · rw [repr_of_root s j hroot]
      by_cases hjc : j = c
      · rw [if_pos hjc, hjc, htc]
      · rw [if_neg hjc]
        apply repr_of_root
        rw [h3, Function.update_noteq hjc, hroot]
    · have hjc : j ≠ c := by
        rintro rfl
        exact hroot hrc
      have hlt := above_parent_lt s hw j hj hroot
      have hjt : j < t.parentSize := by rw [h2]; exact hj
      have hpj : t.parent j = s.parent j := by rw [h3, Function.update_noteq hjc]
      rw [← repr_parent t hwt j hjt, hpj, ih (s.parent j) (by omega) (hw.2 j hj).1,
        repr_parent s hw j hj]

theorem link_spec (s t : dtDisjointSet) (hw : s.WF) (c r : Nat)
    (hc : c < s.parentSize) (hr : r < s.parentSize)
    (hrc : s.parent c = c) (hrr : s.parent r = r) (hne : c ≠ r)
    (h1 : t.rankSize = s.rankSize) (h2 : t.parentSize = s.parentSize)
    (h3 : t.parent = Function.update s.parent c r)
    (h4 : ∀ j, j ≠ r → t.rank j = s.rank j) (h5 : s.rank r ≤ t.rank r)
    (h6 : t.rank c < t.rank r) :
    t.WF ∧ ∀ j, j < s.parentSize → t.repr j = if s.repr j = c then r else s.repr j := by
  have hwt := wf_of_link s t hw c r hr hrr h1 h2 h3 h4 h5 h6
  exact ⟨hwt, fun j hj => repr_of_link s t hw hwt c r hc hrc hrr hne h2 h3 _ j (le_refl _) hj⟩

theorem setUnion_repr (s : dtDisjointSet) (hw : s.WF) (fuel x y : Nat)
    (hx : x < s.parentSize) (hy : y < s.parentSize) (hf : s.parentSize ≤ fuel) :
    ∃ t, dtDisjointSet.setUnion fuel s x y = some t ∧ t.WF ∧
      t.parentSize = s.parentSize ∧
      ∃ c r, ((c = s.repr x ∧ r = s.repr y) ∨ (c = s.repr y ∧ r = s.repr x)) ∧
        ∀ j, j < s.parentSize → t.repr j = if s.repr j = c then r else s.repr j := by
  obtain ⟨s1, hs1, hc1⟩ := find_enough_fuel s hw fuel x hx hf
  have hw1 := wf_of_compresses s s1 hw hc1
  have hn1 : s1.parentSize = s.parentSize := hc1.2.1
  obtain ⟨s2, hs2, hc2⟩ := find_enough_fuel s1 hw1 fuel y (by rw [hn1]; exact hy)
    (by rw [hn1]; exact hf)
  rw [repr_eq_of_compresses s s1 hw hc1 y hy] at hs2
  have hc := compresses_trans s s1 s2 hw hc1 hc2
  have hw2 := wf_of_compresses s s2 hw hc
  have hn2 : s2.parentSize = s.parentSize := hc.2.1
  have hrep : ∀ j, j < s.parentSize → s2.repr j = s.repr j :=
    repr_eq_of_compresses s s2 hw hc
  have hX : s.repr x < s2.parentSize := by rw [hn2]; exact repr_lt s hw x hx
  have hY : s.repr y < s2.parentSize := by rw [hn2]; exact repr_lt s hw y hy
  have hpX : s2.parent (s.repr x) = s.repr x := by
    have := parent_repr s2 hw2 x (by rw [hn2]; exact hx)
    rwa [hrep x hx] at this
  have hpY : s2.parent (s.repr y) = s.repr y := by
    have := parent_repr s2 hw2 y (by rw [hn2]; exact hy)
    rwa [hrep y hy] at this
  by_cases hxy : s.repr x = s.repr y
  · refine ⟨s2, ?_, hw2, hn2, s.repr x, s.repr y, Or.inl ⟨rfl, rfl⟩, fun j hj => ?_⟩
    · simp only [dtDisjointSet.setUnion, hs1, hs2, hxy, if_true]
    · rw [hrep j hj]
      by_cases h : s.repr j = s.repr x
      · rw [if_pos h, h, hxy]
      · rw [if_neg h]
  · by_cases hlt : s2.rank (s.repr x) < s2.rank (s.repr y)
    · obtain ⟨hwt, hr⟩ := link_spec s2
        { s2 with parent := Function.update s2.parent (s.repr x) (s.repr y) } hw2
        (s.repr x) (s.repr y) hX hY hpX hpY hxy rfl rfl rfl (fun _ _ => rfl) (le_refl _) hlt
      refine ⟨_, ?_, hwt, hn2, s.repr x, s.repr y, Or.inl ⟨rfl, rfl⟩, fun j hj => ?_⟩
      · simp only [dtDisjointSet.setUnion, hs1, hs2, hxy, if_false, hlt, if_true]
      · rw [hr j (by rw [hn2]; exact hj), hrep j hj]
    · by_cases hgt : s2.rank (s.repr x) > s2.rank (s.repr y)
      · obtain ⟨hwt, hr⟩ := link_spec s2
          { s2 with parent := Function.update s2.parent (s.repr y) (s.repr x) } hw2
          (s.repr y) (s.repr x) hY hX hpY hpX (Ne.symm hxy) rfl rfl rfl (fun _ _ => rfl)
          (le_refl _) hgt
        refine ⟨_, ?_, hwt, hn2, s.repr y, s.repr x, Or.inr ⟨rfl, rfl⟩, fun j hj => ?_⟩
        · simp only [dtDisjointSet.setUnion, hs1, hs2, hxy, if_false, hlt, hgt, if_true]
        · rw [hr j (by rw [hn2]; exact hj), hrep j hj]
      · have heq : s2.rank (s.repr x) = s2.rank (s.repr y) :=
          le_antisymm (not_lt.mp hgt) (not_lt.mp hlt)
        obtain ⟨hwt, hr⟩ := link_spec s2
          { s2 with parent := Function.update s2.parent (s.repr y) (s.repr x),
                    rank := Function.update s2.rank (s.repr x) (s2.rank (s.repr x) + 1) }
          hw2 (s.repr y) (s.repr x) hY hX hpY hpX (Ne.symm hxy) rfl rfl rfl
          (fun j hj => Function.update_noteq hj _ _)
          (by simp only [Function.update_same]; omega)
          (by
            simp only [Function.update_same, Function.update_noteq (Ne.symm hxy)]
            omega)
        refine ⟨_, ?_, hwt, hn2, s.repr y, s.repr x, Or.inr ⟨rfl, rfl⟩, fun j hj => ?_⟩
        · simp only [dtDisjointSet.setUnion, hs1, hs2, hxy, if_false, hlt, hgt]
        · rw [hr j (by rw [hn2]; exact hj), hrep j hj]

theorem wf_init (size : Nat) (fill : Nat → Int) : (dtDisjointSet.init size fill).WF :=
  ⟨rfl, fun _ hi => ⟨hi, fun h => absurd rfl h⟩⟩

theorem wf_insertNew (s : dtDisjointSet) (hw : s.WF) : s.insertNew.2.WF := by
  refine ⟨by simp only [dtDisjointSet.insertNew]; rw [hw.1], fun i hi => ?_⟩
  simp only [dtDisjointSet.insertNew] at hi ⊢
  by_cases hin : i = s.parentSize
  · subst hin
    simp only [Function.update_same]
    exact ⟨hi, fun h => absurd rfl h⟩
  · have hi2 : i < s.parentSize := by omega
    have hp := (hw.2 i hi2).1
    have hpn : s.parent i ≠ s.parentSize := by omega
    simp only [Function.update_noteq hin]
    refine ⟨by omega, fun h => ?_⟩
    have e : Function.update s.parent s.parentSize s.parentSize i = s.parent i :=
      Function.update_noteq hin _ _
    rw [hw.1, e, Function.update_noteq hpn, Function.update_noteq hin]
    exact (hw.2 i hi2).2 h

theorem find_some_imp (s : dtDisjointSet) (hw : s.WF) :
    ∀ fuel i r t, i < s.parentSize → dtDisjointSet.find fuel s i = some (r, t) →
      r = s.repr i ∧ s.Compresses t := by
  intro fuel
  induction fuel with
  | zero => intro i r t _ h; simp [dtDisjointSet.find] at h
  | succ fuel ih =>
    intro i r t hi h
    by_cases hroot : s.parent i = i
    · simp only [dtDisjointSet.find, hroot, ne_eq, not_true_eq_false, if_false,
        Option.some.injEq, Prod.mk.injEq] at h
      obtain ⟨h1, h2⟩ := h
      subst h2
      exact ⟨by rw [← h1, repr_of_root s i hroot], compresses_refl s⟩
    · simp only [dtDisjointSet.find, ne_eq, hroot, not_false_eq_true, if_true] at h
      cases hrec : dtDisjointSet.find fuel s (s.parent i) with
      | none => rw [hrec] at h; simp at h
      | some res =>
        obtain ⟨r1, t1⟩ := res
        rw [hrec] at h
        simp only [Option.some.injEq, Prod.mk.injEq] at h
        obtain ⟨h1, h2⟩ := h
        obtain ⟨e1, hc⟩ := ih (s.parent i) r1 t1 (hw.2 i hi).1 hrec
        rw [repr_parent s hw i hi] at e1
        subst h1
        refine ⟨e1, ?_⟩
        rw [← h2]
        obtain ⟨c1, c2, c3, c4⟩ := hc
        refine ⟨c1, c2, c3, fun j hj => ?_⟩
        by_cases hji : j = i
        · subst hji
          right
          simp [e1]
        · simp only [Function.update_noteq hji]
          exact c4 j hj

theorem setUnion_some_wf (s : dtDisjointSet) (hw : s.WF) (fuel x y : Nat) (t : dtDisjointSet)
    (hx : x < s.parentSize) (hy : y < s.parentSize)
    (h : dtDisjointSet.setUnion fuel s x y = some t) : t.WF := by
  unfold dtDisjointSet.setUnion at h
  cases h1 : dtDisjointSet.find fuel s x with
  | none => rw [h1] at h; simp at h
  | some res1 =>
    obtain ⟨sx, s1⟩ := res1
    rw [h1] at h
    simp only at h
    obtain ⟨e1, hc1⟩ := find_some_imp s hw fuel x sx s1 hx h1
    have hw1 := wf_of_compresses s s1 hw hc1
    have hn1 : s1.parentSize = s.parentSize := hc1.2.1
    cases h2 : dtDisjointSet.find fuel s1 y with
    | none => rw [h2] at h; simp at h
    | some res2 =>
      obtain ⟨sy, s2⟩ := res2
      rw [h2] at h
      simp only at h
      obtain ⟨e2, hc2⟩ := find_some_imp s1 hw1 fuel y sy s2 (by rw [hn1]; exact hy) h2
      rw [repr_eq_of_compresses s s1 hw hc1 y hy] at e2
      have hc := compresses_trans s s1 s2 hw hc1 hc2
      have hw2 := wf_of_compresses s s2 hw hc
      have hn2 : s2.parentSize = s.parentSize := hc.2.1
      have hrep : ∀ j, j < s.parentSize → s2.repr j = s.repr j :=
        repr_eq_of_compresses s s2 hw hc
      have hX : sx < s2.parentSize := by rw [hn2, e1]; exact repr_lt s hw x hx
      have hY : sy < s2.parentSize := by rw [hn2, e2]; exact repr_lt s hw y hy
      have hpX : s2.parent sx = sx := by
        have := parent_repr s2 hw2 x (by rw [hn2]; exact hx)
        rwa [hrep x hx, ← e1] at this
      have hpY : s2.parent sy = sy := by
        have := parent_repr s2 hw2 y (by rw [hn2]; exact hy)
        rwa [hrep y hy, ← e2] at this
      by_cases hxy : sx = sy
      · rw [if_pos hxy] at h
        injection h with h
        rw [← h]; exact hw2
      · rw [if_neg hxy] at h
        by_cases hlt : s2.rank sx < s2.rank sy
        · rw [if_pos hlt] at h
          injection h with h
          rw [← h]
          exact wf_of_link s2 _ hw2 sx sy hY hpY rfl rfl rfl (fun _ _ => rfl) (le_refl _) hlt
        · rw [if_neg hlt] at h
          by_cases hgt : s2.rank sx > s2.rank sy
          · rw [if_pos hgt] at h
            injection h with h
            rw [← h]
            exact wf_of_link s2 _ hw2 sy sx hX hpX rfl rfl rfl (fun _ _ => rfl) (le_refl _) hgt
          · rw [if_neg hgt] at h
            injection h with h
            rw [← h]
            have heq : s2.rank sx = s2.rank sy := le_antisymm (not_lt.mp hgt) (not_lt.mp hlt)
            exact wf_of_link s2 _ hw2 sy sx hX hpX rfl rfl rfl
              (fun j hj => Function.update_noteq hj _ _)
              (by simp only [Function.update_same]; omega)
              (by
                simp only [Function.update_same, Function.update_noteq (Ne.symm hxy)]
                omega)

theorem wf_of_reachable (s : dtDisjointSet) (h : s.Reachable) : s.WF := by
  induction h with
  | init size fill => exact wf_init size fill
  | insertNew s _ ih => exact wf_insertNew s ih
  | find fuel s id r s1 _ hid hfind ih =>
    exact wf_of_compresses s s1 ih (find_some_imp s ih fuel id r s1 hid hfind).2
  | setUnion fuel s x y s1 _ hx hy hu ih => exact setUnion_some_wf s ih fuel x y s1 hx hy hu

end dtDisjointSet

/-- C4: in every state reachable from `init(n)` through `setUnion`, `insertNew` and
`find`, for valid ids `x`, `y`, `a`, `b` and enough recursion depth, `setUnion(x, y)`
returns, and afterwards `find(a) = find(b)` holds exactly when before the call `a`
and `b` were in the same set, or one was in the set of `x` and the other in the set
of `y`. -/
theorem setUnion_merges_exactly (s : dtDisjointSet) (hs : s.Reachable) (fuel x y a b : Nat)
    (hx : x < s.parentSize) (hy : y < s.parentSize) (ha : a < s.parentSize)
    (hb : b < s.parentSize) (hf : s.parentSize ≤ fuel) :
    ∃ t, dtDisjointSet.setUnion fuel s x y = some t ∧
      (t.sameSet fuel a b ↔
        (s.sameSet fuel a b ∨ (s.sameSet fuel a x ∧ s.sameSet fuel b y) ∨
          (s.sameSet fuel a y ∧ s.sameSet fuel b x))) := by
  have hw := dtDisjointSet.wf_of_reachable s hs
  obtain ⟨t, ht, hwt, hn, c, r, hcr, hrep⟩ :=
    dtDisjointSet.setUnion_repr s hw fuel x y hx hy hf
  refine ⟨t, ht, ?_⟩
  rw [dtDisjointSet.sameSet_iff_repr t hwt fuel a b (by rw [hn]; exact ha)
      (by rw [hn]; exact hb) (by rw [hn]; exact hf),
    dtDisjointSet.sameSet_iff_repr s hw fuel a b ha hb hf,
    dtDisjointSet.sameSet_iff_repr s hw fuel a x ha hx hf,
    dtDisjointSet.sameSet_iff_repr s hw fuel b y hb hy hf,
    dtDisjointSet.sameSet_iff_repr s hw fuel a y ha hy hf,
    dtDisjointSet.sameSet_iff_repr s hw fuel b x hb hx hf,
    hrep a ha, hrep b hb]
  rcases hcr with ⟨rfl, rfl⟩ | ⟨rfl, rfl⟩
  · constructor
    · intro h
      split_ifs at h with h1 h2 h2
      · left; rw [h1, h2]
      · right; left; exact ⟨h1, h.symm⟩
      · right; right; exact ⟨h, h2⟩
      · left; exact h
    · rintro (h | ⟨h1, h2⟩ | ⟨h1, h2⟩)
      · rw [h]
      · rw [h1, h2]; simp
      · rw [h1, h2]; simp
  · constructor
    · intro h
      split_ifs at h with h1 h2 h2
      · left; rw [h1, h2]
      · right; right; exact ⟨h1, h.symm⟩
      · right; left; exact ⟨h, h2⟩
      · left; exact h
    · rintro (h | ⟨h1, h2⟩ | ⟨h1, h2⟩)
      · rw [h]
      · rw [h1, h2]; simp
      · rw [h1, h2]; simp

/-- Witness of C4: three singletons, `setUnion(0, 1)`, observed at `a = 0`, `b = 1`. -/
theorem setUnion_merges_exactly_witness :
    ∃ t, dtDisjointSet.setUnion 3 (dtDisjointSet.init 3 (fun _ => 0)) 0 1 = some t ∧
      (t.sameSet 3 0 1 ↔
        ((dtDisjointSet.init 3 (fun _ => 0)).sameSet 3 0 1 ∨
         ((dtDisjointSet.init 3 (fun _ => 0)).sameSet 3 0 0 ∧
          (dtDisjointSet.init 3 (fun _ => 0)).sameSet 3 1 1) ∨
         ((dtDisjointSet.init 3 (fun _ => 0)).sameSet 3 0 1 ∧
          (dtDisjointSet.init 3 (fun _ => 0)).sameSet 3 1 0))) :=
  setUnion_merges_exactly (dtDisjointSet.init 3 (fun _ => 0))
    (dtDisjointSet.Reachable.init 3 (fun _ => 0)) 3 0 1 0 1
    (by decide) (by decide) (by decide) (by decide) (by decide)

/-! ### Traverse-link generation -/

theorem forLoop_state_inv {σ : Type} (P : σ → Prop) (body : Nat → σ → Flow σ) :
    ∀ (ks : List Nat), (∀ k, k ∈ ks → ∀ s, P s → P (body k s).state) →
      ∀ s, P s → P (forLoop body ks s).state := by
  intro ks
  induction ks with
  | nil => intro _ s hs; exact hs
  | cons k ks ih =>
    intro h s hs
    have hk := h k (List.mem_cons_self k ks) s hs
    simp only [forLoop]
    cases hb : body k s with
    | next s1 =>
      rw [hb] at hk
      exact ih (fun k2 hk2 => h k2 (List.mem_cons_of_mem k hk2)) s1 hk
    | exit s1 =>
      rw [hb] at hk
      exact hk

theorem landEdgeStep_inv (env : Env) (ltn : Bool) (b i j baseSide lt m n : Nat)
    (K : ConnectState → Prop)
    (hinst : ∀ c s, K s →
      linkBudget ltn (s.editor.tile b) (s.editor.tile lt) s.firstBaseTileLinkUsed
        s.firstLandTileLinkUsed = Budget.go →
      ((s.editor.tile lt).polys m).neis n = 0 →
      qualify env s.editor ltn b i j lt m n = some c →
      K (installLinkPair b i j lt m n baseSide c s))
    (s : ConnectState) (hs : K s) :
    K (landEdgeStep env ltn b i j baseSide lt m n s).state := by
  unfold landEdgeStep
  by_cases hn : ((s.editor.tile lt).polys m).neis n ≠ 0
  · rw [if_pos hn]; exact hs
  · rw [if_neg hn]
    cases hb : linkBudget ltn (s.editor.tile b) (s.editor.tile lt) s.firstBaseTileLinkUsed
        s.firstLandTileLinkUsed with
    | skip => exact hs
    | stop => exact hs
    | go =>
      cases hq : qualify env s.editor ltn b i j lt m n with
      | none => exact hs
      | some c => exact hinst c s hs hb (not_not.mp hn) hq

theorem landPolyStep_inv (env : Env) (ltn : Bool) (b i j baseSide lt m : Nat)
    (K : ConnectState → Prop)
    (hinst : ∀ n c s, K s →
      linkBudget ltn (s.editor.tile b) (s.editor.tile lt) s.firstBaseTileLinkUsed
        s.firstLandTileLinkUsed = Budget.go →
      ((s.editor.tile lt).polys m).neis n = 0 →
      qualify env s.editor ltn b i j lt m n = some c →
      K (installLinkPair b i j lt m n baseSide c s))
    (s : ConnectState) (hs : K s) :
    K (landPolyStep env ltn b i j baseSide lt m s).state := by
  unfold landPolyStep
  by_cases hg : ((s.editor.tile lt).polys m).groupId = DT_UNLINKED_POLY_GROUP
  · rw [if_pos hg]; exact hs
  · rw [if_neg hg]
    exact forLoop_state_inv K _ _
      (fun n _ s2 hs2 => landEdgeStep_inv env ltn b i j baseSide lt m n K (hinst n) s2 hs2)
      s hs

theorem landTileStep_inv (env : Env) (ltn : Bool) (b i j baseSide : Nat)
    (neis : List Nat) (k : Nat)
    (J : ConnectState → Prop) (K : Nat → ConnectState → Prop)
    (hKJ : ∀ lt s, K lt s → J s)
    (hJK : ∀ lt s, J s → (ltn = true → lt ≠ b) → (ltn = false → lt = b) →
      (s.editor.tile lt).linkCountAvailable 1 = true →
      K lt { s with firstLandTileLinkUsed := false })
    (hinst : ∀ lt m n c s, K lt s →
      (ltn = true → lt ≠ b) → (ltn = false → lt = b) →
      linkBudget ltn (s.editor.tile b) (s.editor.tile lt) s.firstBaseTileLinkUsed
        s.firstLandTileLinkUsed = Budget.go →
      ((s.editor.tile lt).polys m).neis n = 0 →
      qualify env s.editor ltn b i j lt m n = some c →
      K lt (installLinkPair b i j lt m n baseSide c s))
    (hneis : ltn = false → neis.getD k 0 = b)
    (s : ConnectState) (hs : J s) :
    J (landTileStep env ltn b i j baseSide neis k s).state := by
  unfold landTileStep
  simp only
  by_cases h1 : (ltn && decide (b = neis.getD k 0)) = true
  · rw [if_pos h1]; exact hs
  · rw [if_neg h1]
    by_cases h2 : (decide (b = neis.getD k 0) && decide (i = k)) = true
    · rw [if_pos h2]; exact hs
    · rw [if_neg h2]
      by_cases h3 : (!(s.editor.tile (neis.getD k 0)).linkCountAvailable 1) = true
      · rw [if_pos h3]; exact hs
      · rw [if_neg h3]
        have hne : ltn = true → neis.getD k 0 ≠ b := by
          intro hl hb
          apply h1
          rw [hl, hb]
          simp
        have hav : (s.editor.tile (neis.getD k 0)).linkCountAvailable 1 = true := by
          simpa using h3
        apply hKJ (neis.getD k 0)
        exact forLoop_state_inv (K (neis.getD k 0)) _ _
          (fun m _ s2 hs2 => landPolyStep_inv env ltn b i j baseSide (neis.getD k 0) m
            (K (neis.getD k 0))
            (fun n c s3 hs3 hb hn hq => hinst (neis.getD k 0) m n c s3 hs3 hne hneis hb hn hq)
            s2 hs2)
          _ (hJK (neis.getD k 0) s hs hne hneis hav)

theorem baseEdgeStep_inv (env : Env) (ltn : Bool) (b i j : Nat)
    (J : ConnectState → Prop) (K : Nat → ConnectState → Prop)
    (hKJ : ∀ lt s, K lt s → J s)
    (hJK : ∀ lt s, J s → (ltn = true → lt ≠ b) → (ltn = false → lt = b) →
      (s.editor.tile lt).linkCountAvailable 1 = true →
      K lt { s with firstLandTileLinkUsed := false })
    (hinst : ∀ lt m n baseSide c s, K lt s →
      (ltn = true → lt ≠ b) → (ltn = false → lt = b) →
      linkBudget ltn (s.editor.tile b) (s.editor.tile lt) s.firstBaseTileLinkUsed
        s.firstLandTileLinkUsed = Budget.go →
      ((s.editor.tile lt).polys m).neis n = 0 →
      qualify env s.editor ltn b i j lt m n = some c →
      K lt (installLinkPair b i j lt m n baseSide c s))
    (s : ConnectState) (hs : J s) :
    J (baseEdgeStep env ltn b i j s).state := by
  unfold baseEdgeStep
  by_cases hn : ((s.editor.tile b).polys i).neis j ≠ 0
  · rw [if_pos hn]; exact hs
  · rw [if_neg hn]
    simp only
    refine forLoop_state_inv J _ _ (fun k hk s2 hs2 => ?_) s hs
    refine landTileStep_inv env ltn b i j _ _ k J K hKJ hJK
      (fun lt m n c s3 => hinst lt m n _ c s3) ?_ s2 hs2
    intro hl
    rw [hl] at hk ⊢
    simp only [Bool.false_eq_true, if_false, List.length_singleton, List.mem_range] at hk ⊢
    have hk0 : k = 0 := by omega
    rw [hk0]
    rfl

/-- Invariant principle for `connectTileTraverseLinks`: a predicate `J` on the loop
state that holds initially holds at the end, when a predicate `K lt` for the loops
over a land tile `lt` follows from `J` once the land tile has a free slot and the
land flag is cleared, implies `J`, and is kept by every installation that the
link-budget test and the candidate tests allow. -/
theorem connect_loops_inv (env : Env) (ltn : Bool) (b : Nat)
    (J : ConnectState → Prop) (K : Nat → ConnectState → Prop)
    (hKJ : ∀ lt s, K lt s → J s)
    (hJK : ∀ lt s, J s → (ltn = true → lt ≠ b) → (ltn = false → lt = b) →
      (s.editor.tile lt).linkCountAvailable 1 = true →
      K lt { s with firstLandTileLinkUsed := false })
    (hinst : ∀ lt i j m n baseSide c s, K lt s →
      (ltn = true → lt ≠ b) → (ltn = false → lt = b) →
      linkBudget ltn (s.editor.tile b) (s.editor.tile lt) s.firstBaseTileLinkUsed
        s.firstLandTileLinkUsed = Budget.go →
      ((s.editor.tile lt).polys m).neis n = 0 →
      qualify env s.editor ltn b i j lt m n = some c →
      K lt (installLinkPair b i j lt m n baseSide c s))
    (ks : List Nat) (s : ConnectState) (hs : J s) :
    J (forLoop (basePolyStep env ltn b) ks s).state := by
  refine forLoop_state_inv J _ _ (fun i _ s2 hs2 => ?_) s hs
  unfold basePolyStep
  by_cases hg : ((s2.editor.tile b).polys i).groupId = DT_UNLINKED_POLY_GROUP
  · rw [if_pos hg]; exact hs2
  · rw [if_neg hg]
    exact forLoop_state_inv J _ _
      (fun j _ s3 hs3 => baseEdgeStep_inv env ltn b i j J K hKJ hJK
        (fun lt m n baseSide c s4 => hinst lt i j m n baseSide c s4) s3 hs3)
      s2 hs2

theorem tile_setTile_same (ed : Editor) (t : Nat) (tile : dtMeshTile) :
    (ed.setTile t tile).tile t = tile := by
  simp [Editor.setTile, Editor.tile]

theorem tile_setTile_ne (ed : Editor) (t u : Nat) (tile : dtMeshTile) (h : u ≠ t) :
    (ed.setTile t tile).tile u = ed.tile u := by
  simp [Editor.setTile, Editor.tile, Function.update_noteq h]

theorem linkCountAvailable_one (t : dtMeshTile) :
    t.linkCountAvailable 1 = true ↔ t.linksFreeList ≠ DT_NULL_LINK := by
  simp [dtMeshTile.linkCountAvailable, freeSlotsFrom]

theorem linkCountAvailable_two (t : dtMeshTile) :
    t.linkCountAvailable 2 = true ↔
      t.linksFreeList ≠ DT_NULL_LINK ∧ (t.links t.linksFreeList).next ≠ DT_NULL_LINK := by
  simp [dtMeshTile.linkCountAvailable, freeSlotsFrom]

theorem allocLink_of_free (t : dtMeshTile) (h : t.linksFreeList ≠ DT_NULL_LINK) :
    t.allocLink = (t.linksFreeList, { t with linksFreeList := (t.links t.linksFreeList).next }) := by
  simp [dtMeshTile.allocLink, h]

theorem installed_installLinkPair (b i j lt m n baseSide : Nat) (c : Candidate)
    (s : ConnectState) :
    (installLinkPair b i j lt m n baseSide c s).installed =
      s.installed ++
        [⟨b, lt, i, j, m, n, (s.editor.tile b).allocLink.1,
          ((s.editor.setTile b (s.editor.tile b).allocLink.2).tile lt).allocLink.1,
          baseSide, c, s.editor⟩] := rfl

theorem allocs_succeed_step (ltn : Bool) (b lt i j m n baseSide : Nat) (c : Candidate)
    (s : ConnectState)
    (hJ : s.firstBaseTileLinkUsed = false →
      (s.editor.tile b).linkCountAvailable (if ltn = true then 1 else 2) = true)
    (hK : s.firstLandTileLinkUsed = false → (s.editor.tile lt).linkCountAvailable 1 = true)
    (h1 : ltn = true → lt ≠ b) (h2 : ltn = false → lt = b)
    (hb : linkBudget ltn (s.editor.tile b) (s.editor.tile lt) s.firstBaseTileLinkUsed
        s.firstLandTileLinkUsed = Budget.go) :
    InstalledPair.allocsSucceeded
      ⟨b, lt, i, j, m, n, (s.editor.tile b).allocLink.1,
        ((s.editor.setTile b (s.editor.tile b).allocLink.2).tile lt).allocLink.1,
        baseSide, c, s.editor⟩ := by
  unfold InstalledPair.allocsSucceeded
  simp only
  cases ltn with
  | true =>
    have hne : lt ≠ b := h1 rfl
    simp only [linkBudget, if_true] at hb
    simp only [if_true] at hJ
    have hland : (s.editor.tile lt).linkCountAvailable 1 = true := by
      cases hfl : s.firstLandTileLinkUsed with
      | false => exact hK hfl
      | true =>
        rw [hfl] at hb
        by_contra hc
        simp [hc] at hb
    have hbase : (s.editor.tile b).linkCountAvailable 1 = true := by
      cases hfb : s.firstBaseTileLinkUsed with
      | false => exact hJ hfb
      | true =>
        rw [hfb] at hb
        by_contra hc
        simp [hc, hland] at hb
    have hb0 := (linkCountAvailable_one _).mp hbase
    have hl0 := (linkCountAvailable_one _).mp hland
    rw [tile_setTile_ne _ _ _ _ hne, allocLink_of_free _ hb0, allocLink_of_free _ hl0]
    refine ⟨trivial, trivial, hb0, hl0, fun _ => ⟨hbase, hland⟩, fun h => absurd h.symm hne⟩
  | false =>
    have he : lt = b := h2 rfl
    subst he
    simp only [linkBudget, Bool.false_eq_true, if_false] at hb
    simp only [Bool.false_eq_true, if_false] at hJ
    have hbase : (s.editor.tile lt).linkCountAvailable 2 = true := by
      cases hfb : s.firstBaseTileLinkUsed with
      | false => exact hJ hfb
      | true =>
        rw [hfb] at hb
        by_contra hc
        simp [hc] at hb
    obtain ⟨hb0, hb1⟩ := (linkCountAvailable_two _).mp hbase
    rw [tile_setTile_same, allocLink_of_free _ hb0]
    simp only
    rw [allocLink_of_free _ hb1]
    exact ⟨trivial, trivial, hb0, hb1, fun h => absurd rfl h, fun _ => hbase⟩

theorem gap_first_installed :
    ∃ e, e ∈ (connectTileTraverseLinks exampleEnv (gapEditor 0 8) 0 false).installed ∧
      e.baseTile = 0 ∧ e.landTile = 0 ∧ e.basePoly = 1 ∧ e.forwardIdx = 0 ∧ e.reverseIdx = 1 := by
  have h : (connectTileTraverseLinks exampleEnv (gapEditor 0 8) 0 false).installed.map
      (fun e => (e.baseTile, e.landTile, e.basePoly, e.forwardIdx, e.reverseIdx))
      = [(0, 0, 1, 0, 1), (0, 0, 1, 2, 3)] := by
    decide!
  generalize (connectTileTraverseLinks exampleEnv (gapEditor 0 8) 0 false).installed = L at h ⊢
  cases L with
  | nil => simp at h
  | cons e es =>
    simp only [List.map_cons, List.cons.injEq, Prod.mk.injEq] at h
    obtain ⟨⟨h1, h2, h3, h4, h5⟩, -⟩ := h
    exact ⟨e, List.mem_cons_self e es, h1, h2, h3, h4, h5⟩

/-- C8: every pair installed by `connectTileTraverseLinks` got both of its slots from
successful `allocLink` calls: just before them the base tile and the land tile each
had a free slot when they are different tiles, and the tile had two free slots when
they are the same tile. -/
theorem installed_allocs_succeed (env : Env) (ed : Editor) (b : Nat) (ltn : Bool) :
    ∀ e, e ∈ (connectTileTraverseLinks env ed b ltn).installed → e.allocsSucceeded := by
  unfold connectTileTraverseLinks
  simp only
  by_cases h0 : (!(ed.tile b).linkCountAvailable (if ltn = true then 1 else 2)) = true
  · rw [if_pos h0]
    intro e he
    simp at he
  · rw [if_neg h0]
    have hav : (ed.tile b).linkCountAvailable (if ltn = true then 1 else 2) = true := by
      simpa using h0
    have hinv := connect_loops_inv env ltn b
      (fun s => (s.firstBaseTileLinkUsed = false →
          (s.editor.tile b).linkCountAvailable (if ltn = true then 1 else 2) = true) ∧
        ∀ e, e ∈ s.installed → e.allocsSucceeded)
      (fun lt s => ((s.firstBaseTileLinkUsed = false →
          (s.editor.tile b).linkCountAvailable (if ltn = true then 1 else 2) = true) ∧
        ∀ e, e ∈ s.installed → e.allocsSucceeded) ∧
        (s.firstLandTileLinkUsed = false → (s.editor.tile lt).linkCountAvailable 1 = true))
      (fun _ _ h => h.1)
      (fun lt s hJ _ _ hl => ⟨hJ, fun _ => hl⟩)
      (fun lt i j m n baseSide c s hK h1 h2 hb _ _ => by
        refine ⟨⟨fun h => ?_, fun e he => ?_⟩, fun h => ?_⟩
        · simp [installLinkPair] at h
        · rw [installed_installLinkPair, List.mem_append, List.mem_singleton] at he
          rcases he with he | he
          · exact hK.1.2 e he
          · rw [he]
            exact allocs_succeed_step ltn b lt i j m n baseSide c s hK.1.1 hK.2 h1 h2 hb
        · simp [installLinkPair] at h)
      (List.range (ed.tile b).hdr.polyCount)
      { editor := ed, firstBaseTileLinkUsed := false, firstLandTileLinkUsed := false,
        installed := [] }
      ⟨fun _ => hav, fun e he => by simp at he⟩
    exact hinv.2

/-- Witness of C8: the pair installed first on the example tile, in slots 0 and 1. -/
theorem installed_allocs_succeed_witness :
    ∃ e, e ∈ (connectTileTraverseLinks exampleEnv (gapEditor 0 8) 0 false).installed ∧
      e.forwardIdx = 0 ∧ e.reverseIdx = 1 ∧ e.allocsSucceeded := by
  obtain ⟨e, he, -, -, -, h4, h5⟩ := gap_first_installed
  exact ⟨e, he, h4, h5,
    installed_allocs_succeed exampleEnv (gapEditor 0 8) 0 false e he⟩

theorem allocLink_links (t : dtMeshTile) : t.allocLink.2.links = t.links := by
  unfold dtMeshTile.allocLink
  split_ifs <;> rfl

theorem tile_setTile (ed : Editor) (t u : Nat) (tile : dtMeshTile) :
    (ed.setTile t tile).tile u = if u = t then tile else ed.tile u := by
  simp [Editor.setTile, Editor.tile, Function.update_apply]

theorem install_links_frame (b i j lt m n baseSide : Nat) (c : Candidate) (s : ConnectState)
    (t x : Nat)
    (h1 : ¬ (t = lt ∧
      x = ((s.editor.setTile b (s.editor.tile b).allocLink.2).tile lt).allocLink.1))
    (h2 : ¬ (t = b ∧ x = (s.editor.tile b).allocLink.1)) :
    ((installLinkPair b i j lt m n baseSide c s).editor.tile t).links x =
      (s.editor.tile t).links x := by
  by_cases htl : t = lt
  · subst htl
    simp only [true_and] at h1
    by_cases htb : t = b
    · subst htb
      simp only [true_and] at h2
      simp only [tile_setTile, if_true] at h1
      simp only [installLinkPair, tile_setTile, if_true, Function.update_apply, if_neg h1,
        if_neg h2, allocLink_links]
    · simp only [tile_setTile, if_neg htb] at h1
      simp only [installLinkPair, tile_setTile, if_true, if_neg htb, Function.update_apply,
        if_neg h1, allocLink_links]
  · by_cases htb : t = b
    · subst htb
      simp only [true_and] at h2
      simp only [installLinkPair, tile_setTile, if_true, if_neg htl, Function.update_apply,
        if_neg h2, allocLink_links]
    · simp only [installLinkPair, tile_setTile, if_neg htl, if_neg htb]

theorem install_links_written (b i j lt m n baseSide : Nat) (c : Candidate) (s : ConnectState)
    (hne : ¬ (b = lt ∧ (s.editor.tile b).allocLink.1 =
      ((s.editor.setTile b (s.editor.tile b).allocLink.2).tile lt).allocLink.1)) :
    InstalledPair.forwardFields
        ⟨b, lt, i, j, m, n, (s.editor.tile b).allocLink.1,
          ((s.editor.setTile b (s.editor.tile b).allocLink.2).tile lt).allocLink.1,
          baseSide, c, s.editor⟩
        (((installLinkPair b i j lt m n baseSide c s).editor.tile b).links
          (s.editor.tile b).allocLink.1) ∧
    InstalledPair.reverseFields
        ⟨b, lt, i, j, m, n, (s.editor.tile b).allocLink.1,
          ((s.editor.setTile b (s.editor.tile b).allocLink.2).tile lt).allocLink.1,
          baseSide, c, s.editor⟩
        (((installLinkPair b i j lt m n baseSide c s).editor.tile lt).links
          ((s.editor.setTile b (s.editor.tile b).allocLink.2).tile lt).allocLink.1) := by
  constructor
  · by_cases hlb : b = lt
    · subst hlb
      have hne2 := fun h => hne ⟨rfl, h⟩
      simp only [tile_setTile, if_true] at hne2
      simp only [InstalledPair.forwardFields, installLinkPair, tile_setTile, if_true,
        Function.update_apply, if_neg hne2, and_self]
    · simp only [InstalledPair.forwardFields, installLinkPair, tile_setTile, if_true,
        if_neg hlb, if_neg (Ne.symm hlb), Function.update_apply, and_self]
  · simp only [InstalledPair.reverseFields, installLinkPair, tile_setTile, if_true,
      Function.update_apply, and_self]

theorem install_freeList (b i j lt m n baseSide : Nat) (c : Candidate) (s : ConnectState)
    (t : Nat) :
    ((installLinkPair b i j lt m n baseSide c s).editor.tile t).linksFreeList =
      if t = lt then
        ((s.editor.setTile b (s.editor.tile b).allocLink.2).tile lt).allocLink.2.linksFreeList
      else if t = b then (s.editor.tile b).allocLink.2.linksFreeList
      else (s.editor.tile t).linksFreeList := by
  by_cases htl : t = lt
  · subst htl
    by_cases htb : t = b
    · subst htb
      simp only [installLinkPair, tile_setTile, if_true]
    · simp only [installLinkPair, tile_setTile, if_true, if_neg htb]
  · by_cases htb : t = b
    · subst htb
      simp only [installLinkPair, tile_setTile, if_true, if_neg htl]
    · simp only [installLinkPair, tile_setTile, if_neg htl, if_neg htb]

theorem freeChain_congr (links1 links2 : Nat → dtLink) :
    ∀ (c : List Nat) (h : Nat), (∀ x, x ∈ c → links2 x = links1 x) →
      FreeChain links1 h c → FreeChain links2 h c := by
  intro c
  induction c with
  | nil => intro h _ hc; exact hc
  | cons x xs ih =>
    intro h hl hc
    obtain ⟨h1, h2, h3⟩ := hc
    refine ⟨h1, h2, ?_⟩
    rw [hl x (List.mem_cons_self x xs)]
    exact ih _ (fun y hy => hl y (List.mem_cons_of_mem x hy)) h3

theorem alloc_chain (t : dtMeshTile) (P : Nat → Prop) (c : List Nat)
    (h : t.FreeListIs P c) (hs : t.allocLink.1 ≠ DT_NULL_LINK) :
    ∃ c2, c = t.allocLink.1 :: c2 ∧ t.allocLink.2.FreeListIs P c2 ∧
      t.allocLink.1 ∉ c2 ∧ P t.allocLink.1 := by
  obtain ⟨hc, hn, hp⟩ := h
  have hfree : t.linksFreeList ≠ DT_NULL_LINK := by
    intro h0
    apply hs
    simp [dtMeshTile.allocLink, h0]
  rw [allocLink_of_free t hfree]
  simp only
  cases c with
  | nil => exact absurd hc hfree
  | cons x xs =>
    obtain ⟨h1, -, h3⟩ := hc
    subst h1
    rw [List.nodup_cons] at hn
    exact ⟨xs, rfl, ⟨h3, hn.2, fun y hy => hp y (List.mem_cons_of_mem _ hy)⟩, hn.1,
      hp _ (List.mem_cons_self _ _)⟩

/-- The predicate kept by every installation: the free lists of all tiles are well
formed and every recorded pair is in place. -/
theorem install_keeps_pairs (P : Nat → Prop) (b i j lt m n baseSide : Nat) (c : Candidate)
    (s : ConnectState)
    (hJ : ∃ chains : Nat → List Nat, (∀ t, (s.editor.tile t).FreeListIs P (chains t)) ∧
      ∀ e, e ∈ s.installed → e.InPlace P chains s.editor)
    (h1 : (s.editor.tile b).allocLink.1 ≠ DT_NULL_LINK)
    (h2 : ((s.editor.setTile b (s.editor.tile b).allocLink.2).tile lt).allocLink.1
      ≠ DT_NULL_LINK) :
    ∃ chains : Nat → List Nat,
      (∀ t, ((installLinkPair b i j lt m n baseSide c s).editor.tile t).FreeListIs P
        (chains t)) ∧
      ∀ e, e ∈ (installLinkPair b i j lt m n baseSide c s).installed →
        e.InPlace P chains (installLinkPair b i j lt m n baseSide c s).editor := by
  obtain ⟨chains, hch, hent⟩ := hJ
  obtain ⟨cb, hcb, hfb, hnb, hPb⟩ := alloc_chain _ P _ (hch b) h1
  have hmid : ∀ t, ((s.editor.setTile b (s.editor.tile b).allocLink.2).tile t).FreeListIs P
      (Function.update chains b cb t) := by
    intro t
    rw [tile_setTile]
    by_cases htb : t = b
    · subst htb
      rw [if_pos rfl, Function.update_same]
      exact hfb
    · rw [if_neg htb, Function.update_noteq htb]
      exact hch t
  obtain ⟨cl, hcl, hfl, hnl, hPl⟩ := alloc_chain _ P _ (hmid lt) h2
  have hsub1 : ∀ t x, x ∈ Function.update chains b cb t → x ∈ chains t := by
    intro t x hx
    by_cases htb : t = b
    · subst htb
      rw [Function.update_same] at hx
      rw [hcb]
      exact List.mem_cons_of_mem _ hx
    · rwa [Function.update_noteq htb] at hx
  have hsub2 : ∀ t x, x ∈ Function.update (Function.update chains b cb) lt cl t →
      x ∈ Function.update chains b cb t := by
    intro t x hx
    by_cases htl : t = lt
    · subst htl
      rw [Function.update_same] at hx
      rw [hcl]
      exact List.mem_cons_of_mem _ hx
    · rwa [Function.update_noteq htl] at hx
  have hfwd_mem : (s.editor.tile b).allocLink.1 ∈ chains b := by
    rw [hcb]; exact List.mem_cons_self _ _
  have hrev_mem : ((s.editor.setTile b (s.editor.tile b).allocLink.2).tile lt).allocLink.1
      ∈ Function.update chains b cb lt := by
    rw [hcl]; exact List.mem_cons_self _ _
  have hfwd_out : (s.editor.tile b).allocLink.1 ∉
      Function.update (Function.update chains b cb) lt cl b := by
    intro hx
    have := hsub2 b _ hx
    rw [Function.update_same] at this
    exact hnb this
  have hrev_out : ((s.editor.setTile b (s.editor.tile b).allocLink.2).tile lt).allocLink.1 ∉
      Function.update (Function.update chains b cb) lt cl lt := by
    rw [Function.update_same]
    exact hnl
  have hdiff : ¬ (b = lt ∧ (s.editor.tile b).allocLink.1 =
      ((s.editor.setTile b (s.editor.tile b).allocLink.2).tile lt).allocLink.1) := by
    rintro ⟨hbl, he⟩
    subst hbl
    apply hnb
    have := hrev_mem
    rw [Function.update_same] at this
    rw [he]
    exact this
  have hframe : ∀ t x, x ∈ Function.update (Function.update chains b cb) lt cl t →
      ((installLinkPair b i j lt m n baseSide c s).editor.tile t).links x =
        (s.editor.tile t).links x := by
    intro t x hx
    apply install_links_frame
    · rintro ⟨htl, hxe⟩
      subst htl
      rw [hxe] at hx
      exact hrev_out hx
    · rintro ⟨htb, hxe⟩
      subst htb
      rw [hxe] at hx
      exact hfwd_out hx
  refine ⟨Function.update (Function.update chains b cb) lt cl, fun t => ?_, fun e he => ?_⟩
  · have hfin : ((s.editor.setTile b (s.editor.tile b).allocLink.2).setTile lt
        ((s.editor.setTile b (s.editor.tile b).allocLink.2).tile lt).allocLink.2).tile
          t |>.FreeListIs P (Function.update (Function.update chains b cb) lt cl t) := by
      rw [tile_setTile]
      by_cases htl : t = lt
      · subst htl
        rw [if_pos rfl, Function.update_same]
        exact hfl
      · rw [if_neg htl, Function.update_noteq htl]
        exact hmid t
    obtain ⟨g1, g2, g3⟩ := hfin
    refine ⟨?_, g2, g3⟩
    have hfree : ((installLinkPair b i j lt m n baseSide c s).editor.tile t).linksFreeList =
        (((s.editor.setTile b (s.editor.tile b).allocLink.2).setTile lt
          ((s.editor.setTile b (s.editor.tile b).allocLink.2).tile lt).allocLink.2).tile
            t).linksFreeList := by
      by_cases htl : t = lt
      · simp only [install_freeList, tile_setTile, if_pos htl]
      · by_cases htb : t = b
        · simp only [install_freeList, tile_setTile, if_neg htl, if_pos htb]
        · simp only [install_freeList, tile_setTile, if_neg htl, if_neg htb]
    have hlinks : (((s.editor.setTile b (s.editor.tile b).allocLink.2).setTile lt
          ((s.editor.setTile b (s.editor.tile b).allocLink.2).tile lt).allocLink.2).tile
            t).links = (s.editor.tile t).links := by
      by_cases htl : t = lt
      · by_cases htb : t = b
        · subst htl
          subst htb
          simp only [tile_setTile, eq_self_iff_true, if_true, allocLink_links]
        · subst htl
          simp only [tile_setTile, eq_self_iff_true, if_true, if_neg htb, allocLink_links]
      · by_cases htb : t = b
        · subst htb
          simp only [tile_setTile, eq_self_iff_true, if_true, if_neg htl, allocLink_links]
        · simp only [tile_setTile, if_neg htl, if_neg htb]
    rw [hfree]
    rw [hlinks] at g1
    exact freeChain_congr _ _ _ _ (fun x hx => hframe t x hx) g1
  · rw [installed_installLinkPair, List.mem_append, List.mem_singleton] at he
    rcases he with he | he
    · obtain ⟨p1, p2, p3, p4, p5, p6⟩ := hent e he
      have q3 : e.forwardIdx ∉ Function.update (Function.update chains b cb) lt cl e.baseTile :=
        fun hx => p3 (hsub1 _ _ (hsub2 _ _ hx))
      have q4 : e.reverseIdx ∉ Function.update (Function.update chains b cb) lt cl e.landTile :=
        fun hx => p4 (hsub1 _ _ (hsub2 _ _ hx))
      refine ⟨p1, p2, q3, q4, ?_, ?_⟩
      · rw [install_links_frame]
        · exact p5
        · rintro ⟨htl, hxe⟩
          apply p3
          apply hsub1
          rw [htl, hxe]
          exact hrev_mem
        · rintro ⟨htb, hxe⟩
          apply p3
          rw [htb, hxe]
          exact hfwd_mem
      · rw [install_links_frame]
        · exact p6
        · rintro ⟨htl, hxe⟩
          apply p4
          apply hsub1
          rw [htl, hxe]
          exact hrev_mem
        · rintro ⟨htb, hxe⟩
          apply p4
          rw [htb, hxe]
          exact hfwd_mem
    · subst he
      obtain ⟨w1, w2⟩ := install_links_written b i j lt m n baseSide c s hdiff
      exact ⟨hPb, hPl, hfwd_out, hrev_out, w1, w2⟩

theorem qualify_refs (env : Env) (ed : Editor) (ltn : Bool) (b i j lt m n : Nat)
    (c : Candidate) (h : qualify env ed ltn b i j lt m n = some c) :
    c.basePolyRef = (env.getPolyRefBase b ||| i) % 2 ^ 32 ∧
    c.landPolyRef = (env.getPolyRefBase lt ||| env.l) % 2 ^ 32 := by
  unfold qualify at h
  simp only at h
  split_ifs at h
  all_goals cases h
  all_goals exact ⟨rfl, rfl⟩

/-- Every pair installed by `connectTileTraverseLinks` passed the candidate tests and
got its slots from successful `allocLink` calls; when the free lists of all tiles
are well formed before the call, they are well formed after it and every installed
pair is still in place. -/
theorem installed_pairs_in_place (env : Env) (ed : Editor) (b : Nat) (ltn : Bool)
    (P : Nat → Prop) (chains : Nat → List Nat)
    (hwf : ∀ t, (ed.tile t).FreeListIs P (chains t)) :
    (∃ chains2 : Nat → List Nat,
      (∀ t, ((connectTileTraverseLinks env ed b ltn).editor.tile t).FreeListIs P (chains2 t)) ∧
      ∀ e, e ∈ (connectTileTraverseLinks env ed b ltn).installed →
        e.InPlace P chains2 (connectTileTraverseLinks env ed b ltn).editor) ∧
    ∀ e, e ∈ (connectTileTraverseLinks env ed b ltn).installed →
      e.allocsSucceeded ∧ e.Qualified env ltn b := by
  unfold connectTileTraverseLinks
  simp only
  by_cases h0 : (!(ed.tile b).linkCountAvailable (if ltn = true then 1 else 2)) = true
  · rw [if_pos h0]
    exact ⟨⟨chains, hwf, fun e he => by simp at he⟩, fun e he => by simp at he⟩
  · rw [if_neg h0]
    have hav : (ed.tile b).linkCountAvailable (if ltn = true then 1 else 2) = true := by
      simpa using h0
    have hinv := connect_loops_inv env ltn b
      (fun s => ((s.firstBaseTileLinkUsed = false →
          (s.editor.tile b).linkCountAvailable (if ltn = true then 1 else 2) = true) ∧
        ∀ e, e ∈ s.installed → e.allocsSucceeded ∧ e.Qualified env ltn b) ∧
        ∃ chains2 : Nat → List Nat, (∀ t, (s.editor.tile t).FreeListIs P (chains2 t)) ∧
          ∀ e, e ∈ s.installed → e.InPlace P chains2 s.editor)
      (fun lt s => (((s.firstBaseTileLinkUsed = false →
          (s.editor.tile b).linkCountAvailable (if ltn = true then 1 else 2) = true) ∧
        ∀ e, e ∈ s.installed → e.allocsSucceeded ∧ e.Qualified env ltn b) ∧
        ∃ chains2 : Nat → List Nat, (∀ t, (s.editor.tile t).FreeListIs P (chains2 t)) ∧
          ∀ e, e ∈ s.installed → e.InPlace P chains2 s.editor) ∧
        (s.firstLandTileLinkUsed = false → (s.editor.tile lt).linkCountAvailable 1 = true))
      (fun _ _ h => h.1)
      (fun lt s hJ _ _ hl => ⟨hJ, fun _ => hl⟩)
      (fun lt i j m n baseSide c s hK h1 h2 hb hn hq => by
        have hnew := allocs_succeed_step ltn b lt i j m n baseSide c s hK.1.1.1 hK.2 h1 h2 hb
        refine ⟨⟨⟨fun h => ?_, fun e he => ?_⟩, ?_⟩, fun h => ?_⟩
        · simp [installLinkPair] at h
        · rw [installed_installLinkPair, List.mem_append, List.mem_singleton] at he
          rcases he with he | he
          · exact hK.1.1.2 e he
          · rw [he]
            exact ⟨hnew, rfl, hn, hq⟩
        · exact install_keeps_pairs P b i j lt m n baseSide c s hK.1.2 hnew.2.2.1 hnew.2.2.2.1
        · simp [installLinkPair] at h)
      (List.range (ed.tile b).hdr.polyCount)
      { editor := ed, firstBaseTileLinkUsed := false, firstLandTileLinkUsed := false,
        installed := [] }
      ⟨⟨fun _ => hav, fun e he => by simp at he⟩, chains, hwf, fun e he => by simp at he⟩
    exact ⟨hinv.2, hinv.1.2⟩

theorem installLinkPair_pair_map (b i j lt m n baseSide : Nat) (c : Candidate)
    (s : ConnectState) :
    (installLinkPair b i j lt m n baseSide c s).editor.m_traverseLinkPolyMap =
      s.editor.m_traverseLinkPolyMap := rfl

/-- The traverse-link pair map is the same before and after
`connectTileTraverseLinks`, whatever is installed. -/
theorem connect_keeps_pair_map (env : Env) (ed : Editor) (b : Nat) (ltn : Bool) :
    (connectTileTraverseLinks env ed b ltn).editor.m_traverseLinkPolyMap =
      ed.m_traverseLinkPolyMap := by
  unfold connectTileTraverseLinks
  simp only
  by_cases h0 : (!(ed.tile b).linkCountAvailable (if ltn = true then 1 else 2)) = true
  · rw [if_pos h0]
  · rw [if_neg h0]
    exact connect_loops_inv env ltn b
      (fun s => s.editor.m_traverseLinkPolyMap = ed.m_traverseLinkPolyMap)
      (fun _ s => s.editor.m_traverseLinkPolyMap = ed.m_traverseLinkPolyMap)
      (fun _ _ h => h) (fun _ _ h _ _ _ => h)
      (fun lt i j m n baseSide c s hK _ _ _ _ _ =>
        (installLinkPair_pair_map b i j lt m n baseSide c s).trans hK)
      _ _ rfl

/-- C5 (counterexample): on a tile whose free list starts at slot 65536, the pair is
installed in slots 65536 and 65537, the forward link stores the reverse index
truncated to 16 bits, 1, and slot 1 of the land tile is not the reverse link: its
`reverseLink` does not point back and its traverse type differs. -/
theorem reverse_index_truncated_counterexample :
    (connectTileTraverseLinks exampleEnv (gapEditor 65536 2) 0 false).installed.map
      (fun e => (e.baseTile, e.landTile, e.forwardIdx, e.reverseIdx))
      = [(0, 0, 65536, 65537)] ∧
    (((connectTileTraverseLinks exampleEnv (gapEditor 65536 2) 0 false).editor.tile 0).links
      65536).reverseLink = 1 ∧
    ((connectTileTraverseLinks exampleEnv (gapEditor 65536 2) 0 false).editor.tile 0).links 1
      ≠ ((connectTileTraverseLinks exampleEnv (gapEditor 65536 2) 0 false).editor.tile 0).links
          65537 ∧
    (((connectTileTraverseLinks exampleEnv (gapEditor 65536 2) 0 false).editor.tile 0).links
      1).reverseLink ≠ 65536 ∧
    (((connectTileTraverseLinks exampleEnv (gapEditor 65536 2) 0 false).editor.tile 0).links
      1).traverseType ≠
    (((connectTileTraverseLinks exampleEnv (gapEditor 65536 2) 0 false).editor.tile 0).links
      65536).traverseType := by
  decide!

/-- C5 (amended): when, before the call, the free list of every tile is well formed
and runs through slots below 65536, then after `connectTileTraverseLinks` every
installed pair is linked both ways: the forward link's `reverseLink` is the index of
the reverse link in the land tile, whose `reverseLink` is the index of the forward
link in the base tile, whose `ref` is the reference of the base polygon, and whose
traverse type is the forward link's. -/
theorem reverse_link_points_back (env : Env) (ed : Editor) (b : Nat) (ltn : Bool)
    (chains : Nat → List Nat)
    (hwf : ∀ t, (ed.tile t).FreeListIs (fun x => x < 65536) (chains t)) :
    ∀ e, e ∈ (connectTileTraverseLinks env ed b ltn).installed →
      (((connectTileTraverseLinks env ed b ltn).editor.tile e.baseTile).links
        e.forwardIdx).reverseLink = e.reverseIdx ∧
      (((connectTileTraverseLinks env ed b ltn).editor.tile e.landTile).links
        (((connectTileTraverseLinks env ed b ltn).editor.tile e.baseTile).links
          e.forwardIdx).reverseLink).reverseLink = e.forwardIdx ∧
      (((connectTileTraverseLinks env ed b ltn).editor.tile e.landTile).links
        (((connectTileTraverseLinks env ed b ltn).editor.tile e.baseTile).links
          e.forwardIdx).reverseLink).ref
        = (env.getPolyRefBase e.baseTile ||| e.basePoly) % 2 ^ 32 ∧
      (((connectTileTraverseLinks env ed b ltn).editor.tile e.landTile).links
        (((connectTileTraverseLinks env ed b ltn).editor.tile e.baseTile).links
          e.forwardIdx).reverseLink).traverseType =
      (((connectTileTraverseLinks env ed b ltn).editor.tile e.baseTile).links
        e.forwardIdx).traverseType := by
  obtain ⟨⟨chains2, -, hin⟩, hq⟩ :=
    installed_pairs_in_place env ed b ltn (fun x => x < 65536) chains hwf
  intro e he
  obtain ⟨p1, p2, -, -, hF, hR⟩ := hin e he
  obtain ⟨-, -, -, hqual⟩ := hq e he
  obtain ⟨hbase, -⟩ := qualify_refs env _ ltn _ _ _ _ _ _ _ hqual
  obtain ⟨-, -, -, -, -, f6, -, f8⟩ := hF
  obtain ⟨r1, -, -, -, -, r6, -, r8⟩ := hR
  have e1 : (((connectTileTraverseLinks env ed b ltn).editor.tile e.baseTile).links
      e.forwardIdx).reverseLink = e.reverseIdx := by
    rw [f8]; exact Nat.mod_eq_of_lt p2
  rw [e1]
  refine ⟨rfl, ?_, ?_, ?_⟩
  · rw [r8]; exact Nat.mod_eq_of_lt p1
  · rw [r1, hbase]
  · rw [r6, f6]

theorem gapEditor_freeLists :
    ∀ t, ((gapEditor 0 8).tile t).FreeListIs (fun x => x < 65536) (gapChains 0 8 t) := by
  intro t
  by_cases h : t = 0
  · subst h
    exact ⟨by decide!, by decide!, by decide!⟩
  · have h1 : (gapEditor 0 8).tile t = emptyTile := by
      simp [gapEditor, Editor.tile, h]
    have h2 : gapChains 0 8 t = [] := by
      simp [gapChains, h]
    rw [h1, h2]
    exact ⟨rfl, List.nodup_nil, fun x hx => absurd hx (List.not_mem_nil x)⟩

/-- Witness of the amended C5: the pair installed first on the example tile with free
slots 0..7, in slots 0 and 1. -/
theorem reverse_link_points_back_witness :
    (∀ t, ((gapEditor 0 8).tile t).FreeListIs (fun x => x < 65536) (gapChains 0 8 t)) ∧
    ∃ e, e ∈ (connectTileTraverseLinks exampleEnv (gapEditor 0 8) 0 false).installed ∧
      e.forwardIdx = 0 ∧ e.reverseIdx = 1 ∧
      (((connectTileTraverseLinks exampleEnv (gapEditor 0 8) 0 false).editor.tile
        e.baseTile).links e.forwardIdx).reverseLink = e.reverseIdx ∧
      (((connectTileTraverseLinks exampleEnv (gapEditor 0 8) 0 false).editor.tile
        e.landTile).links
        (((connectTileTraverseLinks exampleEnv (gapEditor 0 8) 0 false).editor.tile
          e.baseTile).links e.forwardIdx).reverseLink).reverseLink = e.forwardIdx ∧
      (((connectTileTraverseLinks exampleEnv (gapEditor 0 8) 0 false).editor.tile
        e.landTile).links
        (((connectTileTraverseLinks exampleEnv (gapEditor 0 8) 0 false).editor.tile
          e.baseTile).links e.forwardIdx).reverseLink).ref
        = (exampleEnv.getPolyRefBase e.baseTile ||| e.basePoly) % 2 ^ 32 ∧
      (((connectTileTraverseLinks exampleEnv (gapEditor 0 8) 0 false).editor.tile
        e.landTile).links
        (((connectTileTraverseLinks exampleEnv (gapEditor 0 8) 0 false).editor.tile
          e.baseTile).links e.forwardIdx).reverseLink).traverseType =
      (((connectTileTraverseLinks exampleEnv (gapEditor 0 8) 0 false).editor.tile
        e.baseTile).links e.forwardIdx).traverseType := by
  obtain ⟨e, he, -, -, -, h4, h5⟩ := gap_first_installed
  exact ⟨gapEditor_freeLists, e, he, h4, h5,
    reverse_link_points_back exampleEnv (gapEditor 0 8) 0 false (gapChains 0 8)
      gapEditor_freeLists e he⟩

/-- C6 (the code at the failing input): on the example tile `connectTileTraverseLinks`
installs two pairs of traverse type 1 between the polygons with references 4194305
and 4194304, and the traverse-link pair map has no entry for that pair afterwards:
it is still empty. -/
theorem pair_map_not_recorded :
    (connectTileTraverseLinks exampleEnv (gapEditor 0 8) 0 false).installed.map
      (fun e => (e.cand.basePolyRef, e.cand.landPolyRef, e.cand.traverseType))
      = [(4194305, 4194304, 1), (4194305, 4194304, 1)] ∧
    mapFind (connectTileTraverseLinks exampleEnv (gapEditor 0 8) 0 false).editor.m_traverseLinkPolyMap
      (TraverseLinkPolyPair.make 4194305 4194304) = none ∧
    (connectTileTraverseLinks exampleEnv (gapEditor 0 8) 0 false).editor.m_traverseLinkPolyMap
      = [] := by
  decide!

/-- C7 (the code at the failing input): after `createTraverseLinks` on the example
navmesh, polygon 0 owns the links in slots 3 and 1 (its chain is 3, 1, end), and both
have traverse type 1 and target the polygon with reference 4194305. -/
theorem duplicate_traverse_links :
    (((createTraverseLinks exampleEnv (gapEditor 0 8)).1.tile 0).polys 0).firstLink = 3 ∧
    (((createTraverseLinks exampleEnv (gapEditor 0 8)).1.tile 0).links 3).next = 1 ∧
    (((createTraverseLinks exampleEnv (gapEditor 0 8)).1.tile 0).links 1).next = DT_NULL_LINK ∧
    (((createTraverseLinks exampleEnv (gapEditor 0 8)).1.tile 0).links 3).ref = 4194305 ∧
    (((createTraverseLinks exampleEnv (gapEditor 0 8)).1.tile 0).links 1).ref = 4194305 ∧
    (((createTraverseLinks exampleEnv (gapEditor 0 8)).1.tile 0).links 3).traverseType = 1 ∧
    (((createTraverseLinks exampleEnv (gapEditor 0 8)).1.tile 0).links 1).traverseType = 1 := by
  decide!

/-- C9 (the code at the failing input): on the example tile the first pair goes from
edge 1 of polygon 1 to edge 3 of polygon 0, into slots 0 and 1; the forward link holds
the edge index 1, and the reverse link holds in `edge` the land polygon index 0, not
the land edge index 3. -/
theorem reverse_edge_holds_poly_index :
    (connectTileTraverseLinks exampleEnv (gapEditor 0 8) 0 false).installed.map
      (fun e => (e.basePoly, e.baseEdge, e.landPoly, e.landEdge, e.forwardIdx, e.reverseIdx))
      = [(1, 1, 0, 3, 0, 1), (1, 2, 0, 3, 2, 3)] ∧
    (((connectTileTraverseLinks exampleEnv (gapEditor 0 8) 0 false).editor.tile 0).links
      0).edge = 1 ∧
    (((connectTileTraverseLinks exampleEnv (gapEditor 0 8) 0 false).editor.tile 0).links
      1).edge = 0 ∧
    (((connectTileTraverseLinks exampleEnv (gapEditor 0 8) 0 false).editor.tile 0).links
      1).edge ≠ 3 := by
  decide!

/-! ### Side codes, ledge offsets and segment intersection -/

theorem rdClamp_self_lower (v mx : ℚ) : rdClamp v v mx = min v mx := by
  unfold rdClamp
  rw [if_neg (lt_irrefl v)]
  by_cases h : v > mx
  · rw [if_pos h, min_eq_right (le_of_lt h)]
  · rw [if_neg h, min_eq_left (not_lt.mp h)]

/-- C18 (counterexample): for the ledge span 1, the slope angle -1 and the maximum
angle 1, `rdCalcLedgeSpanOffsetAmount` returns -1, whereas the ledge span times
`clamp(slopeAngle, 0, maxAngle) / maxAngle` is 0. -/
theorem ledge_offset_negative_slope_counterexample :
    rdCalcLedgeSpanOffsetAmount 1 (-1) 1 = -1 ∧ (1 : ℚ) * (rdClamp (-1) 0 1 / 1) = 0 ∧
    ¬ (0 ≤ rdCalcLedgeSpanOffsetAmount 1 (-1) 1) := by
  decide!

/-- C18 (amended): for `maxAngle > 0`, `rdCalcLedgeSpanOffsetAmount` returns
`ledgeSpan * min(slopeAngle, maxAngle) / maxAngle`: the slope angle is clamped from
above only. For a slope angle that is not negative this is
`ledgeSpan * clamp(slopeAngle, 0, maxAngle) / maxAngle`, and then the offset lies in
`[0, ledgeSpan]` when `ledgeSpan ≥ 0`. -/
theorem ledge_offset_upper_clamp (ledgeSpan slopeAngle maxAngle : ℚ) (hmax : 0 < maxAngle) :
    rdCalcLedgeSpanOffsetAmount ledgeSpan slopeAngle maxAngle =
      ledgeSpan * (min slopeAngle maxAngle / maxAngle) ∧
    (0 ≤ slopeAngle →
      rdCalcLedgeSpanOffsetAmount ledgeSpan slopeAngle maxAngle =
        ledgeSpan * (rdClamp slopeAngle 0 maxAngle / maxAngle) ∧
      (0 ≤ ledgeSpan →
        0 ≤ rdCalcLedgeSpanOffsetAmount ledgeSpan slopeAngle maxAngle ∧
        rdCalcLedgeSpanOffsetAmount ledgeSpan slopeAngle maxAngle ≤ ledgeSpan)) := by
  have h0 : rdCalcLedgeSpanOffsetAmount ledgeSpan slopeAngle maxAngle =
      ledgeSpan * (min slopeAngle maxAngle / maxAngle) := by
    unfold rdCalcLedgeSpanOffsetAmount
    simp only [rdClamp_self_lower]
  refine ⟨h0, fun hs => ⟨?_, fun hl => ?_⟩⟩
  · rw [h0]
    unfold rdClamp
    rw [if_neg (not_lt.mpr hs)]
    by_cases h : slopeAngle > maxAngle
    · rw [if_pos h, min_eq_right (le_of_lt h)]
    · rw [if_neg h, min_eq_left (not_lt.mp h)]
  · rw [h0]
    have hm0 : 0 ≤ min slopeAngle maxAngle := le_min hs (le_of_lt hmax)
    have hm1 : min slopeAngle maxAngle ≤ maxAngle := min_le_right _ _
    have hq0 : 0 ≤ min slopeAngle maxAngle / maxAngle := div_nonneg hm0 (le_of_lt hmax)
    have hq1 : min slopeAngle maxAngle / maxAngle ≤ 1 := (div_le_one hmax).mpr hm1
    exact ⟨mul_nonneg hl hq0, by nlinarith⟩

theorem ledge_offset_upper_clamp_witness :
    rdCalcLedgeSpanOffsetAmount 16 30 45 = 16 * (min 30 45 / 45) ∧
    ((0 : ℚ) ≤ 30 →
      rdCalcLedgeSpanOffsetAmount 16 30 45 = 16 * (rdClamp 30 0 45 / 45) ∧
      ((0 : ℚ) ≤ 16 →
        0 ≤ rdCalcLedgeSpanOffsetAmount 16 30 45 ∧
        rdCalcLedgeSpanOffsetAmount 16 30 45 ≤ 16)) :=
  ledge_offset_upper_clamp 16 30 45 (by norm_num)

theorem classifyOutside_spec (pt bmin bmax : Vec3) (hx : bmin.x ≤ bmax.x)
    (hy : bmin.y ≤ bmax.y) :
    (rdClassifyPointOutsideBounds pt bmin bmax = 0xff ↔
      (bmin.x ≤ pt.x ∧ pt.x < bmax.x ∧ bmin.y ≤ pt.y ∧ pt.y < bmax.y)) ∧
    (rdClassifyPointOutsideBounds pt bmin bmax = 0xff ∨
      rdClassifyPointOutsideBounds pt bmin bmax < 8) := by
  unfold rdClassifyPointOutsideBounds
  by_cases h1 : pt.x ≥ bmax.x <;> by_cases h2 : pt.y ≥ bmax.y <;>
    by_cases h3 : pt.x < bmin.x <;> by_cases h4 : pt.y < bmin.y <;>
    simp only [h1, h2, h3, h4, if_true, if_false] <;>
    first
    | exact absurd (lt_of_lt_of_le (lt_of_le_of_lt h1 h3) hx) (lt_irrefl _)
    | exact absurd (lt_of_lt_of_le (lt_of_le_of_lt h2 h4) hy) (lt_irrefl _)
    | (refine ⟨⟨fun h => absurd h (by decide), fun h => ?_⟩, Or.inr (by decide)⟩
       first
       | exact absurd h.2.1 (not_lt.mpr h1)
       | exact absurd h.2.2.2 (not_lt.mpr h2)
       | exact absurd h.1 (not_le.mpr h3)
       | exact absurd h.2.2.1 (not_le.mpr h4))
    | exact ⟨⟨fun _ => ⟨not_lt.mp h3, not_le.mp h1, not_lt.mp h4, not_le.mp h2⟩,
        fun _ => by decide⟩, Or.inl (by decide)⟩

/-- C16 (counterexample): the corner `bmax` of the box `[0, 1] x [0, 1]` satisfies the
closed-box test of `rdPointInAABB`, yet `rdClassifyPointOutsideBounds` returns the
side code 3 for it and not `0xFF`. -/
theorem classify_outside_max_corner_counterexample :
    rdPointInAABB ⟨1, 1, 0⟩ ⟨0, 0, 0⟩ ⟨1, 1, 0⟩ = true ∧
    rdClassifyPointOutsideBounds ⟨1, 1, 0⟩ ⟨0, 0, 0⟩ ⟨1, 1, 0⟩ = 3 := by
  decide!

/-- C16 (amended): for a box with `bmin ≤ bmax` on x and y,
`rdClassifyPointOutsideBounds` returns `0xFF` exactly when the point lies in the
half-open box `bmin.x ≤ pt.x < bmax.x`, `bmin.y ≤ pt.y < bmax.y` (a point on a
maximum face counts as outside), and one of the side codes 0..7 otherwise. -/
theorem classify_outside_half_open (pt bmin bmax : Vec3) (hx : bmin.x ≤ bmax.x)
    (hy : bmin.y ≤ bmax.y) :
    (rdClassifyPointOutsideBounds pt bmin bmax = 0xff ↔
      (bmin.x ≤ pt.x ∧ pt.x < bmax.x ∧ bmin.y ≤ pt.y ∧ pt.y < bmax.y)) ∧
    (rdClassifyPointOutsideBounds pt bmin bmax = 0xff ∨
      rdClassifyPointOutsideBounds pt bmin bmax < 8) :=
  classifyOutside_spec pt bmin bmax hx hy

theorem classify_outside_half_open_witness :
    (rdClassifyPointOutsideBounds ⟨12, 3, 0⟩ ⟨0, 0, 0⟩ ⟨10, 10, 0⟩ = 0xff ↔
      ((0 : ℚ) ≤ 12 ∧ (12 : ℚ) < 10 ∧ (0 : ℚ) ≤ 3 ∧ (3 : ℚ) < 10)) ∧
    (rdClassifyPointOutsideBounds ⟨12, 3, 0⟩ ⟨0, 0, 0⟩ ⟨10, 10, 0⟩ = 0xff ∨
      rdClassifyPointOutsideBounds ⟨12, 3, 0⟩ ⟨0, 0, 0⟩ ⟨10, 10, 0⟩ < 8) :=
  classify_outside_half_open ⟨12, 3, 0⟩ ⟨0, 0, 0⟩ ⟨10, 10, 0⟩ (by norm_num) (by norm_num)

theorem classifyInside_eq (env : Env) (pt bmin bmax : Vec3)
    (hlen : env.RD_EPS < env.rdMathSqrtf (centreDistSqr pt bmin bmax)) :
    rdClassifyPointInsideBounds env pt bmin bmax =
      rdClassifyPointOutsideBounds
        ⟨(bmin.x + bmax.x) * (1 / 2) +
            (pt.x - (bmin.x + bmax.x) * (1 / 2)) /
              env.rdMathSqrtf (centreDistSqr pt bmin bmax) * (bmax.x - bmin.x),
          (bmin.y + bmax.y) * (1 / 2) +
            (pt.y - (bmin.y + bmax.y) * (1 / 2)) /
              env.rdMathSqrtf (centreDistSqr pt bmin bmax) * (bmax.y - bmin.y), 0⟩
        bmin bmax := by
  unfold rdClassifyPointInsideBounds
  unfold centreDistSqr at hlen ⊢
  simp only [gt_iff_lt, if_pos hlen]

theorem unit_dir_leaves_box (ux uy bx bY mnx mny : ℚ) (hbx : 0 < bx) (hby : 0 < bY)
    (hu : 1 / 2 < ux * ux + uy * uy)
    (h1 : mnx ≤ (mnx + (mnx + bx)) * (1 / 2) + ux * bx)
    (h2 : (mnx + (mnx + bx)) * (1 / 2) + ux * bx < mnx + bx)
    (h3 : mny ≤ (mny + (mny + bY)) * (1 / 2) + uy * bY)
    (h4 : (mny + (mny + bY)) * (1 / 2) + uy * bY < mny + bY) : False := by
  have a1 : 0 ≤ (ux + 1 / 2) * bx := by linarith
  have a2 : (ux - 1 / 2) * bx < 0 := by linarith
  have a3 : 0 ≤ (uy + 1 / 2) * bY := by linarith
  have a4 : (uy - 1 / 2) * bY < 0 := by linarith
  have b1 : 0 ≤ ux + 1 / 2 := by
    by_contra h
    have : (ux + 1 / 2) * bx < 0 := mul_neg_of_neg_of_pos (not_le.mp h) hbx
    linarith
  have b2 : ux - 1 / 2 < 0 := by
    by_contra h
    have : 0 ≤ (ux - 1 / 2) * bx := mul_nonneg (not_lt.mp h) (le_of_lt hbx)
    linarith
  have b3 : 0 ≤ uy + 1 / 2 := by
    by_contra h
    have : (uy + 1 / 2) * bY < 0 := mul_neg_of_neg_of_pos (not_le.mp h) hby
    linarith
  have b4 : uy - 1 / 2 < 0 := by
    by_contra h
    have : 0 ≤ (uy - 1 / 2) * bY := mul_nonneg (not_lt.mp h) (le_of_lt hby)
    linarith
  nlinarith [mul_nonneg b1 (le_of_lt (neg_pos.mpr b2)), mul_nonneg b3 (le_of_lt (neg_pos.mpr b4))]

/-- C17 (amended): with every `float` operation read as the exact operation, for a
box with positive x and y extents and a point whose distance from the box centre in
the xy-plane, as `rdMathSqrtf` returns it, exceeds `RD_EPS`,
`rdClassifyPointInsideBounds` returns a side code 0..7, never `0xFF`; and a second
such point `pt2` in the same direction from the centre, `k` times as far away, gets
the same code. `RD_EPS` is not negative, the value `len` of `rdMathSqrtf` is accurate
enough for `len * len` to stay below twice the squared distance, and it is `k` times
as large for the second point, as the exact root is. -/
theorem classify_inside_side_code (env : Env) (pt pt2 bmin bmax : Vec3) (k : ℚ)
    (hx : bmin.x < bmax.x) (hy : bmin.y < bmax.y) (heps : 0 ≤ env.RD_EPS)
    (hlen : env.RD_EPS < env.rdMathSqrtf (centreDistSqr pt bmin bmax))
    (hacc : env.rdMathSqrtf (centreDistSqr pt bmin bmax) *
      env.rdMathSqrtf (centreDistSqr pt bmin bmax) < 2 * centreDistSqr pt bmin bmax)
    (hk : 0 < k)
    (hx2 : pt2.x - (bmin.x + bmax.x) * (1 / 2) = k * (pt.x - (bmin.x + bmax.x) * (1 / 2)))
    (hy2 : pt2.y - (bmin.y + bmax.y) * (1 / 2) = k * (pt.y - (bmin.y + bmax.y) * (1 / 2)))
    (hlen2 : env.RD_EPS < env.rdMathSqrtf (centreDistSqr pt2 bmin bmax))
    (hhom : env.rdMathSqrtf (centreDistSqr pt2 bmin bmax) =
      k * env.rdMathSqrtf (centreDistSqr pt bmin bmax)) :
    rdClassifyPointInsideBounds env pt bmin bmax < 8 ∧
    rdClassifyPointInsideBounds env pt2 bmin bmax =
      rdClassifyPointInsideBounds env pt bmin bmax := by
  have hL : 0 < env.rdMathSqrtf (centreDistSqr pt bmin bmax) := lt_of_le_of_lt heps hlen
  constructor
  · rw [classifyInside_eq env pt bmin bmax hlen]
    rcases classifyOutside_spec
      ⟨(bmin.x + bmax.x) * (1 / 2) +
          (pt.x - (bmin.x + bmax.x) * (1 / 2)) /
            env.rdMathSqrtf (centreDistSqr pt bmin bmax) * (bmax.x - bmin.x),
        (bmin.y + bmax.y) * (1 / 2) +
          (pt.y - (bmin.y + bmax.y) * (1 / 2)) /
            env.rdMathSqrtf (centreDistSqr pt bmin bmax) * (bmax.y - bmin.y), 0⟩
      bmin bmax (le_of_lt hx) (le_of_lt hy) with ⟨hiff, hff | hlt⟩
    · exfalso
      obtain ⟨h1, h2, h3, h4⟩ := hiff.mp hff
      simp only at h1 h2 h3 h4
      clear hx2 hy2 hlen2 hhom
      generalize hLdef : env.rdMathSqrtf (centreDistSqr pt bmin bmax) = L at *
      have hD : centreDistSqr pt bmin bmax =
          (pt.x - (bmin.x + bmax.x) * (1 / 2)) * (pt.x - (bmin.x + bmax.x) * (1 / 2)) +
          (pt.y - (bmin.y + bmax.y) * (1 / 2)) * (pt.y - (bmin.y + bmax.y) * (1 / 2)) := rfl
      rw [hD] at hacc
      generalize hdx : pt.x - (bmin.x + bmax.x) * (1 / 2) = dx at *
      generalize hdy : pt.y - (bmin.y + bmax.y) * (1 / 2) = dy at *
      have hLL : 0 < L * L := mul_pos hL hL
      have hu : 1 / 2 < dx / L * (dx / L) + dy / L * (dy / L) := by
        have e : dx / L * (dx / L) + dy / L * (dy / L) = (dx * dx + dy * dy) / (L * L) := by
          field_simp
        rw [e, lt_div_iff₀ hLL]
        linarith
      refine unit_dir_leaves_box (dx / L) (dy / L) (bmax.x - bmin.x) (bmax.y - bmin.y)
        bmin.x bmin.y (by linarith) (by linarith) hu ?_ ?_ ?_ ?_
      · have e : bmin.x + (bmax.x - bmin.x) = bmax.x := by ring
        rw [e]; exact h1
      · have e : bmin.x + (bmax.x - bmin.x) = bmax.x := by ring
        rw [e]; exact h2
      · have e : bmin.y + (bmax.y - bmin.y) = bmax.y := by ring
        rw [e]; exact h3
      · have e : bmin.y + (bmax.y - bmin.y) = bmax.y := by ring
        rw [e]; exact h4
    · exact hlt
  · rw [classifyInside_eq env pt2 bmin bmax hlen2, classifyInside_eq env pt bmin bmax hlen]
    rw [hhom, hx2, hy2]
    generalize env.rdMathSqrtf (centreDistSqr pt bmin bmax) = L at *
    have e1 : ∀ d : ℚ, k * d / (k * L) = d / L := by
      intro d
      field_simp
      ring
    rw [e1, e1]

/-- Witness of C17 (amended): in the box `[0, 10] x [0, 10]` the point `(8, 9)`, at
distance 5 from the centre, and the point `(11, 13)`, in the same direction at
distance 10, get the same side code. -/
theorem classify_inside_side_code_witness :
    rdClassifyPointInsideBounds exampleEnv ⟨8, 9, 0⟩ ⟨0, 0, 0⟩ ⟨10, 10, 0⟩ < 8 ∧
    rdClassifyPointInsideBounds exampleEnv ⟨11, 13, 0⟩ ⟨0, 0, 0⟩ ⟨10, 10, 0⟩ =
      rdClassifyPointInsideBounds exampleEnv ⟨8, 9, 0⟩ ⟨0, 0, 0⟩ ⟨10, 10, 0⟩ :=
  classify_inside_side_code exampleEnv ⟨8, 9, 0⟩ ⟨11, 13, 0⟩ ⟨0, 0, 0⟩ ⟨10, 10, 0⟩ 2
    (by decide!) (by decide!) (by decide!) (by decide!) (by decide!) (by decide!)
    (by decide!) (by decide!) (by decide!) (by decide!)

theorem forLoop_next_inv {σ : Type} (P : σ → Prop) (body : Nat → σ → Flow σ) :
    ∀ (ks : List Nat), (∀ k, k ∈ ks → ∀ s s1, P s → body k s = .next s1 → P s1) →
      ∀ s s1, P s → forLoop body ks s = .next s1 → P s1 := by
  intro ks
  induction ks with
  | nil =>
    intro _ s s1 hs h
    simp only [forLoop, Flow.next.injEq] at h
    rw [← h]; exact hs
  | cons k ks ih =>
    intro h s s1 hs hr
    simp only [forLoop] at hr
    cases hb : body k s with
    | next s2 =>
      rw [hb] at hr
      exact ih (fun k2 hk2 => h k2 (List.mem_cons_of_mem k hk2)) s2 s1
        (h k (List.mem_cons_self k ks) s s2 hs hb) hr
    | exit s2 =>
      rw [hb] at hr
      cases hr

theorem poly2D_step_range (p0 dir : Vec3) (verts : Nat → Vec3) (nverts i : Nat)
    (s s1 : SegHit) (hs : 0 ≤ s.tmin ∧ s.tmin ≤ s.tmax ∧ s.tmax ≤ 1)
    (h : rdIntersectSegmentPoly2D.step p0 dir verts nverts i s = .next s1) :
    0 ≤ s1.tmin ∧ s1.tmin ≤ s1.tmax ∧ s1.tmax ≤ 1 := by
  unfold rdIntersectSegmentPoly2D.step at h
  simp only at h
  obtain ⟨h0, h1, h2⟩ := hs
  split_ifs at h <;> simp only [Flow.next.injEq, reduceCtorEq] at h <;> subst h <;>
    first
    | exact ⟨h0, h1, h2⟩
    | (simp only; exact ⟨by linarith, by linarith, by linarith⟩)

/-- The parameters that `rdIntersectSegmentPoly2D` reports with `true` satisfy
`0 ≤ tmin ≤ tmax ≤ 1`. -/
theorem rdIntersectSegmentPoly2D_range (p0 p1 : Vec3) (verts : Nat → Vec3) (nverts : Nat)
    (h : (rdIntersectSegmentPoly2D p0 p1 verts nverts).1 = true) :
    0 ≤ (rdIntersectSegmentPoly2D p0 p1 verts nverts).2.tmin ∧
    (rdIntersectSegmentPoly2D p0 p1 verts nverts).2.tmin ≤
      (rdIntersectSegmentPoly2D p0 p1 verts nverts).2.tmax ∧
    (rdIntersectSegmentPoly2D p0 p1 verts nverts).2.tmax ≤ 1 := by
  unfold rdIntersectSegmentPoly2D at h ⊢
  simp only at h ⊢
  cases hf : forLoop (rdIntersectSegmentPoly2D.step p0 (rdVsub p1 p0) verts nverts)
      (List.range nverts) ⟨0, 1, -1, -1⟩ with
  | next s =>
    simp only
    exact forLoop_next_inv (fun s => 0 ≤ s.tmin ∧ s.tmin ≤ s.tmax ∧ s.tmax ≤ 1) _ _
      (fun k _ s2 s3 hs2 hk => poly2D_step_range p0 _ verts nverts k s2 s3 hs2 hk)
      _ s ⟨le_refl 0, zero_le_one, le_refl 1⟩ hf
  | exit s =>
    rw [hf] at h
    simp only [Bool.false_eq_true] at h

theorem aabb_step_range (env : Env) (sp d amin amax : Vec3) (i : Nat)
    (s s1 : ℚ × ℚ) (hs : 0 ≤ s.1 ∧ s.1 ≤ s.2 ∧ s.2 ≤ 1)
    (h : rdIntersectSegmentAABB.step env sp d amin amax i s = .next s1) :
    0 ≤ s1.1 ∧ s1.1 ≤ s1.2 ∧ s1.2 ≤ 1 := by
  unfold rdIntersectSegmentAABB.step at h
  simp only at h
  obtain ⟨h0, h1, h2⟩ := hs
  split_ifs at h <;> simp only [Flow.next.injEq, reduceCtorEq] at h <;> subst h <;>
    first
    | exact ⟨h0, h1, h2⟩
    | (simp only; exact ⟨by linarith, by linarith, by linarith⟩)

/-- The parameters that `rdIntersectSegmentAABB` reports with `true` satisfy
`0 ≤ tmin ≤ tmax ≤ 1`. -/
theorem rdIntersectSegmentAABB_range (env : Env) (sp sq amin amax : Vec3)
    (h : (rdIntersectSegmentAABB env sp sq amin amax).1 = true) :
    0 ≤ (rdIntersectSegmentAABB env sp sq amin amax).2.1 ∧
    (rdIntersectSegmentAABB env sp sq amin amax).2.1 ≤
      (rdIntersectSegmentAABB env sp sq amin amax).2.2 ∧
    (rdIntersectSegmentAABB env sp sq amin amax).2.2 ≤ 1 := by
  unfold rdIntersectSegmentAABB at h ⊢
  simp only at h ⊢
  cases hf : forLoop (rdIntersectSegmentAABB.step env sp (rdVsub sq sp) amin amax)
      (List.range 3) (0, 1) with
  | next s =>
    simp only
    exact forLoop_next_inv (fun s => 0 ≤ s.1 ∧ s.1 ≤ s.2 ∧ s.2 ≤ 1) _ _
      (fun k _ s2 s3 hs2 hk => aabb_step_range env sp _ amin amax k s2 s3 hs2 hk)
      _ s ⟨le_refl 0, zero_le_one, le_refl 1⟩ hf
  | exit s =>
    rw [hf] at h
    simp only [Bool.false_eq_true] at h

theorem hull_range_aux (sp sq : Vec3) (verts : Nat → Vec3) (nverts : Nat)
    (hmin hmax : ℚ) (r : Bool × ℚ × ℚ)
    (hr : rdIntersectSegmentConvexHull sp sq verts nverts hmin hmax = r)
    (h : r.1 = true) : 0 ≤ r.2.1 ∧ r.2.1 ≤ r.2.2 ∧ r.2.2 ≤ 1 := by
  unfold rdIntersectSegmentConvexHull at hr
  simp only at hr
  generalize (rdIntersectSegmentPoly2D sp sq verts nverts).2.tmin = a at hr
  generalize (rdIntersectSegmentPoly2D sp sq verts nverts).2.tmax = b at hr
  generalize (rdIntersectSegmentPoly2D sp sq verts nverts).1 = c at hr
  generalize (hmin - sp.z) / (sq.z - sp.z) = u at hr
  generalize (hmax - sp.z) / (sq.z - sp.z) = v at hr
  generalize sq.z - sp.z = dz at hr
  have m0 : 0 ≤ rdMax 0 a := by unfold rdMax; split_ifs <;> linarith
  have m1 : rdMin 1 b ≤ 1 := by unfold rdMin; split_ifs <;> linarith
  have mx : ∀ u v : ℚ, u ≤ rdMax u v := by
    intro u v; unfold rdMax; split_ifs <;> linarith
  have mn : ∀ u v : ℚ, rdMin u v ≤ u := by
    intro u v; unfold rdMin; split_ifs <;> linarith
  by_cases hdz : dz ≠ 0
  · simp only [if_pos hdz, hdz, true_and, not_false_eq_true] at hr
    have k1 := mx (rdMax 0 a) (if u > v then v else u)
    have k2 := mn (rdMin 1 b) (if u > v then u else v)
    generalize rdMax (rdMax 0 a) (if u > v then v else u) = T1 at hr k1
    generalize rdMin (rdMin 1 b) (if u > v then u else v) = T2 at hr k2
    generalize rdMax 0 a = A at hr k1 m0
    generalize rdMin 1 b = B at hr k2 m1
    split_ifs at hr with c1 c2 c3 c4 <;> subst hr <;> simp only [Bool.false_eq_true] at h
    exact ⟨le_trans m0 k1, le_of_not_lt (fun hlt => c3 ⟨hdz, hlt⟩), le_trans k2 m1⟩
  · simp only [if_neg hdz, hdz, false_and, if_false] at hr
    generalize rdMax 0 a = A at hr m0
    generalize rdMin 1 b = B at hr m1
    split_ifs at hr with c1 c2 c3 <;> subst hr <;> simp only [Bool.false_eq_true] at h
    exact ⟨m0, not_lt.mp c2, m1⟩

/-- The parameters that `rdIntersectSegmentConvexHull` reports with `true` satisfy
`0 ≤ tmin ≤ tmax ≤ 1`. -/
theorem rdIntersectSegmentConvexHull_range (sp sq : Vec3) (verts : Nat → Vec3) (nverts : Nat)
    (hmin hmax : ℚ)
    (h : (rdIntersectSegmentConvexHull sp sq verts nverts hmin hmax).1 = true) :
    0 ≤ (rdIntersectSegmentConvexHull sp sq verts nverts hmin hmax).2.1 ∧
    (rdIntersectSegmentConvexHull sp sq verts nverts hmin hmax).2.1 ≤
      (rdIntersectSegmentConvexHull sp sq verts nverts hmin hmax).2.2 ∧
    (rdIntersectSegmentConvexHull sp sq verts nverts hmin hmax).2.2 ≤ 1 :=
  hull_range_aux sp sq verts nverts hmin hmax _ rfl h

theorem Flt.rdMax_num (a b : ℚ) : Flt.rdMax (.num a) (.num b) = .num (max a b) := by
  unfold Flt.rdMax Flt.lt
  by_cases h : b < a
  · simp only [h, decide_True, if_true, max_eq_left (le_of_lt h)]
  · simp only [h, decide_False, Bool.false_eq_true, if_false, max_eq_right (not_lt.mp h)]

theorem Flt.rdMin_num (a b : ℚ) : Flt.rdMin (.num a) (.num b) = .num (min a b) := by
  unfold Flt.rdMin Flt.lt
  by_cases h : a < b
  · simp only [h, decide_True, if_true, min_eq_left (le_of_lt h)]
  · simp only [h, decide_False, Bool.false_eq_true, if_false, min_eq_right (not_lt.mp h)]

theorem Flt.swap_lo (a b : ℚ) :
    (if (Flt.num b).lt (.num a) = true then Flt.num b else .num a) = .num (min a b) := by
  unfold Flt.lt
  by_cases h : b < a
  · simp only [h, decide_True, if_true, min_eq_right (le_of_lt h)]
  · simp only [h, decide_False, Bool.false_eq_true, if_false, min_eq_left (not_lt.mp h)]

theorem Flt.swap_hi (a b : ℚ) :
    (if (Flt.num b).lt (.num a) = true then Flt.num a else .num b) = .num (max a b) := by
  unfold Flt.lt
  by_cases h : b < a
  · simp only [h, decide_True, if_true, max_eq_left (le_of_lt h)]
  · simp only [h, decide_False, Bool.false_eq_true, if_false, max_eq_right (not_lt.mp h)]

theorem Flt.lt_num (a b : ℚ) : (Flt.num a).lt (.num b) = decide (a < b) := rfl

theorem cylinder_range_aux (env : Env) (sp sq position : Vec3)
    (radius height : ℚ) (r : Bool × Flt × Flt)
    (hnv : (sq.x - sp.x) * (sq.x - sp.x) + (sq.y - sp.y) * (sq.y - sp.y) ≠ 0)
    (hr : rdIntersectSegmentCylinder env sp sq position radius height = r)
    (h : r.1 = true) :
    ∃ a b, r.2.1 = .num a ∧ r.2.2 = .num b ∧ 0 ≤ a ∧ a ≤ b ∧ b ≤ 1 := by
  have h2a : 2 * ((sq.x - sp.x) * (sq.x - sp.x) + (sq.y - sp.y) * (sq.y - sp.y)) ≠ 0 :=
    mul_ne_zero (by norm_num) hnv
  unfold rdIntersectSegmentCylinder at hr
  simp only [Flt.div, if_pos h2a] at hr
  generalize (-(2 * ((sp.x - position.x) * (sq.x - sp.x) + (sp.y - position.y) * (sq.y - sp.y))) -
    env.rdMathSqrtf _) / _ = t0 at hr
  generalize (-(2 * ((sp.x - position.x) * (sq.x - sp.x) + (sp.y - position.y) * (sq.y - sp.y))) +
    env.rdMathSqrtf _) / _ = t1 at hr
  generalize (position.z - sp.z) / (sq.z - sp.z) = u at hr
  generalize (position.z + height - sp.z) / (sq.z - sp.z) = v at hr
  generalize sq.z - sp.z = dz at hr
  simp only [Flt.swap_lo, Flt.swap_hi, Flt.rdMax_num, Flt.rdMin_num] at hr
  have m0 : (0 : ℚ) ≤ max 0 (min t0 t1) := le_max_left _ _
  have m1 : min 1 (max t0 t1) ≤ (1 : ℚ) := min_le_left _ _
  generalize max 0 (min t0 t1) = A at hr m0
  generalize min 1 (max t0 t1) = B at hr m1
  by_cases hdz : dz ≠ 0
  · simp only [if_pos hdz, Flt.rdMax_num, Flt.rdMin_num] at hr
    have k1 : A ≤ max A (if u > v then v else u) := le_max_left _ _
    have k2 : min B (if u > v then u else v) ≤ B := min_le_left _ _
    generalize max A (if u > v then v else u) = T1 at hr k1
    generalize min B (if u > v then u else v) = T2 at hr k2
    simp only [Flt.lt_num, decide_eq_true_eq] at hr
    split_ifs at hr with c1 c2 c3 c4 <;> subst hr <;> simp only [Bool.false_eq_true] at h
    exact ⟨T1, T2, rfl, rfl, le_trans m0 k1, le_of_not_lt (fun hlt => c3 ⟨hdz, hlt⟩),
      le_trans k2 m1⟩
  · simp only [if_neg hdz, hdz, false_and, if_false] at hr
    simp only [Flt.lt_num, decide_eq_true_eq] at hr
    split_ifs at hr with c1 c2 c3 <;> subst hr <;> simp only [Bool.false_eq_true] at h
    exact ⟨A, B, rfl, rfl, m0, not_lt.mp c2, m1⟩

/-- The parameters that `rdIntersectSegmentCylinder` reports with `true` for a segment
that is not vertical are numbers with `0 ≤ tmin ≤ tmax ≤ 1`. -/
theorem rdIntersectSegmentCylinder_range (env : Env) (sp sq position : Vec3)
    (radius height : ℚ)
    (hnv : (sq.x - sp.x) * (sq.x - sp.x) + (sq.y - sp.y) * (sq.y - sp.y) ≠ 0)
    (h : (rdIntersectSegmentCylinder env sp sq position radius height).1 = true) :
    ∃ a b, (rdIntersectSegmentCylinder env sp sq position radius height).2.1 = .num a ∧
      (rdIntersectSegmentCylinder env sp sq position radius height).2.2 = .num b ∧
      0 ≤ a ∧ a ≤ b ∧ b ≤ 1 :=
  cylinder_range_aux env sp sq position radius height _ hnv rfl h

/-- C19: `rdIntersectSegmentCylinder` returns `true` for the vertical segment from
`(0, 0, 10)` to `(0, 0, 20)` and the cylinder of radius 1 and height 100 at the origin
with `tmin = -1` and `tmax = 9`, outside `[0, 1]`; for the segment of length zero at
`(0, 0, 10)` it returns `true` with NaN in both parameters. The quotient by
`2.0f*a` is `0 / 0` there. -/
theorem cylinder_vertical_segment_parameters :
    rdIntersectSegmentCylinder exampleEnv ⟨0, 0, 10⟩ ⟨0, 0, 20⟩ ⟨0, 0, 0⟩ 1 100 =
      (true, .num (-1), .num 9) ∧
    rdIntersectSegmentCylinder exampleEnv ⟨0, 0, 10⟩ ⟨0, 0, 10⟩ ⟨0, 0, 0⟩ 1 100 =
      (true, .nan, .nan) := by
  decide!

theorem cylinder_vertical_aux (env : Env) (sp sq position : Vec3) (radius height : ℚ)
    (r : Bool × Flt × Flt)
    (hsqrt : env.rdMathSqrtf 0 = 0) (hx : sq.x = sp.x) (hy : sq.y = sp.y)
    (hz : sq.z ≠ sp.z) (hh : 0 ≤ height)
    (hr : rdIntersectSegmentCylinder env sp sq position radius height = r) :
    r.1 = true := by
  have hdz : sq.z - sp.z ≠ 0 := sub_ne_zero.mpr hz
  have hu : (position.z - sp.z) / (sq.z - sp.z) * (sq.z - sp.z) = position.z - sp.z :=
    div_mul_cancel₀ _ hdz
  have hv : (position.z + height - sp.z) / (sq.z - sp.z) * (sq.z - sp.z) =
      position.z + height - sp.z := div_mul_cancel₀ _ hdz
  unfold rdIntersectSegmentCylinder at hr
  simp only [hx, hy, sub_self, mul_zero, add_zero, zero_mul, sub_zero, lt_self_iff_false,
    if_false, hsqrt, neg_zero, Flt.div, ne_eq, not_true_eq_false, gt_iff_lt, Flt.lt,
    Bool.false_eq_true, Flt.rdMax, Flt.rdMin] at hr
  generalize (position.z - sp.z) / (sq.z - sp.z) = u at hr hu
  generalize (position.z + height - sp.z) / (sq.z - sp.z) = v at hr hv
  generalize sq.z - sp.z = dz at hr hu hv hdz
  simp only [hdz, not_false_eq_true, if_true, true_and, Flt.mul, Flt.add, Flt.lt,
    decide_eq_true_eq, Bool.and_eq_true, Bool.or_eq_true] at hr
  split_ifs at hr <;> subst hr <;> first | rfl | (exfalso; rcases ‹_ ∨ _› with ⟨_, _⟩ | ⟨_, _⟩ <;> linarith) | (exfalso; linarith)

/-- C20: for every vertical segment with `sp.z ≠ sq.z` and every cylinder with
`height ≥ 0`, `rdIntersectSegmentCylinder` returns `true` (the two roots are `0 / 0`,
and no comparison with NaN rejects the segment), also when the segment lies outside
the radius of the cylinder, where no point of the segment satisfies
`rdPointInCylinder`. `rdMathSqrtf(0)` is 0. -/
theorem cylinder_vertical_segment_reported_hit (env : Env) (sp sq position : Vec3)
    (radius height : ℚ)
    (hsqrt : env.rdMathSqrtf 0 = 0) (hx : sq.x = sp.x) (hy : sq.y = sp.y)
    (hz : sq.z ≠ sp.z) (hh : 0 ≤ height)
    (hout : radius * radius <
      (sp.x - position.x) * (sp.x - position.x) + (sp.y - position.y) * (sp.y - position.y)) :
    (rdIntersectSegmentCylinder env sp sq position radius height).1 = true ∧
    ∀ t : ℚ, rdPointInCylinder (segmentPoint sp sq t) position radius height = false := by
  refine ⟨cylinder_vertical_aux env sp sq position radius height _ hsqrt hx hy hz hh rfl,
    fun t => ?_⟩
  unfold rdPointInCylinder segmentPoint
  simp only [hx, hy, sub_self, mul_zero, add_zero]
  rw [if_neg]
  intro hc
  exact absurd hc.1 (not_le.mpr hout)

theorem cylinder_vertical_segment_reported_hit_witness :
    (rdIntersectSegmentCylinder exampleEnv ⟨5, 0, 10⟩ ⟨5, 0, 20⟩ ⟨0, 0, 0⟩ 1 100).1 = true ∧
    ∀ t : ℚ, rdPointInCylinder (segmentPoint ⟨5, 0, 10⟩ ⟨5, 0, 20⟩ t) ⟨0, 0, 0⟩ 1 100 = false :=
  cylinder_vertical_segment_reported_hit exampleEnv ⟨5, 0, 10⟩ ⟨5, 0, 20⟩ ⟨0, 0, 0⟩ 1 100
    (by decide!) rfl rfl (by decide!) (by decide!) (by decide!)

theorem quadratic_between_roots (a b c s T : ℚ) (ha : 0 < a)
    (hs : s * s = b * b - 4 * a * c)
    (h0 : min ((-b - s) / (2 * a)) ((-b + s) / (2 * a)) ≤ T)
    (h1 : T ≤ max ((-b - s) / (2 * a)) ((-b + s) / (2 * a))) :
    a * T * T + b * T + c ≤ 0 := by
  have h2a : 0 < 2 * a := by linarith
  have key : 4 * a * (a * T * T + b * T + c) =
      (2 * a * T + b - s) * (2 * a * T + b + s) := by
    linear_combination hs
  have hx : ∀ n : ℚ, (n / (2 * a) ≤ T ↔ n ≤ T * (2 * a)) := fun n => div_le_iff₀ h2a
  have hy : ∀ n : ℚ, (T ≤ n / (2 * a) ↔ T * (2 * a) ≤ n) := fun n => le_div_iff₀ h2a
  have hprod : (2 * a * T + b - s) * (2 * a * T + b + s) ≤ 0 := by
    rcases min_le_iff.mp h0 with p | p <;> rcases le_max_iff.mp h1 with q | q <;>
      rw [hx] at p <;> rw [hy] at q
    · have e : 2 * a * T + b + s = 0 := by linarith
      rw [e, mul_zero]
    · exact mul_nonpos_of_nonpos_of_nonneg (by linarith) (by linarith)
    · exact mul_nonpos_of_nonneg_of_nonpos (by linarith) (by linarith)
    · have e : 2 * a * T + b - s = 0 := by linarith
      rw [e, zero_mul]
  by_contra hc
  have : 0 < 4 * a * (a * T * T + b * T + c) := mul_pos (by linarith) (not_le.mp hc)
  linarith

theorem cap_between (u v dz T cz height spz : ℚ) (hdz : dz ≠ 0) (hh : 0 ≤ height)
    (hu : u * dz = cz - spz) (hv : v * dz = cz + height - spz)
    (h0 : (if u > v then v else u) ≤ T) (h1 : T ≤ (if u > v then u else v)) :
    spz + T * dz ≥ cz ∧ spz + T * dz ≤ cz + height := by
  rcases lt_or_gt_of_ne hdz with hneg | hpos
  · have huv : v ≤ u := by
      by_contra hc
      have : (v - u) * dz < 0 := mul_neg_of_pos_of_neg (by linarith) hneg
      nlinarith
    split_ifs at h0 h1 with c
    · constructor
      · have : T * dz ≥ u * dz := by nlinarith
        linarith
      · have : T * dz ≤ v * dz := by nlinarith
        linarith
    · have e2 : T = u := le_antisymm (by linarith) h0
      rw [e2]
      constructor <;> linarith
  · have huv : u ≤ v := by
      by_contra hc
      have : (v - u) * dz < 0 := mul_neg_of_neg_of_pos (by linarith) hpos
      nlinarith
    split_ifs at h0 h1 with c
    · exact absurd c (not_lt.mpr huv)
    · constructor
      · have : T * dz ≥ u * dz := by nlinarith
        linarith
      · have : T * dz ≤ v * dz := by nlinarith
        linarith

theorem cylinder_sound_aux (env : Env) (sp sq position : Vec3)
    (radius height : ℚ) (r : Bool × Flt × Flt)
    (hnv : (sq.x - sp.x) * (sq.x - sp.x) + (sq.y - sp.y) * (sq.y - sp.y) ≠ 0)
    (hh : 0 ≤ height)
    (hsqrt : env.rdMathSqrtf (cylinderDisc sp sq position radius) *
      env.rdMathSqrtf (cylinderDisc sp sq position radius) = cylinderDisc sp sq position radius)
    (hr : rdIntersectSegmentCylinder env sp sq position radius height = r)
    (h : r.1 = true) :
    ∃ t : ℚ, 0 ≤ t ∧ t ≤ 1 ∧
      rdPointInCylinder (segmentPoint sp sq t) position radius height = true := by
  have ha : 0 < (sq.x - sp.x) * (sq.x - sp.x) + (sq.y - sp.y) * (sq.y - sp.y) :=
    lt_of_le_of_ne (add_nonneg (mul_self_nonneg _) (mul_self_nonneg _)) (Ne.symm hnv)
  have h2a : 2 * ((sq.x - sp.x) * (sq.x - sp.x) + (sq.y - sp.y) * (sq.y - sp.y)) ≠ 0 :=
    mul_ne_zero (by norm_num) hnv
  have hin : ∀ T : ℚ, 0 ≤ T → T ≤ 1 →
      ((sq.x - sp.x) * (sq.x - sp.x) + (sq.y - sp.y) * (sq.y - sp.y)) * T * T +
        2 * ((sp.x - position.x) * (sq.x - sp.x) + (sp.y - position.y) * (sq.y - sp.y)) * T +
        ((sp.x - position.x) * (sp.x - position.x) + (sp.y - position.y) * (sp.y - position.y) -
          radius * radius) ≤ 0 →
      sp.z + T * (sq.z - sp.z) ≥ position.z →
      sp.z + T * (sq.z - sp.z) ≤ position.z + height →
      ∃ t : ℚ, 0 ≤ t ∧ t ≤ 1 ∧
        rdPointInCylinder (segmentPoint sp sq t) position radius height = true := by
    intro T hT0 hT1 hq hz0 hz1
    refine ⟨T, hT0, hT1, ?_⟩
    unfold rdPointInCylinder segmentPoint
    simp only
    rw [if_pos]
    refine ⟨?_, hz0, hz1⟩
    linarith
  unfold cylinderDisc at hsqrt
  unfold rdIntersectSegmentCylinder at hr
  simp only [Flt.div, if_pos h2a] at hr
  generalize env.rdMathSqrtf _ = S at hr hsqrt
  have hroots := quadratic_between_roots
    ((sq.x - sp.x) * (sq.x - sp.x) + (sq.y - sp.y) * (sq.y - sp.y))
    (2 * ((sp.x - position.x) * (sq.x - sp.x) + (sp.y - position.y) * (sq.y - sp.y)))
    ((sp.x - position.x) * (sp.x - position.x) + (sp.y - position.y) * (sp.y - position.y) -
      radius * radius) S
  generalize (-(2 * ((sp.x - position.x) * (sq.x - sp.x) +
    (sp.y - position.y) * (sq.y - sp.y))) - S) / _ = t0 at hr hroots
  generalize (-(2 * ((sp.x - position.x) * (sq.x - sp.x) +
    (sp.y - position.y) * (sq.y - sp.y))) + S) / _ = t1 at hr hroots
  have hcap := fun (hdz : sq.z - sp.z ≠ 0) (T : ℚ) =>
    cap_between ((position.z - sp.z) / (sq.z - sp.z))
      ((position.z + height - sp.z) / (sq.z - sp.z)) (sq.z - sp.z) T position.z height sp.z
      hdz hh (div_mul_cancel₀ _ hdz) (div_mul_cancel₀ _ hdz)
  generalize (position.z - sp.z) / (sq.z - sp.z) = u at hr hcap
  generalize (position.z + height - sp.z) / (sq.z - sp.z) = v at hr hcap
  generalize sq.z - sp.z = dz at hr hcap hin
  simp only [Flt.swap_lo, Flt.swap_hi, Flt.rdMax_num, Flt.rdMin_num] at hr
  have m0 : (0 : ℚ) ≤ max 0 (min t0 t1) := le_max_left _ _
  have m1 : min 1 (max t0 t1) ≤ (1 : ℚ) := min_le_left _ _
  have n0 : min t0 t1 ≤ max 0 (min t0 t1) := le_max_right _ _
  have n1 : min 1 (max t0 t1) ≤ max t0 t1 := min_le_right _ _
  generalize max 0 (min t0 t1) = A at hr m0 n0
  generalize min 1 (max t0 t1) = B at hr m1 n1
  by_cases hdz : dz ≠ 0
  · simp only [if_pos hdz, Flt.rdMax_num, Flt.rdMin_num] at hr
    have k1 : A ≤ max A (if u > v then v else u) := le_max_left _ _
    have k2 : min B (if u > v then u else v) ≤ B := min_le_left _ _
    have k3 : (if u > v then v else u) ≤ max A (if u > v then v else u) := le_max_right _ _
    have k4 : min B (if u > v then u else v) ≤ (if u > v then u else v) := min_le_right _ _
    generalize max A (if u > v then v else u) = T1 at hr k1 k3
    generalize min B (if u > v then u else v) = T2 at hr k2 k4
    simp only [Flt.lt_num, decide_eq_true_eq] at hr
    split_ifs at hr with c1 c2 c3 c4 <;> subst hr <;> simp only [Bool.false_eq_true] at h
    have h12 : T1 ≤ T2 := le_of_not_lt (fun hlt => c3 ⟨hdz, hlt⟩)
    have hz := hcap hdz T1 k3 (by linarith)
    exact hin T1 (by linarith) (by linarith)
      (hroots T1 ha (by linarith) (by linarith) (by linarith)) hz.1 hz.2
  · simp only [if_neg hdz, hdz, false_and, if_false] at hr
    simp only [Flt.lt_num, decide_eq_true_eq, Flt.mul, Flt.add, Bool.and_eq_true,
      Bool.or_eq_true] at hr
    split_ifs at hr with c1 c2 c3 <;> subst hr <;> simp only [Bool.false_eq_true] at h
    have hAB : A ≤ B := not_lt.mp c2
    have hd0 : dz = 0 := not_not.mp hdz
    simp only [hd0, mul_zero, add_zero] at c3
    have hz0 : sp.z ≥ position.z := by
      by_contra hc
      exact c3 (Or.inl ⟨not_le.mp hc, not_le.mp hc⟩)
    have hz1 : sp.z ≤ position.z + height := by
      by_contra hc
      exact c3 (Or.inr ⟨not_le.mp hc, not_le.mp hc⟩)
    refine hin A m0 (by linarith) (hroots A ha (by linarith) (by linarith) (by linarith)) ?_ ?_
    · rw [hd0, mul_zero, add_zero]; exact hz0
    · rw [hd0, mul_zero, add_zero]; exact hz1

/-- For a segment that is not vertical, a cylinder of height `≥ 0` and an exact
`rdMathSqrtf` of the discriminant, `rdIntersectSegmentCylinder` returns `true` only
when a point of the segment satisfies `rdPointInCylinder`. -/
theorem rdIntersectSegmentCylinder_sound (env : Env) (sp sq position : Vec3)
    (radius height : ℚ)
    (hnv : (sq.x - sp.x) * (sq.x - sp.x) + (sq.y - sp.y) * (sq.y - sp.y) ≠ 0)
    (hh : 0 ≤ height)
    (hsqrt : env.rdMathSqrtf (cylinderDisc sp sq position radius) *
      env.rdMathSqrtf (cylinderDisc sp sq position radius) = cylinderDisc sp sq position radius)
    (h : (rdIntersectSegmentCylinder env sp sq position radius height).1 = true) :
    ∃ t : ℚ, 0 ≤ t ∧ t ≤ 1 ∧
      rdPointInCylinder (segmentPoint sp sq t) position radius height = true :=
  cylinder_sound_aux env sp sq position radius height _ hnv hh hsqrt rfl h

/-! ### The tests behind every installed pair -/

theorem setTile_neis (ed : Editor) (t : Nat) (tile : dtMeshTile)
    (h : ∀ p, (tile.polys p).neis = ((ed.tile t).polys p).neis) (u p : Nat) :
    (((ed.setTile t tile).tile u).polys p).neis = ((ed.tile u).polys p).neis := by
  rw [tile_setTile]
  split_ifs with e
  · subst e; exact h p
  · rfl

theorem allocLink_polys (t : dtMeshTile) : t.allocLink.2.polys = t.polys := by
  unfold dtMeshTile.allocLink
  split_ifs <;> rfl

theorem update_firstLink_neis (polys : Nat → dtPoly) (i f p : Nat) :
    ((Function.update polys i { polys i with firstLink := f }) p).neis = (polys p).neis := by
  rw [Function.update_apply]
  split_ifs with e
  · subst e; rfl
  · rfl

/-- Installing a pair leaves the `neis` array of every polygon of every tile as it is. -/
theorem install_neis (b i j lt m n baseSide : Nat) (c : Candidate) (s : ConnectState)
    (t p : Nat) :
    (((installLinkPair b i j lt m n baseSide c s).editor.tile t).polys p).neis =
      ((s.editor.tile t).polys p).neis := by
  unfold installLinkPair
  simp only
  refine (setTile_neis _ _ _ ?_ t p).trans ((setTile_neis _ _ _ ?_ t p).trans
    ((setTile_neis _ _ _ ?_ t p).trans (setTile_neis _ _ _ ?_ t p)))
  · intro q; exact update_firstLink_neis _ _ _ q
  · intro q; exact update_firstLink_neis _ _ _ q
  · intro q; rw [allocLink_polys]
  · intro q; rw [allocLink_polys]

theorem baseEdgeStep_inv_hard (env : Env) (ltn : Bool) (b i j : Nat)
    (J : ConnectState → Prop) (K : Nat → ConnectState → Prop)
    (hKJ : ∀ lt s, K lt s → J s)
    (hJK : ∀ lt s, J s → (ltn = true → lt ≠ b) → (ltn = false → lt = b) →
      (s.editor.tile lt).linkCountAvailable 1 = true →
      K lt { s with firstLandTileLinkUsed := false })
    (hinst : ∀ lt m n baseSide c s, K lt s →
      (ltn = true → lt ≠ b) → (ltn = false → lt = b) →
      linkBudget ltn (s.editor.tile b) (s.editor.tile lt) s.firstBaseTileLinkUsed
        s.firstLandTileLinkUsed = Budget.go →
      ((s.editor.tile b).polys i).neis j = 0 →
      ((s.editor.tile lt).polys m).neis n = 0 →
      qualify env s.editor ltn b i j lt m n = some c →
      K lt (installLinkPair b i j lt m n baseSide c s))
    (s : ConnectState) (hs : J s) :
    J (baseEdgeStep env ltn b i j s).state := by
  unfold baseEdgeStep
  by_cases hn : ((s.editor.tile b).polys i).neis j ≠ 0
  · rw [if_pos hn]; exact hs
  · rw [if_neg hn]
    simp only
    have hfin := forLoop_state_inv
      (fun s2 => J s2 ∧ ((s2.editor.tile b).polys i).neis j = 0)
      (landTileStep env ltn b i j (baseSideOf env s.editor b i j)
        (if ltn = true then
          (env.getNeighbourTilesAt (s.editor.tile b).hdr.x (s.editor.tile b).hdr.y
            (baseSideOf env s.editor b i j)).take MAX_NEIS
        else [b]))
      (List.range (if ltn = true then
          (env.getNeighbourTilesAt (s.editor.tile b).hdr.x (s.editor.tile b).hdr.y
            (baseSideOf env s.editor b i j)).take MAX_NEIS
        else [b]).length)
      (fun k hk s2 hs2 => ?_) s ⟨hs, not_not.mp hn⟩
    · exact hfin.1
    · refine landTileStep_inv env ltn b i j _ _ k
        (fun s2 => J s2 ∧ ((s2.editor.tile b).polys i).neis j = 0)
        (fun lt s2 => K lt s2 ∧ ((s2.editor.tile b).polys i).neis j = 0)
        (fun lt s3 h => ⟨hKJ lt s3 h.1, h.2⟩)
        (fun lt s3 h h1 h2 h3 => ⟨hJK lt s3 h.1 h1 h2 h3, h.2⟩)
        (fun lt m n c s3 h h1 h2 hb hl hq =>
          ⟨hinst lt m n _ c s3 h.1 h1 h2 hb h.2 hl hq, by rw [install_neis]; exact h.2⟩)
        ?_ s2 hs2
      intro hl
      rw [hl] at hk ⊢
      simp only [Bool.false_eq_true, if_false, List.length_singleton, List.mem_range] at hk ⊢
      have hk0 : k = 0 := by omega
      rw [hk0]
      rfl

/-- Invariant principle for `connectTileTraverseLinks` that also hands the hardness of
the base edge to every installation. -/
theorem connect_loops_inv_hard (env : Env) (ltn : Bool) (b : Nat)
    (J : ConnectState → Prop) (K : Nat → ConnectState → Prop)
    (hKJ : ∀ lt s, K lt s → J s)
    (hJK : ∀ lt s, J s → (ltn = true → lt ≠ b) → (ltn = false → lt = b) →
      (s.editor.tile lt).linkCountAvailable 1 = true →
      K lt { s with firstLandTileLinkUsed := false })
    (hinst : ∀ lt i j m n baseSide c s, K lt s →
      (ltn = true → lt ≠ b) → (ltn = false → lt = b) →
      linkBudget ltn (s.editor.tile b) (s.editor.tile lt) s.firstBaseTileLinkUsed
        s.firstLandTileLinkUsed = Budget.go →
      ((s.editor.tile b).polys i).neis j = 0 →
      ((s.editor.tile lt).polys m).neis n = 0 →
      qualify env s.editor ltn b i j lt m n = some c →
      K lt (installLinkPair b i j lt m n baseSide c s))
    (ks : List Nat) (s : ConnectState) (hs : J s) :
    J (forLoop (basePolyStep env ltn b) ks s).state := by
  refine forLoop_state_inv J _ _ (fun i _ s2 hs2 => ?_) s hs
  unfold basePolyStep
  by_cases hg : ((s2.editor.tile b).polys i).groupId = DT_UNLINKED_POLY_GROUP
  · rw [if_pos hg]; exact hs2
  · rw [if_neg hg]
    exact forLoop_state_inv J _ _
      (fun j _ s3 hs3 => baseEdgeStep_inv_hard env ltn b i j J K hKJ hJK
        (fun lt m n baseSide c s4 => hinst lt i j m n baseSide c s4) s3 hs3)
      s2 hs2

theorem ite_none_eq_some {α : Type} {c : Prop} [Decidable c] {x : Option α} {y : α}
    (h : (if c then none else x) = some y) : ¬ c ∧ x = some y := by
  by_cases hc : c
  · rw [if_pos hc] at h; cases h
  · rw [if_neg hc] at h; exact ⟨hc, h⟩

theorem qualify_tests (env : Env) (ed : Editor) (ltn : Bool) (b i j lt m n : Nat)
    (c : Candidate) (hb : ((ed.tile b).polys i).neis j = 0)
    (hl : ((ed.tile lt).polys m).neis n = 0)
    (h : qualify env ed ltn b i j lt m n = some c) :
    CandidateTests env ed b i j lt m n c := by
  unfold qualify at h
  unfold CandidateTests
  simp only at h ⊢
  obtain ⟨h1, h⟩ := ite_none_eq_some h
  obtain ⟨h2, h⟩ := ite_none_eq_some h
  obtain ⟨h3, h⟩ := ite_none_eq_some h
  obtain ⟨-, h⟩ := ite_none_eq_some h
  obtain ⟨-, h⟩ := ite_none_eq_some h
  obtain ⟨h6, h⟩ := ite_none_eq_some h
  cases h
  refine ⟨hb, hl, h1, rfl, not_lt.mp h2, rfl, h3, ?_⟩
  simpa using h6

theorem best_type_matches (e : ℚ) (d : Nat) (g : Bool)
    (h : GetBestTraverseType e d g ≠ INVALID_TRAVERSE_TYPE) :
    GetBestTraverseType e d g < NUM_TRAVERSE_TYPES ∧
    slotMatches (GetBestTraverseType e d g) e d g := by
  unfold GetBestTraverseType at h ⊢
  rcases scan_spec e d g NUM_TRAVERSE_TYPES with ⟨h0, _⟩ | ⟨hlt, hok, _⟩
  · exact absurd h0 h
  · exact ⟨hlt, hok⟩

theorem passed_of_tests (env : Env) (e : InstalledPair)
    (h : CandidateTests env e.before e.baseTile e.basePoly e.baseEdge e.landTile e.landPoly
      e.landEdge e.cand) : e.PassedAllTests env := by
  refine ⟨h, ?_⟩
  unfold CandidateTests at h
  simp only at h
  obtain ⟨-, -, -, hq, -, ht, hinv, -⟩ := h
  rw [ht] at hinv
  have hm := best_type_matches _ _ _ hinv
  rw [ht, hq]
  exact hm

/-- C11: every pair of links that `connectTileTraverseLinks` installs for base tile
`b` comes from a base edge and a land edge that are both hard, whose quantised
mid-point distance is not zero, whose direction vectors have a dot product that is
not positive, whose traverse type is the value of `GetBestTraverseType` for the
elevation difference, the quantised distance and the poly-group flag and is not
`INVALID_TRAVERSE_TYPE` (so it is a catalogue slot below 32 all of whose constraints
are met), and for which `traverseLinkInLOS` returned true. -/
theorem installed_pairs_passed_all_tests (env : Env) (ed : Editor) (b : Nat) (ltn : Bool) :
    ∀ e, e ∈ (connectTileTraverseLinks env ed b ltn).installed →
      e.baseTile = b ∧ e.PassedAllTests env := by
  unfold connectTileTraverseLinks
  simp only
  by_cases h0 : (!(ed.tile b).linkCountAvailable (if ltn = true then 1 else 2)) = true
  · rw [if_pos h0]
    intro e he
    simp at he
  · rw [if_neg h0]
    exact connect_loops_inv_hard env ltn b
      (fun s => ∀ e, e ∈ s.installed → e.baseTile = b ∧ e.PassedAllTests env)
      (fun _ s => ∀ e, e ∈ s.installed → e.baseTile = b ∧ e.PassedAllTests env)
      (fun _ _ h => h)
      (fun _ _ h _ _ _ => h)
      (fun lt i j m n baseSide c s hK _ _ _ hb hl hq e he => by
        rw [installed_installLinkPair, List.mem_append, List.mem_singleton] at he
        rcases he with he | he
        · exact hK e he
        · rw [he]
          exact ⟨rfl, passed_of_tests env _ (qualify_tests env s.editor ltn b i j lt m n c hb hl hq)⟩)
      (List.range (ed.tile b).hdr.polyCount)
      { editor := ed, firstBaseTileLinkUsed := false, firstLandTileLinkUsed := false,
        installed := [] }
      (fun e he => by simp at he)

/-- Witness of C11: the pair installed first on the example tile. -/
theorem installed_pairs_passed_all_tests_witness :
    ∃ e, e ∈ (connectTileTraverseLinks exampleEnv (gapEditor 0 8) 0 false).installed ∧
      e.basePoly = 1 ∧ e.baseTile = 0 ∧ e.PassedAllTests exampleEnv := by
  obtain ⟨e, he, -, -, h3, -, -⟩ := gap_first_installed
  exact ⟨e, he, h3,
    installed_pairs_passed_all_tests exampleEnv (gapEditor 0 8) 0 false e he⟩

/-! ### The order of the traverse-link passes, and the pair map when a tile is removed -/

theorem traversePass_pair_map (env : Env) (ltn : Bool) :
    ∀ (is : List Nat) (r : Editor × List InstalledPair),
      (traversePass env ltn is r).1.m_traverseLinkPolyMap = r.1.m_traverseLinkPolyMap := by
  intro is
  induction is with
  | nil => intro r; rfl
  | cons i is ih =>
    intro r
    obtain ⟨ed, tr⟩ := r
    simp only [traversePass]
    split_ifs
    · exact ih _
    · rw [ih]
      exact connect_keeps_pair_map env ed i ltn

/-- After `createTraverseLinks` the traverse-link pair map is empty. -/
theorem createTraverseLinks_pair_map (env : Env) (ed : Editor) :
    (createTraverseLinks env ed).1.m_traverseLinkPolyMap = [] := by
  unfold createTraverseLinks
  simp only
  rw [traversePass_pair_map, traversePass_pair_map]

theorem connect_installed_tiles (env : Env) (ed : Editor) (b : Nat) (ltn : Bool) :
    ∀ e, e ∈ (connectTileTraverseLinks env ed b ltn).installed →
      (ltn = true → e.landTile ≠ e.baseTile) ∧ (ltn = false → e.landTile = e.baseTile) := by
  unfold connectTileTraverseLinks
  simp only
  by_cases h0 : (!(ed.tile b).linkCountAvailable (if ltn = true then 1 else 2)) = true
  · rw [if_pos h0]
    intro e he
    simp at he
  · rw [if_neg h0]
    exact connect_loops_inv env ltn b
      (fun s => ∀ e, e ∈ s.installed →
        (ltn = true → e.landTile ≠ e.baseTile) ∧ (ltn = false → e.landTile = e.baseTile))
      (fun _ s => ∀ e, e ∈ s.installed →
        (ltn = true → e.landTile ≠ e.baseTile) ∧ (ltn = false → e.landTile = e.baseTile))
      (fun _ _ h => h)
      (fun _ _ h _ _ _ => h)
      (fun lt i j m n baseSide c s hK h1 h2 _ _ _ e he => by
        rw [installed_installLinkPair, List.mem_append, List.mem_singleton] at he
        rcases he with he | he
        · exact hK e he
        · rw [he]
          exact ⟨h1, h2⟩)
      (List.range (ed.tile b).hdr.polyCount)
      { editor := ed, firstBaseTileLinkUsed := false, firstLandTileLinkUsed := false,
        installed := [] }
      (fun e he => by simp at he)

theorem traversePass_trace (env : Env) (ltn : Bool) :
    ∀ (is : List Nat) (r : Editor × List InstalledPair),
      ∃ tr : List InstalledPair, (traversePass env ltn is r).2 = r.2 ++ tr ∧
        ∀ e, e ∈ tr →
          (ltn = true → e.landTile ≠ e.baseTile) ∧ (ltn = false → e.landTile = e.baseTile) := by
  intro is
  induction is with
  | nil => intro r; exact ⟨[], by simp [traversePass], fun e he => by simp at he⟩
  | cons i is ih =>
    intro r
    obtain ⟨ed, tr⟩ := r
    simp only [traversePass]
    split_ifs
    · exact ih _
    · obtain ⟨tr2, h1, h2⟩ := ih ((connectTileTraverseLinks env ed i ltn).editor,
        tr ++ (connectTileTraverseLinks env ed i ltn).installed)
      refine ⟨(connectTileTraverseLinks env ed i ltn).installed ++ tr2, ?_, fun e he => ?_⟩
      · rw [h1, List.append_assoc]
      · rcases List.mem_append.mp he with he | he
        · exact connect_installed_tiles env ed i ltn e he
        · exact h2 e he

theorem updateStaticPathingData_pair_map (denv : DetourEnv) (ed : Editor) :
    (Editor.updateStaticPathingData denv ed).2.m_traverseLinkPolyMap =
      ed.m_traverseLinkPolyMap := by
  unfold Editor.updateStaticPathingData
  simp only
  split_ifs <;> rfl

/-- The pair map after `buildStaticPathingData`: empty when `dtCreateDisjointPolyGroups`
succeeds, because `createTraverseLinks` then clears it, and untouched otherwise. -/
theorem buildStaticPathingData_pair_map (env : Env) (denv : DetourEnv) (ed : Editor) :
    (Editor.buildStaticPathingData env denv ed).m_traverseLinkPolyMap =
      if (denv.dtCreateDisjointPolyGroups ed.m_navMesh).1 = true then []
      else ed.m_traverseLinkPolyMap := by
  unfold Editor.buildStaticPathingData
  rw [updateStaticPathingData_pair_map]
  unfold Editor.createStaticPathingData
  simp only
  cases h : (denv.dtCreateDisjointPolyGroups ed.m_navMesh).1
  · simp
  · simp [createTraverseLinks_pair_map]

theorem ite_snd_cases {α β : Type} (c : Prop) [Decidable c] (A B : α × β) (x y : β)
    (hA : A.2 = x) (hB : B.2 = y) :
    (if c then A else B).2 = x ∨ (if c then A else B).2 = y := by
  by_cases h : c
  · rw [if_pos h]; exact Or.inl hA
  · rw [if_neg h]; exact Or.inr hB

/-- C15: in `createTraverseLinks` every pair of the cross-tile pass (land tile different
from the base tile) is installed before every pair of the same-tile pass; in
`Editor_TileMesh::buildTile` the two calls of `dtNavMesh::connectTraverseLinks`, when they
are made, come in the other order: `linkToNeighbor = false` first, then
`linkToNeighbor = true`, as on the example tile editor. -/
theorem traverse_pass_order (env : Env) (denv : DetourEnv) (ed : Editor)
    (e : Editor_TileMesh) (pos : Vec3) :
    (∃ tr1 tr2 : List InstalledPair, (createTraverseLinks env ed).2 = tr1 ++ tr2 ∧
      (∀ p, p ∈ tr1 → p.landTile ≠ p.baseTile) ∧ (∀ p, p ∈ tr2 → p.landTile = p.baseTile)) ∧
    ((e.buildTile env denv pos).2 = [] ∨ (e.buildTile env denv pos).2 = [false, true]) ∧
    (exampleTileMesh.buildTile exampleEnv exampleDetourEnv ⟨15, 5, 0⟩).2 = [false, true] := by
  refine ⟨?_, ?_, by decide!⟩
  · unfold createTraverseLinks
    simp only
    obtain ⟨tr1, h1, h2⟩ := traversePass_trace env true
      (List.range ed.m_navMesh.getMaxTiles) ({ ed with m_traverseLinkPolyMap := [] }, [])
    obtain ⟨tr2, h3, h4⟩ := traversePass_trace env false
      (List.range ed.m_navMesh.getMaxTiles)
      (traversePass env true (List.range ed.m_navMesh.getMaxTiles)
        ({ ed with m_traverseLinkPolyMap := [] }, []))
    refine ⟨tr1, tr2, ?_, fun p hp => (h2 p hp).1 rfl, fun p hp => (h4 p hp).2 rfl⟩
    rw [h3, h1]
    rfl
  · unfold Editor_TileMesh.buildTile
    simp only
    by_cases hg : e.m_geom.isNone = true
    · rw [if_pos hg]
      exact Or.inl rfl
    · rw [if_neg hg]
      cases denv.buildTileMesh _ _ _ _ with
      | none => exact Or.inl rfl
      | some bt => exact ite_snd_cases _ _ _ [] [false, true] rfl rfl

/-- The pair map after `Editor_TileMesh::removeTile` has removed a tile, for every
editor: no entry has a polygon that decodes to the index of the removed tile, and
every entry was in the map before with the same bitset. The map is what the pruning
loop leaves (all entries whose two polygons lie on other tiles, unchanged) only when
`dtCreateDisjointPolyGroups` fails in `buildStaticPathingData`; when that call succeeds
the map is empty, because `createTraverseLinks` clears it and `connectTileTraverseLinks`
never writes to it. -/
theorem removeTile_pair_map (env : Env) (denv : DetourEnv) (e : Editor_TileMesh)
    (pos : Vec3) (hgeom : e.m_geom.isSome = true)
    (hok : (denv.removeTile e.m_navMesh (e.tileRefAtPos denv pos)).1 = true) :
    (∀ it, it ∈ (e.removeTile env denv pos).m_traverseLinkPolyMap →
      it ∈ e.m_traverseLinkPolyMap ∧
      (denv.removeTile e.m_navMesh (e.tileRefAtPos denv pos)).2.decodePolyIdTile it.1.poly1 ≠
        (denv.removeTile e.m_navMesh (e.tileRefAtPos denv pos)).2.decodePolyIdTile
          (e.tileRefAtPos denv pos) ∧
      (denv.removeTile e.m_navMesh (e.tileRefAtPos denv pos)).2.decodePolyIdTile it.1.poly2 ≠
        (denv.removeTile e.m_navMesh (e.tileRefAtPos denv pos)).2.decodePolyIdTile
          (e.tileRefAtPos denv pos)) ∧
    (e.removeTile env denv pos).m_traverseLinkPolyMap =
      if (denv.dtCreateDisjointPolyGroups
          (denv.removeTile e.m_navMesh (e.tileRefAtPos denv pos)).2).1 = true then []
      else prunePairMap (denv.removeTile e.m_navMesh (e.tileRefAtPos denv pos)).2
        ((denv.removeTile e.m_navMesh (e.tileRefAtPos denv pos)).2.decodePolyIdTile
          (e.tileRefAtPos denv pos)) e.m_traverseLinkPolyMap := by
  have hmap : (e.removeTile env denv pos).m_traverseLinkPolyMap =
      if (denv.dtCreateDisjointPolyGroups
          (denv.removeTile e.m_navMesh (e.tileRefAtPos denv pos)).2).1 = true then []
      else prunePairMap (denv.removeTile e.m_navMesh (e.tileRefAtPos denv pos)).2
        ((denv.removeTile e.m_navMesh (e.tileRefAtPos denv pos)).2.decodePolyIdTile
          (e.tileRefAtPos denv pos)) e.m_traverseLinkPolyMap := by
    unfold Editor_TileMesh.removeTile
    unfold Editor_TileMesh.tileRefAtPos at hok ⊢
    have hg : e.m_geom.isNone = false := by
      cases hm : e.m_geom with
      | none => rw [hm] at hgeom; cases hgeom
      | some g => rfl
    simp only [hg, Bool.false_eq_true, if_false, hok, if_true]
    rw [buildStaticPathingData_pair_map]
  refine ⟨fun it hit => ?_, hmap⟩
  rw [hmap] at hit
  split_ifs at hit
  · simp at hit
  · unfold prunePairMap at hit
    rw [List.mem_filter] at hit
    obtain ⟨hmem, hcond⟩ := hit
    simp only [Bool.not_eq_true', Bool.or_eq_false_iff, beq_eq_false_iff_ne, ne_eq] at hcond
    exact ⟨hmem, hcond.1, hcond.2⟩

/-- The pair map after removing tile 0 of the example tile editor. -/
theorem removeTile_pair_map_witness :
    (∀ it, it ∈ (exampleTileMesh.removeTile exampleEnv exampleDetourEnv
        ⟨15, 5, 0⟩).m_traverseLinkPolyMap →
      it ∈ exampleTileMesh.m_traverseLinkPolyMap ∧
      (exampleDetourEnv.removeTile exampleTileMesh.m_navMesh
          (exampleTileMesh.tileRefAtPos exampleDetourEnv ⟨15, 5, 0⟩)).2.decodePolyIdTile
            it.1.poly1 ≠
        (exampleDetourEnv.removeTile exampleTileMesh.m_navMesh
          (exampleTileMesh.tileRefAtPos exampleDetourEnv ⟨15, 5, 0⟩)).2.decodePolyIdTile
            (exampleTileMesh.tileRefAtPos exampleDetourEnv ⟨15, 5, 0⟩) ∧
      (exampleDetourEnv.removeTile exampleTileMesh.m_navMesh
          (exampleTileMesh.tileRefAtPos exampleDetourEnv ⟨15, 5, 0⟩)).2.decodePolyIdTile
            it.1.poly2 ≠
        (exampleDetourEnv.removeTile exampleTileMesh.m_navMesh
          (exampleTileMesh.tileRefAtPos exampleDetourEnv ⟨15, 5, 0⟩)).2.decodePolyIdTile
            (exampleTileMesh.tileRefAtPos exampleDetourEnv ⟨15, 5, 0⟩)) ∧
    (exampleTileMesh.removeTile exampleEnv exampleDetourEnv ⟨15, 5, 0⟩).m_traverseLinkPolyMap =
      if (exampleDetourEnv.dtCreateDisjointPolyGroups
          (exampleDetourEnv.removeTile exampleTileMesh.m_navMesh
            (exampleTileMesh.tileRefAtPos exampleDetourEnv ⟨15, 5, 0⟩)).2).1 = true then []
      else prunePairMap
        (exampleDetourEnv.removeTile exampleTileMesh.m_navMesh
          (exampleTileMesh.tileRefAtPos exampleDetourEnv ⟨15, 5, 0⟩)).2
        ((exampleDetourEnv.removeTile exampleTileMesh.m_navMesh
          (exampleTileMesh.tileRefAtPos exampleDetourEnv ⟨15, 5, 0⟩)).2.decodePolyIdTile
            (exampleTileMesh.tileRefAtPos exampleDetourEnv ⟨15, 5, 0⟩))
        exampleTileMesh.m_traverseLinkPolyMap :=
  removeTile_pair_map exampleEnv exampleDetourEnv exampleTileMesh ⟨15, 5, 0⟩ rfl (by decide!)

/-! ### The navmesh set file -/

theorem rd32_le32 (w : Nat) (rest : List Nat) (h : w < 2 ^ 32) : rd32 (le32 w ++ rest) = w := by
  simp only [le32, rd32, List.cons_append, List.nil_append, List.getD_cons_zero,
    List.getD_cons_succ]
  omega

theorem int32_word32 (n : Int) (h1 : -2 ^ 31 ≤ n) (h2 : n < 2 ^ 31) : int32 (word32 n) = n := by
  unfold int32 word32
  split_ifs with h <;> omega

theorem word32_lt (n : Int) : word32 n < 2 ^ 32 := by
  unfold word32
  omega

theorem drop_le32 (w : Nat) (rest : List Nat) : (le32 w ++ rest).drop 4 = rest := rfl

theorem length_le32 (w : Nat) : (le32 w).length = 4 := rfl

theorem fread1_append (size : Nat) (a rest : List Nat) (h0 : size ≠ 0)
    (hlen : a.length = size) : fread1 size (a ++ rest) = some (a, rest) := by
  unfold fread1
  rw [if_neg h0, if_neg (by rw [List.length_append]; omega)]
  rw [← hlen, List.take_left, List.drop_left]

theorem params_roundtrip (p : dtNavMeshParams) (rest : List Nat) (h : p.InRange) :
    dtNavMeshParams.ofBytes (p.bytes ++ rest) = p := by
  obtain ⟨h1, h2, h3, h4, h5, h6, h7, h8, h9, h10, h11⟩ := h
  unfold dtNavMeshParams.ofBytes dtNavMeshParams.bytes
  simp only [List.append_assoc, List.drop_succ_cons, drop_le32,
    show (8 : Nat) = 4 + 4 from rfl, show (12 : Nat) = 4 + (4 + 4) from rfl,
    show (16 : Nat) = 4 + (4 + (4 + 4)) from rfl,
    show (20 : Nat) = 4 + (4 + (4 + (4 + 4))) from rfl,
    show (24 : Nat) = 4 + (4 + (4 + (4 + (4 + 4)))) from rfl,
    show (28 : Nat) = 4 + (4 + (4 + (4 + (4 + (4 + 4))))) from rfl,
    show (32 : Nat) = 4 + (4 + (4 + (4 + (4 + (4 + (4 + 4)))))) from rfl,
    show (36 : Nat) = 4 + (4 + (4 + (4 + (4 + (4 + (4 + (4 + 4))))))) from rfl,
    show (40 : Nat) = 4 + (4 + (4 + (4 + (4 + (4 + (4 + (4 + (4 + 4)))))))) from rfl,
    ← List.drop_drop]
  rw [rd32_le32 _ _ h1, rd32_le32 _ _ h2, rd32_le32 _ _ h3, rd32_le32 _ _ h4,
    rd32_le32 _ _ h5, rd32_le32 _ _ (word32_lt _), rd32_le32 _ _ (word32_lt _),
    rd32_le32 _ _ (word32_lt _), rd32_le32 _ _ (word32_lt _), rd32_le32 _ _ (word32_lt _),
    rd32_le32 _ _ (word32_lt _),
    int32_word32 _ h6.1 h6.2, int32_word32 _ h7.1 h7.2, int32_word32 _ h8.1 h8.2,
    int32_word32 _ h9.1 h9.2, int32_word32 _ h10.1 h10.2, int32_word32 _ h11.1 h11.2]

theorem setHeader_roundtrip (h : dtNavMeshSetHeader) (rest : List Nat)
    (hm : -2 ^ 31 ≤ h.magic ∧ h.magic < 2 ^ 31) (hv : -2 ^ 31 ≤ h.version ∧ h.version < 2 ^ 31)
    (hn : -2 ^ 31 ≤ h.numTiles ∧ h.numTiles < 2 ^ 31) (hp : h.params.InRange) :
    dtNavMeshSetHeader.ofBytes (h.bytes ++ rest) = h := by
  unfold dtNavMeshSetHeader.ofBytes dtNavMeshSetHeader.bytes
  simp only [List.append_assoc, drop_le32,
    show (8 : Nat) = 4 + 4 from rfl, show (12 : Nat) = 4 + (4 + 4) from rfl, ← List.drop_drop]
  rw [rd32_le32 _ _ (word32_lt _), rd32_le32 _ _ (word32_lt _), rd32_le32 _ _ (word32_lt _),
    int32_word32 _ hm.1 hm.2, int32_word32 _ hv.1 hv.2, int32_word32 _ hn.1 hn.2,
    params_roundtrip _ _ hp]

theorem length_params_bytes (p : dtNavMeshParams) : p.bytes.length = 44 := rfl

theorem length_setHeader_bytes (h : dtNavMeshSetHeader) : h.bytes.length = sizeofSetHeader := rfl

theorem tileHeader_roundtrip (h : dtNavMeshTileHeader) (rest : List Nat)
    (hr : h.tileRef < 2 ^ 32) (hd : -2 ^ 31 ≤ h.dataSize ∧ h.dataSize < 2 ^ 31) :
    dtNavMeshTileHeader.ofBytes (h.bytes ++ rest) = h := by
  unfold dtNavMeshTileHeader.ofBytes dtNavMeshTileHeader.bytes
  simp only [List.append_assoc, drop_le32]
  rw [rd32_le32 _ _ hr, rd32_le32 _ _ (word32_lt _), int32_word32 _ hd.1 hd.2]

theorem length_tileHeader_bytes (h : dtNavMeshTileHeader) :
    h.bytes.length = sizeofTileHeader := rfl

theorem length_tileBlob (tile : dtMeshTile) : (tileBlob tile).length = size_t tile.dataSize := by
  unfold tileBlob
  rw [List.length_map, List.length_range]

theorem saveAll_count_eq (mesh : dtNavMesh) :
    ∀ (is : List Nat) (c : Int),
      saveAll.count mesh is c = c + ((is.filter (saveAll.stored mesh)).length : Int) := by
  intro is
  induction is with
  | nil => intro c; simp [saveAll.count]
  | cons i is ih =>
    intro c
    simp only [saveAll.count]
    cases hs : saveAll.stored mesh i
    · simp only [Bool.not_false, if_true, ih, List.filter_cons, hs, Bool.false_eq_true, if_false]
    · simp only [Bool.not_true, Bool.false_eq_true, if_false, ih, List.filter_cons, hs, if_true,
        List.length_cons]
      push_cast
      ring

/-- The bytes of one tile record of the set file: the tile header and the blob. -/
theorem saveAll_tiles_eq (denv : DetourEnv) (mesh : dtNavMesh) :
    ∀ (is : List Nat) (fp : List Nat),
      saveAll.tiles denv mesh is fp = fp ++
        ((is.filter (saveAll.stored mesh)).map (fun i =>
          (⟨denv.getTileRef mesh i, (mesh.m_tiles i).dataSize⟩ : dtNavMeshTileHeader).bytes ++
            tileBlob (mesh.m_tiles i))).flatten := by
  intro is
  induction is with
  | nil => intro fp; simp [saveAll.tiles]
  | cons i is ih =>
    intro fp
    simp only [saveAll.tiles]
    cases hs : saveAll.stored mesh i
    · simp only [Bool.not_false, if_true, ih, List.filter_cons, hs, Bool.false_eq_true, if_false]
    · simp only [Bool.not_true, Bool.false_eq_true, if_false, ih, List.filter_cons, hs, if_true,
        List.map_cons, List.flatten_cons, List.append_assoc]

theorem saveAll_tables_eq (mesh : dtNavMesh) (size : Int) :
    ∀ (is : List Nat) (fp : List Nat),
      saveAll.tables mesh size is fp = fp ++ (is.map (tableBytes mesh size)).flatten := by
  intro is
  induction is with
  | nil => intro fp; simp [saveAll.tables]
  | cons i is ih =>
    intro fp
    simp only [saveAll.tables, ih, List.map_cons, List.flatten_cons, List.append_assoc]

theorem length_flatten_le32 {α : Type} (f : α → Nat) :
    ∀ (xs : List α), ((xs.map (fun k => le32 (f k))).flatten).length = 4 * xs.length := by
  intro xs
  induction xs with
  | nil => rfl
  | cons x xs ih =>
    simp only [List.map_cons, List.flatten_cons, List.length_append, ih, length_le32,
      List.length_cons]
    omega

theorem length_tableBytes (mesh : dtNavMesh) (size : Int) (i : Nat)
    (h0 : 0 < size) (h1 : size < 2 ^ 31) (h4 : size % 4 = 0) :
    (tableBytes mesh size i).length = size_t size := by
  unfold tableBytes
  rw [length_flatten_le32 (fun k => word32 (mesh.m_traverseTables i k)), List.length_range]
  unfold size_t
  have e : Int.tdiv size 4 = size / 4 := by
    rw [Int.tdiv_eq_ediv (le_of_lt h0) (by norm_num)]
  rw [e]
  omega

theorem loadAll_tiles_records (denv : DetourEnv) (hmem : ∀ n, denv.rdAlloc n = true) :
    ∀ (recs : List (Nat × Int × List Nat)) (mesh : dtNavMesh) (rest : List Nat),
      (∀ r, r ∈ recs → r.1 ≠ 0 ∧ r.1 < 2 ^ 32 ∧ 0 < r.2.1 ∧ r.2.1 < 2 ^ 31 ∧
        r.2.2.length = size_t r.2.1) →
      loadAll.tiles denv recs.length mesh
        ((recs.map (fun r =>
          (⟨r.1, r.2.1⟩ : dtNavMeshTileHeader).bytes ++ r.2.2)).flatten ++ rest) =
        some (addTiles denv mesh recs, rest) := by
  intro recs
  induction recs with
  | nil => intro mesh rest _; rfl
  | cons r recs ih =>
    intro mesh rest hall
    obtain ⟨h1, h2, h3, h4, h5⟩ := hall r (List.mem_cons_self r recs)
    simp only [List.length_cons, loadAll.tiles, List.map_cons, List.flatten_cons,
      List.append_assoc]
    rw [fread1_append sizeofTileHeader _ _ (by decide) (length_tileHeader_bytes _)]
    simp only
    have hth := tileHeader_roundtrip ⟨r.1, r.2.1⟩ [] h2 ⟨by linarith, h4⟩
    rw [List.append_nil] at hth
    rw [hth]
    simp only
    have hsz : size_t r.2.1 ≠ 0 := by
      unfold size_t
      omega
    rw [if_neg (by
        intro hc
        rcases hc with hc | hc
        · exact h1 hc
        · rw [hc] at h3
          exact absurd h3 (lt_irrefl 0)),
      hmem, fread1_append _ _ _ hsz h5]
    simp only [Bool.not_true, Bool.false_eq_true, if_false]
    rw [ih _ rest (fun r2 hr2 => hall r2 (List.mem_cons_of_mem r hr2))]
    rfl

theorem loadAll_tables_records (denv : DetourEnv) (hmem : ∀ n, denv.rdAlloc n = true)
    (size : Int) (hsz : size_t size ≠ 0) :
    ∀ (tabs : List (Nat × List Nat)) (mesh : dtNavMesh) (rest : List Nat),
      (∀ t, t ∈ tabs → t.2.length = size_t size) →
      loadAll.tables denv size (tabs.map (fun t => t.1)) mesh
        ((tabs.map (fun t => t.2)).flatten ++ rest) =
        some (setTables denv mesh tabs, rest) := by
  intro tabs
  induction tabs with
  | nil => intro mesh rest _; rfl
  | cons t tabs ih =>
    intro mesh rest hall
    simp only [List.map_cons, loadAll.tables, List.flatten_cons, List.append_assoc, hmem,
      Bool.not_true, Bool.false_eq_true, if_false]
    rw [fread1_append _ _ _ hsz (hall t (List.mem_cons_self t tabs))]
    simp only
    rw [ih _ rest (fun t2 ht2 => hall t2 (List.mem_cons_of_mem t ht2))]
    rfl

theorem stored_records_valid (denv : DetourEnv) (mesh : dtNavMesh) (hst : mesh.Storable denv) :
    ∀ r, r ∈ storedTiles denv mesh → r.1 ≠ 0 ∧ r.1 < 2 ^ 32 ∧ 0 < r.2.1 ∧ r.2.1 < 2 ^ 31 ∧
      r.2.2.length = size_t r.2.1 := by
  intro r hr
  unfold storedTiles at hr
  rw [List.mem_map] at hr
  obtain ⟨i, hi, rfl⟩ := hr
  rw [List.mem_filter, List.mem_range] at hi
  obtain ⟨h1, h2, h3, h4⟩ := hst.2.2.1 i hi.1 hi.2
  exact ⟨h1, h2, h3, h4, length_tileBlob _⟩

theorem stored_length_lt (denv : DetourEnv) (mesh : dtNavMesh) (hst : mesh.Storable denv) :
    ((List.range mesh.getMaxTiles).filter (saveAll.stored mesh)).length < 2 ^ 31 := by
  have h1 := List.length_filter_le (saveAll.stored mesh) (List.range mesh.getMaxTiles)
  rw [List.length_range] at h1
  exact lt_of_le_of_lt h1 hst.2.1

theorem stream_eq (denv : DetourEnv) (mesh : dtNavMesh) :
    saveAll.stream denv mesh =
      (⟨DT_NAVMESH_SET_MAGIC, DT_NAVMESH_SET_VERSION,
        (((List.range mesh.getMaxTiles).filter (saveAll.stored mesh)).length : Int),
        mesh.m_params⟩ : dtNavMeshSetHeader).bytes ++
      (((storedTiles denv mesh).map (fun r =>
        (⟨r.1, r.2.1⟩ : dtNavMeshTileHeader).bytes ++ r.2.2)).flatten ++
      (((savedTables mesh).map (fun t => t.2)).flatten ++ [])) := by
  unfold saveAll.stream savedTables storedTiles
  simp only [saveAll_count_eq, saveAll_tiles_eq, saveAll_tables_eq, zero_add, List.map_map,
    Function.comp_def]
  split_ifs
  · simp only [List.append_assoc, List.append_nil, List.map_map, Function.comp_def]
  · simp only [List.append_nil, List.map_nil, List.flatten_nil]

theorem read_stream (denv : DetourEnv) (mesh mesh0 : dtNavMesh)
    (hst : mesh.Storable denv) (halloc : denv.dtAllocNavMesh = some mesh0)
    (hinit : (denv.init mesh0 mesh.m_params).1 = true) (hmem : ∀ n, denv.rdAlloc n = true) :
    loadAll.read denv (some (saveAll.stream denv mesh)) =
      (true, some (reloaded denv mesh0 mesh)) := by
  have hlen := stored_length_lt denv mesh hst
  rw [stream_eq]
  unfold loadAll.read
  simp only
  rw [fread1_append sizeofSetHeader _ _ (by decide) (length_setHeader_bytes _)]
  simp only
  have hh := setHeader_roundtrip
    ⟨DT_NAVMESH_SET_MAGIC, DT_NAVMESH_SET_VERSION,
      (((List.range mesh.getMaxTiles).filter (saveAll.stored mesh)).length : Int),
      mesh.m_params⟩ []
      (by constructor <;> simp only [DT_NAVMESH_SET_MAGIC] <;> norm_num)
      (by constructor <;> simp only [DT_NAVMESH_SET_VERSION] <;> norm_num)
    (by constructor <;> simp only <;> omega) hst.1
  rw [List.append_nil] at hh
  rw [hh]
  simp only [ne_eq, not_true_eq_false, if_false, halloc, hinit, Bool.not_true,
    Bool.false_eq_true, Int.toNat_ofNat]
  have hrec : ((List.range mesh.getMaxTiles).filter (saveAll.stored mesh)).length =
      (storedTiles denv mesh).length := by
    unfold storedTiles
    rw [List.length_map]
  rw [hrec, loadAll_tiles_records denv hmem _ _ _ (stored_records_valid denv mesh hst)]
  simp only
  unfold reloaded
  by_cases hpg : mesh.m_params.polyGroupCount ≥ DT_MIN_POLY_GROUP_COUNT
  · rw [if_pos hpg]
    by_cases hcnt : 0 < mesh.m_params.traverseTableCount
    · obtain ⟨hs0, hs4⟩ := hst.2.2.2 hpg hcnt
      have hs1 : mesh.m_params.traverseTableSize < 2 ^ 31 := hst.1.2.2.2.2.2.2.2.2.1.2
      have hidx : List.range mesh.m_params.traverseTableCount.toNat =
          (savedTables mesh).map (fun t => t.1) := by
        unfold savedTables
        rw [if_pos hpg, List.map_map]
        exact (List.map_id _).symm
      rw [hidx, loadAll_tables_records denv hmem _ (by unfold size_t; omega) _ _ _ (by
        intro t ht
        unfold savedTables at ht
        rw [if_pos hpg, List.mem_map] at ht
        obtain ⟨i, -, rfl⟩ := ht
        exact length_tableBytes mesh _ i hs0 hs1 hs4)]
    · have hz : mesh.m_params.traverseTableCount.toNat = 0 := by omega
      have hnil : savedTables mesh = [] := by
        unfold savedTables
        rw [if_pos hpg, hz]
        rfl
      rw [hz, hnil]
      rfl
  · rw [if_neg hpg]
    have hnil : savedTables mesh = [] := by
      unfold savedTables
      rw [if_neg hpg]
    rw [hnil]
    rfl

theorem fileName_saveAll (denv : DetourEnv) (fs : FileSystem) (name path : String)
    (mesh : Option dtNavMesh) (name2 path2 : String) :
    navMeshFileName (Editor.saveAll denv fs name path mesh) name2 path2 =
      navMeshFileName fs name2 path2 := by
  unfold Editor.saveAll
  cases mesh with
  | none => rfl
  | some m =>
    simp only
    split_ifs <;> rfl

/-- C14 (counterexample): for the example navmesh with 3 poly groups and 2 traverse
tables of `traverseTableSize = 6` bytes, `saveAll` writes `sizeof(int) * (6 / 4) = 4`
bytes for each table, `loadAll` asks for 6 bytes for each, and reading the file back
fails: `loadAll` returns `false`. -/
theorem saveAll_odd_table_size_counterexample :
    (tableBytes exampleOddTableMesh 6 0).length = 4 ∧ size_t 6 = 6 ∧
    (loadAll.read exampleDetourEnv
      (some (saveAll.stream exampleDetourEnv exampleOddTableMesh))).1 = false ∧
    (Editor.loadAll exampleDetourEnv
      (Editor.saveAll exampleDetourEnv exampleFs "small" "mp_rr_box" (some exampleOddTableMesh))
      "small" none "mp_rr_box" false).1 = false := by
  refine ⟨by decide, by decide, by decide, ?_⟩
  unfold Editor.loadAll
  simp only [Bool.not_false, if_true, fileName_saveAll]
  unfold Editor.saveAll
  simp only [show exampleFs.writable (navMeshFileName exampleFs "small" "mp_rr_box") = true
    from rfl, Bool.not_true, Bool.false_eq_true, if_false, Function.update_same]
  decide

/-- C14 (amended): when `saveAll` has written a navmesh and `loadAll` reads the file back, it
returns `true`, and the navmesh it builds comes from `init` with the same parameters,
`addTile` with the same `(tileRef, dataSize, blob)` for every stored tile in the same
order, and, for 3 or more poly groups, `setTraverseTable` with the same bytes for each
of the `traverseTableCount` tables; the set header at the start of the file holds the
magic, the version, the number of stored tiles and the parameters. The navmesh is
storable (members as wide as their types, stored tiles with a non-zero reference and
a positive size, a positive table size that is a multiple of 4), the file can be
written, and allocation and `init` succeed. -/
theorem saveAll_loadAll_roundtrip (denv : DetourEnv) (fs : FileSystem) (name path : String)
    (cur : Option dtNavMesh) (mesh mesh0 : dtNavMesh)
    (hw : fs.writable (navMeshFileName fs name path) = true)
    (hst : mesh.Storable denv) (halloc : denv.dtAllocNavMesh = some mesh0)
    (hinit : (denv.init mesh0 mesh.m_params).1 = true) (hmem : ∀ n, denv.rdAlloc n = true) :
    Editor.loadAll denv (Editor.saveAll denv fs name path (some mesh)) name cur path false =
      (true, some (reloaded denv mesh0 mesh)) ∧
    dtNavMeshSetHeader.ofBytes ((saveAll.stream denv mesh).take sizeofSetHeader) =
      ⟨DT_NAVMESH_SET_MAGIC, DT_NAVMESH_SET_VERSION, ((storedTiles denv mesh).length : Int),
        mesh.m_params⟩ := by
  constructor
  · unfold Editor.loadAll
    simp only [Bool.not_false, if_true, fileName_saveAll]
    unfold Editor.saveAll
    simp only [hw, Bool.not_true, Bool.false_eq_true, if_false, Function.update_same]
    exact read_stream denv mesh mesh0 hst halloc hinit hmem
  · have hlen := stored_length_lt denv mesh hst
    have hrec : ((List.range mesh.getMaxTiles).filter (saveAll.stored mesh)).length =
        (storedTiles denv mesh).length := by
      unfold storedTiles
      rw [List.length_map]
    rw [stream_eq, ← length_setHeader_bytes ⟨DT_NAVMESH_SET_MAGIC, DT_NAVMESH_SET_VERSION,
        (((List.range mesh.getMaxTiles).filter (saveAll.stored mesh)).length : Int),
        mesh.m_params⟩, List.take_left]
    have hh := setHeader_roundtrip
      ⟨DT_NAVMESH_SET_MAGIC, DT_NAVMESH_SET_VERSION,
        (((List.range mesh.getMaxTiles).filter (saveAll.stored mesh)).length : Int),
        mesh.m_params⟩ []
      (by constructor <;> simp only [DT_NAVMESH_SET_MAGIC] <;> norm_num)
      (by constructor <;> simp only [DT_NAVMESH_SET_VERSION] <;> norm_num)
      (by constructor <;> simp only <;> omega) hst.1
    rw [List.append_nil] at hh
    rw [hh, hrec]

theorem ite_false_null (c : Prop) [Decidable c] (x : Bool × Option dtNavMesh)
    (hx : x.1 = true ∨ x = (false, none)) :
    (if c then (false, none) else x).1 = true ∨ (if c then (false, none) else x) = (false, none) := by
  by_cases h : c
  · rw [if_pos h]; exact Or.inr rfl
  · rw [if_neg h]; exact hx

theorem read_false_null (denv : DetourEnv) (file : Option (List Nat)) :
    (loadAll.read denv file).1 = true ∨ loadAll.read denv file = (false, none) := by
  unfold loadAll.read
  cases file with
  | none => exact Or.inr rfl
  | some fp =>
    simp only
    cases fread1 sizeofSetHeader fp with
    | none => exact Or.inr rfl
    | some p =>
      obtain ⟨hb, fp1⟩ := p
      simp only
      refine ite_false_null _ _ (ite_false_null _ _ ?_)
      cases denv.dtAllocNavMesh with
      | none => exact Or.inr rfl
      | some mesh0 =>
        simp only
        refine ite_false_null _ _ ?_
        cases loadAll.tiles denv (dtNavMeshSetHeader.ofBytes hb).numTiles.toNat
            (denv.init mesh0 (dtNavMeshSetHeader.ofBytes hb).params).2 fp1 with
        | none => exact Or.inr rfl
        | some q =>
          obtain ⟨mesh1, fp2⟩ := q
          simp only
          by_cases h4 : (dtNavMeshSetHeader.ofBytes hb).params.polyGroupCount ≥
              DT_MIN_POLY_GROUP_COUNT
          · rw [if_pos h4]
            cases loadAll.tables denv (dtNavMeshSetHeader.ofBytes hb).params.traverseTableSize
                (List.range (dtNavMeshSetHeader.ofBytes hb).params.traverseTableCount.toNat)
                mesh1 fp2 with
            | none => exact Or.inr rfl
            | some q2 => exact Or.inl rfl
          · rw [if_neg h4]
            exact Or.inl rfl

/-- The ways in which `loadAll` fails on the stream that `fopen` returns: no stream,
fewer bytes than a set header, a wrong magic, a wrong version, and tile data or
traverse-table data that ends early. Each returns `false` with `m_navMesh` null. -/
theorem read_failures (denv : DetourEnv) :
    loadAll.read denv none = (false, none) ∧
    (∀ fp : List Nat, fp.length < sizeofSetHeader → loadAll.read denv (some fp) = (false, none)) ∧
    (∀ fp : List Nat, sizeofSetHeader ≤ fp.length →
      (dtNavMeshSetHeader.ofBytes (fp.take sizeofSetHeader)).magic ≠ DT_NAVMESH_SET_MAGIC →
      loadAll.read denv (some fp) = (false, none)) ∧
    (∀ fp : List Nat, sizeofSetHeader ≤ fp.length →
      (dtNavMeshSetHeader.ofBytes (fp.take sizeofSetHeader)).version ≠ DT_NAVMESH_SET_VERSION →
      loadAll.read denv (some fp) = (false, none)) ∧
    (∀ (count : Nat) (mesh : dtNavMesh) (h : dtNavMeshTileHeader) (blob : List Nat),
      h.tileRef ≠ 0 → h.tileRef < 2 ^ 32 → 0 < h.dataSize → h.dataSize < 2 ^ 31 →
      denv.rdAlloc (size_t h.dataSize) = true → blob.length < size_t h.dataSize →
      loadAll.tiles denv (count + 1) mesh (h.bytes ++ blob) = none) ∧
    (∀ (size : Int) (i : Nat) (is : List Nat) (mesh : dtNavMesh) (table : List Nat),
      denv.rdAlloc (size_t size) = true → table.length < size_t size →
      loadAll.tables denv size (i :: is) mesh table = none) := by
  refine ⟨rfl, fun fp h => ?_, fun fp h hm => ?_, fun fp h hv => ?_, ?_, ?_⟩
  · unfold loadAll.read
    simp only [fread1, if_neg (show sizeofSetHeader ≠ 0 by decide), if_pos h]
  · unfold loadAll.read
    simp only [fread1, if_neg (show sizeofSetHeader ≠ 0 by decide), if_neg (not_lt.mpr h),
      if_pos hm]
  · unfold loadAll.read
    simp only [fread1, if_neg (show sizeofSetHeader ≠ 0 by decide), if_neg (not_lt.mpr h),
      if_pos hv, ite_self]
  · intro count mesh h blob h1 h2 h3 h4 h5 h6
    simp only [loadAll.tiles]
    rw [fread1_append sizeofTileHeader _ _ (by decide) (length_tileHeader_bytes _)]
    simp only
    have hth := tileHeader_roundtrip h [] h2 ⟨by linarith, h4⟩
    rw [List.append_nil] at hth
    rw [hth, if_neg (by
      intro hc
      rcases hc with hc | hc
      · exact h1 hc
      · rw [hc] at h3
        exact absurd h3 (lt_irrefl 0)), h5]
    simp only [Bool.not_true, Bool.false_eq_true, if_false, fread1, if_pos h6, ite_self]
  · intro size i is mesh table h1 h2
    simp only [loadAll.tables, h1, Bool.not_true, Bool.false_eq_true, if_false, fread1,
      if_pos h2, ite_self]

/-- C13 (counterexample): with the navmesh `exampleStoredMesh` loaded, `loadAll` on a
model name whose file does not exist returns `false`, and `m_navMesh` is null
afterwards, not the navmesh it was; the same holds for a file of 56 zero bytes, whose
magic is wrong. -/
theorem loadAll_frees_navmesh_counterexample :
    Editor.loadAll exampleDetourEnv exampleFs "small" (some exampleStoredMesh) "mp_rr_box"
      false = (false, none) ∧
    (Editor.loadAll exampleDetourEnv exampleFs "small" (some exampleStoredMesh) "mp_rr_box"
      false).2 ≠ some exampleStoredMesh ∧
    Editor.loadAll exampleDetourEnv
      { exampleFs with contents := fun _ => some (List.replicate 56 0) } "small"
      (some exampleStoredMesh) "mp_rr_box" false = (false, none) := by
  refine ⟨rfl, ?_, ?_⟩
  · intro h
    cases h
  · unfold Editor.loadAll
    simp only
    exact (read_failures exampleDetourEnv).2.2.1 _ (by decide) (by decide)

/-- C13 (amended): `loadAll` frees the current navmesh and sets `m_navMesh` to null
before it opens the file, so whenever it does not return `true` it returns `false`
with `m_navMesh` null, whatever `m_navMesh` was before the call. -/
theorem loadAll_failure_leaves_null (denv : DetourEnv) (fs : FileSystem) (name path : String)
    (cur : Option dtNavMesh) (fullPath : Bool) :
    (Editor.loadAll denv fs name cur path fullPath).1 = true ∨
    Editor.loadAll denv fs name cur path fullPath = (false, none) := by
  unfold Editor.loadAll
  exact read_false_null denv _

theorem exampleStoredMesh_storable : exampleStoredMesh.Storable exampleDetourEnv := by
  unfold dtNavMesh.Storable dtNavMeshParams.InRange
  refine ⟨by decide, by decide, ?_, by decide⟩
  intro i hi hs
  have h3 : i < 3 := hi
  interval_cases i
  · decide
  · revert hs; decide
  · decide

/-- Witness of C14: the example navmesh, written and read back. -/
theorem saveAll_loadAll_roundtrip_witness :
    Editor.loadAll exampleDetourEnv
        (Editor.saveAll exampleDetourEnv exampleFs "small" "mp_rr_box" (some exampleStoredMesh))
        "small" none "mp_rr_box" false =
      (true, some (reloaded exampleDetourEnv exampleNavMesh exampleStoredMesh)) ∧
    dtNavMeshSetHeader.ofBytes
        ((saveAll.stream exampleDetourEnv exampleStoredMesh).take sizeofSetHeader) =
      ⟨DT_NAVMESH_SET_MAGIC, DT_NAVMESH_SET_VERSION,
        ((storedTiles exampleDetourEnv exampleStoredMesh).length : Int),
        exampleStoredMesh.m_params⟩ :=
  saveAll_loadAll_roundtrip exampleDetourEnv exampleFs "small" "mp_rr_box" none
    exampleStoredMesh exampleNavMesh rfl exampleStoredMesh_storable rfl rfl (fun _ => rfl)

/-! ### The pair key and the polygon byte -/

theorem pair_lt_iff (a b : TraverseLinkPolyPair) :
    a.lt b = true ↔ a.poly1 < b.poly1 ∨ (a.poly1 = b.poly1 ∧ a.poly2 < b.poly2) := by
  unfold TraverseLinkPolyPair.lt
  split_ifs with h1 h2
  · simp only [true_iff]; exact Or.inl h1
  · simp only [Bool.false_eq_true, false_iff]; omega
  · simp only [decide_eq_true_eq]; omega

theorem pair_lt_false_iff (a b : TraverseLinkPolyPair) :
    a.lt b = false ↔ ¬ (a.poly1 < b.poly1 ∨ (a.poly1 = b.poly1 ∧ a.poly2 < b.poly2)) := by
  rw [← pair_lt_iff, Bool.not_eq_true]

theorem pair_eq_iff (a b : TraverseLinkPolyPair) :
    a = b ↔ a.poly1 = b.poly1 ∧ a.poly2 = b.poly2 := by
  cases a; cases b
  simp only [TraverseLinkPolyPair.mk.injEq]

theorem pair_make_comm (p q : Nat) :
    TraverseLinkPolyPair.make p q = TraverseLinkPolyPair.make q p := by
  unfold TraverseLinkPolyPair.make
  split_ifs with h1 h2 h2
  · omega
  · rfl
  · rfl
  · have : p = q := by omega
    rw [this]

/-- C23: the pairs built from `(p, q)` and from `(q, p)` are the same pair, with the
smaller polyref in `poly1` and the larger in `poly2`; `operator<` is irreflexive and
transitive, and of two pairs with different fields exactly one is less than the
other, so two keys are equivalent for a `std::map` exactly when their fields are equal,
and a lookup with `(p, q)` finds what a lookup with `(q, p)` finds. -/
theorem pair_key_strict_total_order :
    (∀ p q : Nat, TraverseLinkPolyPair.make p q = TraverseLinkPolyPair.make q p ∧
      (TraverseLinkPolyPair.make p q).poly1 = min p q ∧
      (TraverseLinkPolyPair.make p q).poly2 = max p q ∧
      (TraverseLinkPolyPair.make p q).poly1 ≤ (TraverseLinkPolyPair.make p q).poly2) ∧
    (∀ a : TraverseLinkPolyPair, a.lt a = false) ∧
    (∀ a b c : TraverseLinkPolyPair, a.lt b = true → b.lt c = true → a.lt c = true) ∧
    (∀ a b : TraverseLinkPolyPair, a ≠ b →
      (a.lt b = true ∧ b.lt a = false) ∨ (a.lt b = false ∧ b.lt a = true)) ∧
    (∀ a b : TraverseLinkPolyPair, (a.lt b = false ∧ b.lt a = false) ↔ a = b) ∧
    (∀ (m : List (TraverseLinkPolyPair × Nat)) (p q : Nat),
      mapFind m (TraverseLinkPolyPair.make p q) = mapFind m (TraverseLinkPolyPair.make q p)) := by
  refine ⟨fun p q => ⟨pair_make_comm p q, ?_, ?_, ?_⟩, fun a => ?_, fun a b c h1 h2 => ?_,
    fun a b hab => ?_, fun a b => ?_, fun m p q => by rw [pair_make_comm]⟩
  · unfold TraverseLinkPolyPair.make
    split_ifs with h <;> simp only <;> omega
  · unfold TraverseLinkPolyPair.make
    split_ifs with h <;> simp only <;> omega
  · unfold TraverseLinkPolyPair.make
    split_ifs with h <;> simp only <;> omega
  · rw [pair_lt_false_iff]; omega
  · rw [pair_lt_iff] at h1 h2 ⊢; omega
  · rw [Ne, pair_eq_iff] at hab
    rw [pair_lt_iff, pair_lt_iff, pair_lt_false_iff, pair_lt_false_iff]
    omega
  · rw [pair_eq_iff, pair_lt_false_iff, pair_lt_false_iff]
    omega

theorem areaAndtype_bits :
    ∀ x, x < 256 → ∀ a, a < 64 →
      (((x &&& 0xc0) ||| (a &&& 0x3f)) % 256) &&& 0x3f = a ∧
      (((x &&& 0xc0) ||| (a &&& 0x3f)) % 256) >>> 6 = x >>> 6 ∧
      ((x &&& 0xc0) ||| (a &&& 0x3f)) % 256 < 256 := by
  decide!

theorem areaAndtype_type_bits :
    ∀ x, x < 256 → ∀ t, t < 4 →
      (((x &&& 0x3f) ||| (t <<< 6)) % 256) >>> 6 = t ∧
      (((x &&& 0x3f) ||| (t <<< 6)) % 256) &&& 0x3f = x &&& 0x3f ∧
      ((x &&& 0x3f) ||| (t <<< 6)) % 256 < 256 := by
  decide!

/-- C24: for every polygon whose byte `areaAndtype` is an `unsigned char`, every area
id `a < 64` (all ids below `DT_MAX_AREAS = 32` among them) and every polygon type
`t < 4`: after `setArea(a)`, `getArea()` is `a` and `getType()` is what it was; after
`setType(t)`, `getType()` is `t` and `getArea()` is what it was; both setters leave
every other field of the polygon as it was. -/
theorem poly_area_type_accessors (p : dtPoly) (a t : Nat) (hp : p.areaAndtype < 256)
    (ha : a < 64) (ht : t < 4) :
    (p.setArea a).getArea = a ∧ (p.setArea a).getType = p.getType ∧
    (p.setType t).getType = t ∧ (p.setType t).getArea = p.getArea ∧
    (p.setArea a).areaAndtype < 256 ∧ (p.setType t).areaAndtype < 256 ∧
    p.setArea a = { p with areaAndtype := (p.setArea a).areaAndtype } ∧
    p.setType t = { p with areaAndtype := (p.setType t).areaAndtype } ∧
    DT_MAX_AREAS ≤ 64 := by
  have h1 := areaAndtype_bits p.areaAndtype hp a ha
  have h2 := areaAndtype_type_bits p.areaAndtype hp t ht
  unfold dtPoly.setArea dtPoly.setType dtPoly.getArea dtPoly.getType
  exact ⟨h1.1, h1.2.1, h2.1, h2.2.1, h1.2.2, h2.2.2, rfl, rfl, by decide⟩

/-- Witness of C24: a polygon of type 1 and area 5 gets the area 31, then the type 2. -/
theorem poly_area_type_accessors_witness :
    (({ (gapTilePolys 0) with areaAndtype := 0x45 } : dtPoly).setArea 31).getArea = 31 ∧
    (({ (gapTilePolys 0) with areaAndtype := 0x45 } : dtPoly).setArea 31).getType = 1 ∧
    (({ (gapTilePolys 0) with areaAndtype := 0x45 } : dtPoly).setType 2).getType = 2 ∧
    (({ (gapTilePolys 0) with areaAndtype := 0x45 } : dtPoly).setType 2).getArea = 5 := by
  have h := poly_area_type_accessors { (gapTilePolys 0) with areaAndtype := 0x45 } 31 2
    (by decide) (by decide) (by decide)
  exact ⟨h.1, h.2.1.trans (by decide), h.2.2.1, h.2.2.2.1.trans (by decide)⟩

/-! ### The forest of a disjoint set -/

theorem iterate_parent_lt (s : dtDisjointSet) (hw : s.WF) (i : Nat) (hi : i < s.parentSize) :
    ∀ k, s.parent^[k] i < s.parentSize := by
  intro k
  induction k with
  | zero => exact hi
  | succ k ih =>
    rw [Function.iterate_succ_apply']
    exact (hw.2 _ ih).1

theorem iterate_parent_rank (s : dtDisjointSet) (hw : s.WF) (i : Nat) (hi : i < s.parentSize)
    (hne : s.parent i ≠ i) : ∀ k, s.rank i < s.rank (s.parent^[k + 1] i) := by
  intro k
  induction k with
  | zero => exact (hw.2 i hi).2 hne
  | succ k ih =>
    rw [Function.iterate_succ_apply']
    by_cases hroot : s.parent (s.parent^[k + 1] i) = s.parent^[k + 1] i
    · rw [hroot]; exact ih
    · exact lt_trans ih ((hw.2 _ (iterate_parent_lt s hw i hi (k + 1))).2 hroot)

/-- C27: in every state reachable from `init(n)` through `setUnion`, `insertNew` and
`find`, every valid id has a valid parent, and one of strictly greater rank unless
the id is its own parent; following parent pointers from an id never leads back to
it unless the id is a root; and `find(id)` returns for every valid id once the
recursion may go as deep as there are ids, with a root `r` for which `parent[r] = r`
holds before and after the path compression. -/
theorem disjoint_set_forest_find_terminates (s : dtDisjointSet) (hs : s.Reachable) :
    (∀ i, i < s.parentSize → s.parent i < s.parentSize ∧
      (s.parent i ≠ i → s.rank i < s.rank (s.parent i))) ∧
    (∀ i k, i < s.parentSize → 0 < k → s.parent^[k] i = i → s.parent i = i) ∧
    (∀ fuel id, id < s.parentSize → s.parentSize ≤ fuel →
      ∃ r t, dtDisjointSet.find fuel s id = some (r, t) ∧ r < s.parentSize ∧
        s.parent r = r ∧ t.parent r = r) := by
  have hw := dtDisjointSet.wf_of_reachable s hs
  refine ⟨hw.2, fun i k hi hk hcyc => ?_, fun fuel id hid hf => ?_⟩
  · by_contra hne
    obtain ⟨k, rfl⟩ : ∃ j, k = j + 1 := ⟨k - 1, by omega⟩
    have h := iterate_parent_rank s hw i hi hne k
    rw [hcyc] at h
    exact lt_irrefl _ h
  · obtain ⟨t, ht, hc⟩ := dtDisjointSet.find_enough_fuel s hw fuel id hid hf
    have hr := dtDisjointSet.repr_lt s hw id hid
    have hp := dtDisjointSet.parent_repr s hw id hid
    refine ⟨s.repr id, t, ht, hr, hp, ?_⟩
    rcases hc.2.2.2 (s.repr id) hr with h | h
    · rw [h, hp]
    · rw [h, dtDisjointSet.repr_repr s hw id hid]

/-- Witness of C27: the set after `init(3)` and `setUnion(0, 1)`; the call `find(1)`
returns a root. -/
theorem disjoint_set_forest_find_terminates_witness :
    ∃ s : dtDisjointSet,
      dtDisjointSet.setUnion 3 (dtDisjointSet.init 3 (fun _ => 0)) 0 1 = some s ∧
      (∀ i k, i < s.parentSize → 0 < k → s.parent^[k] i = i → s.parent i = i) ∧
      ∃ r t, dtDisjointSet.find 3 s 1 = some (r, t) ∧ r < s.parentSize ∧
        s.parent r = r ∧ t.parent r = r := by
  obtain ⟨s, hs, -, hn, -⟩ := dtDisjointSet.setUnion_repr (dtDisjointSet.init 3 (fun _ => 0))
    (dtDisjointSet.wf_init 3 (fun _ => 0)) 3 0 1 (by decide) (by decide) (by decide)
  have hn3 : s.parentSize = 3 := hn
  have hr := dtDisjointSet.Reachable.setUnion 3 _ 0 1 s
    (dtDisjointSet.Reachable.init 3 (fun _ => 0)) (by decide) (by decide) hs
  have h := disjoint_set_forest_find_terminates s hr
  exact ⟨s, hs, h.2.1, h.2.2 3 1 (by rw [hn3]; decide) (by rw [hn3])⟩

/-! ### Tile positions and tile extents -/

theorem two_pow_and_ne_zero_iff (t m : Nat) : 2 ^ t &&& m ≠ 0 ↔ m.testBit t = true := by
  constructor
  · intro h
    by_contra hb
    apply h
    apply Nat.eq_of_testBit_eq
    intro i
    rw [Nat.testBit_and, Nat.testBit_two_pow, Nat.zero_testBit]
    by_cases hti : t = i
    · subst hti
      simp only [Bool.not_eq_true] at hb
      rw [hb, Bool.and_false]
    · simp only [hti, decide_False, Bool.false_and]
  · intro h h0
    have h1 : (2 ^ t &&& m).testBit t = true := by
      rw [Nat.testBit_and, Nat.testBit_two_pow_self, h]
      rfl
    rw [h0, Nat.zero_testBit] at h1
    cases h1

theorem rdBitCellBit_eq (env : Env) (hbits : env.RD_BITS_PER_BIT_CELL = 32) (t : Nat)
    (ht : t < 32) : rdBitCellBit env t = 2 ^ t := by
  unfold rdBitCellBit
  rw [hbits]
  have h1 : t &&& (32 - 1) = t :=
    Nat.and_pow_two_sub_one_of_lt_two_pow (show t < 2 ^ 5 from ht)
  rw [h1, shl32_of_lt 1 t ht, Nat.one_shiftLeft]
  exact Nat.mod_eq_of_lt (Nat.pow_lt_pow_right (by decide) ht)

theorem mask_bit31_clear (idx : Nat) :
    (s_traverseAnimTraverseFlags.getD idx 0).testBit 31 = false ∧
    (s_traverseAnimTraverseFlags.getD idx 0).testBit DT_NULL_TRAVERSE_TYPE = false := by
  by_cases h : idx < 9
  · interval_cases idx <;> decide
  · have e : s_traverseAnimTraverseFlags.getD idx 0 = 0 := by
      rw [List.getD_eq_default]
      exact not_lt.mp h
    rw [e]
    exact ⟨Nat.zero_testBit _, Nat.zero_testBit _⟩

theorem rdBitCellBit_null (env : Env) (hbits : env.RD_BITS_PER_BIT_CELL = 32) :
    rdBitCellBit env DT_NULL_TRAVERSE_TYPE = 2 ^ 31 := by
  unfold rdBitCellBit shl32
  rw [hbits]
  decide

theorem selectedNavMeshType_installLinkPair (b i j lt m n baseSide : Nat) (c : Candidate)
    (s : ConnectState) :
    (installLinkPair b i j lt m n baseSide c s).editor.m_selectedNavMeshType =
      s.editor.m_selectedNavMeshType := rfl

theorem qualify_mask (env : Env) (ed : Editor) (ltn : Bool) (b i j lt m n : Nat)
    (c : Candidate) (h : qualify env ed ltn b i j lt m n = some c) :
    c.traverseType < NUM_TRAVERSE_TYPES ∧
    (ed.m_selectedNavMeshType > env.NAVMESH_SMALL →
      rdBitCellBit env c.traverseType &&&
        s_traverseAnimTraverseFlags.getD
          (env.NavMesh_GetFirstTraverseAnimTypeForType ed.m_selectedNavMeshType) 0 ≠ 0) := by
  unfold qualify at h
  simp only at h
  obtain ⟨-, h⟩ := ite_none_eq_some h
  obtain ⟨-, h⟩ := ite_none_eq_some h
  obtain ⟨h3, h⟩ := ite_none_eq_some h
  obtain ⟨h4, h⟩ := ite_none_eq_some h
  obtain ⟨-, h⟩ := ite_none_eq_some h
  obtain ⟨-, h⟩ := ite_none_eq_some h
  cases h
  exact ⟨(best_type_matches _ _ _ h3).1, fun hsel h0 => h4 ⟨hsel, h0⟩⟩

/-- C26: with 32 bits in a bit cell, `animTypeSupportsTraverseLink` returns true for
every link whose `reverseLink` is `DT_NULL_TRAVERSE_REVERSE_LINK`, whatever the table
index; for every other link, whose traverse type is below `NUM_TRAVERSE_TYPES` or is
`DT_NULL_TRAVERSE_TYPE`, it returns true exactly when the bit with the number of the
traverse type is set in the mask of the anim type, which is the table index on the
small navmesh and `NavMesh_GetFirstTraverseAnimTypeForType` of the navmesh type
otherwise; every pair that `connectTileTraverseLinks` installs has a traverse type
below `NUM_TRAVERSE_TYPES`, and on a navmesh type above the small one the bit of that
type is set in the mask of the navmesh, so the function returns true for every
link of that type. -/
theorem anim_type_supports_traverse_link (env : Env) (hbits : env.RD_BITS_PER_BIT_CELL = 32) :
    (∀ (navMeshType : Nat) (link : dtLink) (tableIndex : Nat),
      link.reverseLink = DT_NULL_TRAVERSE_REVERSE_LINK →
      animTypeSupportsTraverseLink env navMeshType link tableIndex = true) ∧
    (∀ (navMeshType : Nat) (link : dtLink) (tableIndex : Nat),
      link.reverseLink ≠ DT_NULL_TRAVERSE_REVERSE_LINK →
      link.traverseType < NUM_TRAVERSE_TYPES ∨ link.traverseType = DT_NULL_TRAVERSE_TYPE →
      (animTypeSupportsTraverseLink env navMeshType link tableIndex = true ↔
        (s_traverseAnimTraverseFlags.getD
          (if navMeshType = env.NAVMESH_SMALL then tableIndex
            else env.NavMesh_GetFirstTraverseAnimTypeForType navMeshType) 0).testBit
          link.traverseType = true)) ∧
    (∀ (ed : Editor) (b : Nat) (ltn : Bool) (e : InstalledPair),
      e ∈ (connectTileTraverseLinks env ed b ltn).installed →
      e.cand.traverseType < NUM_TRAVERSE_TYPES ∧
      (ed.m_selectedNavMeshType > env.NAVMESH_SMALL →
        (s_traverseAnimTraverseFlags.getD
          (env.NavMesh_GetFirstTraverseAnimTypeForType ed.m_selectedNavMeshType) 0).testBit
          e.cand.traverseType = true ∧
        ∀ (link : dtLink) (tableIndex : Nat), link.traverseType = e.cand.traverseType →
          animTypeSupportsTraverseLink env ed.m_selectedNavMeshType link tableIndex = true)) := by
  have hlink : ∀ (navMeshType : Nat) (link : dtLink) (tableIndex : Nat),
      link.reverseLink ≠ DT_NULL_TRAVERSE_REVERSE_LINK →
      link.traverseType < NUM_TRAVERSE_TYPES ∨ link.traverseType = DT_NULL_TRAVERSE_TYPE →
      (animTypeSupportsTraverseLink env navMeshType link tableIndex = true ↔
        (s_traverseAnimTraverseFlags.getD
          (if navMeshType = env.NAVMESH_SMALL then tableIndex
            else env.NavMesh_GetFirstTraverseAnimTypeForType navMeshType) 0).testBit
          link.traverseType = true) := by
    intro navMeshType link tableIndex hrev ht
    unfold animTypeSupportsTraverseLink
    rw [if_neg hrev]
    simp only [decide_eq_true_eq]
    rcases ht with ht | ht
    · rw [rdBitCellBit_eq env hbits _ ht]
      exact two_pow_and_ne_zero_iff _ _
    · rw [ht, rdBitCellBit_null env hbits, two_pow_and_ne_zero_iff,
        (mask_bit31_clear _).1, (mask_bit31_clear _).2]
  refine ⟨fun navMeshType link tableIndex hrev => ?_, hlink, ?_⟩
  · unfold animTypeSupportsTraverseLink
    rw [if_pos hrev]
  · intro ed b ltn
    have key : ∀ e, e ∈ (connectTileTraverseLinks env ed b ltn).installed →
        e.cand.traverseType < NUM_TRAVERSE_TYPES ∧
        (ed.m_selectedNavMeshType > env.NAVMESH_SMALL →
          rdBitCellBit env e.cand.traverseType &&&
            s_traverseAnimTraverseFlags.getD
              (env.NavMesh_GetFirstTraverseAnimTypeForType ed.m_selectedNavMeshType) 0 ≠ 0) := by
      unfold connectTileTraverseLinks
      simp only
      by_cases h0 : (!(ed.tile b).linkCountAvailable (if ltn = true then 1 else 2)) = true
      · rw [if_pos h0]
        intro e he
        simp at he
      · rw [if_neg h0]
        exact (connect_loops_inv env ltn b
          (fun s => s.editor.m_selectedNavMeshType = ed.m_selectedNavMeshType ∧
            ∀ e, e ∈ s.installed → e.cand.traverseType < NUM_TRAVERSE_TYPES ∧
              (ed.m_selectedNavMeshType > env.NAVMESH_SMALL →
                rdBitCellBit env e.cand.traverseType &&&
                  s_traverseAnimTraverseFlags.getD
                    (env.NavMesh_GetFirstTraverseAnimTypeForType ed.m_selectedNavMeshType) 0
                  ≠ 0))
          (fun _ s => s.editor.m_selectedNavMeshType = ed.m_selectedNavMeshType ∧
            ∀ e, e ∈ s.installed → e.cand.traverseType < NUM_TRAVERSE_TYPES ∧
              (ed.m_selectedNavMeshType > env.NAVMESH_SMALL →
                rdBitCellBit env e.cand.traverseType &&&
                  s_traverseAnimTraverseFlags.getD
                    (env.NavMesh_GetFirstTraverseAnimTypeForType ed.m_selectedNavMeshType) 0
                  ≠ 0))
          (fun _ _ h => h)
          (fun _ _ h _ _ _ => h)
          (fun lt i j m n baseSide c s hK _ _ _ _ hq => by
            refine ⟨by rw [selectedNavMeshType_installLinkPair]; exact hK.1, fun e he => ?_⟩
            rw [installed_installLinkPair, List.mem_append, List.mem_singleton] at he
            rcases he with he | he
            · exact hK.2 e he
            · rw [he]
              have hm := qualify_mask env s.editor ltn b i j lt m n c hq
              rw [hK.1] at hm
              exact hm)
          (List.range (ed.tile b).hdr.polyCount)
          { editor := ed, firstBaseTileLinkUsed := false, firstLandTileLinkUsed := false,
            installed := [] }
          ⟨rfl, fun e he => by simp at he⟩).2
    intro e he
    obtain ⟨ht, hm⟩ := key e he
    refine ⟨ht, fun hsel => ?_⟩
    have hbit := (two_pow_and_ne_zero_iff _ _).mp
      (by rw [← rdBitCellBit_eq env hbits _ ht]; exact hm hsel)
    refine ⟨hbit, fun link tableIndex hl => ?_⟩
    by_cases hrev : link.reverseLink = DT_NULL_TRAVERSE_REVERSE_LINK
    · unfold animTypeSupportsTraverseLink
      rw [if_pos hrev]
    · rw [hlink _ link tableIndex hrev (Or.inl (by rw [hl]; exact ht)),
        if_neg (Nat.ne_of_gt hsel), hl]
      exact hbit

/-- Witness of C26: on the small navmesh of the example environment, a traverse link
of type 1 is supported by the table of anim type 0 and not by the table of anim
type 7. -/
theorem anim_type_supports_traverse_link_witness :
    animTypeSupportsTraverseLink exampleEnv 0 ⟨0, 0, 0, 0, 0, 255, 1, 3, 5⟩ 0 = true ∧
    animTypeSupportsTraverseLink exampleEnv 0 ⟨0, 0, 0, 0, 0, 255, 1, 3, 5⟩ 7 = false := by
  have h := (anim_type_supports_traverse_link exampleEnv rfl).2.1
  constructor
  · exact (h 0 ⟨0, 0, 0, 0, 0, 255, 1, 3, 5⟩ 0 (by decide) (Or.inl (by decide))).mpr (by decide)
  · rw [← Bool.not_eq_true]
    exact fun h7 =>
      absurd ((h 0 ⟨0, 0, 0, 0, 0, 255, 1, 3, 5⟩ 7 (by decide) (Or.inl (by decide))).mp h7)
        (by decide)

/-- C29: the entries of `s_traverseAnimTraverseFlags` for `ANIMTYPE_TITAN` and
`ANIMTYPE_GOLIATH` are the value of the octal literal `0000003000`, which is 1536 and
not `0x00003000`: the bits set in it are bit 9 (`TRAVERSE_CLIMB_WALL_TALL`) and bit 10
(`TRAVERSE_CLIMB_BUILDING`), so the mask test of `animTypeSupportsTraverseLink` accepts
the traverse types 9 and 10 for these two anim types and rejects the types 12
(`TRAVERSE_JUMP_MEDIUM`) and 13 (`TRAVERSE_JUMP_LARGE`). -/
theorem titan_goliath_mask_is_octal :
    s_traverseAnimTraverseFlags.getD ANIMTYPE_TITAN 0 = 1536 ∧
    s_traverseAnimTraverseFlags.getD ANIMTYPE_GOLIATH 0 = 1536 ∧
    (1536 : Nat) = 0x600 ∧ (1536 : Nat) ≠ 0x00003000 ∧
    (∀ t, t < NUM_TRAVERSE_TYPES →
      ((s_traverseAnimTraverseFlags.getD ANIMTYPE_TITAN 0).testBit t = true ↔
        t = TRAVERSE_CLIMB_WALL_TALL ∨ t = TRAVERSE_CLIMB_BUILDING)) ∧
    (∀ t, t < NUM_TRAVERSE_TYPES →
      ((0x00003000 : Nat).testBit t = true ↔
        t = TRAVERSE_JUMP_MEDIUM ∨ t = TRAVERSE_JUMP_LARGE)) ∧
    (∀ tableIndex, tableIndex = ANIMTYPE_TITAN ∨ tableIndex = ANIMTYPE_GOLIATH →
      animTypeSupportsTraverseLink exampleEnv exampleEnv.NAVMESH_SMALL
        ⟨0, 0, 0, 0, 0, 255, TRAVERSE_JUMP_MEDIUM, 0, 0⟩ tableIndex = false ∧
      animTypeSupportsTraverseLink exampleEnv exampleEnv.NAVMESH_SMALL
        ⟨0, 0, 0, 0, 0, 255, TRAVERSE_JUMP_LARGE, 0, 0⟩ tableIndex = false ∧
      animTypeSupportsTraverseLink exampleEnv exampleEnv.NAVMESH_SMALL
        ⟨0, 0, 0, 0, 0, 255, TRAVERSE_CLIMB_WALL_TALL, 0, 0⟩ tableIndex = true ∧
      animTypeSupportsTraverseLink exampleEnv exampleEnv.NAVMESH_SMALL
        ⟨0, 0, 0, 0, 0, 255, TRAVERSE_CLIMB_BUILDING, 0, 0⟩ tableIndex = true) := by
  refine ⟨by decide, by decide, by decide, by decide, by decide, by decide, ?_⟩
  rintro tableIndex (rfl | rfl) <;> decide

/-! ### Powers of two -/

theorem smearedBy_one (m : Nat) : SmearedBy 1 m m := by
  intro i
  constructor
  · intro h
    exact ⟨0, by decide, h⟩
  · rintro ⟨d, hd, h⟩
    have : d = 0 := by omega
    subst this
    exact h

theorem smearedBy_step (n x m : Nat) (h : SmearedBy n x m) :
    SmearedBy (n + n) (x ||| (x >>> n)) m := by
  intro i
  rw [Nat.testBit_or, Nat.testBit_shiftRight, Bool.or_eq_true, h i, h (n + i)]
  constructor
  · rintro (⟨d, hd, hb⟩ | ⟨d, hd, hb⟩)
    · exact ⟨d, by omega, hb⟩
    · refine ⟨n + d, by omega, ?_⟩
      rw [show i + (n + d) = n + i + d by omega]
      exact hb
  · rintro ⟨d, hd, hb⟩
    by_cases hdn : d < n
    · exact Or.inl ⟨d, hdn, hb⟩
    · refine Or.inr ⟨d - n, by omega, ?_⟩
      rw [show n + i + (d - n) = i + d by omega]
      exact hb

theorem smeared_eq (x m k : Nat) (h : SmearedBy 32 x m) (hk : k < 32) (hlo : 2 ^ k ≤ m)
    (hhi : m < 2 ^ (k + 1)) : x = 2 ^ (k + 1) - 1 := by
  apply Nat.eq_of_testBit_eq
  intro i
  rw [Nat.testBit_two_pow_sub_one]
  have hbit : m.testBit k = true := by
    rw [Nat.testBit_to_div_mod, decide_eq_true_eq]
    have : m / 2 ^ k = 1 := by
      apply Nat.div_eq_of_lt_le
      · rw [one_mul]; exact hlo
      · rw [show (1 + 1) * 2 ^ k = 2 ^ (k + 1) by rw [pow_succ]; ring]
        exact hhi
    rw [this]
  by_cases hik : i < k + 1
  · rw [decide_eq_true hik]
    exact (h i).mpr ⟨k - i, by omega, by rw [show i + (k - i) = k by omega]; exact hbit⟩
  · rw [decide_eq_false hik]
    rw [← Bool.not_eq_true]
    intro hx
    obtain ⟨d, -, hb⟩ := (h i).mp hx
    have hlt : m < 2 ^ (i + d) :=
      lt_of_lt_of_le hhi (Nat.pow_le_pow_right (by decide) (by omega))
    rw [Nat.testBit_lt_two_pow hlt] at hb
    cases hb

theorem smeared_zero (x : Nat) (h : SmearedBy 32 x 0) : x = 0 := by
  apply Nat.eq_of_testBit_eq
  intro i
  rw [Nat.zero_testBit, ← Bool.not_eq_true]
  intro hx
  obtain ⟨d, -, hb⟩ := (h i).mp hx
  rw [Nat.zero_testBit] at hb
  cases hb

theorem rdNextPow2_smear (v : Nat) :
    ∃ x, SmearedBy 32 x (sub32 v 1) ∧ rdNextPow2 v = (x + 1) % 2 ^ 32 := by
  refine ⟨_, ?_, rfl⟩
  exact smearedBy_step 16 _ _ (smearedBy_step 8 _ _ (smearedBy_step 4 _ _
    (smearedBy_step 2 _ _ (smearedBy_step 1 _ _ (smearedBy_one _)))))

theorem rdNextPow2_spec (v : Nat) (h1 : 1 ≤ v) (h2 : v ≤ 2 ^ 31) :
    ∃ k, k ≤ 31 ∧ rdNextPow2 v = 2 ^ k ∧ v ≤ 2 ^ k ∧ (0 < k → 2 ^ (k - 1) < v) := by
  obtain ⟨x, hx, hv⟩ := rdNextPow2_smear v
  have hm : sub32 v 1 = v - 1 := by
    unfold sub32
    norm_num at h2 ⊢
    omega
  rw [hm] at hx
  by_cases hv1 : v = 1
  · subst hv1
    have hx0 := smeared_zero x hx
    subst hx0
    exact ⟨0, by omega, by rw [hv]; rfl, by norm_num, fun h => absurd h (lt_irrefl _)⟩
  · have hpos : v - 1 ≠ 0 := by omega
    have hlo := Nat.pow_log_le_self 2 hpos
    have hhi := Nat.lt_pow_succ_log_self (by decide : 1 < 2) (v - 1)
    have hk : Nat.log 2 (v - 1) < 31 := by
      apply (Nat.pow_lt_pow_iff_right (by decide : 1 < 2)).mp
      omega
    have hxe := smeared_eq x (v - 1) (Nat.log 2 (v - 1)) hx (by omega) hlo hhi
    have hpow : 0 < 2 ^ (Nat.log 2 (v - 1) + 1) := Nat.two_pow_pos _
    have hle : 2 ^ (Nat.log 2 (v - 1) + 1) ≤ 2 ^ 31 :=
      Nat.pow_le_pow_right (by decide) (by omega)
    refine ⟨Nat.log 2 (v - 1) + 1, by omega, ?_, by omega, fun _ => ?_⟩
    · rw [hv, hxe, Nat.sub_add_cancel hpow]
      apply Nat.mod_eq_of_lt
      norm_num at hle ⊢
      omega
    · rw [Nat.add_sub_cancel]
      omega

theorem rdIlog2_bounds (v : Nat) (h1 : 1 ≤ v) (h2 : v < 2 ^ 32) :
    2 ^ rdIlog2 v ≤ v ∧ v < 2 ^ (rdIlog2 v + 1) := by
  unfold rdIlog2
  simp only [Nat.shiftRight_eq_div_pow, Nat.shiftLeft_eq]
  norm_num at h2
  split_ifs with c1 c2 c3 c4 c4 c3 c4 c4 c2 c3 c4 c4 c3 c4 c4 <;>
    norm_num at c1 c2 c3 c4 ⊢ <;>
    (generalize hw : _ / 2 = w) <;>
    (have hw1 : w ≤ 1 := by omega) <;>
    interval_cases w <;>
    simp only [Nat.reduceOr, Nat.reducePow, Nat.reduceAdd, Nat.or_zero] <;>
    omega

/-- C30: for every 32-bit `v` with `1 ≤ v ≤ 2 ^ 31`, `rdNextPow2(v)` is a power of two
that is not below `v` and not above any other power of two that is not below `v`, so
a power of two is returned unchanged, and `2 ^ rdIlog2(rdNextPow2(v))` is
`rdNextPow2(v)`; for every 32-bit `v ≥ 1`, `rdIlog2(v)` is the integer part of the
base-2 logarithm of `v`. -/
theorem next_pow2_and_ilog2 (v : Nat) (h1 : 1 ≤ v) :
    (v ≤ 2 ^ 31 →
      (∃ k, rdNextPow2 v = 2 ^ k) ∧ v ≤ rdNextPow2 v ∧
      (∀ j, v ≤ 2 ^ j → rdNextPow2 v ≤ 2 ^ j) ∧
      ((∃ j, v = 2 ^ j) → rdNextPow2 v = v) ∧
      2 ^ rdIlog2 (rdNextPow2 v) = rdNextPow2 v) ∧
    (v < 2 ^ 32 →
      rdIlog2 v = Nat.log 2 v ∧ 2 ^ rdIlog2 v ≤ v ∧ v < 2 ^ (rdIlog2 v + 1)) := by
  constructor
  · intro h2
    obtain ⟨k, hk, hv, hle, hlt⟩ := rdNextPow2_spec v h1 h2
    have hmin : ∀ j, v ≤ 2 ^ j → rdNextPow2 v ≤ 2 ^ j := by
      intro j hj
      rw [hv]
      apply Nat.pow_le_pow_right (by decide)
      by_contra hjk
      have hk0 : 0 < k := by omega
      have h3 := hlt hk0
      have h4 : 2 ^ j ≤ 2 ^ (k - 1) := Nat.pow_le_pow_right (by decide) (by omega)
      omega
    refine ⟨⟨k, hv⟩, by rw [hv]; exact hle, hmin, ?_, ?_⟩
    · rintro ⟨j, hj⟩
      have h5 := hmin j (le_of_eq hj)
      rw [hv] at h5 ⊢
      omega
    · rw [hv]
      have hb := rdIlog2_bounds (2 ^ k) (Nat.two_pow_pos k)
        (Nat.pow_lt_pow_right (by decide) (by omega))
      have e1 : rdIlog2 (2 ^ k) ≤ k :=
        (Nat.pow_le_pow_iff_right (by decide : 1 < 2)).mp hb.1
      have e2 : k < rdIlog2 (2 ^ k) + 1 :=
        (Nat.pow_lt_pow_iff_right (by decide : 1 < 2)).mp hb.2
      have e3 : rdIlog2 (2 ^ k) = k := by omega
      rw [e3]
  · intro h2
    have hb := rdIlog2_bounds v h1 h2
    refine ⟨?_, hb.1, hb.2⟩
    symm
    rw [Nat.log_eq_iff (Or.inr ⟨by decide, by omega⟩)]
    exact hb

/-- Witness of C30: `rdNextPow2(5) = 8`, `rdNextPow2(8) = 8` and `rdIlog2(8) = 3`. -/
theorem next_pow2_and_ilog2_witness :
    rdNextPow2 5 = 8 ∧ 5 ≤ rdNextPow2 5 ∧ rdNextPow2 8 = 8 ∧
    2 ^ rdIlog2 (rdNextPow2 5) = rdNextPow2 5 ∧ rdIlog2 5 = Nat.log 2 5 := by
  have h5 := next_pow2_and_ilog2 5 (by decide)
  have h8 := next_pow2_and_ilog2 8 (by decide)
  obtain ⟨-, a2, -, -, a5⟩ := h5.1 (by decide)
  exact ⟨by decide, a2, (h8.1 (by decide)).2.2.2.1 ⟨3, by decide⟩, a5, (h5.2 (by decide)).1⟩

/-! ### Random point in a convex polygon -/

theorem pickStep_inv (areas : Nat → ℚ) (thr : ℚ) (npts i : Nat) (hi : 2 ≤ i ∧ i ≤ npts - 1)
    (s : ℚ × ℚ × Nat) (hs : 0 ≤ s.2.1 ∧ s.2.1 ≤ 1 ∧ 2 ≤ s.2.2 ∧ s.2.2 ≤ npts - 1) :
    0 ≤ (rdRandomPointInConvexPoly.pickStep areas thr i s).state.2.1 ∧
    (rdRandomPointInConvexPoly.pickStep areas thr i s).state.2.1 ≤ 1 ∧
    2 ≤ (rdRandomPointInConvexPoly.pickStep areas thr i s).state.2.2 ∧
    (rdRandomPointInConvexPoly.pickStep areas thr i s).state.2.2 ≤ npts - 1 := by
  unfold rdRandomPointInConvexPoly.pickStep
  simp only
  split_ifs with h
  · simp only [Flow.state]
    obtain ⟨h1, h2⟩ := h
    have hd : 0 < areas i := by linarith
    refine ⟨div_nonneg (by linarith) (le_of_lt hd), ?_, hi.1, hi.2⟩
    rw [div_le_one hd]
    linarith
  · simp only [Flow.state]
    exact hs

theorem pick_range (pts : Nat → Vec3) (npts : Nat) (areas : Nat → ℚ) (s : ℚ)
    (hn : 3 ≤ npts) :
    0 ≤ (rdRandomPointInConvexPoly.pick pts npts areas s).1 ∧
    (rdRandomPointInConvexPoly.pick pts npts areas s).1 ≤ 1 ∧
    2 ≤ (rdRandomPointInConvexPoly.pick pts npts areas s).2 ∧
    (rdRandomPointInConvexPoly.pick pts npts areas s).2 ≤ npts - 1 := by
  unfold rdRandomPointInConvexPoly.pick
  simp only
  refine forLoop_state_inv
    (fun st : ℚ × ℚ × Nat => 0 ≤ st.2.1 ∧ st.2.1 ≤ 1 ∧ 2 ≤ st.2.2 ∧ st.2.2 ≤ npts - 1) _ _
    (fun i hi st hst => ?_) _ ⟨by norm_num, by norm_num, by show 2 ≤ npts - 1; omega, le_refl _⟩
  rw [List.mem_range'_1] at hi
  exact pickStep_inv _ _ npts i ⟨hi.1, by omega⟩ st hst

theorem pick_rounded_tri_range (fl : ℚ → ℚ) (pts : Nat → Vec3) (npts : Nat)
    (areas : Nat → ℚ) (s : ℚ) (hn : 3 ≤ npts) :
    2 ≤ (rdRandomPointInConvexPoly.pick.rounded fl pts npts areas s).2 ∧
    (rdRandomPointInConvexPoly.pick.rounded fl pts npts areas s).2 ≤ npts - 1 := by
  unfold rdRandomPointInConvexPoly.pick.rounded
  simp only
  refine forLoop_state_inv
    (fun st : ℚ × ℚ × Nat => 2 ≤ st.2.2 ∧ st.2.2 ≤ npts - 1) _ _
    (fun i hi st hst => ?_) _ ⟨by show 2 ≤ npts - 1; omega, le_refl _⟩
  rw [List.mem_range'_1] at hi
  unfold rdRandomPointInConvexPoly.pickStep.rounded
  simp only
  split_ifs with h
  · simp only [Flow.state]
    exact ⟨hi.1, by omega⟩
  · simp only [Flow.state]
    exact hst

/-- C22 (amended): with every `float` operation read as the exact operation, for
every polygon with at least 3 vertices, when the square root `v` of `t` lies in
`[0, 1]`, the point that `rdRandomPointInConvexPoly` writes is
`(1 - v) * pts[0] + ((1 - u) * v) * pts[tri] + (u * v) * pts[tri - 1]` for a fan triangle
index `tri` in `[2, npts - 1]` and a value `u` in `[0, 1]`; the three weights are not
negative and add up to 1, so the point lies in every convex region that contains the
vertices of the polygon. The fan triangle index lies in `[2, npts - 1]` under every
rounding `fl` of the operations as well. -/
theorem random_point_convex_combination (env : Env) (pts : Nat → Vec3) (npts : Nat)
    (areas : Nat → ℚ) (s t : ℚ) (hn : 3 ≤ npts)
    (hv0 : 0 ≤ env.rdMathSqrtf t) (hv1 : env.rdMathSqrtf t ≤ 1) :
    (∃ (tri : Nat) (u : ℚ), 2 ≤ tri ∧ tri ≤ npts - 1 ∧ 0 ≤ u ∧ u ≤ 1 ∧
      (rdRandomPointInConvexPoly env pts npts areas s t).2 =
        ⟨(1 - env.rdMathSqrtf t) * (pts 0).x + ((1 - u) * env.rdMathSqrtf t) * (pts tri).x +
            (u * env.rdMathSqrtf t) * (pts (tri - 1)).x,
          (1 - env.rdMathSqrtf t) * (pts 0).y + ((1 - u) * env.rdMathSqrtf t) * (pts tri).y +
            (u * env.rdMathSqrtf t) * (pts (tri - 1)).y,
          (1 - env.rdMathSqrtf t) * (pts 0).z + ((1 - u) * env.rdMathSqrtf t) * (pts tri).z +
            (u * env.rdMathSqrtf t) * (pts (tri - 1)).z⟩ ∧
      0 ≤ 1 - env.rdMathSqrtf t ∧ 0 ≤ (1 - u) * env.rdMathSqrtf t ∧
      0 ≤ u * env.rdMathSqrtf t ∧
      (1 - env.rdMathSqrtf t) + (1 - u) * env.rdMathSqrtf t + u * env.rdMathSqrtf t = 1 ∧
      ∀ S : Vec3 → Prop, ConvexRegion S → (∀ i, i < npts → S (pts i)) →
        S (rdRandomPointInConvexPoly env pts npts areas s t).2) ∧
    ∀ fl : ℚ → ℚ, 2 ≤ (rdRandomPointInConvexPoly.pick.rounded fl pts npts areas s).2 ∧
      (rdRandomPointInConvexPoly.pick.rounded fl pts npts areas s).2 ≤ npts - 1 := by
  refine ⟨?_, fun fl => pick_rounded_tri_range fl pts npts areas s hn⟩
  obtain ⟨hu0, hu1, ht2, htn⟩ := pick_range pts npts areas s hn
  refine ⟨(rdRandomPointInConvexPoly.pick pts npts areas s).2,
    (rdRandomPointInConvexPoly.pick pts npts areas s).1, ht2, htn, hu0, hu1, rfl,
    by linarith, mul_nonneg (by linarith) hv0, mul_nonneg hu0 hv0, by ring, ?_⟩
  intro S hS hpts
  have hb := hS _ _ (hpts (rdRandomPointInConvexPoly.pick pts npts areas s).2 (by omega))
    (hpts ((rdRandomPointInConvexPoly.pick pts npts areas s).2 - 1) (by omega))
    (rdRandomPointInConvexPoly.pick pts npts areas s).1 hu0 hu1
  have ha := hS _ _ (hpts 0 (by omega)) hb (env.rdMathSqrtf t) hv0 hv1
  have e : (rdRandomPointInConvexPoly env pts npts areas s t).2 =
      ⟨(1 - env.rdMathSqrtf t) * (pts 0).x + env.rdMathSqrtf t *
          ((1 - (rdRandomPointInConvexPoly.pick pts npts areas s).1) *
              (pts (rdRandomPointInConvexPoly.pick pts npts areas s).2).x +
            (rdRandomPointInConvexPoly.pick pts npts areas s).1 *
              (pts ((rdRandomPointInConvexPoly.pick pts npts areas s).2 - 1)).x),
        (1 - env.rdMathSqrtf t) * (pts 0).y + env.rdMathSqrtf t *
          ((1 - (rdRandomPointInConvexPoly.pick pts npts areas s).1) *
              (pts (rdRandomPointInConvexPoly.pick pts npts areas s).2).y +
            (rdRandomPointInConvexPoly.pick pts npts areas s).1 *
              (pts ((rdRandomPointInConvexPoly.pick pts npts areas s).2 - 1)).y),
        (1 - env.rdMathSqrtf t) * (pts 0).z + env.rdMathSqrtf t *
          ((1 - (rdRandomPointInConvexPoly.pick pts npts areas s).1) *
              (pts (rdRandomPointInConvexPoly.pick pts npts areas s).2).z +
            (rdRandomPointInConvexPoly.pick pts npts areas s).1 *
              (pts ((rdRandomPointInConvexPoly.pick pts npts areas s).2 - 1)).z)⟩ := by
    unfold rdRandomPointInConvexPoly
    simp only [Vec3.mk.injEq]
    refine ⟨by ring, by ring, by ring⟩
  rw [e]
  exact ha

/-- Witness of C22 (amended): the quad of the example tile with `s = 1 / 2` and `t = 1 / 4`,
whose square root is `1 / 2`; the point lies in the half-space `x ≥ 30`. -/
theorem random_point_convex_combination_witness :
    (rdRandomPointInConvexPoly exampleEnv gapTileVerts 4 (fun _ => 0) (1 / 2) (1 / 4)).2 =
      ⟨30, 5, 0⟩ ∧
    30 ≤ (rdRandomPointInConvexPoly exampleEnv gapTileVerts 4 (fun _ => 0) (1 / 2) (1 / 4)).2.x := by
  obtain ⟨⟨_, _, -, -, -, -, -, -, -, -, -, h⟩, -⟩ :=
    random_point_convex_combination exampleEnv gapTileVerts 4 (fun _ => 0) (1 / 2) (1 / 4)
      (by decide) (by decide!) (by decide!)
  refine ⟨by decide!, h (fun p => 30 ≤ p.x) ?_ ?_⟩
  · intro x y hx hy k hk0 hk1
    show 30 ≤ (1 - k) * x.x + k * y.x
    have h1 : 0 ≤ (1 - k) * (x.x - 30) := mul_nonneg (by linarith) (by linarith)
    have h2 : 0 ≤ k * (y.x - 30) := mul_nonneg hk0 (by linarith)
    nlinarith
  · intro i hi
    interval_cases i <;> decide!

/-! ### The same-tile pass and the base polygon -/

theorem baseEdgeStep_sameTile_zero (env : Env) (b j : Nat) (s : ConnectState) :
    (baseEdgeStep env false b 0 j s).state = s := by
  unfold baseEdgeStep
  by_cases hn : ((s.editor.tile b).polys 0).neis j ≠ 0
  · rw [if_pos hn]; rfl
  · rw [if_neg hn]
    simp [landTileStep, forLoop, Flow.state, List.range, List.range.loop]

theorem landTileStep_sameTile_pos (env : Env) (b i j baseSide : Nat) (s : ConnectState)
    (hi : i ≠ 0) (hav : (s.editor.tile b).linkCountAvailable 1 = true) :
    landTileStep env false b i j baseSide [b] 0 s =
      forLoop (landPolyStep env false b i j baseSide b)
        (List.range (s.editor.tile b).hdr.polyCount)
        { s with firstLandTileLinkUsed := false } := by
  unfold landTileStep
  simp [hi, hav]

/-- The test under the comment `Skip same polygon` compares the index `i` of the base
polygon with the index `k` of the neighbour tile, which is always 0 in the same-tile
pass: for every editor, base polygon 0 never gets a link in the same-tile pass, and
for every other base polygon the loop over the land polygons runs over all polygons
of the tile, the base polygon included. What keeps a polygon from being linked to
itself is the geometry of convex polygons, not this test: on the tile with a notch,
whose polygon 1 is not convex, `connectTileTraverseLinks` installs two pairs of links
whose base polygon and land polygon are both polygon 1 (edge 2 to edge 3 and edge 3
to edge 2). -/
theorem skip_test_compares_neighbour_index :
    (connectTileTraverseLinks exampleEnv notchEditor 0 false).installed.map
        (fun e => (e.baseTile, e.landTile, e.basePoly, e.baseEdge, e.landPoly, e.landEdge)) =
      [(0, 0, 1, 2, 1, 3), (0, 0, 1, 3, 1, 2)] ∧
    ¬ (notchEditor.tile 0).ConvexOutward exampleEnv 1 ∧
    (∀ (env : Env) (ed : Editor) (b : Nat) (e : InstalledPair),
      e ∈ (connectTileTraverseLinks env ed b false).installed → e.basePoly ≠ 0) ∧
    (∀ (env : Env) (b i j baseSide : Nat) (s : ConnectState), i ≠ 0 →
      (s.editor.tile b).linkCountAvailable 1 = true →
      landTileStep env false b i j baseSide [b] 0 s =
        forLoop (landPolyStep env false b i j baseSide b)
          (List.range (s.editor.tile b).hdr.polyCount)
          { s with firstLandTileLinkUsed := false }) := by
  refine ⟨by decide!, by decide!, ?_, landTileStep_sameTile_pos⟩
  intro env ed b
  unfold connectTileTraverseLinks
  simp only
  by_cases h0 : (!(ed.tile b).linkCountAvailable (if false = true then 1 else 2)) = true
  · rw [if_pos h0]
    intro e he
    simp at he
  · rw [if_neg h0]
    refine forLoop_state_inv
      (fun s : ConnectState => ∀ e : InstalledPair, e ∈ s.installed → e.basePoly ≠ 0) _ _
      (fun i _ s hs => ?_) _ (fun e he => by simp at he)
    unfold basePolyStep
    by_cases hg : ((s.editor.tile b).polys i).groupId = DT_UNLINKED_POLY_GROUP
    · rw [if_pos hg]; exact hs
    · rw [if_neg hg]
      by_cases hi : i = 0
      · subst hi
        have hsame : (forLoop (baseEdgeStep env false b 0)
            (List.range ((s.editor.tile b).polys 0).vertCount) s).state = s :=
          forLoop_state_inv (fun s2 : ConnectState => s2 = s) _ _
            (fun j _ s2 hs2 => by
              show (baseEdgeStep env false b 0 j s2).state = s
              rw [baseEdgeStep_sameTile_zero, hs2]) s rfl
        rw [hsame]
        exact hs
      · exact forLoop_state_inv
          (fun s : ConnectState => ∀ e : InstalledPair, e ∈ s.installed → e.basePoly ≠ 0) _ _
          (fun j _ s3 hs3 => baseEdgeStep_inv env false b i j
            (fun s : ConnectState => ∀ e : InstalledPair, e ∈ s.installed → e.basePoly ≠ 0)
            (fun _ (s : ConnectState) => ∀ e : InstalledPair, e ∈ s.installed → e.basePoly ≠ 0)
            (fun _ _ h => h) (fun _ _ h _ _ _ => h)
            (fun lt m n baseSide c s4 hK _ _ _ _ _ e he => by
              rw [installed_installLinkPair, List.mem_append, List.mem_singleton] at he
              rcases he with he | he
              · exact hK e he
              · rw [he]; exact hi)
            s3 hs3)
          s hs

/-! ### No link from a convex polygon to itself -/

/-- A convex polygon in counter-clockwise order, every vertex on the left of or on
every directed edge, is convex with outward normals when the edge normal is a multiple
`c ≥ 0` of `(dir.y, -dir.x)`, the vector that `rdCalcEdgeNormal2D` of `SharedCommon.cpp`
scales to unit length. -/
theorem convexOutward_of_ccw (env : Env) (t : dtMeshTile) (p : Nat)
    (hnormal : ∀ dir : Vec3, ∃ c : ℚ, 0 ≤ c ∧
      (env.rdCalcEdgeNormal2D dir false).x = c * dir.y ∧
      (env.rdCalcEdgeNormal2D dir false).y = -(c * dir.x))
    (hccw : ∀ j, j < (t.polys p).vertCount → ∀ k, k < (t.polys p).vertCount →
      0 ≤ rdVperp2D
        (rdVsub (t.verts ((t.polys p).verts ((j + 1) % (t.polys p).vertCount)))
          (t.verts ((t.polys p).verts j)))
        (rdVsub (t.verts ((t.polys p).verts k)) (t.verts ((t.polys p).verts j)))) :
    t.ConvexOutward env p := by
  intro j hj
  obtain ⟨c, hc, hx, hy⟩ := hnormal
    (rdVsub (t.verts ((t.polys p).verts ((j + 1) % (t.polys p).vertCount)))
      (t.verts ((t.polys p).verts j)))
  refine ⟨?_, fun k hk => ?_⟩
  · simp only [rdVdot2D, hx, hy]
    ring
  · have h := hccw j hj k hk
    simp only [rdVdot2D, hx, hy]
    simp only [rdVperp2D] at h
    have e : ∀ a b u v : ℚ, a * (c * v) + b * -(c * u) = -(c * (u * b - v * a)) := by
      intro a b u v; ring
    rw [e]
    exact neg_nonpos.mpr (mul_nonneg hc h)

theorem gram_no_escape (A B C d1 d2 : ℚ) (hA : 0 < A) (hC : 0 < C) (hD : B * B < A * C)
    (hy : A * d2 - B * d1 < 0) (h1 : d1 < 0) (h2 : 0 < d2)
    (h5 : 0 < C * d1 - B * d2 ∨ (C < d2 ∧ d2 - C < d1 - B)) : False := by
  rcases h5 with h5 | ⟨h5, h6⟩
  · have hu : 0 < -d1 := by linarith
    have hP1 : 0 < B * d1 - A * d2 := by linarith
    nlinarith [mul_pos hP1 h5, mul_pos (mul_pos hC hu) hP1, mul_pos (mul_pos hA h2) h5,
      mul_pos (mul_pos hu h2) (sub_pos.2 hD)]
  · have hB : 0 < -B := by linarith
    nlinarith [mul_pos hA (sub_pos.2 h5), mul_pos hB (sub_pos.2 (show B < d1 by linarith))]

theorem gram_edge_pos (A B C : ℚ) (hA : 0 < A) (hC : 0 < C) (hD : B * B < A * C) :
    0 < A - 2 * B + C := by
  nlinarith [sq_nonneg (A - C), sq_nonneg (A + C - 2 * B), sq_nonneg (A + C + 2 * B)]

theorem region_tests_exhaustive (A B C d1 d2 : ℚ) (hA : 0 < A) (hC : 0 < C)
    (hD : B * B < A * C)
    (n1 : ¬ (d1 ≤ 0 ∧ d2 ≤ 0))
    (n2 : ¬ (d1 - A ≥ 0 ∧ d2 - B ≤ d1 - A))
    (n3 : ¬ (d1 * (d2 - B) - (d1 - A) * d2 ≤ 0 ∧ d1 ≥ 0 ∧ d1 - A ≤ 0))
    (n4 : ¬ (d2 - C ≥ 0 ∧ d1 - B ≤ d2 - C))
    (n5 : ¬ ((d1 - B) * d2 - d1 * (d2 - C) ≤ 0 ∧ d2 ≥ 0 ∧ d2 - C ≤ 0))
    (n6 : ¬ ((d1 - A) * (d2 - C) - (d1 - B) * (d2 - B) ≤ 0 ∧ (d2 - B) - (d1 - A) ≥ 0 ∧
      (d1 - B) - (d2 - C) ≥ 0)) :
    0 ≤ (d1 - A) * (d2 - C) - (d1 - B) * (d2 - B) ∧
    0 ≤ (d1 - B) * d2 - d1 * (d2 - C) ∧
    0 ≤ d1 * (d2 - B) - (d1 - A) * d2 := by
  have hE := gram_edge_pos A B C hA hC hD
  have hDB : (A - B) * (A - B) < A * (A - 2 * B + C) := by nlinarith
  have hDC : (C - B) * (C - B) < C * (A - 2 * B + C) := by nlinarith
  have hDB2 : (A - B) * (A - B) < (A - 2 * B + C) * A := by nlinarith
  have hDC2 : (C - B) * (C - B) < (A - 2 * B + C) * C := by nlinarith
  have hD2 : B * B < C * A := by nlinarith
  refine ⟨?_, ?_, ?_⟩
  · -- the weight of `a`
    by_contra hz
    push_neg at hz
    have hz2 : ¬ ((d2 - B) - (d1 - A) ≥ 0 ∧ (d1 - B) - (d2 - C) ≥ 0) :=
      fun h => n6 ⟨le_of_lt hz, h⟩
    by_cases hb2 : (d2 - B) - (d1 - A) ≥ 0
    · have hg2 : (d1 - B) - (d2 - C) < 0 := by
        by_contra h; exact hz2 ⟨hb2, not_lt.mp h⟩
      have hg1 : d2 - C < 0 := by
        by_contra h; exact n4 ⟨not_lt.mp h, by linarith⟩
      refine gram_no_escape (A - 2 * B + C) (C - B) C ((d1 - B) - (d2 - C)) (-(d2 - C))
        hE hC hDC2 (by nlinarith) hg2 (by linarith) ?_
      by_cases hvb : 0 < (d1 - B) * d2 - d1 * (d2 - C)
      · left; nlinarith
      · right
        have hd2 : d2 < 0 := by
          by_contra h
          exact n5 ⟨not_lt.mp hvb, not_lt.mp h, le_of_lt hg1⟩
        have hd1 : 0 < d1 := by
          by_contra h
          exact n1 ⟨not_lt.mp h, le_of_lt hd2⟩
        exact ⟨by linarith, by linarith⟩
    · have hb2n : (d2 - B) - (d1 - A) < 0 := not_le.mp hb2
      have hb1 : d1 - A < 0 := by
        by_contra h; exact n2 ⟨not_lt.mp h, by linarith⟩
      refine gram_no_escape (A - 2 * B + C) (A - B) A ((d2 - B) - (d1 - A)) (-(d1 - A))
        hE hA hDB2 (by nlinarith) hb2n (by linarith) ?_
      by_cases hvc : 0 < d1 * (d2 - B) - (d1 - A) * d2
      · left; nlinarith
      · right
        have hd1 : d1 < 0 := by
          by_contra h
          exact n3 ⟨not_lt.mp hvc, not_lt.mp h, le_of_lt hb1⟩
        have hd2 : 0 < d2 := by
          by_contra h
          exact n1 ⟨le_of_lt hd1, not_lt.mp h⟩
        exact ⟨by linarith, by linarith⟩
  · -- the weight of `b`
    by_contra hx
    push_neg at hx
    have hx2 : ¬ (d2 ≥ 0 ∧ d2 - C ≤ 0) := fun h => n5 ⟨le_of_lt hx, h⟩
    by_cases hd2 : d2 ≥ 0
    · have hg1 : 0 < d2 - C := by
        by_contra h; exact hx2 ⟨hd2, not_lt.mp h⟩
      have hg2 : d2 - C < d1 - B := by
        by_contra h; exact n4 ⟨le_of_lt hg1, not_lt.mp h⟩
      refine gram_no_escape C (C - B) (A - 2 * B + C) (-(d2 - C)) ((d1 - B) - (d2 - C))
        hC hE hDC (by nlinarith) (by linarith) (by linarith) ?_
      by_cases hva : 0 < (d1 - A) * (d2 - C) - (d1 - B) * (d2 - B)
      · left; nlinarith
      · right
        have hb2 : (d2 - B) - (d1 - A) < 0 := by
          by_contra h
          exact n6 ⟨not_lt.mp hva, not_lt.mp h, by linarith⟩
        have hb1 : d1 - A < 0 := by
          by_contra h
          exact n2 ⟨not_lt.mp h, by linarith⟩
        exact ⟨by linarith, by linarith⟩
    · have hd2n : d2 < 0 := not_le.mp hd2
      have hd1 : 0 < d1 := by
        by_contra h; exact n1 ⟨not_lt.mp h, le_of_lt hd2n⟩
      refine gram_no_escape C B A d2 d1 hC hA hD2 (by nlinarith) hd2n hd1 ?_
      by_cases hvc : 0 < d1 * (d2 - B) - (d1 - A) * d2
      · left; nlinarith
      · right
        have hb1 : 0 < d1 - A := by
          by_contra h
          exact n3 ⟨not_lt.mp hvc, le_of_lt hd1, not_lt.mp h⟩
        have hb2 : d1 - A < d2 - B := by
          by_contra h
          exact n2 ⟨le_of_lt hb1, not_lt.mp h⟩
        exact ⟨by linarith, by linarith⟩
  · -- the weight of `c`
    by_contra hy
    push_neg at hy
    have hy2 : ¬ (d1 ≥ 0 ∧ d1 - A ≤ 0) := fun h => n3 ⟨le_of_lt hy, h⟩
    by_cases hd1 : d1 ≥ 0
    · have hb1 : 0 < d1 - A := by
        by_contra h; exact hy2 ⟨hd1, not_lt.mp h⟩
      have hb2 : d1 - A < d2 - B := by
        by_contra h; exact n2 ⟨le_of_lt hb1, not_lt.mp h⟩
      refine gram_no_escape A (A - B) (A - 2 * B + C) (-(d1 - A)) ((d2 - B) - (d1 - A))
        hA hE hDB (by nlinarith) (by linarith) (by linarith) ?_
      by_cases hva : 0 < (d1 - A) * (d2 - C) - (d1 - B) * (d2 - B)
      · left; nlinarith
      · right
        have hg2 : (d1 - B) - (d2 - C) < 0 := by
          by_contra h
          exact n6 ⟨not_lt.mp hva, by linarith, not_lt.mp h⟩
        have hg1 : d2 - C < 0 := by
          by_contra h
          exact n4 ⟨not_lt.mp h, by linarith⟩
        exact ⟨by linarith, by linarith⟩
    · have hd1n : d1 < 0 := not_le.mp hd1
      have hd2 : 0 < d2 := by
        by_contra h; exact n1 ⟨le_of_lt hd1n, not_lt.mp h⟩
      refine gram_no_escape A B C d1 d2 hA hC hD (by nlinarith) hd1n hd2 ?_
      by_cases hvb : 0 < (d1 - B) * d2 - d1 * (d2 - C)
      · left; nlinarith
      · right
        have hg1 : 0 < d2 - C := by
          by_contra h
          exact n5 ⟨not_lt.mp hvb, le_of_lt hd2, not_lt.mp h⟩
        have hg2 : d2 - C < d1 - B := by
          by_contra h
          exact n4 ⟨le_of_lt hg1, not_lt.mp h⟩
        exact ⟨by linarith, by linarith⟩

theorem closest_of_gradient (p a b c : Vec3) (v w : ℚ)
    (h0 : 0 ≤ v * (rdVdot (rdVsub b a) (rdVsub p a) - v * rdVdot (rdVsub b a) (rdVsub b a) -
        w * rdVdot (rdVsub b a) (rdVsub c a)) +
      w * (rdVdot (rdVsub c a) (rdVsub p a) - v * rdVdot (rdVsub b a) (rdVsub c a) -
        w * rdVdot (rdVsub c a) (rdVsub c a)))
    (h1 : (1 - v) * (rdVdot (rdVsub b a) (rdVsub p a) - v * rdVdot (rdVsub b a) (rdVsub b a) -
        w * rdVdot (rdVsub b a) (rdVsub c a)) -
      w * (rdVdot (rdVsub c a) (rdVsub p a) - v * rdVdot (rdVsub b a) (rdVsub c a) -
        w * rdVdot (rdVsub c a) (rdVsub c a)) ≤ 0)
    (h2 : (1 - w) * (rdVdot (rdVsub c a) (rdVsub p a) - v * rdVdot (rdVsub b a) (rdVsub c a) -
        w * rdVdot (rdVsub c a) (rdVsub c a)) -
      v * (rdVdot (rdVsub b a) (rdVsub p a) - v * rdVdot (rdVsub b a) (rdVsub b a) -
        w * rdVdot (rdVsub b a) (rdVsub c a)) ≤ 0)
    (v2 w2 : ℚ) (hv2 : 0 ≤ v2) (hw2 : 0 ≤ w2) (hvw2 : v2 + w2 ≤ 1) :
    rdVdistSqr p (trianglePoint a b c v w) ≤ rdVdistSqr p (trianglePoint a b c v2 w2) := by
  have key : rdVdistSqr p (trianglePoint a b c v2 w2) - rdVdistSqr p (trianglePoint a b c v w) =
      ((v2 - v) * (b.x - a.x) + (w2 - w) * (c.x - a.x)) ^ 2 +
      ((v2 - v) * (b.y - a.y) + (w2 - w) * (c.y - a.y)) ^ 2 +
      ((v2 - v) * (b.z - a.z) + (w2 - w) * (c.z - a.z)) ^ 2 -
      2 * ((v2 - v) * (rdVdot (rdVsub b a) (rdVsub p a) -
          v * rdVdot (rdVsub b a) (rdVsub b a) - w * rdVdot (rdVsub b a) (rdVsub c a)) +
        (w2 - w) * (rdVdot (rdVsub c a) (rdVsub p a) -
          v * rdVdot (rdVsub b a) (rdVsub c a) - w * rdVdot (rdVsub c a) (rdVsub c a))) := by
    simp only [rdVdot, rdVsub, rdVdistSqr, trianglePoint]
    ring
  generalize rdVdot (rdVsub b a) (rdVsub p a) - v * rdVdot (rdVsub b a) (rdVsub b a) -
    w * rdVdot (rdVsub b a) (rdVsub c a) = g1 at h0 h1 h2 key
  generalize rdVdot (rdVsub c a) (rdVsub p a) - v * rdVdot (rdVsub b a) (rdVsub c a) -
    w * rdVdot (rdVsub c a) (rdVsub c a) = g2 at h0 h1 h2 key
  have k0 := mul_nonneg (show 0 ≤ 1 - v2 - w2 by linarith) h0
  have k1 := mul_nonneg hv2 (neg_nonneg.2 h1)
  have k2 := mul_nonneg hw2 (neg_nonneg.2 h2)
  have hL : (v2 - v) * g1 + (w2 - w) * g2 =
      -((1 - v2 - w2) * (v * g1 + w * g2)) - v2 * (-((1 - v) * g1 - w * g2)) -
        w2 * (-((1 - w) * g2 - v * g1)) := by ring
  have s1 := sq_nonneg ((v2 - v) * (b.x - a.x) + (w2 - w) * (c.x - a.x))
  have s2 := sq_nonneg ((v2 - v) * (b.y - a.y) + (w2 - w) * (c.y - a.y))
  have s3 := sq_nonneg ((v2 - v) * (b.z - a.z) + (w2 - w) * (c.z - a.z))
  rw [hL] at key
  linarith

theorem gram_of_cross (a b c : Vec3)
    (hnd : rdVcross (rdVsub b a) (rdVsub c a) ≠ ⟨0, 0, 0⟩) :
    0 < rdVdot (rdVsub b a) (rdVsub b a) ∧ 0 < rdVdot (rdVsub c a) (rdVsub c a) ∧
    rdVdot (rdVsub b a) (rdVsub c a) * rdVdot (rdVsub b a) (rdVsub c a) <
      rdVdot (rdVsub b a) (rdVsub b a) * rdVdot (rdVsub c a) (rdVsub c a) := by
  simp only [rdVcross, rdVsub, rdVdot, ne_eq, Vec3.mk.injEq] at hnd ⊢
  generalize b.x - a.x = ux at hnd ⊢
  generalize b.y - a.y = uy at hnd ⊢
  generalize b.z - a.z = uz at hnd ⊢
  generalize c.x - a.x = wx at hnd ⊢
  generalize c.y - a.y = wy at hnd ⊢
  generalize c.z - a.z = wz at hnd ⊢
  have hsum : 0 < (uy * wz - uz * wy) ^ 2 + (uz * wx - ux * wz) ^ 2 + (ux * wy - uy * wx) ^ 2 := by
    by_contra h
    apply hnd
    have h1 := sq_nonneg (uy * wz - uz * wy)
    have h2 := sq_nonneg (uz * wx - ux * wz)
    have h3 := sq_nonneg (ux * wy - uy * wx)
    refine ⟨?_, ?_, ?_⟩
    · exact pow_eq_zero_iff (two_ne_zero) |>.mp (by linarith)
    · exact pow_eq_zero_iff (two_ne_zero) |>.mp (by linarith)
    · exact pow_eq_zero_iff (two_ne_zero) |>.mp (by linarith)
  have hD : (ux * wx + uy * wy + uz * wz) * (ux * wx + uy * wy + uz * wz) <
      (ux * ux + uy * uy + uz * uz) * (wx * wx + wy * wy + wz * wz) := by
    nlinarith
  have hA0 : 0 ≤ ux * ux + uy * uy + uz * uz := by
    linarith [mul_self_nonneg ux, mul_self_nonneg uy, mul_self_nonneg uz]
  have hC0 : 0 ≤ wx * wx + wy * wy + wz * wz := by
    linarith [mul_self_nonneg wx, mul_self_nonneg wy, mul_self_nonneg wz]
  have hB0 := mul_self_nonneg (ux * wx + uy * wy + uz * wz)
  refine ⟨?_, ?_, hD⟩
  · rcases eq_or_lt_of_le hA0 with h | h
    · rw [← h, zero_mul] at hD; linarith
    · exact h
  · rcases eq_or_lt_of_le hC0 with h | h
    · rw [← h, mul_zero] at hD; linarith
    · exact h

theorem trianglePoint_a (a b c : Vec3) : trianglePoint a b c 0 0 = a := by
  cases a
  simp [trianglePoint]

theorem trianglePoint_b (a b c : Vec3) : trianglePoint a b c 1 0 = b := by
  cases b
  simp [trianglePoint]

theorem trianglePoint_c (a b c : Vec3) : trianglePoint a b c 0 1 = c := by
  cases c
  simp [trianglePoint]

theorem nonneg_of_pos_mul {A x : ℚ} (hA : 0 < A) (h : 0 ≤ A * x) : 0 ≤ x := by
  by_contra hx
  have := mul_pos hA (neg_pos.2 (not_le.mp hx))
  linarith

theorem closest_branches (p a b c : Vec3)
    (hnd : rdVcross (rdVsub b a) (rdVsub c a) ≠ ⟨0, 0, 0⟩) :
    ∃ v w : ℚ, 0 ≤ v ∧ 0 ≤ w ∧ v + w ≤ 1 ∧
      rdClosestPtPointTriangle p a b c = trianglePoint a b c v w ∧
      0 ≤ v * (rdVdot (rdVsub b a) (rdVsub p a) - v * rdVdot (rdVsub b a) (rdVsub b a) -
          w * rdVdot (rdVsub b a) (rdVsub c a)) +
        w * (rdVdot (rdVsub c a) (rdVsub p a) - v * rdVdot (rdVsub b a) (rdVsub c a) -
          w * rdVdot (rdVsub c a) (rdVsub c a)) ∧
      (1 - v) * (rdVdot (rdVsub b a) (rdVsub p a) - v * rdVdot (rdVsub b a) (rdVsub b a) -
          w * rdVdot (rdVsub b a) (rdVsub c a)) -
        w * (rdVdot (rdVsub c a) (rdVsub p a) - v * rdVdot (rdVsub b a) (rdVsub c a) -
          w * rdVdot (rdVsub c a) (rdVsub c a)) ≤ 0 ∧
      (1 - w) * (rdVdot (rdVsub c a) (rdVsub p a) - v * rdVdot (rdVsub b a) (rdVsub c a) -
          w * rdVdot (rdVsub c a) (rdVsub c a)) -
        v * (rdVdot (rdVsub b a) (rdVsub p a) - v * rdVdot (rdVsub b a) (rdVsub b a) -
          w * rdVdot (rdVsub b a) (rdVsub c a)) ≤ 0 := by
  obtain ⟨hA, hC, hD⟩ := gram_of_cross a b c hnd
  have e3 : rdVdot (rdVsub b a) (rdVsub p b) =
      rdVdot (rdVsub b a) (rdVsub p a) - rdVdot (rdVsub b a) (rdVsub b a) := by
    simp only [rdVdot, rdVsub]; ring
  have e4 : rdVdot (rdVsub c a) (rdVsub p b) =
      rdVdot (rdVsub c a) (rdVsub p a) - rdVdot (rdVsub b a) (rdVsub c a) := by
    simp only [rdVdot, rdVsub]; ring
  have e5 : rdVdot (rdVsub b a) (rdVsub p c) =
      rdVdot (rdVsub b a) (rdVsub p a) - rdVdot (rdVsub b a) (rdVsub c a) := by
    simp only [rdVdot, rdVsub]; ring
  have e6 : rdVdot (rdVsub c a) (rdVsub p c) =
      rdVdot (rdVsub c a) (rdVsub p a) - rdVdot (rdVsub c a) (rdVsub c a) := by
    simp only [rdVdot, rdVsub]; ring
  unfold rdClosestPtPointTriangle
  simp only [e3, e4, e5, e6]
  generalize rdVdot (rdVsub b a) (rdVsub p a) = d1
  generalize rdVdot (rdVsub c a) (rdVsub p a) = d2
  generalize rdVdot (rdVsub b a) (rdVsub b a) = A at hA hD ⊢
  generalize rdVdot (rdVsub b a) (rdVsub c a) = B at hD ⊢
  generalize rdVdot (rdVsub c a) (rdVsub c a) = C at hC hD ⊢
  have hE := gram_edge_pos A B C hA hC hD
  split_ifs with t1 t2 t3 t4 t5 t6
  · exact ⟨0, 0, le_refl _, le_refl _, by norm_num, (trianglePoint_a a b c).symm,
      by linarith [t1.1, t1.2], by linarith [t1.1, t1.2], by linarith [t1.1, t1.2]⟩
  · exact ⟨1, 0, by norm_num, le_refl _, by norm_num, (trianglePoint_b a b c).symm,
      by linarith [t2.1, t2.2], by linarith [t2.1, t2.2], by linarith [t2.1, t2.2]⟩
  · refine ⟨d1 / (d1 - (d1 - A)), 0, ?_⟩
    have e : d1 - (d1 - A) = A := by ring
    rw [e]
    have hv : d1 / A * A = d1 := div_mul_cancel₀ d1 (ne_of_gt hA)
    generalize d1 / A = v at hv ⊢
    subst hv
    obtain ⟨c1, c2, c3⟩ := t3
    have hv0 : 0 ≤ v := nonneg_of_pos_mul hA (by linarith)
    have hv1 : v ≤ 1 := by
      have : 0 ≤ A * (1 - v) := by linarith
      linarith [nonneg_of_pos_mul hA this]
    have hg2 : d2 - v * B ≤ 0 := by
      have : 0 ≤ A * (-(d2 - v * B)) := by linarith
      linarith [nonneg_of_pos_mul hA this]
    refine ⟨hv0, le_refl _, by linarith, ?_, by linarith, by linarith, by linarith⟩
    simp only [trianglePoint, rdVsub, zero_mul, add_zero]
  · exact ⟨0, 1, le_refl _, by norm_num, by norm_num, (trianglePoint_c a b c).symm,
      by linarith [t4.1, t4.2], by linarith [t4.1, t4.2], by linarith [t4.1, t4.2]⟩
  · refine ⟨0, d2 / (d2 - (d2 - C)), ?_⟩
    have e : d2 - (d2 - C) = C := by ring
    rw [e]
    have hw : d2 / C * C = d2 := div_mul_cancel₀ d2 (ne_of_gt hC)
    generalize d2 / C = w at hw ⊢
    subst hw
    obtain ⟨c1, c2, c3⟩ := t5
    have hw0 : 0 ≤ w := nonneg_of_pos_mul hC (by linarith)
    have hw1 : w ≤ 1 := by
      have : 0 ≤ C * (1 - w) := by linarith
      linarith [nonneg_of_pos_mul hC this]
    have hg1 : d1 - w * B ≤ 0 := by
      have : 0 ≤ C * (-(d1 - w * B)) := by linarith
      linarith [nonneg_of_pos_mul hC this]
    refine ⟨le_refl _, hw0, by linarith, ?_, by linarith, by linarith, by linarith⟩
    simp only [trianglePoint, rdVsub, zero_mul, add_zero]
  · refine ⟨1 - (d2 - B - (d1 - A)) / (d2 - B - (d1 - A) + (d1 - B - (d2 - C))),
      (d2 - B - (d1 - A)) / (d2 - B - (d1 - A) + (d1 - B - (d2 - C))), ?_⟩
    have e : d2 - B - (d1 - A) + (d1 - B - (d2 - C)) = A - 2 * B + C := by ring
    rw [e]
    have hw : (d2 - B - (d1 - A)) / (A - 2 * B + C) * (A - 2 * B + C) = d2 - B - (d1 - A) :=
      div_mul_cancel₀ _ (ne_of_gt hE)
    generalize (d2 - B - (d1 - A)) / (A - 2 * B + C) = w at hw ⊢
    obtain ⟨c1, c2, c3⟩ := t6
    have hd2 : d2 = w * (A - 2 * B + C) + B + d1 - A := by linarith
    subst hd2
    have hw0 : 0 ≤ w := nonneg_of_pos_mul hE (by linarith)
    have hw1 : w ≤ 1 := by
      have : 0 ≤ (A - 2 * B + C) * (1 - w) := by linarith
      linarith [nonneg_of_pos_mul hE this]
    have hg : 0 ≤ d1 - A + w * (A - B) := by
      have : 0 ≤ (A - 2 * B + C) * (d1 - A + w * (A - B)) := by linarith
      exact nonneg_of_pos_mul hE this
    refine ⟨by linarith, hw0, by linarith, ?_, by linarith, by linarith, by linarith⟩
    simp only [trianglePoint, Vec3.mk.injEq]
    refine ⟨by ring, by ring, by ring⟩
  · obtain ⟨k1, k2, k3⟩ := region_tests_exhaustive A B C d1 d2 hA hC hD t1 t2 t3 t4 t5 t6
    have hDn : (d1 - A) * (d2 - C) - (d1 - B) * (d2 - B) + ((d1 - B) * d2 - d1 * (d2 - C)) +
        (d1 * (d2 - B) - (d1 - A) * d2) = A * C - B * B := by ring
    have hDpos : 0 < A * C - B * B := by linarith
    refine ⟨((d1 - B) * d2 - d1 * (d2 - C)) *
        (1 / ((d1 - A) * (d2 - C) - (d1 - B) * (d2 - B) + ((d1 - B) * d2 - d1 * (d2 - C)) +
          (d1 * (d2 - B) - (d1 - A) * d2))),
      (d1 * (d2 - B) - (d1 - A) * d2) *
        (1 / ((d1 - A) * (d2 - C) - (d1 - B) * (d2 - B) + ((d1 - B) * d2 - d1 * (d2 - C)) +
          (d1 * (d2 - B) - (d1 - A) * d2))), ?_⟩
    rw [hDn]
    have hv : ((d1 - B) * d2 - d1 * (d2 - C)) * (1 / (A * C - B * B)) * (A * C - B * B) =
        (d1 - B) * d2 - d1 * (d2 - C) := by
      field_simp
    have hw : (d1 * (d2 - B) - (d1 - A) * d2) * (1 / (A * C - B * B)) * (A * C - B * B) =
        d1 * (d2 - B) - (d1 - A) * d2 := by
      field_simp
    generalize ((d1 - B) * d2 - d1 * (d2 - C)) * (1 / (A * C - B * B)) = v at hv ⊢
    generalize (d1 * (d2 - B) - (d1 - A) * d2) * (1 / (A * C - B * B)) = w at hw ⊢
    have hv0 : 0 ≤ v := nonneg_of_pos_mul hDpos (by linarith)
    have hw0 : 0 ≤ w := nonneg_of_pos_mul hDpos (by linarith)
    have hvw : v + w ≤ 1 := by
      have : 0 ≤ (A * C - B * B) * (1 - (v + w)) := by linarith
      linarith [nonneg_of_pos_mul hDpos this]
    have hg1 : d1 - v * A - w * B = 0 := by
      have h0 : (A * C - B * B) * (d1 - v * A - w * B) = 0 := by
        linear_combination (-A) * hv + (-B) * hw
      rcases mul_eq_zero.mp h0 with h | h
      · linarith
      · exact h
    have hg2 : d2 - v * B - w * C = 0 := by
      have h0 : (A * C - B * B) * (d2 - v * B - w * C) = 0 := by
        linear_combination (-B) * hv + (-C) * hw
      rcases mul_eq_zero.mp h0 with h | h
      · linarith
      · exact h
    rw [hg1, hg2]
    refine ⟨hv0, hw0, hvw, ?_, by norm_num, by norm_num, by norm_num⟩
    simp only [trianglePoint, rdVsub, Vec3.mk.injEq]
    refine ⟨by ring, by ring, by ring⟩

/-- C21: for every triangle `abc` that is not degenerate (the cross product of `b - a`
and `c - a` is not zero) and every point `p`, in exact arithmetic, the point that
`rdClosestPtPointTriangle` returns is `a + v * (b - a) + w * (c - a)` with `v ≥ 0`, `w ≥ 0`
and `v + w ≤ 1`, and no point of the triangle is nearer to `p`; this holds in the
vertex cases, the edge cases and the interior case of the function alike. -/
theorem closest_point_on_triangle (p a b c : Vec3)
    (hnd : rdVcross (rdVsub b a) (rdVsub c a) ≠ ⟨0, 0, 0⟩) :
    (∃ v w : ℚ, 0 ≤ v ∧ 0 ≤ w ∧ v + w ≤ 1 ∧
      rdClosestPtPointTriangle p a b c = trianglePoint a b c v w) ∧
    ∀ v2 w2 : ℚ, 0 ≤ v2 → 0 ≤ w2 → v2 + w2 ≤ 1 →
      rdVdistSqr p (rdClosestPtPointTriangle p a b c) ≤
        rdVdistSqr p (trianglePoint a b c v2 w2) := by
  obtain ⟨v, w, hv, hw, hvw, hq, h0, h1, h2⟩ := closest_branches p a b c hnd
  refine ⟨⟨v, w, hv, hw, hvw, hq⟩, fun v2 w2 hv2 hw2 hvw2 => ?_⟩
  rw [hq]
  exact closest_of_gradient p a b c v w h0 h1 h2 v2 w2 hv2 hw2 hvw2

/-- Witness of C21: for the triangle `(0, 0, 0), (4, 0, 0), (0, 4, 0)` the point
`(1, 1, 5)` above the interior gives `(1, 1, 0)`, which is not farther from it than
the middle of the edge `bc`; the point `(2, -3, 1)` gives `(2, 0, 0)` on the edge `ab`,
and the point `(-1, -1, 0)` gives the vertex `a`. -/
theorem closest_point_on_triangle_witness :
    rdClosestPtPointTriangle ⟨1, 1, 5⟩ ⟨0, 0, 0⟩ ⟨4, 0, 0⟩ ⟨0, 4, 0⟩ = ⟨1, 1, 0⟩ ∧
    rdClosestPtPointTriangle ⟨2, -3, 1⟩ ⟨0, 0, 0⟩ ⟨4, 0, 0⟩ ⟨0, 4, 0⟩ = ⟨2, 0, 0⟩ ∧
    rdClosestPtPointTriangle ⟨-1, -1, 0⟩ ⟨0, 0, 0⟩ ⟨4, 0, 0⟩ ⟨0, 4, 0⟩ = ⟨0, 0, 0⟩ ∧
    rdVdistSqr ⟨1, 1, 5⟩ (rdClosestPtPointTriangle ⟨1, 1, 5⟩ ⟨0, 0, 0⟩ ⟨4, 0, 0⟩ ⟨0, 4, 0⟩) ≤
      rdVdistSqr ⟨1, 1, 5⟩ (trianglePoint ⟨0, 0, 0⟩ ⟨4, 0, 0⟩ ⟨0, 4, 0⟩ (1 / 2) (1 / 2)) := by
  refine ⟨by decide!, by decide!, by decide!, ?_⟩
  exact (closest_point_on_triangle ⟨1, 1, 5⟩ ⟨0, 0, 0⟩ ⟨4, 0, 0⟩ ⟨0, 4, 0⟩ (by decide!)).2
    (1 / 2) (1 / 2) (by norm_num) (by norm_num) (by norm_num)

/-! ### Binary32 arithmetic -/

theorem isqrtAux_spec (n : Nat) :
    ∀ (b r : Nat), r * r ≤ n → n < (r + 2 ^ b) * (r + 2 ^ b) →
      isqrtAux n b r * isqrtAux n b r ≤ n ∧ n < (isqrtAux n b r + 1) * (isqrtAux n b r + 1) := by
  intro b
  induction b with
  | zero =>
    intro r h1 h2
    simpa [isqrtAux] using And.intro h1 h2
  | succ b ih =>
    intro r h1 h2
    unfold isqrtAux
    by_cases hc : (r + 2 ^ b) * (r + 2 ^ b) ≤ n
    · rw [if_pos hc]
      refine ih (r + 2 ^ b) hc ?_
      have e : r + 2 ^ b + 2 ^ b = r + 2 ^ (b + 1) := by rw [Nat.pow_succ]; omega
      rw [e]
      exact h2
    · rw [if_neg hc]
      exact ih r h1 (not_le.mp hc)

theorem bitLog2Aux_spec :
    ∀ (f n : Nat), n ≤ f → 0 < n →
      2 ^ bitLog2Aux f n ≤ n ∧ n < 2 ^ (bitLog2Aux f n + 1) := by
  intro f
  induction f with
  | zero => intro n h1 h2; omega
  | succ f ih =>
    intro n h1 h2
    unfold bitLog2Aux
    by_cases hc : 2 ≤ n
    · rw [if_pos hc]
      obtain ⟨h3, h4⟩ := ih (n / 2) (by omega) (by omega)
      rw [Nat.pow_succ, Nat.pow_succ]
      rw [Nat.pow_succ] at h4
      constructor <;> omega
    · rw [if_neg hc]
      have : n = 1 := by omega
      subst this
      decide

/-- The value of `bitLog2` is the position of the highest set bit. -/
theorem bitLog2_spec (n : Nat) (h : 0 < n) :
    2 ^ bitLog2 n ≤ n ∧ n < 2 ^ (bitLog2 n + 1) :=
  bitLog2Aux_spec n n (Nat.le_refl n) h

/-- The value of `isqrt` is the integer square root. -/
theorem isqrt_spec (n : Nat) : isqrt n * isqrt n ≤ n ∧ n < (isqrt n + 1) * (isqrt n + 1) := by
  unfold isqrt
  refine isqrtAux_spec n _ 0 (Nat.zero_le _) ?_
  rw [Nat.zero_add, ← Nat.pow_add]
  rcases Nat.eq_zero_or_pos n with h0 | h0
  · subst h0
    exact Nat.pow_pos (by norm_num)
  · refine lt_of_lt_of_le (bitLog2_spec n h0).2 (Nat.pow_le_pow_right (by norm_num) ?_)
    omega

theorem pow2_eq_zpow (z : Int) : pow2 z = (2 : ℚ) ^ z := by
  unfold pow2
  split_ifs with h
  · obtain ⟨n, rfl⟩ := Int.eq_ofNat_of_zero_le h
    simp
  · obtain ⟨n, rfl⟩ := Int.exists_eq_neg_ofNat (le_of_lt (not_le.mp h))
    simp

theorem pow2_pos (z : Int) : 0 < pow2 z := by
  rw [pow2_eq_zpow]
  positivity

/-- The value of `floorLog2` is the binary exponent of a positive rational. -/
theorem floorLog2_spec (q : ℚ) (hq : 0 < q) :
    pow2 (floorLog2 q) ≤ q ∧ q < pow2 (floorLog2 q + 1) := by
  have hnum : 0 < q.num := Rat.num_pos.mpr hq
  have hn0 : 0 < q.num.natAbs := Int.natAbs_pos.mpr (ne_of_gt hnum)
  obtain ⟨a1, a2⟩ := bitLog2_spec q.num.natAbs hn0
  obtain ⟨b1, b2⟩ := bitLog2_spec q.den q.den_pos
  have hqe : q = (q.num.natAbs : ℚ) / (q.den : ℚ) := by
    have h1 : (q.num.natAbs : ℚ) = (q.num : ℚ) := by
      rw [Nat.cast_natAbs, abs_of_pos hnum]
    rw [h1, Rat.num_div_den]
  have hd : (0 : ℚ) < q.den := by exact_mod_cast q.den_pos
  have A1 : (2 : ℚ) ^ bitLog2 q.num.natAbs ≤ (q.num.natAbs : ℚ) := by exact_mod_cast a1
  have A2 : (q.num.natAbs : ℚ) < (2 : ℚ) ^ (bitLog2 q.num.natAbs + 1) := by exact_mod_cast a2
  have B1 : (2 : ℚ) ^ bitLog2 q.den ≤ (q.den : ℚ) := by exact_mod_cast b1
  have B2 : (q.den : ℚ) < (2 : ℚ) ^ (bitLog2 q.den + 1) := by exact_mod_cast b2
  have hz : ∀ k : Int, pow2 ((bitLog2 q.num.natAbs : Int) - (bitLog2 q.den : Int) + k)
      = (2 : ℚ) ^ bitLog2 q.num.natAbs / (2 : ℚ) ^ bitLog2 q.den * (2 : ℚ) ^ k := by
    intro k
    rw [pow2_eq_zpow, zpow_add₀ (by norm_num), zpow_sub₀ (by norm_num), zpow_natCast,
      zpow_natCast]
  have hz0 := hz 0
  have hz1 := hz 1
  have hzm := hz (-1)
  simp only [add_zero, zpow_zero, mul_one] at hz0
  simp only [zpow_one] at hz1
  have hzm2 : (2 : ℚ) ^ (-1 : Int) = 1 / 2 := by norm_num
  rw [hzm2] at hzm
  have hA : (0 : ℚ) < (2 : ℚ) ^ bitLog2 q.num.natAbs := by positivity
  have hB : (0 : ℚ) < (2 : ℚ) ^ bitLog2 q.den := by positivity
  rw [pow_succ] at A2 B2
  generalize (2 : ℚ) ^ bitLog2 q.num.natAbs = A at *
  generalize (2 : ℚ) ^ bitLog2 q.den = B at *
  generalize (q.num.natAbs : ℚ) = n at *
  generalize (q.den : ℚ) = d at *
  unfold floorLog2
  simp only
  split_ifs with h
  · refine ⟨h, ?_⟩
    rw [hz1, hqe, div_mul_eq_mul_div, div_lt_div_iff₀ hd hB]
    nlinarith
  · have e : (bitLog2 q.num.natAbs : Int) - (bitLog2 q.den : Int) - 1 + 1
        = (bitLog2 q.num.natAbs : Int) - (bitLog2 q.den : Int) := by ring
    rw [e]
    refine ⟨?_, not_le.mp h⟩
    rw [sub_eq_add_neg, hzm, hqe, div_mul_eq_mul_div, div_le_div_iff₀ hB hd]
    nlinarith

/-- The value of `roundEven` is a nearest integer. -/
theorem roundEven_spec (q : ℚ) :
    |q - (roundEven q : ℚ)| ≤ 1 / 2 := by
  have h1 : ((Rat.floor q : Int) : ℚ) ≤ q := Int.floor_le q
  have h2 : q < ((Rat.floor q : Int) : ℚ) + 1 := Int.lt_floor_add_one q
  unfold roundEven
  simp only
  rw [abs_le]
  split_ifs with h3 h4 h5 <;> push_cast <;> constructor <;> linarith

theorem pow2_mono (x y : Int) (h : x ≤ y) : pow2 x ≤ pow2 y := by
  rw [pow2_eq_zpow, pow2_eq_zpow]
  exact zpow_le_zpow_right₀ (by norm_num) h

theorem pow2_add_24 (e : Int) : pow2 (e + 1) = 2 ^ 24 * pow2 (e - 23) := by
  rw [pow2_eq_zpow, pow2_eq_zpow]
  have h : e + 1 = (24 : Int) + (e - 23) := by ring
  rw [h, zpow_add₀ (by norm_num)]
  norm_num

/-- The value of `f32` is a binary32 number nearest to its argument: it is `m * 2 ^ (e - 23)`
for an exponent `e ≥ -126` and an integer `m` of at most 24 bits, where `e` is the
binary exponent of the argument or `-126` for an argument below `2 ^ (-126)`, and it
differs from the argument by at most half of the spacing `2 ^ (e - 23)`. -/
theorem f32_spec (q : ℚ) :
    ∃ (m e : Int), -126 ≤ e ∧ |m| ≤ 2 ^ 24 ∧ f32 q = (m : ℚ) * pow2 (e - 23) ∧
      |f32 q - q| ≤ pow2 (e - 23) / 2 ∧
      (q ≠ 0 → |q| < pow2 (e + 1) ∧ (pow2 e ≤ |q| ∨ e = -126)) := by
  by_cases hq : q = 0
  · subst hq
    refine ⟨0, -126, le_refl _, by norm_num, by simp [f32], ?_, fun h => absurd rfl h⟩
    have h := pow2_pos (-126 - 23)
    simp only [f32, if_true, sub_zero, abs_zero]
    exact le_of_lt (half_pos h)
  · have key : ∀ a : ℚ, 0 < a →
        ∃ (m e : Int), e = max (floorLog2 a) (-126) ∧ m = roundEven (a / pow2 (e - 23)) ∧
          0 ≤ m ∧ m ≤ 2 ^ 24 ∧ |(m : ℚ) * pow2 (e - 23) - a| ≤ pow2 (e - 23) / 2 ∧
          a < pow2 (e + 1) ∧ (pow2 e ≤ a ∨ e = -126) := by
      intro a ha
      obtain ⟨f1, f2⟩ := floorLog2_spec a ha
      refine ⟨_, _, rfl, rfl, ?_⟩
      generalize he : max (floorLog2 a) (-126) = e
      have he1 : floorLog2 a ≤ e := by rw [← he]; exact le_max_left _ _
      have he2 : (-126 : Int) ≤ e := by rw [← he]; exact le_max_right _ _
      have hu := pow2_pos (e - 23)
      have hlt : a < pow2 (e + 1) := lt_of_lt_of_le f2 (pow2_mono _ _ (by omega))
      have hr := roundEven_spec (a / pow2 (e - 23))
      rw [abs_le] at hr
      obtain ⟨r1, r2⟩ := hr
      have hdiv : a / pow2 (e - 23) < 2 ^ 24 := by
        rw [div_lt_iff₀ hu, ← pow2_add_24]
        exact hlt
      have hdiv0 : 0 < a / pow2 (e - 23) := div_pos ha hu
      have hm0 : (0 : Int) ≤ roundEven (a / pow2 (e - 23)) := by
        have : (-1 : ℚ) < (roundEven (a / pow2 (e - 23)) : ℚ) := by linarith
        have h2 : (-1 : Int) < roundEven (a / pow2 (e - 23)) := by exact_mod_cast this
        omega
      have hm1 : roundEven (a / pow2 (e - 23)) ≤ (2 : Int) ^ 24 := by
        have : (roundEven (a / pow2 (e - 23)) : ℚ) < 2 ^ 24 + 1 := by linarith
        have h2 : roundEven (a / pow2 (e - 23)) < (2 : Int) ^ 24 + 1 := by exact_mod_cast this
        omega
      refine ⟨hm0, hm1, ?_, hlt, ?_⟩
      · have e1 : (roundEven (a / pow2 (e - 23)) : ℚ) * pow2 (e - 23) - a
            = -((a / pow2 (e - 23) - (roundEven (a / pow2 (e - 23)) : ℚ)) * pow2 (e - 23)) := by
          field_simp
          ring
        rw [e1, abs_neg, abs_mul, abs_of_pos hu]
        have h3 : |a / pow2 (e - 23) - (roundEven (a / pow2 (e - 23)) : ℚ)| ≤ 1 / 2 :=
          abs_le.mpr ⟨r1, r2⟩
        calc |a / pow2 (e - 23) - (roundEven (a / pow2 (e - 23)) : ℚ)| * pow2 (e - 23)
            ≤ 1 / 2 * pow2 (e - 23) := mul_le_mul_of_nonneg_right h3 (le_of_lt hu)
          _ = pow2 (e - 23) / 2 := by ring
      · rcases le_or_lt (-126 : Int) (floorLog2 a) with h | h
        · left
          have : e = floorLog2 a := by rw [← he]; exact max_eq_left h
          rw [this]; exact f1
        · right
          rw [← he]; exact max_eq_right (le_of_lt h)
    rcases lt_or_gt_of_ne hq with hneg | hpos
    · obtain ⟨m, e, he, hm, m0, m1, hclose, hlt, hge⟩ := key (-q) (by linarith)
      have hf : f32 q = -((m : ℚ) * pow2 (e - 23)) := by
        simp only [f32, if_neg hq, if_pos hneg]
        rw [← he, ← hm]
      refine ⟨-m, e, by rw [he]; exact le_max_right _ _, ?_, ?_, ?_, fun _ => ?_⟩
      · rw [abs_neg, abs_of_nonneg m0]; exact m1
      · rw [hf]; push_cast; ring
      · rw [hf]
        have e1 : -((m : ℚ) * pow2 (e - 23)) - q = -((m : ℚ) * pow2 (e - 23) - -q) := by ring
        rw [e1, abs_neg]
        exact hclose
      · rw [abs_of_neg hneg]
        exact ⟨hlt, hge⟩
    · obtain ⟨m, e, he, hm, m0, m1, hclose, hlt, hge⟩ := key q hpos
      have hf : f32 q = (m : ℚ) * pow2 (e - 23) := by
        simp only [f32, if_neg hq, if_neg (not_lt.mpr (le_of_lt hpos))]
        rw [← he, ← hm]
      refine ⟨m, e, by rw [he]; exact le_max_right _ _, ?_, hf, ?_, fun _ => ?_⟩
      · rw [abs_of_nonneg m0]; exact m1
      · rw [hf]; exact hclose
      · rw [abs_of_pos hpos]
        exact ⟨hlt, hge⟩

theorem pow2_mul_self (e : Int) : pow2 e * pow2 e = pow2 (2 * e) := by
  rw [pow2_eq_zpow, pow2_eq_zpow, ← zpow_add₀ (by norm_num)]
  congr 1
  ring

/-- The value of `f32sqrt` is a binary32 number nearest to the square root of its
argument `q > 0`: it is `m * ulp` with `ulp = 2 ^ (e - 23)`, where `e ≥ -126` is the
binary exponent of the root (or `-126` for a smaller root), and the root lies between
the two mid-points `(m - 1 / 2) * ulp` and `(m + 1 / 2) * ulp`, which is stated for
the squares. -/
theorem f32sqrt_spec (q : ℚ) (hq : 0 < q) :
    ∃ (m : Nat) (e : Int), -126 ≤ e ∧ f32sqrt q = (m : ℚ) * pow2 (e - 23) ∧
      (pow2 e * pow2 e ≤ q ∨ e = -126) ∧ q < pow2 (e + 1) * pow2 (e + 1) ∧
      4 * q ≤ ((2 * (m : ℚ) + 1) * pow2 (e - 23)) ^ 2 ∧
      (m = 0 ∨ ((2 * (m : ℚ) - 1) * pow2 (e - 23)) ^ 2 ≤ 4 * q) := by
  obtain ⟨f1, f2⟩ := floorLog2_spec q hq
  have hfl1 : ((Rat.floor ((floorLog2 q : ℚ) / 2) : Int) : ℚ) ≤ (floorLog2 q : ℚ) / 2 :=
    Int.floor_le _
  have hfl2 : (floorLog2 q : ℚ) / 2 < ((Rat.floor ((floorLog2 q : ℚ) / 2) : Int) : ℚ) + 1 :=
    Int.lt_floor_add_one _
  generalize he0 : Rat.floor ((floorLog2 q : ℚ) / 2) = e0 at hfl1 hfl2
  have g1 : 2 * e0 ≤ floorLog2 q := by
    have : (2 * e0 : ℚ) ≤ (floorLog2 q : ℚ) := by linarith
    exact_mod_cast this
  have g2 : floorLog2 q < 2 * e0 + 2 := by
    have : (floorLog2 q : ℚ) < (2 * e0 + 2 : ℚ) := by linarith
    exact_mod_cast this
  generalize he : max e0 (-126) = e
  have he1 : e0 ≤ e := by rw [← he]; exact le_max_left _ _
  have he2 : (-126 : Int) ≤ e := by rw [← he]; exact le_max_right _ _
  have hu := pow2_pos (e - 23)
  have hx : 0 < q / (pow2 (e - 23) * pow2 (e - 23)) := div_pos hq (mul_pos hu hu)
  generalize hxdef : q / (pow2 (e - 23) * pow2 (e - 23)) = x at hx
  have hq4 : 4 * q = 4 * x * (pow2 (e - 23)) ^ 2 := by
    rw [← hxdef]
    field_simp
    ring
  have hF1 : ((Rat.floor (4 * x) : Int) : ℚ) ≤ 4 * x := Int.floor_le _
  have hF2 : 4 * x < ((Rat.floor (4 * x) : Int) : ℚ) + 1 := Int.lt_floor_add_one _
  have hF0 : (0 : Int) ≤ Rat.floor (4 * x) := by
    have : (-1 : ℚ) < ((Rat.floor (4 * x) : Int) : ℚ) := by linarith
    have h2 : (-1 : Int) < Rat.floor (4 * x) := by exact_mod_cast this
    omega
  obtain ⟨N, hN⟩ := Int.eq_ofNat_of_zero_le hF0
  have hNat : (Rat.floor (4 * x)).toNat = N := by rw [hN]; rfl
  obtain ⟨s1, s2⟩ := isqrt_spec N
  rw [hN] at hF1 hF2
  have S1 : ((isqrt N : ℚ)) * (isqrt N : ℚ) ≤ 4 * x := by
    have : ((isqrt N * isqrt N : Nat) : ℚ) ≤ (N : ℚ) := by exact_mod_cast s1
    push_cast at this hF1
    linarith
  have S2 : 4 * x < ((isqrt N : ℚ) + 1) * ((isqrt N : ℚ) + 1) := by
    have h3 : N + 1 ≤ (isqrt N + 1) * (isqrt N + 1) := s2
    have : ((N + 1 : Nat) : ℚ) ≤ (((isqrt N + 1) * (isqrt N + 1) : Nat) : ℚ) := by
      exact_mod_cast h3
    push_cast at this hF2
    linarith
  have hval : f32sqrt q = ((if isqrt N % 2 = 0 then isqrt N / 2
      else if ((isqrt N * isqrt N : Nat) : ℚ) = 4 * x then
        (if (isqrt N / 2) % 2 = 0 then isqrt N / 2 else isqrt N / 2 + 1)
      else isqrt N / 2 + 1 : Nat) : ℚ) * pow2 (e - 23) := by
    unfold f32sqrt
    rw [if_neg (not_le.mpr hq)]
    simp only
    rw [he0, he, hxdef, hNat]
  generalize hk : isqrt N = k at *
  have hgrid : ∀ m : Nat, (4 * x ≤ (2 * (m : ℚ) + 1) ^ 2) →
      (m = 0 ∨ (2 * (m : ℚ) - 1) ^ 2 ≤ 4 * x) →
      (4 * q ≤ ((2 * (m : ℚ) + 1) * pow2 (e - 23)) ^ 2 ∧
        (m = 0 ∨ ((2 * (m : ℚ) - 1) * pow2 (e - 23)) ^ 2 ≤ 4 * q)) := by
    intro m h1 h2
    have hu2 : 0 ≤ (pow2 (e - 23)) ^ 2 := sq_nonneg _
    refine ⟨?_, ?_⟩
    · rw [hq4, mul_pow]
      exact mul_le_mul_of_nonneg_right h1 hu2
    · rcases h2 with h2 | h2
      · exact Or.inl h2
      · right
        rw [hq4, mul_pow]
        exact mul_le_mul_of_nonneg_right h2 hu2
  have hexp : (pow2 e * pow2 e ≤ q ∨ e = -126) ∧ q < pow2 (e + 1) * pow2 (e + 1) := by
    rw [pow2_mul_self, pow2_mul_self]
    refine ⟨?_, lt_of_lt_of_le f2 (pow2_mono _ _ (by omega))⟩
    rcases le_or_lt (-126 : Int) e0 with h | h
    · left
      have : e = e0 := by rw [← he]; exact max_eq_left h
      rw [this]
      exact le_trans (pow2_mono _ _ g1) f1
    · right
      rw [← he]; exact max_eq_right (le_of_lt h)
  by_cases hev : k % 2 = 0
  · rw [if_pos hev] at hval
    obtain ⟨m, hm⟩ : ∃ m, k = 2 * m := ⟨k / 2, by omega⟩
    have hdiv : k / 2 = m := by omega
    rw [hdiv] at hval
    have hkq : (k : ℚ) = 2 * (m : ℚ) := by rw [hm]; push_cast; ring
    rw [hkq] at S1 S2
    refine ⟨m, e, he2, hval, hexp.1, hexp.2, hgrid m ?_ ?_⟩
    · have e1 : (2 * (m : ℚ) + 1) ^ 2 = (2 * (m : ℚ) + 1) * (2 * (m : ℚ) + 1) := by ring
      rw [e1]
      exact le_of_lt S2
    · rcases Nat.eq_zero_or_pos m with h0 | h0
      · exact Or.inl h0
      · right
        have h1 : (1 : ℚ) ≤ (m : ℚ) := by exact_mod_cast h0
        have e1 : (2 * (m : ℚ) - 1) ^ 2 = 2 * (m : ℚ) * (2 * (m : ℚ)) - (4 * (m : ℚ) - 1) := by
          ring
        rw [e1]
        linarith
  · rw [if_neg hev] at hval
    obtain ⟨m, hm⟩ : ∃ m, k = 2 * m + 1 := ⟨k / 2, by omega⟩
    have hdiv : k / 2 = m := by omega
    rw [hdiv] at hval
    have hkq : (k : ℚ) = 2 * (m : ℚ) + 1 := by rw [hm]; push_cast; ring
    rw [hkq] at S1 S2
    have hm0 : (0 : ℚ) ≤ (m : ℚ) := Nat.cast_nonneg m
    have u1 : (2 * ((m + 1 : Nat) : ℚ) + 1) ^ 2 =
        (2 * (m : ℚ) + 1 + 1) * (2 * (m : ℚ) + 1 + 1) + (4 * (m : ℚ) + 5) := by
      push_cast; ring
    have u2 : (2 * ((m + 1 : Nat) : ℚ) - 1) ^ 2 = (2 * (m : ℚ) + 1) * (2 * (m : ℚ) + 1) := by
      push_cast; ring
    have u3 : (2 * (m : ℚ) + 1) ^ 2 = (2 * (m : ℚ) + 1) * (2 * (m : ℚ) + 1) := by ring
    have u4 : (2 * (m : ℚ) - 1) ^ 2 = (2 * (m : ℚ) + 1) * (2 * (m : ℚ) + 1) - 8 * (m : ℚ) := by
      ring
    by_cases htie : ((k * k : Nat) : ℚ) = 4 * x
    · rw [if_pos htie] at hval
      have htie2 : 4 * x = (2 * (m : ℚ) + 1) * (2 * (m : ℚ) + 1) := by
        rw [← htie]; push_cast; rw [hkq]
      by_cases hme : m % 2 = 0
      · rw [if_pos hme] at hval
        refine ⟨m, e, he2, hval, hexp.1, hexp.2, hgrid m ?_ ?_⟩
        · rw [u3]; linarith
        · right
          rw [u4]; linarith
      · rw [if_neg hme] at hval
        refine ⟨m + 1, e, he2, hval, hexp.1, hexp.2, hgrid (m + 1) ?_ ?_⟩
        · rw [u1]; linarith
        · right
          rw [u2]; exact S1
    · rw [if_neg htie] at hval
      refine ⟨m + 1, e, he2, hval, hexp.1, hexp.2, hgrid (m + 1) ?_ ?_⟩
      · rw [u1]; linarith
      · right
        rw [u2]; exact S1

/-- The rounding `f32` on some decimal literals of the examples, on numbers that are
`float`s already, on the two neighbours of an odd 25-bit integer, and on the
mid-point of two subnormal numbers. -/
theorem f32_examples :
    f32 (1 / 10) = 13421773 / 134217728 ∧ f32 (9 / 10) = 7549747 / 8388608 ∧
    f32 (15 / 100) = 5033165 / 33554432 ∧ f32 (55 / 10000) = 1476395 / 268435456 ∧
    f32 1 = 1 ∧ f32 (-3 / 4) = -3 / 4 ∧ f32 65536 = 65536 ∧
    f32 (13421773 / 134217728) = 13421773 / 134217728 ∧
    f32 16777217 = 16777216 ∧ f32 16777219 = 16777220 ∧
    f32 (3 * pow2 (-150)) = pow2 (-148) ∧ f32 (pow2 (-150)) = 0 := by
  decide!

/-- The square root `f32sqrt` on squares and on numbers whose root is rounded. -/
theorem f32sqrt_examples :
    f32sqrt 4 = 2 ∧ f32sqrt (1 / 4) = 1 / 2 ∧ f32sqrt 16777216 = 4096 ∧
    f32sqrt 2 = 11863283 / 8388608 ∧
    f32sqrt (1476395 / 268435456) = 9953853 / 134217728 := by
  decide!

theorem rdClassifyPointInsideBounds_rounded_id (env : Env) (pt bmin bmax : Vec3) :
    rdClassifyPointInsideBounds.rounded id env pt bmin bmax =
      rdClassifyPointInsideBounds env pt bmin bmax := rfl

theorem rdTriArea2D_rounded_id (a b c : Vec3) :
    rdTriArea2D.rounded id a b c = rdTriArea2D a b c := rfl

theorem calcAreas_rounded_id (pts : Nat → Vec3) :
    ∀ (is : List Nat) (r : (Nat → ℚ) × ℚ),
      rdRandomPointInConvexPoly.calcAreas.rounded id pts is r =
        rdRandomPointInConvexPoly.calcAreas pts is r := by
  intro is
  induction is with
  | nil => intro r; rfl
  | cons i is ih =>
    intro r
    obtain ⟨areas, areasum⟩ := r
    exact ih _

theorem pickStep_rounded_id (areas : Nat → ℚ) (thr : ℚ) :
    rdRandomPointInConvexPoly.pickStep.rounded id areas thr =
      rdRandomPointInConvexPoly.pickStep areas thr := rfl

theorem pick_rounded_id (pts : Nat → Vec3) (npts : Nat) (areas : Nat → ℚ) (s : ℚ) :
    rdRandomPointInConvexPoly.pick.rounded id pts npts areas s =
      rdRandomPointInConvexPoly.pick pts npts areas s := by
  unfold rdRandomPointInConvexPoly.pick.rounded rdRandomPointInConvexPoly.pick
  rw [calcAreas_rounded_id]
  rfl

/-- With the identity for the rounding, `rdRandomPointInConvexPoly.rounded` is
`rdRandomPointInConvexPoly`. -/
theorem rdRandomPointInConvexPoly_rounded_id (env : Env) (pts : Nat → Vec3) (npts : Nat)
    (areas : Nat → ℚ) (s t : ℚ) :
    rdRandomPointInConvexPoly.rounded id env pts npts areas s t =
      rdRandomPointInConvexPoly env pts npts areas s t := by
  unfold rdRandomPointInConvexPoly.rounded rdRandomPointInConvexPoly
  rw [calcAreas_rounded_id, pick_rounded_id]
  rfl

/-- With the identity for the rounding, the rounded tile functions are
`getTileExtents` and `getTilePos`. -/
theorem tile_functions_rounded_id (e : Editor_TileMesh) (pos : Vec3) (tx ty : Int) :
    Editor_TileMesh.getTileExtents.rounded id e tx ty = e.getTileExtents tx ty ∧
    Editor_TileMesh.getTilePos.rounded id e pos tx ty = e.getTilePos pos tx ty := by
  refine ⟨rfl, ?_⟩
  unfold Editor_TileMesh.getTilePos.rounded Editor_TileMesh.getTilePos
  cases e.m_geom <;> rfl

/-! ### The float functions in binary32 -/

/-- The claim C17 fails in binary32: in the box `[-65536, 65536] x [-65536, 65536]`,
whose centre is the origin, the points `(6602, 11435)` and `(19806, 34305)`, the
second three times the first and so in the same direction from the centre, get the
side codes 2 and 3. All coordinates are `float`s, and each operation of
`rdClassifyPointInsideBounds` rounds to binary32. -/
theorem classify_inside_binary32_counterexample :
    (19806 : ℚ) = 3 * 6602 ∧ (34305 : ℚ) = 3 * 11435 ∧
    f32 6602 = 6602 ∧ f32 11435 = 11435 ∧ f32 19806 = 19806 ∧ f32 34305 = 34305 ∧
    f32 65536 = 65536 ∧
    rdClassifyPointInsideBounds.rounded f32 exampleEnv32 ⟨6602, 11435, 0⟩
      ⟨-65536, -65536, 0⟩ ⟨65536, 65536, 0⟩ = 2 ∧
    rdClassifyPointInsideBounds.rounded f32 exampleEnv32 ⟨19806, 34305, 0⟩
      ⟨-65536, -65536, 0⟩ ⟨65536, 65536, 0⟩ = 3 := by
  decide!

/-- The claim C22 fails in binary32: for the triangle `(0.1f, 0)`, `(1, 0.5)`,
`(0.1f, 1)` with `s = 0` and `t = 0.0055f`, the weights that
`rdRandomPointInConvexPoly` computes sum to `1 - 3 / 2 ^ 27`, and the `x` coordinate
of the output is `3355443 / 2 ^ 25`, below `0.1f = 13421773 / 2 ^ 27`, the least `x`
coordinate of the triangle: the output is no convex combination of the three
vertices. Each operation rounds to binary32. -/
theorem random_point_binary32_counterexample :
    (∀ i, f32 (sliverTriangle i).x = (sliverTriangle i).x ∧
      f32 (sliverTriangle i).y = (sliverTriangle i).y ∧ (sliverTriangle i).z = 0) ∧
    (rdRandomPointInConvexPoly.pick.rounded f32 sliverTriangle 3 (fun _ => 0) 0).2 = 2 ∧
    (rdRandomPointInConvexPoly.weights.rounded f32 exampleEnv32 sliverTriangle 3 (fun _ => 0) 0
      (f32 (55 / 10000))).1 +
    (rdRandomPointInConvexPoly.weights.rounded f32 exampleEnv32 sliverTriangle 3 (fun _ => 0) 0
      (f32 (55 / 10000))).2.1 +
    (rdRandomPointInConvexPoly.weights.rounded f32 exampleEnv32 sliverTriangle 3 (fun _ => 0) 0
      (f32 (55 / 10000))).2.2 = 1 - 3 / 2 ^ 27 ∧
    (rdRandomPointInConvexPoly.rounded f32 exampleEnv32 sliverTriangle 3 (fun _ => 0) 0
      (f32 (55 / 10000))).2.x = 3355443 / 2 ^ 25 ∧
    ¬ ∃ a b c : ℚ, 0 ≤ a ∧ 0 ≤ b ∧ 0 ≤ c ∧ a + b + c = 1 ∧
      (rdRandomPointInConvexPoly.rounded f32 exampleEnv32 sliverTriangle 3 (fun _ => 0) 0
        (f32 (55 / 10000))).2.x =
      a * (sliverTriangle 0).x + b * (sliverTriangle 2).x + c * (sliverTriangle 1).x := by
  have hx : (rdRandomPointInConvexPoly.rounded f32 exampleEnv32 sliverTriangle 3 (fun _ => 0) 0
      (f32 (55 / 10000))).2.x = 3355443 / 2 ^ 25 := by decide!
  have h0 : (sliverTriangle 0).x = 13421773 / 134217728 := by decide!
  have h1 : (sliverTriangle 1).x = 1 := by decide!
  have h2 : (sliverTriangle 2).x = 13421773 / 134217728 := by decide!
  refine ⟨fun i => ?_, by decide!, by decide!, hx, ?_⟩
  · unfold sliverTriangle
    split_ifs <;> decide!
  · rintro ⟨a, b, c, ha, hb, hc, hsum, h⟩
    rw [hx, h0, h1, h2] at h
    have ha1 : a = 1 - b - c := by linarith
    rw [ha1] at h
    norm_num at h
    linarith

end NavSpec
